import Mathlib

/-!
ID card generator (`backend/utils/idCardGenerator.js`).

A shallow embedding of the card rendering pipeline: JavaScript strings are
sequences of UTF-16 code units, optional record fields carry the values
`undefined`, `null` or a string, and the calls made on the PDF document, the
QR encoder and the file system are recorded as a trace of events.
-/

namespace IdCard

/-! ## JavaScript strings and optional fields -/

/-- A JavaScript string value: its sequence of UTF-16 code units. -/
abbrev JSString := List UInt16

/-- The UTF-16 code units of one Unicode scalar value. -/
def utf16 (c : Char) : List UInt16 :=
  if c.toNat < 0x10000 then [c.toNat.toUInt16]
  else [(0xD800 + (c.toNat - 0x10000) / 0x400).toUInt16,
        (0xDC00 + (c.toNat - 0x10000) % 0x400).toUInt16]

/-- The JavaScript string denoted by a source literal. -/
def lit (s : String) : JSString := s.toList.flatMap utf16

/-- The code unit of the line feed character `'\n'`. -/
def newline : UInt16 := 10

/-- Source `s.split('')`: one single-unit string per code unit. -/
def splitEmpty (s : JSString) : List JSString := s.map fun u => [u]

/-- Source `parts.join(sep)`. -/
def join (sep : JSString) : List JSString → JSString
  | [] => []
  | [p] => p
  | p :: q :: rest => p ++ sep ++ join sep (q :: rest)

/-- A string-typed property of the player object as the generator may
find it: missing (`undefined`), `null`, or a string. -/
inductive Field where
  | undefined
  | null
  | str (s : JSString)
deriving DecidableEq, Repr

/-- JavaScript truthiness of a field: only a non-empty string is truthy. -/
def Field.truthy : Field → Bool
  | .str s => !s.isEmpty
  | _ => false

/-- Source `field || dflt` where `dflt` is a string. -/
def Field.orElse (f : Field) (dflt : JSString) : JSString :=
  match f with
  | .str s => if s.isEmpty then dflt else s
  | _ => dflt

/-- String conversion as applied by template literals and by `+`. -/
def Field.toJSString : Field → JSString
  | .undefined => lit "undefined"
  | .null => lit "null"
  | .str s => s

/-- The `dateOfBirth` property: missing, `null`, a string (as in the demo
record) or a `Date` object, given by its time value (`none` for an invalid
date). -/
inductive DateField where
  | undefined
  | null
  | str (s : JSString)
  | date (ms : Option Int)
deriving DecidableEq, Repr

/-- JavaScript truthiness of the date property: every object is truthy. -/
def DateField.truthy : DateField → Bool
  | .str s => !s.isEmpty
  | .date _ => true
  | _ => false

/-- The `address` sub-record. -/
structure Address where
  street : Field := .undefined
  city : Field := .undefined
  state : Field := .undefined
  postalCode : Field := .undefined
deriving DecidableEq, Repr

/-- The `emergencyContact` sub-record. -/
structure EmergencyContact where
  name : Field := .undefined
  phone : Field := .undefined
deriving DecidableEq, Repr

/-- The properties of the player object that the generator reads. A
sub-record that is `undefined` or `null` is `none`. -/
structure Player where
  playerId : Field := .undefined
  firstName : Field := .undefined
  lastName : Field := .undefined
  dateOfBirth : DateField := .undefined
  gender : Field := .undefined
  passportNumber : Field := .undefined
  primarySport : Field := .undefined
  address : Option Address := none
  profilePhoto : Field := .undefined
  coachName : Field := .undefined
  coachContact : Field := .undefined
  emergencyContact : Option EmergencyContact := none
deriving DecidableEq, Repr

/-- Source `player.address?.street` and its siblings: optional chaining through the
sub-record. -/
def Player.addr (p : Player) (sel : Address → Field) : Field :=
  match p.address with
  | some a => sel a
  | none => .undefined

/-- Source `player.emergencyContact?.name` and `?.phone`. -/
def Player.emergency (p : Player) (sel : EmergencyContact → Field) : Field :=
  match p.emergencyContact with
  | some e => sel e
  | none => .undefined

/-! ## Player-ID banner (lines 200-206 and 341-347) -/

/-- Source `playerIdText = player.playerId || 'PS000000'`. -/
def playerIdText (p : Player) : JSString := p.playerId.orElse (lit "PS000000")

/-- Source `spacedPlayerId = playerIdText.split('').join(' ')`. -/
def spacedPlayerId (p : Player) : JSString := join (lit " ") (splitEmpty (playerIdText p))

/-! ## Dates and the QR payload (lines 297-310, 376-381) -/

/-- Source `formatDate`: the empty string for a falsy argument, otherwise
`new Date(x).toLocaleDateString('en-GB')`, which the platform supplies and is
taken here as the parameter `toLocale`. -/
def formatDate (toLocale : DateField → JSString) (d : DateField) : JSString :=
  if d.truthy then toLocale d else []

/-- Source `player.dateOfBirth ? formatDate(player.dateOfBirth) : ''`. -/
def dobText (toLocale : DateField → JSString) (p : Player) : JSString :=
  if p.dateOfBirth.truthy then formatDate toLocale p.dateOfBirth else []

/-- The ten template-literal segments of `qrText`, before `.join('\n')`. -/
def qrSegments (toLocale : DateField → JSString) (p : Player) : List JSString :=
  [ lit "Player ID: " ++ p.playerId.orElse [],
    lit "Name: " ++ p.firstName.orElse [] ++ lit " " ++ p.lastName.orElse [],
    lit "DOB: " ++ dobText toLocale p,
    lit "Gender: " ++ p.gender.orElse [],
    lit "Passport: " ++ p.passportNumber.orElse [],
    lit "Primary Sport: " ++ p.primarySport.orElse [],
    lit "Address: " ++ (p.addr (·.street)).orElse [] ++ lit ", " ++ (p.addr (·.city)).orElse []
      ++ lit ", " ++ (p.addr (·.state)).orElse [] ++ lit ", " ++ (p.addr (·.postalCode)).orElse [],
    lit "Coach: " ++ p.coachName.orElse [],
    lit "Coach Contact: " ++ p.coachContact.orElse [],
    lit "Emergency: " ++ (p.emergency (·.name)).orElse [] ++ lit " ("
      ++ (p.emergency (·.phone)).orElse [] ++ lit ")" ]

/-- The full QR payload `qrText` built in `drawBackSide`. -/
def qrText (toLocale : DateField → JSString) (p : Player) : JSString :=
  join [newline] (qrSegments toLocale p)

/-- The fallback payload of the `catch` branch. -/
def qrFallbackText (p : Player) : JSString := lit "Player ID: " ++ p.playerId.toJSString

/-- The record of the demo run at the end of the source file. -/
def demoPlayer : Player :=
  { playerId := .str (lit "PS20250001"), firstName := .str (lit "BHAVANABEN"),
    lastName := .str (lit "CHAUDHARY"), dateOfBirth := .str (lit "01/06/1998"),
    gender := .str (lit "FEMALE"),
    address := some { city := .str (lit "SURAT"), state := .str (lit "GUJARAT") },
    passportNumber := .str (lit "S0738958"),
    primarySport := .str (lit "JAVELIN, LONG JUMP/T-46"),
    coachName := .str (lit "VISHESH SHARMA"),
    emergencyContact := some { phone := .str (lit "9982200192") } }

/-! ## POSIX paths (`path.join`, `path.isAbsolute`) -/

/-- The code unit of `'/'`. -/
def slash : UInt16 := 47

/-- Split a string at every occurrence of the code unit `sep`. -/
def splitOn (sep : UInt16) : JSString → List JSString
  | [] => [[]]
  | u :: rest =>
    if u = sep then [] :: splitOn sep rest
    else match splitOn sep rest with
      | [] => [[u]]
      | seg :: segs => (u :: seg) :: segs

/-- One step of `normalizeString` on a stack of segments (top first): empty
and `.` segments are dropped, `..` removes the segment before it or, when
there is none to remove, is kept only if `allowAboveRoot`. -/
def normalizeStep (allowAboveRoot : Bool) (stack : List JSString) (seg : JSString) :
    List JSString :=
  if seg = [] ∨ seg = lit "." then stack
  else if seg = lit ".." then
    match stack with
    | [] => if allowAboveRoot then [lit ".."] else []
    | top :: below =>
      if top = lit ".." then (if allowAboveRoot then lit ".." :: stack else stack)
      else below
  else seg :: stack

/-- Source `normalizeString(path, allowAboveRoot, '/')` of Node's `path.posix`. -/
def normalizeString (allowAboveRoot : Bool) (path : JSString) : JSString :=
  join [slash] ((splitOn slash path).foldl (normalizeStep allowAboveRoot) []).reverse

/-- Source `path.posix.isAbsolute`. -/
def isAbsolute (path : JSString) : Bool := path.head? = some slash

/-- Source `path.posix.normalize`. -/
def normalize (path : JSString) : JSString :=
  if path = [] then lit "."
  else
    let trailing := path.getLast? = some slash
    let res := normalizeString (!isAbsolute path) path
    if res = [] then
      (if isAbsolute path then [slash] else if trailing then lit "./" else lit ".")
    else
      let res2 := if trailing then res ++ [slash] else res
      if isAbsolute path then slash :: res2 else res2

/-- Source `path.posix.join(...parts)`. -/
def pathJoin (parts : List JSString) : JSString :=
  let joined := join [slash] (parts.filter fun p => !p.isEmpty)
  if joined = [] then lit "." else normalize joined

/-- The text after the last `'/'` of a path. -/
def lastSegment (path : JSString) : JSString := ((splitOn slash path).getLast?).getD []

/-! ## Decimal rendering of the timestamp -/

/-- The code unit of a decimal digit. -/
def digitUnit (d : Nat) : UInt16 := (48 + d).toUInt16

/-- Decimal digits of `n`, least significant first; `fuel` bounds their
number. -/
def digitsFrom : Nat → Nat → List Nat
  | 0, _ => []
  | fuel + 1, n => if n < 10 then [n] else (n % 10) :: digitsFrom fuel (n / 10)

/-- Number-to-string conversion of a non-negative integer below `10^21`, the
range in which JavaScript prints plain decimal digits; `Date.now()` lies in
it. -/
def decimal (n : Nat) : JSString := ((digitsFrom (n + 1) n).reverse).map digitUnit

/-! ## Calls on the document, the QR encoder and the file system -/

/-- What `fill` paints with: a colour string or a gradient object. -/
inductive Paint where
  | color (hex : String)
  | gradient (x1 y1 x2 y2 : Nat) (stops : List (Nat × String))
deriving DecidableEq, Repr

/-- The source handed to `doc.image`: a file path, or the buffer decoded from
the data URL that the QR encoder returned for a text. -/
inductive ImageSrc where
  | file (path : JSString)
  | qr (text : JSString)
deriving DecidableEq, Repr

/-- The `align` option of `doc.text`. -/
inductive Align where
  | left
  | center
deriving DecidableEq, Repr

/-- The library calls the generator makes. Opacities are in hundredths. -/
inductive Op where
  | newDocument (width height : Nat)
  | registerFont (name : String) (path : JSString)
  | createWriteStream (path : JSString)
  | pipe
  | addPage
  | endDocument
  | awaitFinish
  | linearGradient (x1 y1 x2 y2 : Nat)
  | gradientStop (offset : Nat) (color : String)
  | save
  | restore
  | opacity (hundredths : Nat)
  | roundedRect (x y w h r : Nat)
  | rect (x y w h : Nat)
  | fill (paint : Paint)
  | clip
  | image (src : ImageSrc) (x y width : Nat) (height : Option Nat)
  | font (name : String)
  | fontSize (size : Nat)
  | text (s : JSString) (x y width : Nat) (align : Align)
  | qrToDataURL (text : JSString) (errorCorrectionLevel : Option String)
deriving DecidableEq, Repr

/-- An error object, by its `message`. -/
structure JSError where
  message : JSString
deriving DecidableEq, Repr

/-- One observable step: a library call with whether it returned normally, or
a console line (`console.error` when `isError`), by its first argument. -/
inductive Event where
  | call (op : Op) (ok : Bool)
  | log (isError : Bool) (msg : JSString)
deriving DecidableEq, Repr

/-- The history of a run. -/
abbrev Trace := List Event

/-- Everything outside the generator: the module directory, which files
exist, the clock, the platform date formatter, for each library call given
the history so far whether it raises and with which error, and for each
history at which the generator yields to the event loop the `error` event
that the output stream emits during that turn, if any. -/
structure Env where
  dirname : JSString
  fileExists : JSString → Bool
  now : Nat
  toLocale : DateField → JSString
  raises : Trace → Op → Option JSError
  streamError : Trace → Option JSError := fun _ => none

/-- A computation that extends the trace and either returns or raises. -/
abbrev Run (α : Type) := Trace → Except JSError α × Trace

namespace Run

/-- Return a value without any effect. -/
def ret {α : Type} (a : α) : Run α := fun tr => (.ok a, tr)

/-- Raise an error. -/
def raise {α : Type} (e : JSError) : Run α := fun tr => (.error e, tr)

/-- Sequencing: the continuation runs only if the first part returned. -/
def bind {α β : Type} (r : Run α) (k : α → Run β) : Run β := fun tr =>
  match r tr with
  | (.ok a, tr1) => k a tr1
  | (.error e, tr1) => (.error e, tr1)

/-- Sequencing of two statements. -/
def seq {β : Type} (r : Run Unit) (k : Run β) : Run β := bind r fun _ => k

/-- A `try { body } catch (e) { handler e }` statement. -/
def tryCatch {α : Type} (body : Run α) (handler : JSError → Run α) : Run α := fun tr =>
  match body tr with
  | (.ok a, tr1) => (.ok a, tr1)
  | (.error e, tr1) => handler e tr1

end Run

/-- A console line; logging does not raise. -/
def logLine (isError : Bool) (msg : JSString) : Run Unit := fun tr =>
  (.ok (), tr ++ [Event.log isError msg])

/-- One library call: it is recorded, and raises when the environment says
so. -/
def emit (env : Env) (op : Op) : Run Unit := fun tr =>
  match env.raises tr op with
  | none => (.ok (), tr ++ [Event.call op true])
  | some e => (.error e, tr ++ [Event.call op false])

/-- A straight-line sequence of library calls, stopped by the first raise. -/
def emitAll (env : Env) : List Op → Run Unit
  | [] => Run.ret ()
  | op :: rest => Run.seq (emit env op) (emitAll env rest)

/-- A sequence of statements. -/
def seqAll : List (Run Unit) → Run Unit
  | [] => Run.ret ()
  | r :: rest => Run.seq r (seqAll rest)

/-! ## Blocks shared by both sides -/

/-- The gradient object `gradient` of both composers. -/
def cardGradient : Paint := .gradient 0 0 650 400 [(0, "#FFE4B5"), (1, "#B0E0E6")]

/-- The gradient object `footerGradient` of both composers. -/
def footerGradient : Paint := .gradient 0 370 650 400 [(0, "#FF8C00"), (1, "#000080")]

/-- Background wash (lines 78-86 and 236-244). -/
def backgroundOps : List Op :=
  [.linearGradient 0 0 650 400, .gradientStop 0 "#FFE4B5", .gradientStop 1 "#B0E0E6",
   .save, .opacity 85, .roundedRect 0 0 650 400 20, .fill cardGradient, .opacity 100, .restore]

/-- Source `path.join(__dirname, 'logo1.png')`. -/
def logoPath (env : Env) : JSString := pathJoin [env.dirname, lit "logo1.png"]

/-- Source `path.join(__dirname, 'logo2.png')`. -/
def logoPath2 (env : Env) : JSString := pathJoin [env.dirname, lit "logo2.png"]

/-- Placement of the left mark. -/
def leftLogoOp (env : Env) : Op := .image (.file (logoPath env)) 24 18 60 (some 60)

/-- Placement of the right mark. -/
def rightLogoOp (env : Env) : Op :=
  .image (.file (logoPath2 env)) (650 - 24 - 60) 18 60 (some 80)

/-- The two marks inside their `try` (lines 95-106 and 253-264). -/
def drawLogos (env : Env) : Run Unit :=
  Run.tryCatch
    (Run.seq
      (if env.fileExists (logoPath env) then emit env (leftLogoOp env)
      else logLine true (lit "Left logo not found:"))
      (if env.fileExists (logoPath2 env) then emit env (rightLogoOp env)
      else logLine true (lit "Right logo not found:")))
    (fun _ => logLine true (lit "Logo rendering error:"))

/-- The title between the marks (lines 108-111 and 267-270). -/
def titleOps : List Op :=
  [.font "Helvetica-Bold", .fontSize 29, .fill (.color "#191970"),
   .text (lit "PARA SPORTS ASSOCIATION OF GUJARAT") (24 + 60 + 5) 25
     (650 - 2 * (24 + 60)) .center]

/-- The player-ID banner (lines 200-206 and 341-347). -/
def bannerOps (p : Player) : List Op :=
  [.font "Helvetica-Bold", .fontSize 30, .fill (.color "#000000"),
   .text (spacedPlayerId p) 0 320 650 .center]

/-- The footer string. -/
def footerText : JSString := lit "મારી ડિજિટલ ઓળખ"

/-- Construction of `footerGradient`, before the footer `try`. -/
def footerGradientOps : List Op :=
  [.linearGradient 0 370 650 400, .gradientStop 0 "#FF8C00", .gradientStop 1 "#000080"]

/-- The footer calls inside the `try`, by font state. -/
def footerOps (unicodeFontAvailable : Bool) : List Op :=
  [.font (if unicodeFontAvailable then "Unicode" else "Helvetica"),
   .fontSize 32, .fill footerGradient, .text footerText 0 350 650 .center]

/-- The localized footer (lines 208-220 and 349-361). -/
def drawFooter (env : Env) (unicodeFontAvailable : Bool) : Run Unit :=
  Run.seq (emitAll env footerGradientOps)
    (Run.tryCatch (emitAll env (footerOps unicodeFontAvailable))
      (fun _ => logLine true (lit "Unicode font rendering error:")))

/-- The watermark calls inside the `try`, made when the mark file exists. -/
def watermarkOps (env : Env) : List Op :=
  [.save, .opacity 10, .image (.file (logoPath env)) 150 80 350 none, .opacity 100, .restore]

/-- The faded background mark (lines 222-232 and 363-373). -/
def drawWatermark (env : Env) : Run Unit :=
  Run.tryCatch
    (if env.fileExists (logoPath env) then emitAll env (watermarkOps env) else Run.ret ())
    (fun _ => Run.ret ())

/-! ## Front side (lines 77-233) -/

/-- The gray placeholder `doc.rect(photoX, photoY, photoSize, photoSize).fill('#cccccc')`. -/
def placeholderOps : List Op := [.rect 40 135 130 130, .fill (.color "#cccccc")]

/-- The resolved photo location `absPhotoPath` for a photo reference. -/
def absPhotoPath (env : Env) (profilePhoto : JSString) : JSString :=
  let photoPath := if profilePhoto.head? = some slash then profilePhoto.drop 1 else profilePhoto
  if isAbsolute photoPath then photoPath else pathJoin [env.dirname, lit "../", photoPath]

/-- Placement of the photo file found at `path`. -/
def photoOp (path : JSString) : Op := .image (.file path) 40 135 130 (some 130)

/-- The statements inside the photo `try` (lines 121-136). -/
def photoBody (env : Env) (p : Player) : Run Unit :=
  match p.profilePhoto with
  | .str s =>
    if s.isEmpty then emitAll env placeholderOps
    else if env.fileExists (absPhotoPath env s) then emit env (photoOp (absPhotoPath env s))
    else emitAll env placeholderOps
  | _ => emitAll env placeholderOps

/-- The clipped photo square (lines 113-140). -/
def drawPhoto (env : Env) (p : Player) : Run Unit :=
  seqAll
    [emitAll env [.save, .roundedRect 40 135 130 130 16, .clip],
     Run.tryCatch (photoBody env p) (fun _ => emitAll env placeholderOps),
     emit env .restore]

/-- The list `profileFields` (lines 156-163). -/
def profileFields (env : Env) (p : Player) : List (JSString × JSString) :=
  [ (lit "Name", p.firstName.toJSString ++ lit " " ++ p.lastName.toJSString),
    (lit "DOB", dobText env.toLocale p),
    (lit "Gender", p.gender.orElse []),
    (lit "Passport Number", p.passportNumber.orElse []),
    (lit "Primary Sport", p.primarySport.orElse []),
    (lit "Address", (p.addr (·.street)).orElse [] ++ lit ", " ++ (p.addr (·.city)).orElse []
      ++ lit ", " ++ (p.addr (·.state)).orElse [] ++ lit ", "
      ++ (p.addr (·.postalCode)).orElse []) ]

/-- One label and its value at row `y`: the label at `x`, the value 115 to
its right with the given width. -/
def cellOps (label value : JSString) (x y valueWidth : Nat) : List Op :=
  [.font "Helvetica-Bold", .fontSize 13, .fill (.color "#1976D2"),
   .text (label ++ lit ":") x y 110 .left,
   .font "Helvetica", .fontSize 13, .fill (.color "#111111"),
   .text value (x + 115) y valueWidth .left]

/-- The x coordinate `col1X` of the left column. -/
def col1X : Nat := 40 + 130 + 30

/-- The x coordinate `col2X` of the right column. -/
def col2X : Nat := col1X + 220

/-- The layout loop (lines 166-198) from index `i` with the fields from `i`
on still to visit and the row at `yRow`. -/
def layoutLoop : Nat → List (JSString × JSString) → Nat → List Op
  | _, [], _ => []
  | i, [f], yRow =>
    if f.1 = lit "Address" then cellOps f.1 f.2 col1X yRow 300
    else if i % 2 = 0 then cellOps f.1 f.2 col1X yRow 90
    else []
  | i, f :: g :: rest, yRow =>
    if f.1 = lit "Address" then
      cellOps f.1 f.2 col1X yRow 300 ++ layoutLoop (i + 1) (g :: rest) (yRow + 38)
    else if i % 2 = 0 then
      cellOps f.1 f.2 col1X yRow 90 ++
        (if g.1 ≠ lit "Address" then
          cellOps g.1 g.2 col2X yRow 90 ++ layoutLoop (i + 2) rest (yRow + 38)
        else layoutLoop (i + 1) (g :: rest) (yRow + 38))
    else layoutLoop (i + 1) (g :: rest) yRow

/-- The calls of the whole layout loop on a field list. -/
def layoutOps (fields : List (JSString × JSString)) : List Op := layoutLoop 0 fields 135

/-- The statements of `drawFrontSide` before the photo block. -/
def frontBefore (env : Env) : List (Run Unit) :=
  [emitAll env backgroundOps, drawLogos env, emitAll env titleOps]

/-- The statements of `drawFrontSide` after the photo block. -/
def frontAfter (env : Env) (p : Player) (unicodeFontAvailable : Bool) : List (Run Unit) :=
  [emitAll env (layoutOps (profileFields env p)),
   emitAll env (bannerOps p),
   drawFooter env unicodeFontAvailable,
   drawWatermark env]

/-- The statements of `drawFrontSide`, in order. -/
def frontBlocks (env : Env) (p : Player) (unicodeFontAvailable : Bool) : List (Run Unit) :=
  frontBefore env ++ drawPhoto env p :: frontAfter env p unicodeFontAvailable

/-- The front composer `drawFrontSide`. -/
def drawFrontSide (env : Env) (p : Player) (unicodeFontAvailable : Bool) : Run Unit :=
  seqAll (frontBlocks env p unicodeFontAvailable)

/-! ## Back side (lines 235-374) -/

/-- The list `backFields` (lines 283-288). -/
def backFields (p : Player) : List (JSString × JSString) :=
  [ (lit "Coach Name", p.coachName.orElse []),
    (lit "Coach Contact", p.coachContact.orElse []),
    (lit "Emergency Name", (p.emergency (·.name)).orElse []),
    (lit "Emergency Phone", (p.emergency (·.phone)).orElse []) ]

/-- The single-column loop over `backFields` (lines 289-295) from row `y`. -/
def backLoop : List (JSString × JSString) → Nat → List Op
  | [], _ => []
  | f :: rest, y =>
    [.font "Helvetica-Bold", .fontSize 13, .fill (.color "#1976D2"),
     .text (f.1 ++ lit ":") 30 y 120 .left,
     .font "Helvetica", .fontSize 13, .fill (.color "#111111"),
     .text f.2 (30 + 130) y 300 .left] ++ backLoop rest (y + 38)

/-- Placement of the QR image for a text: the buffer decoded from the data
URL, at (470, 160) with size 140 x 140. -/
def qrImageOp (text : JSString) : Op := .image (.qr text) 470 160 140 (some 140)

/-- The caption under the QR image (lines 323-327). -/
def qrCaptionOps : List Op :=
  [.font "Helvetica-Bold", .fontSize 12, .fill (.color "#000080"),
   .text (lit "Scan for player details") 470 (160 + 145) 140 .center]

/-- The calls of the first QR attempt, inside the `try` (lines 299-327). -/
def qrFullOps (env : Env) (p : Player) : List Op :=
  .qrToDataURL (qrText env.toLocale p) (some "M") :: qrImageOp (qrText env.toLocale p)
    :: qrCaptionOps

/-- The calls of the fallback attempt, inside the `catch` (lines 331-338). -/
def qrFallbackOps (p : Player) : List Op :=
  [.qrToDataURL (qrFallbackText p) none, qrImageOp (qrFallbackText p)]

/-- The QR block (lines 297-339). -/
def drawQr (env : Env) (p : Player) : Run Unit :=
  Run.tryCatch (emitAll env (qrFullOps env p))
    (fun _ => Run.seq (logLine true (lit "QR code generation error:"))
      (emitAll env (qrFallbackOps p)))

/-- The statements of `drawBackSide` before the QR block. -/
def backBefore (env : Env) (p : Player) : List (Run Unit) :=
  [emitAll env backgroundOps, drawLogos env, emitAll env titleOps,
   emitAll env (backLoop (backFields p) 160)]

/-- The statements of `drawBackSide` after the QR block. -/
def backAfter (env : Env) (p : Player) (unicodeFontAvailable : Bool) : List (Run Unit) :=
  [emitAll env (bannerOps p), drawFooter env unicodeFontAvailable, drawWatermark env]

/-- The statements of `drawBackSide`, in order. -/
def backBlocks (env : Env) (p : Player) (unicodeFontAvailable : Bool) : List (Run Unit) :=
  backBefore env p ++ drawQr env p :: backAfter env p unicodeFontAvailable

/-- The back composer `drawBackSide`. -/
def drawBackSide (env : Env) (p : Player) (unicodeFontAvailable : Bool) : Run Unit :=
  seqAll (backBlocks env p unicodeFontAvailable)

/-- Every library call the statements of `frontBefore` can make. -/
def frontBeforeOps (env : Env) : List Op :=
  backgroundOps ++ [leftLogoOp env, rightLogoOp env] ++ titleOps

/-- Every library call the photo block can make for a record. -/
def photoBlockOps (env : Env) (p : Player) : List Op :=
  [.save, .roundedRect 40 135 130 130 16, .clip]
    ++ (match p.profilePhoto with
        | .str s => [photoOp (absPhotoPath env s)]
        | _ => [])
    ++ placeholderOps ++ [.restore]

/-- Every library call the statements of `frontAfter` can make. -/
def frontAfterOps (env : Env) (p : Player) (unicodeFontAvailable : Bool) : List Op :=
  layoutOps (profileFields env p) ++ bannerOps p
    ++ footerGradientOps ++ footerOps unicodeFontAvailable ++ watermarkOps env

/-- Every library call the front composer can make for a record. -/
def frontOps (env : Env) (p : Player) (unicodeFontAvailable : Bool) : List Op :=
  frontBeforeOps env ++ photoBlockOps env p ++ frontAfterOps env p unicodeFontAvailable

/-- Every library call the statements of `backBefore` can make. -/
def backBeforeOps (env : Env) (p : Player) : List Op :=
  backgroundOps ++ [leftLogoOp env, rightLogoOp env] ++ titleOps
    ++ backLoop (backFields p) 160

/-- Every library call the statements of `backAfter` can make. -/
def backAfterOps (env : Env) (p : Player) (unicodeFontAvailable : Bool) : List Op :=
  bannerOps p ++ footerGradientOps ++ footerOps unicodeFontAvailable ++ watermarkOps env

/-- Every library call the back composer can make for a record. -/
def backOps (env : Env) (p : Player) (unicodeFontAvailable : Bool) : List Op :=
  backBeforeOps env p ++ qrFullOps env p ++ qrFallbackOps p
    ++ backAfterOps env p unicodeFontAvailable

/-- The texts handed to the QR encoder in a stretch of history, in order,
each with its error-correction option. -/
def qrAttempts (evs : Trace) : List (JSString × Option String) :=
  evs.filterMap fun ev =>
    match ev with
    | .call (.qrToDataURL text ecl) _ => some (text, ecl)
    | _ => none

/-- Whether a QR attempt begun at history `t` goes through: the encoder
returns for `text`, and placing the resulting image returns. -/
def attemptOk (env : Env) (text : JSString) (ecl : Option String) (t : Trace) : Bool :=
  (env.raises t (.qrToDataURL text ecl)).isNone
    && (env.raises (t ++ [Event.call (.qrToDataURL text ecl) true]) (qrImageOp text)).isNone

/-- The history at which the `catch` branch starts its own attempt, when the
first attempt, begun at `t`, has failed. -/
def fallbackStart (env : Env) (p : Player) (t : Trace) : Trace :=
  (if (env.raises t (.qrToDataURL (qrText env.toLocale p) (some "M"))).isNone then
      t ++ [Event.call (.qrToDataURL (qrText env.toLocale p) (some "M")) true,
            Event.call (qrImageOp (qrText env.toLocale p)) false]
    else t ++ [Event.call (.qrToDataURL (qrText env.toLocale p) (some "M")) false])
    ++ [Event.log true (lit "QR code generation error:")]

/-- The history when the QR block of the back composer starts. -/
def qrStart (env : Env) (p : Player) (tr : Trace) : Trace := (seqAll (backBefore env p) tr).2

/-- The banner text in the words of the specification: the code units of
the player ID separated by single spaces, or the spaced placeholder when the
ID is absent, `null` or empty. -/
def bannerSpec (p : Player) : JSString :=
  match p.playerId with
  | .str s => if s = [] then lit "P S 0 0 0 0 0 0" else s.intersperse 32
  | _ => lit "P S 0 0 0 0 0 0"

/-- What a field contributes to a rendered line in the words of the
specification: nothing when it is absent, `null` or empty, otherwise its
value. -/
def Field.shown : Field → JSString
  | .str s => s
  | _ => []

/-- The full payload in the words of the specification: ten lines
`<Label>: <value>` in the stated order, joined by line feeds. -/
def payloadSpec (toLocale : DateField → JSString) (p : Player) : JSString :=
  List.intercalate [newline]
    [ lit "Player ID: " ++ p.playerId.shown,
      lit "Name: " ++ p.firstName.shown ++ lit " " ++ p.lastName.shown,
      lit "DOB: " ++ dobText toLocale p,
      lit "Gender: " ++ p.gender.shown,
      lit "Passport: " ++ p.passportNumber.shown,
      lit "Primary Sport: " ++ p.primarySport.shown,
      lit "Address: " ++ (p.addr (·.street)).shown ++ lit ", " ++ (p.addr (·.city)).shown
        ++ lit ", " ++ (p.addr (·.state)).shown ++ lit ", " ++ (p.addr (·.postalCode)).shown,
      lit "Coach: " ++ p.coachName.shown,
      lit "Coach Contact: " ++ p.coachContact.shown,
      lit "Emergency: " ++ (p.emergency (·.name)).shown ++ lit " ("
        ++ (p.emergency (·.phone)).shown ++ lit ")" ]

/-- The renderable values of a record, as the payload shows them: player ID,
first name, last name, formatted date of birth, gender, passport number,
primary sport, street, city, state, postal code, coach name, coach contact,
emergency contact name and phone. -/
def renderedFields (toLocale : DateField → JSString) (p : Player) : List JSString :=
  [ p.playerId.shown, p.firstName.shown, p.lastName.shown, dobText toLocale p,
    p.gender.shown, p.passportNumber.shown, p.primarySport.shown,
    (p.addr (·.street)).shown, (p.addr (·.city)).shown, (p.addr (·.state)).shown,
    (p.addr (·.postalCode)).shown, p.coachName.shown, p.coachContact.shown,
    (p.emergency (·.name)).shown, (p.emergency (·.phone)).shown ]

/-- The separators of the payload stay out of the values they would cut
short: no rendered value contains a line feed, the first name has no space,
street, city and state have no comma, the emergency contact name has no
opening bracket. -/
def SeparatorFree (toLocale : DateField → JSString) (p : Player) : Prop :=
  (∀ v ∈ renderedFields toLocale p, newline ∉ v)
  ∧ (32 : UInt16) ∉ p.firstName.shown
  ∧ (44 : UInt16) ∉ (p.addr (·.street)).shown
  ∧ (44 : UInt16) ∉ (p.addr (·.city)).shown
  ∧ (44 : UInt16) ∉ (p.addr (·.state)).shown
  ∧ (40 : UInt16) ∉ (p.emergency (·.name)).shown

/-! ## Document assembly (lines 11-75) -/

/-- Source `idCardsDir = path.join(__dirname, '../idcards')`. -/
def idCardsDir (env : Env) : JSString := pathJoin [env.dirname, lit "../idcards"]

/-- Source `unicodeFontPath`. -/
def unicodeFontPath (env : Env) : JSString :=
  pathJoin [env.dirname, lit "../fonts/NotoSansGujarati-Regular.ttf"]

/-- The name `idcard_${player.playerId}_${Date.now()}.pdf`. -/
def idCardFilename (p : Player) (now : Nat) : JSString :=
  lit "idcard_" ++ p.playerId.toJSString ++ lit "_" ++ decimal now ++ lit ".pdf"

/-- Source `idCardPath = path.join(idCardsDir, idCardFilename)`. -/
def idCardPath (env : Env) (p : Player) : JSString :=
  pathJoin [idCardsDir env, idCardFilename p env.now]

/-- Font registration behind its own guard (lines 31-40); the result is
`unicodeFontAvailable`. -/
def registerUnicodeFont (env : Env) : Run Bool :=
  if env.fileExists (unicodeFontPath env) then
    Run.tryCatch
      (Run.bind (emit env (.registerFont "Unicode" (unicodeFontPath env))) fun _ => Run.ret true)
      (fun _ => Run.bind (logLine true (lit "Error registering Unicode font:")) fun _ =>
        Run.ret false)
  else Run.ret false

/-- The statements of `generateIdCard` from the output stream to the success
line (lines 46-66), for a font state. The call `awaitFinish` is the awaited
promise of lines 61-64: it raises when the stream emits `error` once the
listeners of that promise are attached. An `error` event emitted before
that has no listener; `generateIdCardCall` accounts for it. -/
def assemblySteps (env : Env) (p : Player) (unicodeFontAvailable : Bool) : List (Run Unit) :=
  [emit env (.createWriteStream (idCardPath env p)),
   emit env .pipe,
   drawFrontSide env p unicodeFontAvailable,
   emit env .addPage,
   drawBackSide env p unicodeFontAvailable,
   emit env .endDocument,
   emit env .awaitFinish,
   logLine false (lit "ID card generated successfully: " ++ idCardFilename p env.now)]

/-- The statements inside the `try` of `generateIdCard` (lines 22-69). -/
def generateIdCardBody (env : Env) (p : Player) : Run JSString :=
  Run.seq (logLine false (lit "Starting ID card generation for player: " ++ p.playerId.toJSString))
  (Run.seq (emit env (.newDocument 650 400))
  (Run.bind (registerUnicodeFont env) fun unicodeFontAvailable =>
  Run.seq (seqAll (assemblySteps env p unicodeFontAvailable))
  (Run.ret (lit "/idcards/" ++ idCardFilename p env.now))))

/-- The statements of the exported `generateIdCard`: any error raised in
the body is logged and replaced by one whose message carries the fixed
lead-in. -/
def generateIdCard (env : Env) (p : Player) : Run JSString :=
  Run.tryCatch (generateIdCardBody env p) fun error =>
    Run.seq (logLine true (lit "Error generating ID card:"))
      (Run.raise ⟨lit "Failed to generate ID card: " ++ error.message⟩)

/-- The events that give the document a page: opening it (the automatic
first page) and a page advance, when the call returned. -/
def isPageEvent : Event → Bool
  | .call (.newDocument _ _) true => true
  | .call .addPage true => true
  | _ => false

/-- Number of pages of the document a trace describes. -/
def pageCount (tr : Trace) : Nat := tr.countP isPageEvent

/-- Loading an optional asset: placing an image file or registering the
font. -/
def Op.isAssetLoad : Op → Bool
  | .image (.file _) _ _ _ _ => true
  | .registerFont _ _ => true
  | _ => false

/-- An environment in which no call raises and only the listed files exist. -/
def quietEnv (files : List JSString) (now : Nat) : Env :=
  { dirname := lit "/srv/app/backend/utils",
    fileExists := fun f => decide (f ∈ files),
    now := now,
    toLocale := fun _ => lit "01/06/1998",
    raises := fun _ _ => none }

/-- An environment in which the encoder refuses every text it is asked to
encode with an error-correction option (the first attempt) and nothing else
raises. -/
def flakyQrEnv : Env :=
  { dirname := lit "/srv/app/backend/utils",
    fileExists := fun _ => false,
    now := 1700000000000,
    toLocale := fun _ => lit "01/06/1998",
    raises := fun _ op =>
      match op with
      | .qrToDataURL _ (some _) => some ⟨lit "The amount of data is too big"⟩
      | _ => none }

/-- A path segment that normalisation keeps as it is: not empty, not `.`,
not `..`, and without a slash. -/
def RegularSegment (seg : JSString) : Prop :=
  seg ≠ [] ∧ seg ≠ lit "." ∧ seg ≠ lit ".." ∧ slash ∉ seg

/-- The calls `generateIdCard` makes itself, outside the composers. -/
def Op.isAssembly : Op → Bool
  | .newDocument _ _ => true
  | .registerFont _ _ => true
  | .createWriteStream _ => true
  | .pipe => true
  | .addPage => true
  | .endDocument => true
  | .awaitFinish => true
  | _ => false

/-- The calls `generateIdCard` makes itself for a record. -/
def assemblerOps (env : Env) (p : Player) : List Op :=
  [.newDocument 650 400, .registerFont "Unicode" (unicodeFontPath env),
   .createWriteStream (idCardPath env p), .pipe, .addPage, .endDocument, .awaitFinish]

/-- An environment in which the encoder refuses every text and nothing else
raises. -/
def deadQrEnv : Env :=
  { dirname := lit "/srv/app/backend/utils",
    fileExists := fun _ => false,
    now := 1700000000000,
    toLocale := fun _ => lit "01/06/1998",
    raises := fun _ op =>
      match op with
      | .qrToDataURL _ _ => some ⟨lit "The amount of data is too big"⟩
      | _ => none }

/-- An environment in which every asset file exists and loading any of them
raises, while nothing else does. -/
def brokenAssetEnv : Env :=
  { dirname := lit "/srv/app/backend/utils",
    fileExists := fun _ => true,
    now := 1700000000000,
    toLocale := fun _ => lit "01/06/1998",
    raises := fun _ op => if op.isAssetLoad then some ⟨lit "Unknown image format."⟩ else none }

/-- The calls that touch the photo square: the clip, the gray rectangle and
an image placed at (40, 135) with size 130 x 130. -/
def Op.isPhotoCall : Op → Bool
  | .clip => true
  | .rect x y w h => decide (x = 40 ∧ y = 135 ∧ w = 130 ∧ h = 130)
  | .image _ x y w h => decide (x = 40 ∧ y = 135 ∧ w = 130 ∧ h = some 130)
  | _ => false

/-- The gray placeholder as drawn: rectangle, then fill `#cccccc`. -/
def placeholderEvents : Trace := placeholderOps.map fun op => Event.call op true

/-- What fills the clipped photo square in the words of the specification,
`t` being the history when the fill starts: the placeholder when the photo
reference is absent, null or empty, or the resolved file does not exist; the
image when placing it returns; the failed placement followed by the
placeholder when placing it raises. -/
def photoFillSpec (env : Env) (p : Player) (t : Trace) : Trace :=
  match p.profilePhoto with
  | .str s =>
    if s = [] then placeholderEvents
    else if env.fileExists (absPhotoPath env s) = false then placeholderEvents
    else
      match env.raises t (photoOp (absPhotoPath env s)) with
      | none => [Event.call (photoOp (absPhotoPath env s)) true]
      | some _ => Event.call (photoOp (absPhotoPath env s)) false :: placeholderEvents
  | _ => placeholderEvents

/-- The calls that open the photo block: save, rounded-rectangle path, clip. -/
def clipEvents : Trace :=
  [Event.call .save true, Event.call (.roundedRect 40 135 130 130 16) true,
   Event.call .clip true]

/-- Whether a call draws text on the row at `y`. -/
def Op.isTextAtRow (y : Nat) : Op → Bool
  | .text _ _ y1 _ _ => y1 == y
  | _ => false

/-! ## Properties of runs -/

/-- The events a computation appends to a history. -/
def newEvents {α : Type} (r : Run α) (tr : Trace) : Trace := (r tr).2.drop tr.length

/-- Every run of `r` only appends events, and each of them satisfies `S`. -/
def Confined {α : Type} (S : Event → Prop) (r : Run α) : Prop :=
  ∀ tr, ∃ evs, (r tr).2 = tr ++ evs ∧ ∀ e ∈ evs, S e

/-- Every run of `r` returns normally, appending only events that satisfy
`S`. -/
def Good (S : Event → Prop) (r : Run Unit) : Prop :=
  ∀ tr, ∃ evs, r tr = (.ok (), tr ++ evs) ∧ ∀ e ∈ evs, S e

/-- Every run of `r` that returns normally has appended only events that
satisfy `S`. -/
def OkConfined {α : Type} (S : Event → Prop) (r : Run α) : Prop :=
  ∀ tr a, (r tr).1 = .ok a → ∃ evs, (r tr).2 = tr ++ evs ∧ ∀ e ∈ evs, S e

/-- The calls of `generateIdCard` that no `try` of its own guards. -/
def unguardedAssemblerOps (env : Env) (p : Player) : List Op :=
  [.newDocument 650 400, .createWriteStream (idCardPath env p), .pipe, .addPage,
   .endDocument, .awaitFinish]

/-- Every run of `r` that returns normally has appended the event `e0`. -/
def Must {α : Type} (e0 : Event) (r : Run α) : Prop :=
  ∀ tr a, (r tr).1 = .ok a → ∃ evs, (r tr).2 = tr ++ evs ∧ e0 ∈ evs

/-- Every error that escapes `r` is the one the environment raised at the
call recorded last. -/
def FailsAtCall {α : Type} (env : Env) (r : Run α) : Prop :=
  ∀ tr e, (r tr).1 = .error e →
    ∃ t op, (r tr).2 = t ++ [Event.call op false] ∧ env.raises t op = some e

/-- The calls satisfying `quiet` never raise in `env`. -/
def Env.Quiet (env : Env) (quiet : Op → Bool) : Prop :=
  ∀ tr op, quiet op = true → env.raises tr op = none

/-- The vector, text and font calls of the document: everything but image
placement, QR encoding, font registration, document and stream handling. -/
def Op.isDrawing : Op → Bool
  | .linearGradient _ _ _ _ => true
  | .gradientStop _ _ => true
  | .save => true
  | .restore => true
  | .opacity _ => true
  | .roundedRect _ _ _ _ _ => true
  | .rect _ _ _ _ => true
  | .fill _ => true
  | .clip => true
  | .font _ => true
  | .fontSize _ => true
  | .text _ _ _ _ _ => true
  | _ => false

/-! ## Values drawn for optional fields -/

/-- The value drawn beside a front-side label, if the label is in
`profileFields`. -/
def frontValue (env : Env) (p : Player) (label : JSString) : Option JSString :=
  ((profileFields env p).find? fun f => f.1 == label).map (·.2)

/-- The value drawn beside a back-side label, if the label is in
`backFields`. -/
def backValue (p : Player) (label : JSString) : Option JSString :=
  ((backFields p).find? fun f => f.1 == label).map (·.2)

/-- The Name line of the full QR payload. -/
def qrNameLine (toLocale : DateField → JSString) (p : Player) : Option JSString :=
  (qrSegments toLocale p)[1]?

/-- The `Player ID:` line of the full QR payload. -/
def qrIdLine (toLocale : DateField → JSString) (p : Player) : Option JSString :=
  (qrSegments toLocale p)[0]?

/-! ## The font in force at the footer -/

/-- The call that draws the footer string (lines 214 and 355). -/
def footerTextOp : Op := .text footerText 0 350 650 .center

/-- The name of the footer font for a font state (lines 211-213). -/
def footerFontName (unicodeFontAvailable : Bool) : String :=
  if unicodeFontAvailable then "Unicode" else "Helvetica"

/-- The document's current font after one more event: a `font` call that
returned selects its font, nothing else changes it. -/
def fontStep (cur : Option String) : Event → Option String
  | .call (.font f) true => some f
  | _ => cur

/-- The document's current font after a stretch of history. -/
def fontAfter (cur : Option String) (evs : Trace) : Option String := evs.foldl fontStep cur

/-- Whether an event is a call that draws the footer string. -/
def Event.isFooterDraw : Event → Bool
  | .call op _ => decide (op = footerTextOp)
  | .log _ _ => false

/-- The font in force at each call that draws the footer string in a stretch
of history, `cur` being the font in force when the stretch starts. -/
def footerFonts (cur : Option String) : Trace → List (Option String)
  | [] => []
  | e :: rest => (if e.isFooterDraw then [cur] else []) ++ footerFonts (fontStep cur e) rest

/-- The value `unicodeFontAvailable` gets when registration starts at history
`t` (lines 31-40): the font file exists and registering it does not raise. -/
def fontDecision (env : Env) (t : Trace) : Bool :=
  env.fileExists (unicodeFontPath env)
    && (env.raises t (.registerFont "Unicode" (unicodeFontPath env))).isNone

/-- Every run of `r` only appends events, and the appended stretch as a whole
satisfies `Q`. -/
def Appends {α : Type} (Q : Trace → Prop) (r : Run α) : Prop :=
  ∀ tr, ∃ evs, (r tr).2 = tr ++ evs ∧ Q evs

/-- Every footer draw in a stretch of history is made with the font `F` in
force, whatever font was in force before the stretch. -/
def FooterFontIs (F : String) (evs : Trace) : Prop :=
  ∀ cur, ∀ f ∈ footerFonts cur evs, f = some F

/-- A list with the font file only. -/
def fontFiles : List JSString := [lit "/srv/app/backend/fonts/NotoSansGujarati-Regular.ttf"]

/-! ## Steps shared by both sides -/

/-- Whether a library call raises does not depend on the history. -/
def Env.Stable (env : Env) : Prop := ∀ t1 t2 op, env.raises t1 op = env.raises t2 op

/-- The outcome of `r` and the events it appends are the same from every
history. -/
def Uniform {α : Type} (r : Run α) : Prop := ∀ tr, r tr = ((r []).1, tr ++ (r []).2)

/-- The events a list of statements appends when run from the empty
history. -/
def eventsOf (rs : List (Run Unit)) : Trace := (seqAll rs []).2

/-- The statements only `drawFrontSide` has: photo block and field loop. -/
def frontOnly (env : Env) (p : Player) : List (Run Unit) :=
  [drawPhoto env p, emitAll env (layoutOps (profileFields env p))]

/-- The statements only `drawBackSide` has: field loop and QR block. -/
def backOnly (env : Env) (p : Player) : List (Run Unit) :=
  [emitAll env (backLoop (backFields p) 160), drawQr env p]

/-- An environment in which the listed files exist and placing the left
mark always raises, while nothing else does. -/
def badLogoEnv (files : List JSString) : Env :=
  { dirname := lit "/srv/app/backend/utils",
    fileExists := fun f => decide (f ∈ files),
    now := 1700000000000,
    toLocale := fun _ => lit "01/06/1998",
    raises := fun _ op =>
      if op = .image (.file (lit "/srv/app/backend/utils/logo1.png")) 24 18 60 (some 60)
      then some ⟨lit "Unknown image format."⟩ else none }

/-! ## Mail delivery of the card (`emailService.js`, lines 13-164) -/

/-- The properties of the player object that `sendIdCardEmail` reads. -/
structure MailPlayer where
  email : Field := .undefined
  playerId : Field := .undefined
deriving DecidableEq, Repr

/-- The environment variables the mail module reads. -/
structure MailConfig where
  senderEmail : Field := .undefined
  emailPassword : Field := .undefined
  emailService : Field := .undefined
deriving DecidableEq, Repr

/-- The calls the mail module makes on the mail library and the file system.
The password handed to `createTransport` and the HTML body of the message
are not recorded. -/
inductive MailOp where
  | createTransport (service user : JSString)
  | existsSync (path : JSString)
  | sendMail (sender : JSString) (recipient : Field) (attachmentName attachmentPath : JSString)
  | unlinkSync (path : JSString)
  | sendMailText (sender : JSString) (recipient : Field) (subject text : JSString)
deriving DecidableEq, Repr

/-- One observable step of the mail module: a call with whether it returned
normally, or a console line (`console.error` when `isError`), by its first
argument. -/
inductive MailEvent where
  | call (op : MailOp) (ok : Bool)
  | log (isError : Bool) (msg : JSString)
deriving DecidableEq, Repr

/-- The history of a run of the mail module. -/
abbrev MailTrace := List MailEvent

/-- Everything outside the mail module: the module directory, the
environment variables and, given the history so far, whether a call raises,
what the existence check answers, and the `messageId` of the object that
`sendMail` resolves with. -/
structure MailEnv where
  dirname : JSString
  config : MailConfig
  raises : MailTrace → MailOp → Option JSError
  fileExists : MailTrace → JSString → Bool
  messageId : MailTrace → JSString

/-- What `sendIdCardEmail` resolves with: the object returned by `sendMail`,
the object `{ messageId: 'email-not-configured' }`, or the object
`{ error, details }`. -/
inductive MailResult where
  | info (messageId : JSString)
  | notConfigured
  | failure (error details : JSString)
deriving DecidableEq, Repr

/-- A computation of the mail module: it extends the history and either
returns or raises. -/
abbrev MailRun (α : Type) := MailTrace → Except JSError α × MailTrace

namespace MailRun

/-- Return a value without any effect. -/
def ret {α : Type} (a : α) : MailRun α := fun tr => (.ok a, tr)

/-- Raise an error. -/
def raise {α : Type} (e : JSError) : MailRun α := fun tr => (.error e, tr)

/-- Sequencing: the continuation runs only if the first part returned. -/
def bind {α β : Type} (r : MailRun α) (k : α → MailRun β) : MailRun β := fun tr =>
  match r tr with
  | (.ok a, tr1) => k a tr1
  | (.error e, tr1) => (.error e, tr1)

/-- A `try { body } catch (e) { handler e }` statement. -/
def tryCatch {α : Type} (body : MailRun α) (handler : JSError → MailRun α) : MailRun α :=
  fun tr =>
    match body tr with
    | (.ok a, tr1) => (.ok a, tr1)
    | (.error e, tr1) => handler e tr1

end MailRun

/-- A console line of the mail module; logging does not raise. -/
def mailLog (isError : Bool) (msg : JSString) : MailRun Unit := fun tr =>
  (.ok (), tr ++ [MailEvent.log isError msg])

/-- One call of the mail module that can raise. -/
def mailCall (env : MailEnv) (op : MailOp) : MailRun Unit := fun tr =>
  match env.raises tr op with
  | none => (.ok (), tr ++ [MailEvent.call op true])
  | some e => (.error e, tr ++ [MailEvent.call op false])

/-- Source `fs.existsSync(path)`: it answers and never raises. -/
def existsSync (env : MailEnv) (path : JSString) : MailRun Bool := fun tr =>
  (.ok (env.fileExists tr path), tr ++ [MailEvent.call (.existsSync path) true])

/-- The literal that stands in for a missing `EMAIL_PASSWORD` (line 23); it
is not empty, and its characters are left out here. -/
def fallbackPassword : JSString := lit "****************"

/-- Source `createTransporter` (lines 14-42): `none` is its `null`. -/
def createTransporter (env : MailEnv) : MailRun (Option Unit) :=
  MailRun.bind (mailLog false (lit "=== Email Service Debug ===")) fun _ =>
  MailRun.bind (mailLog false (lit "SENDER_EMAIL:")) fun _ =>
  MailRun.bind (mailLog false (lit "EMAIL_PASSWORD:")) fun _ =>
  MailRun.bind (mailLog false (lit "EMAIL_SERVICE:")) fun _ =>
  let emailUser := env.config.senderEmail.orElse (lit "dhruvsumra13@gmail.com")
  let emailPassword := env.config.emailPassword.orElse fallbackPassword
  let emailService := env.config.emailService.orElse (lit "gmail")
  MailRun.bind (mailLog false (lit "Using email config:")) fun _ =>
  if emailUser.isEmpty || emailPassword.isEmpty then
    MailRun.bind (mailLog true
      (lit "Email configuration not found. Email functionality will be disabled.")) fun _ =>
    MailRun.bind (mailLog true
      (lit "Required: SENDER_EMAIL and EMAIL_PASSWORD environment variables")) fun _ =>
    MailRun.ret none
  else
    MailRun.bind (mailCall env (.createTransport emailService emailUser)) fun _ =>
    MailRun.ret (some ())

/-- Source `fullIdCardPath = path.join(__dirname, '..', idCardPath)`. -/
def fullIdCardPath (env : MailEnv) (idCardPath : JSString) : JSString :=
  pathJoin [env.dirname, lit "..", idCardPath]

/-- The `sendMail` call of `sendIdCardEmail` (lines 62-143). -/
def cardMailOp (env : MailEnv) (player : MailPlayer) (idCardPath : JSString) : MailOp :=
  .sendMail (env.config.senderEmail.orElse (lit "gujaratparasports@gmail.com")) player.email
    (lit "Para_Sports_ID_Card_" ++ player.playerId.toJSString ++ lit ".pdf")
    (fullIdCardPath env idCardPath)

/-- The guarded deletion after a successful send (lines 147-155). -/
def deleteCardFile (env : MailEnv) (path : JSString) : MailRun Unit :=
  MailRun.tryCatch
    (MailRun.bind (existsSync env path) fun present =>
      if present then
        MailRun.bind (mailCall env (.unlinkSync path)) fun _ =>
        mailLog false (lit "ID card PDF deleted successfully: " ++ path)
      else MailRun.ret ())
    (fun _ => mailLog true (lit "Error deleting ID card PDF:"))

/-- Source `await transporter.sendMail(mailOptions)`: the `messageId` of the
object it resolves with. -/
def sendMail (env : MailEnv) (op : MailOp) : MailRun JSString :=
  MailRun.bind (mailCall env op) fun _ tr => (.ok (env.messageId tr), tr)

/-- The statements inside the `try` of `sendIdCardEmail` (lines 46-157). -/
def sendIdCardEmailBody (env : MailEnv) (player : MailPlayer) (idCardPath : JSString) :
    MailRun MailResult :=
  MailRun.bind (createTransporter env) fun transporter =>
  match transporter with
  | none =>
    MailRun.bind (mailLog false (lit "Email not sent to " ++ player.email.toJSString
      ++ lit " - email service not configured")) fun _ =>
    MailRun.ret .notConfigured
  | some _ =>
    MailRun.bind (existsSync env (fullIdCardPath env idCardPath)) fun present =>
    if !present then MailRun.raise ⟨lit "ID card file not found"⟩
    else
      MailRun.bind (sendMail env (cardMailOp env player idCardPath)) fun messageId =>
      MailRun.bind (mailLog false (lit "Email sent successfully:")) fun _ =>
      MailRun.bind (deleteCardFile env (fullIdCardPath env idCardPath)) fun _ =>
      MailRun.ret (.info messageId)

/-- The exported `sendIdCardEmail` (lines 44-164). -/
def sendIdCardEmail (env : MailEnv) (player : MailPlayer) (idCardPath : JSString) :
    MailRun MailResult :=
  MailRun.tryCatch (sendIdCardEmailBody env player idCardPath) fun error =>
    MailRun.bind (mailLog true (lit "Error sending email:")) fun _ =>
    MailRun.ret (.failure (lit "Failed to send email") error.message)

/-- The console lines `createTransporter` writes before it decides. -/
def debugLines : MailTrace :=
  [.log false (lit "=== Email Service Debug ==="), .log false (lit "SENDER_EMAIL:"),
   .log false (lit "EMAIL_PASSWORD:"), .log false (lit "EMAIL_SERVICE:"),
   .log false (lit "Using email config:")]

/-- The `createTransport` call of `createTransporter`. -/
def transportOp (env : MailEnv) : MailOp :=
  .createTransport (env.config.emailService.orElse (lit "gmail"))
    (env.config.senderEmail.orElse (lit "dhruvsumra13@gmail.com"))

/-- The history at which `sendIdCardEmail`, started at `tr`, checks that the
card file exists, when the transporter was created. -/
def checkStart (env : MailEnv) (tr : MailTrace) : MailTrace :=
  tr ++ debugLines ++ [.call (transportOp env) true]

/-- The history at which `sendIdCardEmail`, started at `tr`, calls
`sendMail`, when the card file was found. -/
def sendStart (env : MailEnv) (idCardPath : JSString) (tr : MailTrace) : MailTrace :=
  checkStart env tr ++ [.call (.existsSync (fullIdCardPath env idCardPath)) true]

/-- What `sendIdCardEmail` resolves with in the words of the specification:
the failure object with the message of the first failure among transporter
creation, the existence check and `sendMail`, and otherwise the object that
`sendMail` resolved with. -/
def sendOutcomeSpec (env : MailEnv) (player : MailPlayer) (idCardPath : JSString)
    (tr : MailTrace) : MailResult :=
  match env.raises (tr ++ debugLines) (transportOp env) with
  | some e => .failure (lit "Failed to send email") e.message
  | none =>
    if env.fileExists (checkStart env tr) (fullIdCardPath env idCardPath) = false then
      .failure (lit "Failed to send email") (lit "ID card file not found")
    else
      match env.raises (sendStart env idCardPath tr) (cardMailOp env player idCardPath) with
      | some e => .failure (lit "Failed to send email") e.message
      | none =>
        .info (env.messageId
          (sendStart env idCardPath tr ++ [.call (cardMailOp env player idCardPath) true]))

/-- Whether an event is a deletion. -/
def MailEvent.isUnlink : MailEvent → Bool
  | .call (.unlinkSync _) _ => true
  | _ => false

/-- The events a computation of the mail module appends to a history. -/
def mailEvents {α : Type} (r : MailRun α) (tr : MailTrace) : MailTrace :=
  (r tr).2.drop tr.length

/-- The events of the guarded deletion of `q` begun at history `t`: the
existence check and, if the file is there, the deletion with its console
line. -/
def deleteEvents (env : MailEnv) (q : JSString) (t : MailTrace) : MailTrace :=
  .call (.existsSync q) true ::
    (if env.fileExists t q then
      match env.raises (t ++ [.call (.existsSync q) true]) (.unlinkSync q) with
      | none =>
        [.call (.unlinkSync q) true,
         .log false (lit "ID card PDF deleted successfully: " ++ q)]
      | some _ => [.call (.unlinkSync q) false, .log true (lit "Error deleting ID card PDF:")]
    else [])

/-- The history at which the guarded deletion starts, when `sendMail`
returned. -/
def deleteStart (env : MailEnv) (player : MailPlayer) (idCardPath : JSString)
    (tr : MailTrace) : MailTrace :=
  sendStart env idCardPath tr
    ++ [.call (cardMailOp env player idCardPath) true, .log false (lit "Email sent successfully:")]

/-- An environment in which the card file exists, the mail goes out and
deleting the file is refused. -/
def lockedFileEnv : MailEnv :=
  { dirname := lit "/srv/app/backend/utils",
    config := {},
    raises := fun _ op =>
      match op with
      | .unlinkSync _ => some ⟨lit "EPERM: operation not permitted, unlink"⟩
      | _ => none,
    fileExists := fun _ _ => true,
    messageId := fun _ => lit "<1@mail>" }

/-- An environment in which the card file exists and the mail server
refuses the message. -/
def refusedMailEnv : MailEnv :=
  { dirname := lit "/srv/app/backend/utils",
    config := {},
    raises := fun _ op =>
      match op with
      | .sendMail _ _ _ _ => some ⟨lit "Invalid login"⟩
      | _ => none,
    fileExists := fun _ _ => true,
    messageId := fun _ => lit "<1@mail>" }

/-! ## The OTP store and the search handler (`idcardRoutes.js`, lines 11-125) -/

/-- An entry `{ otp, expiresAt }` of the OTP store. -/
structure OtpEntry where
  otp : JSString
  expiresAt : Nat
deriving DecidableEq, Repr

/-- The object `otpStore`, by its own properties: email to entry. -/
abbrev OtpStore := JSString → Option OtpEntry

/-- Source `delete otpStore[email]`. -/
def OtpStore.erase (store : OtpStore) (email : JSString) : OtpStore :=
  fun k => if k = email then none else store k

/-- The store without entries. -/
def OtpStore.empty : OtpStore := fun _ => none

/-- Source `otpStore[email] = entry`. -/
def OtpStore.set (store : OtpStore) (email : JSString) (entry : OtpEntry) : OtpStore :=
  fun k => if k = email then some entry else store k

/-- The body of a search request. -/
structure SearchRequest where
  playerId : Field := .undefined
  email : Field := .undefined
  otp : Field := .undefined
deriving DecidableEq, Repr

/-- What a handler answers: a status with an `error` text, the player
found, or a `message` text. -/
inductive Reply where
  | error (status : Nat) (error : JSString)
  | player (doc : Player)
  | message (msg : JSString)
deriving DecidableEq, Repr

/-- Everything outside the search handler: the clock and the outcome of
`Player.findOne({ playerId, email })` (raising, `null`, or a document). -/
structure SearchEnv where
  now : Nat
  findOne : Field → Field → Except JSError (Option Player)

/-- The handler of `POST /search` (lines 91-125): the store it leaves and
its answer. -/
def searchHandler (env : SearchEnv) (store : OtpStore) (req : SearchRequest) :
    OtpStore × Reply :=
  if !req.playerId.truthy || !req.email.truthy || !req.otp.truthy then
    (store, .error 400 (lit "Player ID, email, and OTP required"))
  else
    match store req.email.toJSString with
    | none => (store, .error 401 (lit "Invalid or expired OTP"))
    | some otpEntry =>
      if otpEntry.otp ≠ req.otp.toJSString then
        (store, .error 401 (lit "Invalid or expired OTP"))
      else if env.now > otpEntry.expiresAt then
        (store.erase req.email.toJSString, .error 401 (lit "OTP expired"))
      else
        match env.findOne req.playerId req.email with
        | .error _ => (store.erase req.email.toJSString, .error 500 (lit "Database error"))
        | .ok none =>
          (store.erase req.email.toJSString,
           .error 404 (lit "Player not found or email does not match"))
        | .ok (some player) => (store.erase req.email.toJSString, .player player)

/-- A search environment at a time, whose lookup finds nothing. -/
def emptyDbEnv (now : Nat) : SearchEnv := { now := now, findOne := fun _ _ => .ok none }

/-- A store with one entry, for `a@b.in`: code `123456`, expiring at 1000. -/
def oneEntryStore : OtpStore :=
  OtpStore.empty.set (lit "a@b.in") { otp := lit "123456", expiresAt := 1000 }

/-- A request carrying all three fields. -/
def SearchRequest.Complete (req : SearchRequest) : Prop :=
  req.playerId.truthy = true ∧ req.email.truthy = true ∧ req.otp.truthy = true

/-- A request for `a@b.in` with the code `000000`. -/
def wrongCodeRequest : SearchRequest :=
  { playerId := .str (lit "PS20250001"), email := .str (lit "a@b.in"),
    otp := .str (lit "000000") }

/-- A request for `a@b.in` with the code `123456`. -/
def rightCodeRequest : SearchRequest :=
  { playerId := .str (lit "PS20250001"), email := .str (lit "a@b.in"),
    otp := .str (lit "123456") }

/-! ## Number arithmetic (IEEE 754 binary64) -/

/-- The natural number nearest to a nonnegative rational, a tie going to the
even neighbour. -/
def roundHalfEven (x : ℚ) : ℕ :=
  if x - ⌊x⌋₊ < 1 / 2 then ⌊x⌋₊
  else if 1 / 2 < x - ⌊x⌋₊ then ⌊x⌋₊ + 1
  else if ⌊x⌋₊ % 2 = 0 then ⌊x⌋₊ else ⌊x⌋₊ + 1

/-- The binary exponent of a positive rational, not below the exponent -1022
of the subnormal Numbers. -/
def binade (x : ℚ) : ℤ := max (Int.log 2 x) (-1022)

/-- The spacing of the Numbers around a positive rational: 52 binary places
below its leading bit. -/
def ulp (x : ℚ) : ℚ := 2 ^ (binade x - 52)

/-- The Number (IEEE 754 binary64 value) nearest to a nonnegative rational,
ties to the even significand; overflow is out of reach of every value of
this program (all are below 2 ^ 20). -/
def roundDouble (x : ℚ) : ℚ := roundHalfEven (x / ulp x) * ulp x

/-- The Number product `a * b` of nonnegative Numbers. -/
def mulDouble (a b : ℚ) : ℚ := roundDouble (a * b)

/-- The Number sum `a + b` of nonnegative Numbers. -/
def addDouble (a b : ℚ) : ℚ := roundDouble (a + b)

/-- A nonnegative rational that is a Number: rounding leaves it as it is. -/
def IsDouble (x : ℚ) : Prop := roundDouble x = x

/-- The Number written `0.7`: the one nearest to seven tenths. -/
def sevenTenths : ℚ := 6305039478318694 / 9007199254740992

/-! ## The pre-save hook (`Player.js`, lines 228-251) -/

/-- The properties of the document that the pre-save hook reads and writes;
`lastUpdated` is a time in milliseconds. -/
structure PlayerDoc where
  playerId : Field := .undefined
  firstName : Field := .undefined
  lastName : Field := .undefined
  lastUpdated : Option Nat := none
deriving DecidableEq, Repr

/-- Everything outside the hook: the platform `toLowerCase`, the year and
time of `new Date()`, and the value of `Math.random()`, a Number given by
its exact value. -/
structure HookEnv where
  toLowerCase : JSString → JSString
  year : Nat
  random : ℚ
  now : Nat

/-- Source `value?.toLowerCase()`: `undefined` for `undefined` and `null`. -/
def Field.toLowerCase? (lower : JSString → JSString) : Field → Field
  | .str s => .str (lower s)
  | _ => .undefined

/-- Source `s.padStart(n, '0')`. -/
def padStart (n : Nat) (s : JSString) : JSString :=
  List.replicate (n - s.length) 48 ++ s

/-- Source `Math.floor(Math.random() * 10000).toString().padStart(4, '0')`,
the product being the Number product. -/
def randomNum (random : ℚ) : JSString := padStart 4 (decimal ⌊mulDouble random 10000⌋₊)

/-- Whether the lowered names meet the special condition of lines 236-237. -/
def isSpecialName (firstName lastName : Field) : Bool :=
  (firstName = .str (lit "bhavana") || firstName = .str (lit "bhavanaben")
      || firstName = .str (lit "BHAVANBEN"))
    && (lastName = .str (lit "chaudhary") || lastName = .str (lit "CHAUDHARY"))

/-- The pre-save hook: the document as it is saved. -/
def preSave (env : HookEnv) (doc : PlayerDoc) : PlayerDoc :=
  let doc1 :=
    if !doc.playerId.truthy then
      let firstName := doc.firstName.toLowerCase? env.toLowerCase
      let lastName := doc.lastName.toLowerCase? env.toLowerCase
      if isSpecialName firstName lastName then
        { doc with playerId := .str (lit "PS20250001") }
      else
        { doc with playerId := .str (lit "PS" ++ decimal env.year ++ randomNum env.random) }
    else doc
  { doc1 with lastUpdated := some env.now }

/-- Lower case of the letters `A` to `Z`, other code units unchanged. -/
def asciiLower (s : JSString) : JSString :=
  s.map fun u => if 65 ≤ u ∧ u ≤ 90 then u + 32 else u

/-- A save in 2025 at which `Math.random()` returns the given value. -/
def hookEnv (random : ℚ) : HookEnv :=
  { toLowerCase := asciiLower, year := 2025, random := random, now := 1750000000000 }

/-! ## The field loop with the Address entry elsewhere -/

/-- A field list with its Address entry moved to position `k` among the
other entries. -/
def addressAt (k : Nat) (fields : List (JSString × JSString)) : List (JSString × JSString) :=
  (fields.filter fun f => f.1 ≠ lit "Address").take k
    ++ (fields.filter fun f => f.1 = lit "Address")
    ++ (fields.filter fun f => f.1 ≠ lit "Address").drop k

/-- How many times a list of calls draws the label of a field: the text
`label:` with the label width 110. -/
def labelDraws (label : JSString) (ops : List Op) : Nat :=
  ops.countP fun op =>
    match op with
    | .text s _ _ w _ => w == 110 && s == label ++ lit ":"
    | _ => false

/-- How many times a list of calls draws a label at the x coordinate `x`. -/
def labelsAt (x : Nat) (ops : List Op) : Nat :=
  ops.countP fun op =>
    match op with
    | .text _ x1 _ w _ => w == 110 && x1 == x
    | _ => false

/-- The position and width of every text call, in order. -/
def textBoxes (ops : List Op) : List (Nat × Nat × Nat) :=
  ops.filterMap fun op =>
    match op with
    | .text _ x y w _ => some (x, y, w)
    | _ => none

/-- The rows on which a list of calls draws text, in order of first use. -/
def textRows (ops : List Op) : List Nat := ((textBoxes ops).map fun b => b.2.1).dedup

/-! ## The title between the marks -/

/-- The horizontal extent `[x, x + width]` of the box of a text call. -/
def Op.textExtent : Op → Option (Nat × Nat)
  | .text _ x _ w _ => some (x, x + w)
  | _ => none

/-- The horizontal extent `[x, x + width]` of a placed image. -/
def Op.imageExtent : Op → Option (Nat × Nat)
  | .image _ x _ w _ => some (x, x + w)
  | _ => none

/-! ## The graphics state -/

/-- The part of the graphics state the composers change: the current
opacity in hundredths and the opacities put aside by `save`. -/
structure GState where
  opacity : Nat
  saved : List Nat
deriving DecidableEq, Repr

/-- The graphics state after one more event: a returned `save` puts the
current opacity aside, a returned `restore` takes the last one back, a
returned `opacity` sets it; nothing else changes the state. -/
def gstep (s : GState) : Event → GState
  | .call .save true => { opacity := s.opacity, saved := s.opacity :: s.saved }
  | .call .restore true =>
    match s.saved with
    | o :: rest => { opacity := o, saved := rest }
    | [] => s
  | .call (.opacity n) true => { opacity := n, saved := s.saved }
  | _ => s

/-- The graphics state after a stretch of history. -/
def gstateAfter (s : GState) (evs : Trace) : GState := evs.foldl gstep s

/-- The graphics state of a fresh page: opacity 1, nothing saved. -/
def GState.fresh : GState := { opacity := 100, saved := [] }

/-- Placement of the watermark (lines 227 and 368). -/
def watermarkOp (env : Env) : Op := .image (.file (logoPath env)) 150 80 350 none

/-- An event that leaves the graphics state alone and is not a failed
placement of the watermark. -/
def Event.NeutralFor (env : Env) (e : Event) : Prop :=
  (∀ s, gstep s e = s) ∧ e ≠ Event.call (watermarkOp env) false

/-- A stretch of history that leaves every graphics state as it was and
holds no failed placement of the watermark. -/
def Balanced (env : Env) (evs : Trace) : Prop :=
  (∀ s, gstateAfter s evs = s) ∧ Event.call (watermarkOp env) false ∉ evs

/-- The paths of the three asset files of `quietEnv`. -/
def assetFiles : List JSString :=
  [lit "/srv/app/backend/utils/logo1.png", lit "/srv/app/backend/utils/logo2.png",
   lit "/srv/app/backend/fonts/NotoSansGujarati-Regular.ttf"]

/-! ## The OTP request handler (`idcardRoutes.js`, lines 62-88) and `sendEmail` -/

/-- The `sendMail` call of `sendEmail` (`emailService.js`, lines 263-271). -/
def textMailOp (env : MailEnv) (recipient : Field) (subject text : JSString) : MailOp :=
  .sendMailText (env.config.senderEmail.orElse (lit "gujaratparasports@gmail.com")) recipient
    subject text

/-- The statements inside the `try` of `sendEmail` (lines 258-273). -/
def sendEmailBody (env : MailEnv) (recipient : Field) (subject text : JSString) :
    MailRun MailResult :=
  MailRun.bind (createTransporter env) fun transporter =>
  match transporter with
  | none =>
    MailRun.bind (mailLog false (lit "Email not sent to " ++ recipient.toJSString
      ++ lit " - email service not configured")) fun _ =>
    MailRun.ret .notConfigured
  | some _ =>
    MailRun.bind (sendMail env (textMailOp env recipient subject text)) fun messageId =>
    MailRun.bind (mailLog false (lit "Email sent successfully:")) fun _ =>
    MailRun.ret (.info messageId)

/-- The exported `sendEmail` (lines 256-278). -/
def sendEmail (env : MailEnv) (recipient : Field) (subject text : JSString) :
    MailRun MailResult :=
  MailRun.tryCatch (sendEmailBody env recipient subject text) fun error =>
    MailRun.bind (mailLog true (lit "Error sending email:")) fun _ =>
    MailRun.ret (.failure (lit "Failed to send email") error.message)

/-- Everything outside the handler of `POST /send-otp`: the clock, the value
of `Math.random()` (a Number given by its exact value), the outcome of `Player.findOne({ email })` (raising,
`null`, or a document) and the environment of the mail module. -/
structure OtpEnv where
  now : Nat
  random : ℚ
  findByEmail : Field → Except JSError (Option Player)
  mail : MailEnv

/-- Source `Math.floor(100000 + Math.random() * 900000).toString()`, the
product and the sum being the Number product and sum. -/
def otpCode (random : ℚ) : JSString :=
  decimal ⌊addDouble 100000 (mulDouble random 900000)⌋₊

/-- The text of the OTP message. -/
def otpMailText (otp : JSString) : JSString :=
  lit "Your OTP is: " ++ otp ++ lit ". It is valid for 5 minutes."

/-- The handler of `POST /send-otp` (lines 63-88) for the `email` of the
request body: its answer (or the error with which it rejects), the store it
leaves, and the history of the mail module. -/
def sendOtpHandler (env : OtpEnv) (store : OtpStore) (email : Field) (tr : MailTrace) :
    Except JSError Reply × OtpStore × MailTrace :=
  if !email.truthy then (.ok (.error 400 (lit "Email is required")), store, tr)
  else
    match env.findByEmail email with
    | .error e => (.error e, store, tr)
    | .ok none => (.ok (.error 404 (lit "No player found with this email")), store, tr)
    | .ok (some _) =>
      let otp := otpCode env.random
      let expiresAt := env.now + 5 * 60 * 1000
      let store1 := store.set email.toJSString { otp := otp, expiresAt := expiresAt }
      match sendEmail env.mail email (lit "Your OTP for Para Sports ID Card Details")
          (otpMailText otp) tr with
      | (.ok _, tr1) => (.ok (.message (lit "OTP sent to email")), store1, tr1)
      | (.error _, tr1) =>
        (.ok (.error 500 (lit "Failed to send OTP email")), store1,
         tr1 ++ [.log true (lit "Failed to send OTP email:")])

/-- What the OTP verification of the search handler (lines 96-106) decides
for an email and a code at a time. -/
inductive OtpVerdict where
  | invalid
  | expired
  | verified
deriving DecidableEq, Repr

/-- The OTP verification of the search handler (lines 96-106) on its own. -/
def otpVerdict (store : OtpStore) (email code : JSString) (now : Nat) : OtpVerdict :=
  match store email with
  | none => .invalid
  | some otpEntry =>
    if otpEntry.otp ≠ code then .invalid
    else if now > otpEntry.expiresAt then .expired
    else .verified

/-- The input pattern of the client form: `[0-9]{6}` with `minLength` and
`maxLength` 6 (`IdCardDetails.jsx`, lines 121-132). -/
def matchesOtpPattern (s : JSString) : Bool :=
  s.length == 6 && s.all fun u => 48 ≤ u && u ≤ 57

/-- A request to one of the two OTP routes, with the environment it meets. -/
inductive OtpRequest where
  | search (env : SearchEnv) (req : SearchRequest)
  | sendOtp (env : OtpEnv) (email : Field) (tr : MailTrace)

/-- The store a request leaves. -/
def storeAfter (store : OtpStore) : OtpRequest → OtpStore
  | .search env req => (searchHandler env store req).1
  | .sendOtp env email tr => (sendOtpHandler env store email tr).2.1

/-- The store a sequence of requests leaves. -/
def storeAfterAll (store : OtpStore) (reqs : List OtpRequest) : OtpStore :=
  reqs.foldl storeAfter store

/-- Whether a request is a `/send-otp` request for the email `key`. -/
def OtpRequest.isSendOtpFor (key : JSString) : OtpRequest → Bool
  | .sendOtp _ email _ => decide (email = .str key)
  | .search _ _ => false

/-- A mail environment in which the server refuses every plain message. -/
def refusedTextEnv : MailEnv :=
  { dirname := lit "/srv/app/backend/utils",
    config := {},
    raises := fun _ op =>
      match op with
      | .sendMailText _ _ _ _ => some ⟨lit "Invalid login"⟩
      | _ => none,
    fileExists := fun _ _ => true,
    messageId := fun _ => lit "<1@mail>" }

/-- A mail environment in which creating the transporter raises. -/
def noTransportEnv : MailEnv :=
  { dirname := lit "/srv/app/backend/utils",
    config := {},
    raises := fun _ op =>
      match op with
      | .createTransport _ _ => some ⟨lit "Missing credentials"⟩
      | _ => none,
    fileExists := fun _ _ => true,
    messageId := fun _ => lit "<1@mail>" }

/-- An OTP environment at a time with a draw and a mail environment; every
email belongs to the demo player. -/
def otpEnv (now : Nat) (random : ℚ) (mail : MailEnv) : OtpEnv :=
  { now := now, random := random, findByEmail := fun _ => .ok (some demoPlayer), mail := mail }

/-- A request for `a@b.in` without a code. -/
def noCodeRequest : SearchRequest :=
  { playerId := .str (lit "PS20250001"), email := .str (lit "a@b.in") }

/-! ## The `age` virtual (`Player.js`, lines 258-270) -/

/-- A date as the getters of `Date` give it: `getFullYear()`, `getMonth()`
and `getDate()`. -/
structure CalendarDate where
  year : Int
  month : Int
  day : Int
deriving DecidableEq, Repr

/-- The `age` virtual for the date of `new Date()` and the date of
`new Date(this.dateOfBirth)`. -/
def age (today birthDate : CalendarDate) : Int :=
  let age := today.year - birthDate.year
  let monthDiff := today.month - birthDate.month
  if monthDiff < 0 ∨ (monthDiff = 0 ∧ today.day < birthDate.day) then age - 1 else age

/-- The date `a` is not after the date `b`. -/
def CalendarDate.NotAfter (a b : CalendarDate) : Prop :=
  a.year < b.year ∨ (a.year = b.year ∧ (a.month < b.month ∨ (a.month = b.month ∧ a.day ≤ b.day)))

/-- The month and day of `today` come before the month and day of
`birthDate`. -/
def CalendarDate.BeforeBirthday (today birthDate : CalendarDate) : Prop :=
  today.month < birthDate.month ∨ (today.month = birthDate.month ∧ today.day < birthDate.day)

/-! ## The pre-save hook in the words of the specification -/

/-- Whether a name equals `s` when both are compared without regard to
case. -/
def equalsIgnoreCase (lower : JSString → JSString) (name : Field) (s : JSString) : Bool :=
  match name with
  | .str v => decide (lower v = lower s)
  | _ => false

/-- The four decimal digits of a number below 10000, zeros in front. -/
def fourDigits (n : Nat) : JSString :=
  [digitUnit (n / 1000 % 10), digitUnit (n / 100 % 10), digitUnit (n / 10 % 10),
   digitUnit (n % 10)]

/-- The reference definition of the hook's result: a non-empty ID stays;
otherwise the special names get `PS20250001` and every other record gets
`PS`, the four digits of the year and the four digits of
`floor(random * 10000)`, the product of the draw and 10000 being the Number
product; `lastUpdated` becomes the current time. -/
def preSaveSpec (env : HookEnv) (doc : PlayerDoc) : PlayerDoc :=
  { playerId :=
      if doc.playerId.truthy then doc.playerId
      else if (equalsIgnoreCase env.toLowerCase doc.firstName (lit "bhavana")
            || equalsIgnoreCase env.toLowerCase doc.firstName (lit "bhavanaben"))
          && equalsIgnoreCase env.toLowerCase doc.lastName (lit "chaudhary") then
        .str (lit "PS20250001")
      else .str (lit "PS" ++ fourDigits env.year
        ++ fourDigits ⌊mulDouble env.random 10000⌋₊),
    firstName := doc.firstName,
    lastName := doc.lastName,
    lastUpdated := some env.now }

/-- What the hook relies on in the platform `toLowerCase`: its result has
none of the letters `A` to `Z`, and it leaves a string of the letters `a` to
`z` as it is. -/
def LowerCaseOk (lower : JSString → JSString) : Prop :=
  (∀ s, ∀ u ∈ lower s, ¬ (65 ≤ u ∧ u ≤ 90))
  ∧ (∀ s, (∀ u ∈ s, 97 ≤ u ∧ u ≤ 122) → lower s = s)

/-- A record saved without a player ID. -/
def newDoc : PlayerDoc := { firstName := .str (lit "ASHA"), lastName := .str (lit "PATEL") }

/-- A record whose player ID contains parent-directory segments. -/
def traversalPlayer : Player := { playerId := .str (lit "x/../../../tmp/evil") }

/-- The cell of each entry of `profileFields`, in the order of the list:
the x coordinate of its label, its row and the width of its value. -/
def profileCells : List (Nat × Nat × Nat) :=
  [(200, 135, 90), (420, 135, 90), (200, 173, 90), (420, 173, 90), (200, 211, 90),
   (200, 249, 300)]

/-- The drawing calls other than the selection of the registered font. -/
def Op.isPlainDrawing (op : Op) : Bool := op.isDrawing && decide (op ≠ .font "Unicode")

/-- Every call that neither loads an asset nor selects the registered
font. -/
def Op.isFontFree (op : Op) : Bool := !op.isAssetLoad && decide (op ≠ .font "Unicode")

/-- An environment in which the font file exists and its registration
returns, but selecting the font raises (the library reads a registered file
only when the font is selected), while nothing else raises. -/
def badFontEnv : Env :=
  { dirname := lit "/srv/app/backend/utils",
    fileExists := fun f => decide (f ∈ fontFiles),
    now := 1700000000000,
    toLocale := fun _ => lit "01/06/1998",
    raises := fun _ op =>
      if op = .font "Unicode" then some ⟨lit "Unknown font format"⟩ else none }

/-! ## The output stream before its listeners are attached (lines 46-64) -/

/-- What becomes of one call of `generateIdCard`: its promise is fulfilled
with the storage path, or rejected with an error, or an `error` event of the
output stream met no listener and was thrown by the event loop as an
uncaught exception, outside the promise: the caller then receives neither a
path nor the error of the `catch`. -/
inductive Outcome where
  | returned (path : JSString)
  | failed (e : JSError)
  | unhandled (e : JSError)
deriving DecidableEq, Repr

/-- Whether an event is a wait for the QR encoder (`await QRCode.toDataURL`,
lines 309 and 330), fulfilled or rejected: the only points before line 61 at
which the generator yields to the event loop. -/
def Event.isQrWait : Event → Bool
  | .call (.qrToDataURL _ _) _ => true
  | _ => false

/-- The waits of a stretch of history: the stretch up to and including each
wait for the QR encoder, `done` being the part already passed. -/
def waitsOf (done : Trace) : Trace → List Trace
  | [] => []
  | e :: rest => (if e.isQrWait then [done ++ [e]] else []) ++ waitsOf (done ++ [e]) rest

/-- Whether, in a stretch of history, the output stream has been created
(line 46) while the wait of lines 61-64, which attaches the `finish` and
`error` listeners, has not been reached. -/
def streamUnlistened (evs : Trace) : Bool :=
  evs.any (fun e => match e with
    | .call (.createWriteStream _) true => true
    | _ => false)
  && !evs.any (fun e => match e with
    | .call .awaitFinish _ => true
    | _ => false)

/-- The first `error` event that the output stream emits during a wait of
the stretch `evs`, appended to the history `tr`, at which the stream has no
listener; with the history at which it is emitted. -/
def earlyStreamError (env : Env) (tr evs : Trace) : Option (JSError × Trace) :=
  (waitsOf [] evs).findSome? fun s =>
    if streamUnlistened s then (env.streamError (tr ++ s)).map fun e => (e, tr ++ s)
    else none

/-- One call of `generateIdCard` as its caller sees it: an `error` event of
the output stream that arrives while the generator waits for the QR encoder
is unhandled, since `stream.on('error', reject)` is attached only at line 63,
after `await drawBackSide`; otherwise the promise settles as the statements
of the function settle it. -/
def generateIdCardCall (env : Env) (p : Player) (tr : Trace) : Outcome × Trace :=
  match earlyStreamError env tr (newEvents (generateIdCard env p) tr) with
  | some (e, t) => (.unhandled e, t)
  | none =>
    match generateIdCard env p tr with
    | (.ok path, t) => (.returned path, t)
    | (.error e, t) => (.failed e, t)

/-- An environment in which no call raises, but the output file cannot be
opened (the cards directory is gone): once the stream is created it emits
`error` at the next turn of the event loop. -/
def closedDirEnv : Env :=
  { dirname := lit "/srv/app/backend/utils",
    fileExists := fun _ => false,
    now := 1700000000000,
    toLocale := fun _ => lit "01/06/1998",
    raises := fun _ _ => none,
    streamError := fun t =>
      if t.any (fun e => match e with
          | .call (.createWriteStream _) true => true
          | _ => false)
      then some ⟨lit "ENOENT: no such file or directory, open"⟩ else none }

/-- An environment in which no call raises and the stream emits `error` only
once its listeners are attached: the wait of lines 61-64 is rejected. -/
def lateStreamErrorEnv : Env :=
  { dirname := lit "/srv/app/backend/utils",
    fileExists := fun _ => false,
    now := 1700000000000,
    toLocale := fun _ => lit "01/06/1998",
    raises := fun _ op =>
      if op = .awaitFinish then some ⟨lit "ENOSPC: no space left on device, write"⟩ else none }

/-! ## Generic lemmas -/

theorem emit_snd (env : Env) (op : Op) (tr : Trace) :
    (emit env op tr).2 = tr ++ [Event.call op (env.raises tr op).isNone] := by
  unfold emit
  cases h : env.raises tr op <;> simp

theorem emit_quiet (env : Env) (op : Op) (tr : Trace) (h : env.raises tr op = none) :
    emit env op tr = (.ok (), tr ++ [Event.call op true]) := by
  simp [emit, h]

theorem emit_raises (env : Env) (op : Op) (tr : Trace) (e : JSError)
    (h : env.raises tr op = some e) :
    emit env op tr = (.error e, tr ++ [Event.call op false]) := by
  simp [emit, h]

theorem seq_of_ok {β : Type} (r : Run Unit) (k : Run β) (tr tr1 : Trace)
    (h : r tr = (.ok (), tr1)) : Run.seq r k tr = k tr1 := by
  simp [Run.seq, Run.bind, h]

theorem seq_of_error {β : Type} (r : Run Unit) (k : Run β) (tr tr1 : Trace) (e : JSError)
    (h : r tr = (.error e, tr1)) : Run.seq r k tr = (.error e, tr1) := by
  simp [Run.seq, Run.bind, h]

theorem bind_of_ok {α β : Type} (r : Run α) (k : α → Run β) (tr tr1 : Trace) (a : α)
    (h : r tr = (.ok a, tr1)) : Run.bind r k tr = k a tr1 := by
  simp [Run.bind, h]

theorem bind_of_error {α β : Type} (r : Run α) (k : α → Run β) (tr tr1 : Trace) (e : JSError)
    (h : r tr = (.error e, tr1)) : Run.bind r k tr = (.error e, tr1) := by
  simp [Run.bind, h]

theorem tryCatch_of_ok {α : Type} (b : Run α) (hd : JSError → Run α) (tr tr1 : Trace) (a : α)
    (h : b tr = (.ok a, tr1)) : Run.tryCatch b hd tr = (.ok a, tr1) := by
  simp [Run.tryCatch, h]

theorem tryCatch_of_error {α : Type} (b : Run α) (hd : JSError → Run α) (tr tr1 : Trace)
    (e : JSError) (h : b tr = (.error e, tr1)) : Run.tryCatch b hd tr = hd e tr1 := by
  simp [Run.tryCatch, h]

/-- Case analysis on the outcome of a run. -/
theorem run_cases {α : Type} (r : Run α) (tr : Trace) :
    (∃ a tr1, r tr = (.ok a, tr1)) ∨ (∃ e tr1, r tr = (.error e, tr1)) := by
  rcases h : r tr with ⟨res, tr1⟩
  cases res with
  | ok a => exact Or.inl ⟨a, tr1, rfl⟩
  | error e => exact Or.inr ⟨e, tr1, rfl⟩

/-! ### `Confined` -/

theorem confined_ret {α : Type} (S : Event → Prop) (a : α) : Confined S (Run.ret a) :=
  fun tr => ⟨[], by simp [Run.ret], by simp⟩

theorem confined_raise {α : Type} (S : Event → Prop) (e : JSError) :
    Confined S (Run.raise e : Run α) :=
  fun tr => ⟨[], by simp [Run.raise], by simp⟩

theorem confined_logLine (S : Event → Prop) (b : Bool) (msg : JSString)
    (h : S (Event.log b msg)) : Confined S (logLine b msg) :=
  fun tr => ⟨[Event.log b msg], by simp [IdCard.logLine], by simpa using h⟩

theorem confined_emit (S : Event → Prop) (env : Env) (op : Op)
    (h : ∀ ok, S (Event.call op ok)) : Confined S (emit env op) :=
  fun tr => ⟨[Event.call op (env.raises tr op).isNone], emit_snd env op tr, by simpa using h _⟩

theorem confined_bind {α β : Type} (S : Event → Prop) (r : Run α) (k : α → Run β)
    (hr : Confined S r) (hk : ∀ a, Confined S (k a)) : Confined S (Run.bind r k) := by
  intro tr
  obtain ⟨evs, h1, h2⟩ := hr tr
  rcases run_cases r tr with ⟨a, tr1, h⟩ | ⟨e, tr1, h⟩
  · rw [bind_of_ok r k tr tr1 a h]
    rw [h] at h1
    obtain ⟨evs2, h3, h4⟩ := hk a tr1
    refine ⟨evs ++ evs2, ?_, ?_⟩
    · rw [h3]; simp only at h1; rw [h1, List.append_assoc]
    · intro e he
      rcases List.mem_append.mp he with h | h
      · exact h2 e h
      · exact h4 e h
  · rw [bind_of_error r k tr tr1 e h]
    rw [h] at h1
    exact ⟨evs, h1, h2⟩

theorem confined_seq {β : Type} (S : Event → Prop) (r : Run Unit) (k : Run β)
    (hr : Confined S r) (hk : Confined S k) : Confined S (Run.seq r k) :=
  confined_bind S r (fun _ => k) hr (fun _ => hk)

theorem confined_tryCatch {α : Type} (S : Event → Prop) (b : Run α) (hd : JSError → Run α)
    (hb : Confined S b) (hh : ∀ e, Confined S (hd e)) : Confined S (Run.tryCatch b hd) := by
  intro tr
  obtain ⟨evs, h1, h2⟩ := hb tr
  rcases run_cases b tr with ⟨a, tr1, h⟩ | ⟨e, tr1, h⟩
  · rw [tryCatch_of_ok b hd tr tr1 a h]
    rw [h] at h1
    exact ⟨evs, h1, h2⟩
  · rw [tryCatch_of_error b hd tr tr1 e h]
    rw [h] at h1
    obtain ⟨evs2, h3, h4⟩ := hh e tr1
    refine ⟨evs ++ evs2, ?_, ?_⟩
    · rw [h3]; simp only at h1; rw [h1, List.append_assoc]
    · intro e he
      rcases List.mem_append.mp he with h | h
      · exact h2 e h
      · exact h4 e h

theorem confined_emitAll (S : Event → Prop) (env : Env) (ops : List Op)
    (h : ∀ op ∈ ops, ∀ ok, S (Event.call op ok)) : Confined S (emitAll env ops) := by
  induction ops with
  | nil => exact confined_ret S ()
  | cons op rest ih =>
    exact confined_seq S _ _ (confined_emit S env op (h op (List.mem_cons_self _ _)))
      (ih fun o ho => h o (List.mem_cons_of_mem _ ho))

theorem confined_seqAll (S : Event → Prop) (rs : List (Run Unit))
    (h : ∀ r ∈ rs, Confined S r) : Confined S (seqAll rs) := by
  induction rs with
  | nil => exact confined_ret S ()
  | cons r rest ih =>
    exact confined_seq S _ _ (h r (List.mem_cons_self _ _))
      (ih fun o ho => h o (List.mem_cons_of_mem _ ho))

theorem confined_mono {α : Type} (S T : Event → Prop) (r : Run α) (h : Confined S r)
    (hST : ∀ e, S e → T e) : Confined T r := by
  intro tr
  obtain ⟨evs, h1, h2⟩ := h tr
  exact ⟨evs, h1, fun e he => hST e (h2 e he)⟩

/-! ### `Good` -/

theorem good_ret (S : Event → Prop) : Good S (Run.ret ()) :=
  fun tr => ⟨[], by simp [Run.ret], by simp⟩

theorem good_logLine (S : Event → Prop) (b : Bool) (msg : JSString)
    (h : S (Event.log b msg)) : Good S (logLine b msg) :=
  fun tr => ⟨[Event.log b msg], by simp [IdCard.logLine], by simpa using h⟩

theorem good_emit (S : Event → Prop) (env : Env) (op : Op)
    (hq : ∀ tr, env.raises tr op = none) (h : S (Event.call op true)) :
    Good S (emit env op) :=
  fun tr => ⟨[Event.call op true], emit_quiet env op tr (hq tr), by simpa using h⟩

theorem good_seq (S : Event → Prop) (r k : Run Unit)
    (hr : Good S r) (hk : Good S k) : Good S (Run.seq r k) := by
  intro tr
  obtain ⟨evs, h1, h2⟩ := hr tr
  obtain ⟨evs2, h3, h4⟩ := hk (tr ++ evs)
  refine ⟨evs ++ evs2, ?_, ?_⟩
  · rw [seq_of_ok r k tr _ h1, h3, List.append_assoc]
  · intro e he
    rcases List.mem_append.mp he with h | h
    · exact h2 e h
    · exact h4 e h

theorem good_emitAll (S : Event → Prop) (env : Env) (ops : List Op)
    (hq : ∀ op ∈ ops, ∀ tr, env.raises tr op = none)
    (h : ∀ op ∈ ops, S (Event.call op true)) : Good S (emitAll env ops) := by
  induction ops with
  | nil => exact good_ret S
  | cons op rest ih =>
    exact good_seq S _ _
      (good_emit S env op (hq op (List.mem_cons_self _ _)) (h op (List.mem_cons_self _ _)))
      (ih (fun o ho => hq o (List.mem_cons_of_mem _ ho))
        (fun o ho => h o (List.mem_cons_of_mem _ ho)))

theorem good_seqAll (S : Event → Prop) (rs : List (Run Unit))
    (h : ∀ r ∈ rs, Good S r) : Good S (seqAll rs) := by
  induction rs with
  | nil => exact good_ret S
  | cons r rest ih =>
    exact good_seq S _ _ (h r (List.mem_cons_self _ _))
      (ih fun o ho => h o (List.mem_cons_of_mem _ ho))

/-- A guarded block always returns when its handler does. -/
theorem good_tryCatch (S : Event → Prop) (b : Run Unit) (hd : JSError → Run Unit)
    (hb : Confined S b) (hh : ∀ e, Good S (hd e)) : Good S (Run.tryCatch b hd) := by
  intro tr
  obtain ⟨evs, h1, h2⟩ := hb tr
  rcases run_cases b tr with ⟨a, tr1, h⟩ | ⟨e, tr1, h⟩
  · rw [tryCatch_of_ok b hd tr tr1 a h]
    rw [h] at h1
    simp only at h1
    exact ⟨evs, by rw [h1], h2⟩
  · rw [tryCatch_of_error b hd tr tr1 e h]
    rw [h] at h1
    simp only at h1
    obtain ⟨evs2, h3, h4⟩ := hh e tr1
    refine ⟨evs ++ evs2, ?_, ?_⟩
    · rw [h3, h1, List.append_assoc]
    · intro e he
      rcases List.mem_append.mp he with h | h
      · exact h2 e h
      · exact h4 e h

theorem good_confined (S : Event → Prop) (r : Run Unit) (h : Good S r) : Confined S r := by
  intro tr
  obtain ⟨evs, h1, h2⟩ := h tr
  exact ⟨evs, by rw [h1], h2⟩

/-! ### `Must` -/

theorem must_emitAll (env : Env) (ops : List Op) (op : Op) (h : op ∈ ops) :
    Must (Event.call op true) (emitAll env ops) := by
  induction ops with
  | nil => simp at h
  | cons o rest ih =>
    intro tr a hok
    rcases ho : env.raises tr o with _ | e
    · have h1 := emit_quiet env o tr ho
      simp only [IdCard.emitAll] at hok ⊢
      rw [seq_of_ok _ _ tr _ h1] at hok ⊢
      rcases List.mem_cons.mp h with h | h
      · obtain ⟨evs, h2, _⟩ := confined_emitAll (fun _ => True) env rest (by simp) (tr ++ [Event.call o true])
        exact ⟨Event.call o true :: evs, by rw [h2]; simp, by simp [h]⟩
      · obtain ⟨evs, h2, h3⟩ := ih h (tr ++ [Event.call o true]) a hok
        exact ⟨Event.call o true :: evs, by rw [h2]; simp, List.mem_cons_of_mem _ h3⟩
    · have h1 := emit_raises env o tr e ho
      simp only [IdCard.emitAll] at hok
      rw [seq_of_error _ _ tr _ e h1] at hok
      simp at hok

theorem must_seq_left {β : Type} (e0 : Event) (r : Run Unit) (k : Run β)
    (hr : Must e0 r) (hk : Confined (fun _ => True) k) : Must e0 (Run.seq r k) := by
  intro tr a hok
  rcases run_cases r tr with ⟨u, tr1, h⟩ | ⟨e, tr1, h⟩
  · obtain ⟨evs, h1, h2⟩ := hr tr u (by rw [h])
    rw [h] at h1
    simp only at h1
    obtain ⟨evs2, h3, _⟩ := hk tr1
    rw [seq_of_ok r k tr tr1 h]
    exact ⟨evs ++ evs2, by rw [h3, h1, List.append_assoc], List.mem_append_left _ h2⟩
  · rw [seq_of_error r k tr tr1 e h] at hok
    simp at hok

theorem must_seq_right {β : Type} (e0 : Event) (r : Run Unit) (k : Run β)
    (hr : Confined (fun _ => True) r) (hk : Must e0 k) : Must e0 (Run.seq r k) := by
  intro tr a hok
  rcases run_cases r tr with ⟨u, tr1, h⟩ | ⟨e, tr1, h⟩
  · obtain ⟨evs, h1, _⟩ := hr tr
    rw [h] at h1
    simp only at h1
    rw [seq_of_ok r k tr tr1 h] at hok ⊢
    obtain ⟨evs2, h3, h4⟩ := hk tr1 a hok
    exact ⟨evs ++ evs2, by rw [h3, h1, List.append_assoc], List.mem_append_right _ h4⟩
  · rw [seq_of_error r k tr tr1 e h] at hok
    simp at hok

theorem must_seqAll (e0 : Event) (rs : List (Run Unit)) (r0 : Run Unit)
    (hall : ∀ r ∈ rs, Confined (fun _ => True) r) (hmem : r0 ∈ rs) (h0 : Must e0 r0) :
    Must e0 (seqAll rs) := by
  induction rs with
  | nil => simp at hmem
  | cons r rest ih =>
    have hrest : Confined (fun _ => True) (IdCard.seqAll rest) :=
      confined_seqAll _ rest fun o ho => hall o (List.mem_cons_of_mem _ ho)
    rcases List.mem_cons.mp hmem with h | h
    · subst h
      exact must_seq_left e0 _ _ h0 hrest
    · exact must_seq_right e0 _ _ (hall r (List.mem_cons_self _ _))
        (ih (fun o ho => hall o (List.mem_cons_of_mem _ ho)) h)

/-! ### `FailsAtCall` -/

theorem failsAtCall_ret {α : Type} (env : Env) (a : α) : FailsAtCall env (Run.ret a) := by
  intro tr e h
  simp [Run.ret] at h

theorem failsAtCall_logLine (env : Env) (b : Bool) (msg : JSString) :
    FailsAtCall env (logLine b msg) := by
  intro tr e h
  simp [IdCard.logLine] at h

theorem failsAtCall_emit (env : Env) (op : Op) : FailsAtCall env (emit env op) := by
  intro tr e h
  rcases ho : env.raises tr op with _ | e1
  · rw [emit_quiet env op tr ho] at h
    simp at h
  · rw [emit_raises env op tr e1 ho] at h ⊢
    simp only [Except.error.injEq] at h
    subst h
    exact ⟨tr, op, rfl, ho⟩

theorem failsAtCall_bind {α β : Type} (env : Env) (r : Run α) (k : α → Run β)
    (hr : FailsAtCall env r) (hk : ∀ a, FailsAtCall env (k a)) :
    FailsAtCall env (Run.bind r k) := by
  intro tr e h
  rcases run_cases r tr with ⟨a, tr1, h1⟩ | ⟨e1, tr1, h1⟩
  · rw [bind_of_ok r k tr tr1 a h1] at h ⊢
    exact hk a tr1 e h
  · rw [bind_of_error r k tr tr1 e1 h1] at h ⊢
    simp only [Except.error.injEq] at h
    subst h
    have := hr tr e1 (by rw [h1])
    rw [h1] at this
    exact this

theorem failsAtCall_seq {β : Type} (env : Env) (r : Run Unit) (k : Run β)
    (hr : FailsAtCall env r) (hk : FailsAtCall env k) : FailsAtCall env (Run.seq r k) :=
  failsAtCall_bind env r (fun _ => k) hr (fun _ => hk)

theorem failsAtCall_tryCatch {α : Type} (env : Env) (b : Run α) (hd : JSError → Run α)
    (hh : ∀ e, FailsAtCall env (hd e)) : FailsAtCall env (Run.tryCatch b hd) := by
  intro tr e h
  rcases run_cases b tr with ⟨a, tr1, h1⟩ | ⟨e1, tr1, h1⟩
  · rw [tryCatch_of_ok b hd tr tr1 a h1] at h
    simp at h
  · rw [tryCatch_of_error b hd tr tr1 e1 h1] at h ⊢
    exact hh e1 tr1 e h

theorem failsAtCall_emitAll (env : Env) (ops : List Op) : FailsAtCall env (emitAll env ops) := by
  induction ops with
  | nil => exact failsAtCall_ret env ()
  | cons op rest ih => exact failsAtCall_seq env _ _ (failsAtCall_emit env op) ih

theorem failsAtCall_seqAll (env : Env) (rs : List (Run Unit))
    (h : ∀ r ∈ rs, FailsAtCall env r) : FailsAtCall env (seqAll rs) := by
  induction rs with
  | nil => exact failsAtCall_ret env ()
  | cons r rest ih =>
    exact failsAtCall_seq env _ _ (h r (List.mem_cons_self _ _))
      (ih fun o ho => h o (List.mem_cons_of_mem _ ho))

/-! ## The composers stay within their calls -/

theorem confined_ite {α : Type} (S : Event → Prop) (c : Prop) [Decidable c] (r k : Run α)
    (hr : Confined S r) (hk : Confined S k) : Confined S (if c then r else k) := by
  split
  · exact hr
  · exact hk

theorem layoutOps_profileFields (env : Env) (p : Player) :
    layoutOps (profileFields env p) =
      cellOps (lit "Name") (p.firstName.toJSString ++ lit " " ++ p.lastName.toJSString) 200 135 90
      ++ cellOps (lit "DOB") (dobText env.toLocale p) 420 135 90
      ++ cellOps (lit "Gender") (p.gender.orElse []) 200 173 90
      ++ cellOps (lit "Passport Number") (p.passportNumber.orElse []) 420 173 90
      ++ cellOps (lit "Primary Sport") (p.primarySport.orElse []) 200 211 90
      ++ cellOps (lit "Address") ((p.addr (·.street)).orElse [] ++ lit ", "
          ++ (p.addr (·.city)).orElse [] ++ lit ", " ++ (p.addr (·.state)).orElse [] ++ lit ", "
          ++ (p.addr (·.postalCode)).orElse []) 200 249 300 := by
  rfl

theorem frontBlocks_confined (S : Event → Prop) (env : Env) (p : Player) (u : Bool)
    (hops : ∀ op ∈ frontOps env p u, ∀ ok, S (Event.call op ok))
    (hlog : ∀ b m, S (Event.log b m)) : ∀ r ∈ frontBlocks env p u, Confined S r := by
  have hall : ∀ ops : List Op, (∀ op ∈ ops, op ∈ frontOps env p u) →
      Confined S (emitAll env ops) :=
    fun ops h => confined_emitAll S env ops fun op ho ok => hops op (h op ho) ok
  have hone : ∀ op : Op, op ∈ frontOps env p u → Confined S (emit env op) :=
    fun op h => confined_emit S env op fun ok => hops op h ok
  intro r hr
  simp only [frontBlocks, frontBefore, frontAfter, List.cons_append, List.nil_append,
    List.mem_cons, List.mem_singleton, List.not_mem_nil, or_false] at hr
  rcases hr with rfl | rfl | rfl | rfl | rfl | rfl | rfl | rfl
  · exact hall _ (by intro op ho; simp [frontOps, frontBeforeOps, photoBlockOps, frontAfterOps, ho])
  · unfold drawLogos
    refine confined_tryCatch S _ _ (confined_seq S _ _ (confined_ite S _ _ _ ?_ ?_)
      (confined_ite S _ _ _ ?_ ?_)) (fun _ => confined_logLine S _ _ (hlog _ _))
    · exact hone _ (by simp [frontOps, frontBeforeOps, photoBlockOps, frontAfterOps])
    · exact confined_logLine S _ _ (hlog _ _)
    · exact hone _ (by simp [frontOps, frontBeforeOps, photoBlockOps, frontAfterOps])
    · exact confined_logLine S _ _ (hlog _ _)
  · exact hall _ (by intro op ho; simp [frontOps, frontBeforeOps, photoBlockOps, frontAfterOps, ho])
  · unfold drawPhoto
    apply confined_seqAll
    intro r hr
    simp only [List.mem_cons, List.mem_singleton, List.not_mem_nil, or_false] at hr
    have hph : Confined S (emitAll env placeholderOps) :=
      hall _ (by intro op ho; simp [frontOps, frontBeforeOps, photoBlockOps, frontAfterOps, ho])
    rcases hr with rfl | rfl | rfl
    · exact hall _ (by intro op ho; simp only [frontOps, frontBeforeOps, photoBlockOps, frontAfterOps, List.mem_append]; tauto)
    · refine confined_tryCatch S _ _ ?_ (fun _ => hph)
      unfold photoBody
      split
      · rename_i s hs
        refine confined_ite S _ _ _ hph (confined_ite S _ _ _ ?_ hph)
        exact hone _ (by simp [frontOps, frontBeforeOps, photoBlockOps, frontAfterOps, hs])
      · exact hph
    · exact hone _ (by simp [frontOps, frontBeforeOps, photoBlockOps, frontAfterOps])
  · exact hall _ (by intro op ho; simp [frontOps, frontBeforeOps, photoBlockOps, frontAfterOps, ho])
  · exact hall _ (by intro op ho; simp [frontOps, frontBeforeOps, photoBlockOps, frontAfterOps, ho])
  · unfold drawFooter
    refine confined_seq S _ _ (hall _ (by intro op ho; simp [frontOps, frontBeforeOps, photoBlockOps, frontAfterOps, ho]))
      (confined_tryCatch S _ _ (hall _ (by intro op ho; simp [frontOps, frontBeforeOps, photoBlockOps, frontAfterOps, ho]))
        (fun _ => confined_logLine S _ _ (hlog _ _)))
  · unfold drawWatermark
    refine confined_tryCatch S _ _ (confined_ite S _ _ _ ?_ (confined_ret S ()))
      (fun _ => confined_ret S ())
    exact hall _ (by intro op ho; simp [frontOps, frontBeforeOps, photoBlockOps, frontAfterOps, ho])

theorem backBlocks_confined (S : Event → Prop) (env : Env) (p : Player) (u : Bool)
    (hops : ∀ op ∈ backOps env p u, ∀ ok, S (Event.call op ok))
    (hlog : ∀ b m, S (Event.log b m)) : ∀ r ∈ backBlocks env p u, Confined S r := by
  have hall : ∀ ops : List Op, (∀ op ∈ ops, op ∈ backOps env p u) →
      Confined S (emitAll env ops) :=
    fun ops h => confined_emitAll S env ops fun op ho ok => hops op (h op ho) ok
  have hone : ∀ op : Op, op ∈ backOps env p u → Confined S (emit env op) :=
    fun op h => confined_emit S env op fun ok => hops op h ok
  intro r hr
  simp only [backBlocks, backBefore, backAfter, List.cons_append, List.nil_append,
    List.mem_cons, List.mem_singleton, List.not_mem_nil, or_false] at hr
  rcases hr with rfl | rfl | rfl | rfl | rfl | rfl | rfl | rfl
  · exact hall _ (by intro op ho; simp [backOps, backBeforeOps, backAfterOps, ho])
  · unfold drawLogos
    refine confined_tryCatch S _ _ (confined_seq S _ _ (confined_ite S _ _ _ ?_ ?_)
      (confined_ite S _ _ _ ?_ ?_)) (fun _ => confined_logLine S _ _ (hlog _ _))
    · exact hone _ (by simp [backOps, backBeforeOps, backAfterOps])
    · exact confined_logLine S _ _ (hlog _ _)
    · exact hone _ (by simp [backOps, backBeforeOps, backAfterOps])
    · exact confined_logLine S _ _ (hlog _ _)
  · exact hall _ (by intro op ho; simp [backOps, backBeforeOps, backAfterOps, ho])
  · exact hall _ (by intro op ho; simp [backOps, backBeforeOps, backAfterOps, ho])
  · unfold drawQr
    refine confined_tryCatch S _ _ (hall _ (by intro op ho; simp [backOps, backBeforeOps, backAfterOps, ho]))
      (fun _ => confined_seq S _ _ (confined_logLine S _ _ (hlog _ _))
        (hall _ (by intro op ho; simp [backOps, backBeforeOps, backAfterOps, ho])))
  · exact hall _ (by intro op ho; simp [backOps, backBeforeOps, backAfterOps, ho])
  · unfold drawFooter
    refine confined_seq S _ _ (hall _ (by intro op ho; simp [backOps, backBeforeOps, backAfterOps, ho]))
      (confined_tryCatch S _ _ (hall _ (by intro op ho; simp [backOps, backBeforeOps, backAfterOps, ho]))
        (fun _ => confined_logLine S _ _ (hlog _ _)))
  · unfold drawWatermark
    refine confined_tryCatch S _ _ (confined_ite S _ _ _ ?_ (confined_ret S ()))
      (fun _ => confined_ret S ())
    exact hall _ (by intro op ho; simp [backOps, backBeforeOps, backAfterOps, ho])

theorem drawFrontSide_confined (S : Event → Prop) (env : Env) (p : Player) (u : Bool)
    (hops : ∀ op ∈ frontOps env p u, ∀ ok, S (Event.call op ok))
    (hlog : ∀ b m, S (Event.log b m)) : Confined S (drawFrontSide env p u) :=
  confined_seqAll S _ (frontBlocks_confined S env p u hops hlog)

theorem drawBackSide_confined (S : Event → Prop) (env : Env) (p : Player) (u : Bool)
    (hops : ∀ op ∈ backOps env p u, ∀ ok, S (Event.call op ok))
    (hlog : ∀ b m, S (Event.log b m)) : Confined S (drawBackSide env p u) :=
  confined_seqAll S _ (backBlocks_confined S env p u hops hlog)

theorem newEvents_of_append {α : Type} (r : Run α) (tr evs : Trace)
    (h : (r tr).2 = tr ++ evs) : newEvents r tr = evs := by
  simp [newEvents, h]

theorem confined_newEvents {α : Type} (S : Event → Prop) (r : Run α) (h : Confined S r)
    (tr : Trace) : ∀ e ∈ newEvents r tr, S e := by
  obtain ⟨evs, h1, h2⟩ := h tr
  rw [newEvents_of_append r tr evs h1]
  exact h2

theorem must_newEvents {α : Type} (e0 : Event) (r : Run α) (h : Must e0 r)
    (tr : Trace) (a : α) (hok : (r tr).1 = .ok a) : e0 ∈ newEvents r tr := by
  obtain ⟨evs, h1, h2⟩ := h tr a hok
  rw [newEvents_of_append r tr evs h1]
  exact h2

/-! ## Player-ID banner -/

theorem join_splitEmpty (s : JSString) : join (lit " ") (splitEmpty s) = s.intersperse 32 := by
  induction s with
  | nil => rfl
  | cons u rest ih =>
    cases rest with
    | nil => rfl
    | cons v rest2 =>
      simp only [splitEmpty, List.map_cons, join, List.intersperse] at ih ⊢
      rw [ih]
      rfl

theorem spacedPlayerId_eq_bannerSpec (p : Player) : spacedPlayerId p = bannerSpec p := by
  unfold spacedPlayerId playerIdText bannerSpec Field.orElse
  cases h : p.playerId with
  | undefined => rfl
  | null => rfl
  | str s =>
    cases s with
    | nil => rfl
    | cons u rest => simp [join_splitEmpty]

theorem backLoop_backFields (p : Player) :
    backLoop (backFields p) 160 =
      [.font "Helvetica-Bold", .fontSize 13, .fill (.color "#1976D2"),
       .text (lit "Coach Name" ++ lit ":") 30 160 120 .left,
       .font "Helvetica", .fontSize 13, .fill (.color "#111111"),
       .text (p.coachName.orElse []) 160 160 300 .left,
       .font "Helvetica-Bold", .fontSize 13, .fill (.color "#1976D2"),
       .text (lit "Coach Contact" ++ lit ":") 30 198 120 .left,
       .font "Helvetica", .fontSize 13, .fill (.color "#111111"),
       .text (p.coachContact.orElse []) 160 198 300 .left,
       .font "Helvetica-Bold", .fontSize 13, .fill (.color "#1976D2"),
       .text (lit "Emergency Name" ++ lit ":") 30 236 120 .left,
       .font "Helvetica", .fontSize 13, .fill (.color "#111111"),
       .text ((p.emergency (·.name)).orElse []) 160 236 300 .left,
       .font "Helvetica-Bold", .fontSize 13, .fill (.color "#1976D2"),
       .text (lit "Emergency Phone" ++ lit ":") 30 274 120 .left,
       .font "Helvetica", .fontSize 13, .fill (.color "#111111"),
       .text ((p.emergency (·.phone)).orElse []) 160 274 300 .left] := by
  rfl

/-- C1. On both sides the only text drawn on the banner line (y = 320) is
the banner: centred at x = 0 with width 650, its text the code units of the
player ID separated by single spaces, or `P S 0 0 0 0 0 0` when the ID is
absent, null or empty; a composer that returns has drawn it; the ID
`PS20250001` gives `P S 2 0 2 5 0 0 0 1`. -/
theorem banner_text (env : Env) (p : Player) (u : Bool) (tr : Trace) :
    spacedPlayerId p = bannerSpec p
    ∧ (∀ s x w a ok, Event.call (.text s x 320 w a) ok ∈ newEvents (drawFrontSide env p u) tr →
        s = bannerSpec p ∧ x = 0 ∧ w = 650 ∧ a = .center)
    ∧ (∀ s x w a ok, Event.call (.text s x 320 w a) ok ∈ newEvents (drawBackSide env p u) tr →
        s = bannerSpec p ∧ x = 0 ∧ w = 650 ∧ a = .center)
    ∧ ((drawFrontSide env p u tr).1 = .ok () →
        Event.call (.text (bannerSpec p) 0 320 650 .center) true
          ∈ newEvents (drawFrontSide env p u) tr)
    ∧ ((drawBackSide env p u tr).1 = .ok () →
        Event.call (.text (bannerSpec p) 0 320 650 .center) true
          ∈ newEvents (drawBackSide env p u) tr)
    ∧ bannerSpec { playerId := .str (lit "PS20250001") } = lit "P S 2 0 2 5 0 0 0 1"
    ∧ bannerSpec { playerId := .undefined } = lit "P S 0 0 0 0 0 0"
    ∧ bannerSpec { playerId := .null } = lit "P S 0 0 0 0 0 0"
    ∧ bannerSpec { playerId := .str [] } = lit "P S 0 0 0 0 0 0" := by
  refine ⟨spacedPlayerId_eq_bannerSpec p, ?_, ?_, ?_, ?_, by decide, by decide, by decide,
    by decide⟩
  · intro s x w a ok hmem
    refine confined_newEvents
      (fun e => ∀ s x w a ok, e = Event.call (.text s x 320 w a) ok →
        s = bannerSpec p ∧ x = 0 ∧ w = 650 ∧ a = .center)
      _ (drawFrontSide_confined _ env p u ?_ ?_) tr _ hmem s x w a ok rfl
    · intro op hop ok1 s x w a ok2 heq
      simp only [Event.call.injEq] at heq
      obtain ⟨rfl, -⟩ := heq
      rw [← spacedPlayerId_eq_bannerSpec]
      cases hph : p.profilePhoto <;>
        simpa [frontOps, frontBeforeOps, photoBlockOps, frontAfterOps, hph, backgroundOps, leftLogoOp, rightLogoOp, titleOps, photoOp,
          placeholderOps, layoutOps_profileFields, cellOps, bannerOps, footerGradientOps,
          footerOps, watermarkOps] using hop
    · intro b m s x w a ok heq
      simp at heq
  · intro s x w a ok hmem
    refine confined_newEvents
      (fun e => ∀ s x w a ok, e = Event.call (.text s x 320 w a) ok →
        s = bannerSpec p ∧ x = 0 ∧ w = 650 ∧ a = .center)
      _ (drawBackSide_confined _ env p u ?_ ?_) tr _ hmem s x w a ok rfl
    · intro op hop ok1 s x w a ok2 heq
      simp only [Event.call.injEq] at heq
      obtain ⟨rfl, -⟩ := heq
      rw [← spacedPlayerId_eq_bannerSpec]
      simpa [backOps, backBeforeOps, backAfterOps, backgroundOps, leftLogoOp, rightLogoOp, titleOps,
          backLoop_backFields, qrFullOps, qrFallbackOps, qrImageOp, qrCaptionOps, bannerOps, footerGradientOps,
          footerOps, watermarkOps] using hop
    · intro b m s x w a ok heq
      simp at heq
  · intro hok
    rw [← spacedPlayerId_eq_bannerSpec]
    exact must_newEvents _ _
      (must_seqAll _ _ (emitAll env (bannerOps p))
        (frontBlocks_confined _ env p u (fun _ _ _ => trivial) (fun _ _ => trivial))
        (by simp [frontBlocks, frontAfter])
        (must_emitAll env _ _ (by simp [bannerOps]))) tr () hok
  · intro hok
    rw [← spacedPlayerId_eq_bannerSpec]
    exact must_newEvents _ _
      (must_seqAll _ _ (emitAll env (bannerOps p))
        (backBlocks_confined _ env p u (fun _ _ _ => trivial) (fun _ _ => trivial))
        (by simp [backBlocks, backAfter])
        (must_emitAll env _ _ (by simp [bannerOps]))) tr () hok

/-! ## QR payload -/

theorem Field.orElse_nil (f : Field) : f.orElse [] = f.shown := by
  cases f with
  | undefined => rfl
  | null => rfl
  | str s => cases s <;> rfl

theorem join_eq_intercalate (sep : JSString) (parts : List JSString) :
    join sep parts = List.intercalate sep parts := by
  induction parts with
  | nil => rfl
  | cons a rest ih =>
    cases rest with
    | nil => simp [join, List.intercalate]
    | cons b rest2 =>
      simp only [join, ih]
      simp [List.intercalate, List.intersperse]

theorem qrText_eq_payloadSpec (toLocale : DateField → JSString) (p : Player) :
    qrText toLocale p = payloadSpec toLocale p := by
  simp only [qrText, qrSegments, payloadSpec, join_eq_intercalate, Field.orElse_nil]

theorem splitOn_of_not_mem (sep : UInt16) (a : JSString) (h : sep ∉ a) :
    splitOn sep a = [a] := by
  induction a with
  | nil => rfl
  | cons u rest ih =>
    simp only [List.mem_cons, not_or] at h
    have hu : ¬ u = sep := fun e => h.1 e.symm
    simp [splitOn, hu, ih h.2]

theorem splitOn_append_sep (sep : UInt16) (a b : JSString) (h : sep ∉ a) :
    splitOn sep (a ++ sep :: b) = a :: splitOn sep b := by
  induction a with
  | nil => simp [splitOn]
  | cons u rest ih =>
    simp only [List.mem_cons, not_or] at h
    have hu : ¬ u = sep := fun e => h.1 e.symm
    simp [splitOn, hu, ih h.2]

theorem splitOn_join (sep : UInt16) (parts : List JSString) (hne : parts ≠ [])
    (h : ∀ l ∈ parts, sep ∉ l) : splitOn sep (join [sep] parts) = parts := by
  induction parts with
  | nil => exact absurd rfl hne
  | cons a rest ih =>
    cases rest with
    | nil => exact splitOn_of_not_mem sep a (h a (List.mem_cons_self _ _))
    | cons b rest2 =>
      simp only [join, List.append_assoc, List.singleton_append]
      rw [splitOn_append_sep sep a _ (h a (List.mem_cons_self _ _))]
      rw [ih (by simp) (fun l hl => h l (List.mem_cons_of_mem _ hl))]

theorem qrSegments_no_newline (toLocale : DateField → JSString) (p : Player)
    (h : ∀ v ∈ renderedFields toLocale p, newline ∉ v) :
    ∀ l ∈ qrSegments toLocale p, newline ∉ l := by
  have hlit : ∀ t ∈ [lit "Player ID: ", lit "Name: ", lit " ", lit "DOB: ", lit "Gender: ",
      lit "Passport: ", lit "Primary Sport: ", lit "Address: ", lit ", ", lit "Coach: ",
      lit "Coach Contact: ", lit "Emergency: ", lit " (", lit ")"], newline ∉ t := by decide
  simp only [renderedFields, List.mem_cons, List.mem_singleton, List.not_mem_nil, or_false,
    forall_eq_or_imp, forall_eq] at h hlit
  simp only [qrSegments, Field.orElse_nil, List.mem_cons, List.mem_singleton,
    List.not_mem_nil, or_false, forall_eq_or_imp, forall_eq, List.mem_append, not_or]
  tauto

theorem splitOn_qrText (toLocale : DateField → JSString) (p : Player)
    (h : ∀ v ∈ renderedFields toLocale p, newline ∉ v) :
    splitOn newline (qrText toLocale p) = qrSegments toLocale p :=
  splitOn_join newline _ (by simp [qrSegments]) (qrSegments_no_newline toLocale p h)

set_option maxRecDepth 100000 in
/-- C2. The full QR payload is the ten lines `<Label>: <value>` in the order
Player ID, Name, DOB, Gender, Passport, Primary Sport, Address, Coach, Coach
Contact, Emergency, joined by line feeds, an absent, null or empty sub-field
contributing the empty string; for the record with every field absent it is
exactly the ten stated lines; and when no rendered value contains a line feed,
cutting the payload at its line feeds gives back exactly ten lines. Written
out against the sub-records themselves: with an address record the Address
line shows its street, city, state and postal code, without one it is
`Address: , , , `; with an emergency contact the Emergency line shows its
name and phone, without one it is `Emergency:  ()`; the DOB line shows the
formatted date when there is one. The payload of the demo record is
evaluated in full. -/
theorem qr_payload_lines (toLocale : DateField → JSString) (p : Player) :
    qrText toLocale p = payloadSpec toLocale p
    ∧ qrText toLocale {} = lit ("Player ID: \nName:  \nDOB: \nGender: \nPassport: \n"
        ++ "Primary Sport: \nAddress: , , , \nCoach: \nCoach Contact: \nEmergency:  ()")
    ∧ ((∀ v ∈ renderedFields toLocale p, newline ∉ v) →
        splitOn newline (qrText toLocale p) = qrSegments toLocale p
        ∧ (splitOn newline (qrText toLocale p)).length = 10)
    ∧ qrText toLocale p = List.intercalate [newline]
        [ lit "Player ID: " ++ p.playerId.shown,
          lit "Name: " ++ p.firstName.shown ++ lit " " ++ p.lastName.shown,
          lit "DOB: " ++ (if p.dateOfBirth.truthy then toLocale p.dateOfBirth else []),
          lit "Gender: " ++ p.gender.shown,
          lit "Passport: " ++ p.passportNumber.shown,
          lit "Primary Sport: " ++ p.primarySport.shown,
          (match p.address with
           | some a => lit "Address: " ++ a.street.shown ++ lit ", " ++ a.city.shown
               ++ lit ", " ++ a.state.shown ++ lit ", " ++ a.postalCode.shown
           | none => lit "Address: , , , "),
          lit "Coach: " ++ p.coachName.shown,
          lit "Coach Contact: " ++ p.coachContact.shown,
          (match p.emergencyContact with
           | some e => lit "Emergency: " ++ e.name.shown ++ lit " (" ++ e.phone.shown ++ lit ")"
           | none => lit "Emergency:  ()") ]
    ∧ (∀ a, p.address = some a →
        (qrSegments toLocale p)[6]? = some (lit "Address: " ++ a.street.shown ++ lit ", "
          ++ a.city.shown ++ lit ", " ++ a.state.shown ++ lit ", " ++ a.postalCode.shown))
    ∧ (∀ e, p.emergencyContact = some e →
        (qrSegments toLocale p)[9]? = some (lit "Emergency: " ++ e.name.shown ++ lit " ("
          ++ e.phone.shown ++ lit ")"))
    ∧ qrText (fun _ => lit "01/06/1998") demoPlayer
        = lit ("Player ID: PS20250001\nName: BHAVANABEN CHAUDHARY\nDOB: 01/06/1998\n"
          ++ "Gender: FEMALE\nPassport: S0738958\nPrimary Sport: JAVELIN, LONG JUMP/T-46\n"
          ++ "Address: , SURAT, GUJARAT, \nCoach: VISHESH SHARMA\nCoach Contact: \n"
          ++ "Emergency:  (9982200192)") := by
  have hempty : qrText toLocale {} = qrText (fun _ => []) {} := rfl
  refine ⟨qrText_eq_payloadSpec toLocale p, by rw [hempty]; decide, fun h => ?_, ?_, ?_, ?_,
    by decide⟩
  · rw [splitOn_qrText toLocale p h]
    exact ⟨rfl, rfl⟩
  · rw [qrText_eq_payloadSpec]
    have eA : lit "Address: , , , " = lit "Address: " ++ Field.undefined.shown ++ lit ", "
        ++ Field.undefined.shown ++ lit ", " ++ Field.undefined.shown ++ lit ", "
        ++ Field.undefined.shown := by decide
    have eE : lit "Emergency:  ()" = lit "Emergency: " ++ Field.undefined.shown ++ lit " ("
        ++ Field.undefined.shown ++ lit ")" := by decide
    have eD : dobText toLocale p = if p.dateOfBirth.truthy then toLocale p.dateOfBirth else [] := by
      unfold dobText formatDate
      split_ifs <;> rfl
    cases ha : p.address <;> cases he : p.emergencyContact <;>
      simp only [payloadSpec, Player.addr, Player.emergency, ha, he, eA, eE, eD]
  · intro a ha
    simp [qrSegments, Player.addr, ha, Field.orElse_nil]
  · intro e he
    simp [qrSegments, Player.emergency, he, Field.orElse_nil]

/-- Witness for C2: the demo record has no line feed in any rendered value,
and its payload splits into ten lines. -/
theorem qr_payload_lines_witness :
    (∀ v ∈ renderedFields (fun _ => lit "01/06/1998") demoPlayer, newline ∉ v)
    ∧ (splitOn newline (qrText (fun _ => lit "01/06/1998") demoPlayer)).length = 10 :=
  ⟨by decide, ((qr_payload_lines (fun _ => lit "01/06/1998") demoPlayer).2.2.1 (by decide)).2⟩

theorem append_cons_inj (x : UInt16) (a a2 b b2 : JSString) (ha : x ∉ a) (ha2 : x ∉ a2)
    (h : a ++ x :: b = a2 ++ x :: b2) : a = a2 ∧ b = b2 := by
  induction a generalizing a2 with
  | nil =>
    cases a2 with
    | nil => simpa using h
    | cons v rest =>
      simp only [List.nil_append, List.cons_append, List.cons.injEq] at h
      simp only [List.mem_cons, not_or] at ha2
      exact absurd h.1 ha2.1
  | cons u rest ih =>
    cases a2 with
    | nil =>
      simp only [List.nil_append, List.cons_append, List.cons.injEq] at h
      simp only [List.mem_cons, not_or] at ha
      exact absurd h.1.symm ha.1
    | cons v rest2 =>
      simp only [List.cons_append, List.cons.injEq] at h
      simp only [List.mem_cons, not_or] at ha ha2
      obtain ⟨h1, h2⟩ := ih rest2 ha.2 ha2.2 h.2
      exact ⟨by rw [h.1, h1], h2⟩

/-- C3 fails as stated: two records with different first and last names
have the same payload text (`A` + `B C` and `A B` + `C` both give the line
`Name: A B C`). -/
theorem qr_payload_not_injective :
    ¬ (∀ (toLocale : DateField → JSString) (p q : Player),
        qrText toLocale p = qrText toLocale q →
        renderedFields toLocale p = renderedFields toLocale q) := by
  intro h
  have := h (fun _ => [])
    { firstName := .str (lit "A"), lastName := .str (lit "B C") }
    { firstName := .str (lit "A B"), lastName := .str (lit "C") } (by decide)
  revert this
  decide

/-- C3, amended. For two records in which the separators stay out of the
values they would cut short (no line feed in any rendered value, no space in
the first name, no comma in street, city or state, no opening bracket in the
emergency contact name), equal payload texts imply equal rendered values for
all fifteen renderable fields. -/
theorem qr_payload_injective (toLocale : DateField → JSString) (p q : Player)
    (hp : SeparatorFree toLocale p) (hq : SeparatorFree toLocale q)
    (h : qrText toLocale p = qrText toLocale q) :
    renderedFields toLocale p = renderedFields toLocale q := by
  obtain ⟨hp0, hp1, hp2, hp3, hp4, hp5⟩ := hp
  obtain ⟨hq0, hq1, hq2, hq3, hq4, hq5⟩ := hq
  have hseg : qrSegments toLocale p = qrSegments toLocale q := by
    rw [← splitOn_qrText toLocale p hp0, ← splitOn_qrText toLocale q hq0, h]
  simp only [qrSegments, Field.orElse_nil, List.cons.injEq, List.append_assoc,
    List.append_cancel_left_eq, and_true] at hseg
  obtain ⟨h1, h2, h3, h4, h5, h6, h7, h8, h9, h10⟩ := hseg
  have e32 : lit " " = [32] := rfl
  have e44 : lit ", " = [44, 32] := rfl
  have e40 : lit " (" = [32, 40] := rfl
  have e41 : lit ")" = [41] := rfl
  rw [e32] at h2
  obtain ⟨h2a, h2b⟩ := append_cons_inj 32 _ _ _ _ hp1 hq1 h2
  simp only [List.append_eq, List.nil_append] at h2b
  rw [e44] at h7
  obtain ⟨h7a, h7r⟩ := append_cons_inj 44 _ _ _ _ hp2 hq2 h7
  simp only [List.append_eq, List.cons_append, List.cons.injEq, true_and, List.nil_append] at h7r
  obtain ⟨h7b, h7r2⟩ := append_cons_inj 44 _ _ _ _ hp3 hq3 h7r
  simp only [List.append_eq, List.cons_append, List.cons.injEq, true_and, List.nil_append] at h7r2
  obtain ⟨h7c, h7r3⟩ := append_cons_inj 44 _ _ _ _ hp4 hq4 h7r2
  simp only [List.append_eq, List.cons_append, List.cons.injEq, true_and, List.nil_append] at h7r3
  rw [e40, e41] at h10
  have h10x : ((p.emergency (·.name)).shown ++ [32]) ++ 40 :: ((p.emergency (·.phone)).shown ++ [41])
      = ((q.emergency (·.name)).shown ++ [32]) ++ 40 :: ((q.emergency (·.phone)).shown ++ [41]) := by
    simpa using h10
  obtain ⟨h10a, h10b⟩ := append_cons_inj 40 _ _ _ _
    (by simp only [List.mem_append, not_or]; exact ⟨hp5, by decide⟩)
    (by simp only [List.mem_append, not_or]; exact ⟨hq5, by decide⟩) h10x
  have h10c := List.append_cancel_right h10a
  have h10d := List.append_cancel_right h10b
  simp only [renderedFields, h1, h2a, h2b, h3, h4, h5, h6, h7a, h7b, h7c, h7r3, h8, h9,
    h10c, h10d]

/-- Witness for the amended C3: the demo record satisfies the side
condition, and comparing it with itself gives equal rendered values. -/
theorem qr_payload_injective_witness :
    SeparatorFree (fun _ => lit "01/06/1998") demoPlayer
    ∧ renderedFields (fun _ => lit "01/06/1998") demoPlayer
      = renderedFields (fun _ => lit "01/06/1998") demoPlayer :=
  ⟨by unfold SeparatorFree; decide,
   qr_payload_injective (fun _ => lit "01/06/1998") demoPlayer demoPlayer
     (by unfold SeparatorFree; decide) (by unfold SeparatorFree; decide) rfl⟩

/-! ## Runs in which the drawing calls do not raise -/

theorem seqAll_append (xs ys : List (Run Unit)) (tr : Trace) :
    seqAll (xs ++ ys) tr = Run.seq (seqAll xs) (seqAll ys) tr := by
  induction xs generalizing tr with
  | nil => simp [seqAll, Run.seq, Run.bind, Run.ret]
  | cons r rest ih =>
    simp only [List.cons_append, seqAll, Run.seq, Run.bind]
    rcases run_cases r tr with ⟨a, tr1, h⟩ | ⟨e, tr1, h⟩
    · simp only [h]
      have := ih tr1
      simp only [Run.seq, Run.bind] at this
      exact this
    · simp only [h]

theorem emitAll_cons_quiet (env : Env) (op : Op) (rest : List Op) (tr : Trace)
    (h : env.raises tr op = none) :
    emitAll env (op :: rest) tr = emitAll env rest (tr ++ [Event.call op true]) := by
  simp only [emitAll]
  rw [seq_of_ok _ _ tr _ (emit_quiet env op tr h)]

theorem emitAll_cons_raises (env : Env) (op : Op) (rest : List Op) (tr : Trace) (e : JSError)
    (h : env.raises tr op = some e) :
    emitAll env (op :: rest) tr = (.error e, tr ++ [Event.call op false]) := by
  simp only [emitAll]
  rw [seq_of_error _ _ tr _ e (emit_raises env op tr e h)]

theorem emitAll_quiet (env : Env) (quiet : Op → Bool) (hq : env.Quiet quiet) (ops : List Op)
    (h : ∀ op ∈ ops, quiet op = true) (tr : Trace) :
    emitAll env ops tr = (.ok (), tr ++ ops.map fun op => Event.call op true) := by
  induction ops generalizing tr with
  | nil => simp [emitAll, Run.ret]
  | cons op rest ih =>
    rw [emitAll_cons_quiet env op rest tr (hq tr op (h op (List.mem_cons_self _ _)))]
    rw [ih (fun o ho => h o (List.mem_cons_of_mem _ ho))]
    simp

theorem quiet_mono (env : Env) (q1 q2 : Op → Bool) (h : env.Quiet q1)
    (h12 : ∀ op, q2 op = true → q1 op = true) : env.Quiet q2 :=
  fun tr op hop => h tr op (h12 op hop)

theorem good_emitAllQuiet (S : Event → Prop) (env : Env) (quiet : Op → Bool)
    (hq : env.Quiet quiet) (ops : List Op) (h1 : ∀ op ∈ ops, quiet op = true)
    (h2 : ∀ op ∈ ops, S (Event.call op true)) : Good S (IdCard.emitAll env ops) :=
  good_emitAll S env ops (fun op ho tr => hq tr op (h1 op ho)) h2

theorem drawLogos_good (S : Event → Prop) (env : Env)
    (h1 : ∀ ok, S (Event.call (leftLogoOp env) ok))
    (h2 : ∀ ok, S (Event.call (rightLogoOp env) ok))
    (hlog : ∀ b m, S (Event.log b m)) : Good S (drawLogos env) := by
  unfold drawLogos
  refine good_tryCatch S _ _ (confined_seq S _ _ (confined_ite S _ _ _ ?_ ?_)
    (confined_ite S _ _ _ ?_ ?_)) (fun _ => good_logLine S _ _ (hlog _ _))
  · exact confined_emit S env _ h1
  · exact confined_logLine S _ _ (hlog _ _)
  · exact confined_emit S env _ h2
  · exact confined_logLine S _ _ (hlog _ _)

theorem drawFooter_good (S : Event → Prop) (env : Env) (u : Bool)
    (hq : env.Quiet Op.isDrawing)
    (hops : ∀ op ∈ footerGradientOps ++ footerOps u, ∀ ok, S (Event.call op ok))
    (hlog : ∀ b m, S (Event.log b m)) : Good S (drawFooter env u) := by
  unfold drawFooter
  refine good_seq S _ _ (good_emitAllQuiet S env _ hq footerGradientOps (by decide)
      (fun op ho => hops op (List.mem_append_left _ ho) true))
    (good_tryCatch S _ _ (confined_emitAll S env _
      (fun op ho ok => hops op (List.mem_append_right _ ho) ok))
      (fun _ => good_logLine S _ _ (hlog _ _)))

theorem drawWatermark_good (S : Event → Prop) (env : Env)
    (hops : ∀ op ∈ watermarkOps env, ∀ ok, S (Event.call op ok)) :
    Good S (drawWatermark env) := by
  unfold drawWatermark
  refine good_tryCatch S _ _ (confined_ite S _ _ _ ?_ (confined_ret S ()))
    (fun _ => good_ret S)
  exact confined_emitAll S env _ hops

theorem layoutOps_isDrawing (env : Env) (p : Player) :
    ∀ op ∈ layoutOps (profileFields env p), op.isDrawing = true := by
  rw [layoutOps_profileFields]
  simp [cellOps, Op.isDrawing]

theorem backLoop_isDrawing (p : Player) :
    ∀ op ∈ backLoop (backFields p) 160, op.isDrawing = true := by
  rw [backLoop_backFields]
  simp [Op.isDrawing]

theorem frontBefore_good (S : Event → Prop) (env : Env)
    (hq : env.Quiet Op.isDrawing)
    (hops : ∀ op ∈ frontBeforeOps env, ∀ ok, S (Event.call op ok))
    (hlog : ∀ b m, S (Event.log b m)) : ∀ r ∈ frontBefore env, Good S r := by
  intro r hr
  simp only [frontBefore, List.mem_cons, List.mem_singleton, List.not_mem_nil, or_false] at hr
  rcases hr with rfl | rfl | rfl
  · exact good_emitAllQuiet S env _ hq backgroundOps (by decide)
      (fun op ho => hops op (by simp [frontBeforeOps, ho]) true)
  · exact drawLogos_good S env (hops _ (by simp [frontBeforeOps])) (hops _ (by simp [frontBeforeOps])) hlog
  · exact good_emitAllQuiet S env _ hq titleOps (by decide)
      (fun op ho => hops op (by simp [frontBeforeOps, ho]) true)

theorem frontAfter_good (S : Event → Prop) (env : Env) (p : Player) (u : Bool)
    (hq : env.Quiet Op.isDrawing)
    (hops : ∀ op ∈ frontAfterOps env p u, ∀ ok, S (Event.call op ok))
    (hlog : ∀ b m, S (Event.log b m)) : ∀ r ∈ frontAfter env p u, Good S r := by
  intro r hr
  simp only [frontAfter, List.mem_cons, List.mem_singleton, List.not_mem_nil, or_false] at hr
  rcases hr with rfl | rfl | rfl | rfl
  · exact good_emitAllQuiet S env _ hq _ (layoutOps_isDrawing env p)
      (fun op ho => hops op (by simp [frontAfterOps, ho]) true)
  · exact good_emitAllQuiet S env _ hq (bannerOps p) (by simp [bannerOps, Op.isDrawing])
      (fun op ho => hops op (by simp [frontAfterOps, ho]) true)
  · exact drawFooter_good S env u hq
      (fun op ho ok => hops op (by
        simp only [frontAfterOps, List.mem_append] at ho ⊢; tauto) ok) hlog
  · exact drawWatermark_good S env (fun op ho ok => hops op (by simp [frontAfterOps, ho]) ok)

theorem backBefore_good (S : Event → Prop) (env : Env) (p : Player)
    (hq : env.Quiet Op.isDrawing)
    (hops : ∀ op ∈ backBeforeOps env p, ∀ ok, S (Event.call op ok))
    (hlog : ∀ b m, S (Event.log b m)) : ∀ r ∈ backBefore env p, Good S r := by
  intro r hr
  simp only [backBefore, List.mem_cons, List.mem_singleton, List.not_mem_nil, or_false] at hr
  rcases hr with rfl | rfl | rfl | rfl
  · exact good_emitAllQuiet S env _ hq backgroundOps (by decide)
      (fun op ho => hops op (by simp [backBeforeOps, ho]) true)
  · exact drawLogos_good S env (hops _ (by simp [backBeforeOps])) (hops _ (by simp [backBeforeOps])) hlog
  · exact good_emitAllQuiet S env _ hq titleOps (by decide)
      (fun op ho => hops op (by simp [backBeforeOps, ho]) true)
  · exact good_emitAllQuiet S env _ hq _ (backLoop_isDrawing p)
      (fun op ho => hops op (by simp [backBeforeOps, ho]) true)

theorem backAfter_good (S : Event → Prop) (env : Env) (p : Player) (u : Bool)
    (hq : env.Quiet Op.isDrawing)
    (hops : ∀ op ∈ backAfterOps env p u, ∀ ok, S (Event.call op ok))
    (hlog : ∀ b m, S (Event.log b m)) : ∀ r ∈ backAfter env p u, Good S r := by
  intro r hr
  simp only [backAfter, List.mem_cons, List.mem_singleton, List.not_mem_nil, or_false] at hr
  rcases hr with rfl | rfl | rfl
  · exact good_emitAllQuiet S env _ hq (bannerOps p) (by simp [bannerOps, Op.isDrawing])
      (fun op ho => hops op (by simp [backAfterOps, ho]) true)
  · exact drawFooter_good S env u hq
      (fun op ho ok => hops op (by
        simp only [backAfterOps, List.mem_append] at ho ⊢; tauto) ok) hlog
  · exact drawWatermark_good S env (fun op ho ok => hops op (by simp [backAfterOps, ho]) ok)

/-! ## QR block -/

theorem qrAttempts_append (a b : Trace) : qrAttempts (a ++ b) = qrAttempts a ++ qrAttempts b := by
  simp [qrAttempts, List.filterMap_append]

theorem qrAttempts_eq_nil (evs : Trace) (h : ∀ e ∈ evs, qrAttempts [e] = []) :
    qrAttempts evs = [] := by
  induction evs with
  | nil => rfl
  | cons e rest ih =>
    have h1 := h e (List.mem_cons_self _ _)
    have h2 := ih fun x hx => h x (List.mem_cons_of_mem _ hx)
    have : e :: rest = [e] ++ rest := rfl
    rw [this, qrAttempts_append, h1, h2]
    rfl

theorem fallbackStart_attempts (env : Env) (p : Player) (t : Trace) :
    ∃ evs, fallbackStart env p t = t ++ evs
      ∧ qrAttempts evs = [(qrText env.toLocale p, some "M")] := by
  unfold fallbackStart
  split
  · exact ⟨_, List.append_assoc _ _ _, rfl⟩
  · exact ⟨_, List.append_assoc _ _ _, rfl⟩

theorem drawQr_run (env : Env) (p : Player) (t : Trace) (hq : env.Quiet Op.isDrawing) :
    (attemptOk env (qrText env.toLocale p) (some "M") t = true →
      drawQr env p t = (.ok (), t ++ (qrFullOps env p).map fun op => Event.call op true))
    ∧ (attemptOk env (qrText env.toLocale p) (some "M") t = false →
      drawQr env p t = emitAll env (qrFallbackOps p) (fallbackStart env p t)) := by
  unfold attemptOk drawQr qrFullOps fallbackStart
  rcases h1 : env.raises t (.qrToDataURL (qrText env.toLocale p) (some "M")) with _ | e1
  · rcases h2 : env.raises (t ++ [Event.call (.qrToDataURL (qrText env.toLocale p) (some "M")) true])
        (qrImageOp (qrText env.toLocale p)) with _ | e2
    · refine ⟨fun _ => ?_, fun h => by simp at h⟩
      rw [tryCatch_of_ok _ _ t _ ()]
      rw [emitAll_cons_quiet env _ _ t h1, emitAll_cons_quiet env _ _ _ h2,
        emitAll_quiet env Op.isDrawing hq qrCaptionOps (by decide)]
      simp
    · refine ⟨fun h => by simp at h, fun _ => ?_⟩
      have hb : emitAll env (.qrToDataURL (qrText env.toLocale p) (some "M")
            :: qrImageOp (qrText env.toLocale p) :: qrCaptionOps) t
          = (.error e2, t ++ [Event.call (.qrToDataURL (qrText env.toLocale p) (some "M")) true]
              ++ [Event.call (qrImageOp (qrText env.toLocale p)) false]) := by
        rw [emitAll_cons_quiet env _ _ t h1, emitAll_cons_raises env _ _ _ e2 h2]
      rw [tryCatch_of_error _ _ t _ e2 hb]
      simp [Run.seq, Run.bind, logLine]
  · refine ⟨fun h => by simp at h, fun _ => ?_⟩
    rw [tryCatch_of_error _ _ t _ e1 (emitAll_cons_raises env _ _ t e1 h1)]
    simp [Run.seq, Run.bind, logLine]

theorem fallback_run (env : Env) (p : Player) (t : Trace) :
    (attemptOk env (qrFallbackText p) none t = true →
      emitAll env (qrFallbackOps p) t
        = (.ok (), t ++ (qrFallbackOps p).map fun op => Event.call op true))
    ∧ (attemptOk env (qrFallbackText p) none t = false →
      ∃ e evs, emitAll env (qrFallbackOps p) t = (.error e, t ++ evs)
        ∧ qrAttempts evs = [(qrFallbackText p, none)]) := by
  unfold attemptOk qrFallbackOps
  rcases h1 : env.raises t (.qrToDataURL (qrFallbackText p) none) with _ | e1
  · rcases h2 : env.raises (t ++ [Event.call (.qrToDataURL (qrFallbackText p) none) true])
        (qrImageOp (qrFallbackText p)) with _ | e2
    · refine ⟨fun _ => ?_, fun h => by simp at h⟩
      rw [emitAll_cons_quiet env _ _ t h1, emitAll_cons_quiet env _ _ _ h2]
      simp [emitAll, Run.ret]
    · refine ⟨fun h => by simp at h, fun _ => ?_⟩
      rw [emitAll_cons_quiet env _ _ t h1, emitAll_cons_raises env _ _ _ e2 h2]
      exact ⟨e2, [Event.call (.qrToDataURL (qrFallbackText p) none) true,
        Event.call (qrImageOp (qrFallbackText p)) false], by simp, rfl⟩
  · refine ⟨fun h => by simp at h, fun _ => ?_⟩
    rw [emitAll_cons_raises env _ _ t e1 h1]
    exact ⟨e1, [Event.call (.qrToDataURL (qrFallbackText p) none) false], rfl, rfl⟩

theorem qrAttempts_single_of_not_qr (op : Op) (ok : Bool)
    (h : ∀ t e, op ≠ .qrToDataURL t e) : qrAttempts [Event.call op ok] = [] := by
  cases op <;> first | rfl | exact absurd rfl (h _ _)

theorem backBeforeOps_not_qr (env : Env) (p : Player) :
    ∀ op ∈ backBeforeOps env p, ∀ ok, qrAttempts [Event.call op ok] = [] := by
  intro op hop ok
  apply qrAttempts_single_of_not_qr
  intro t e heq
  subst heq
  simp [backBeforeOps, backgroundOps, leftLogoOp, rightLogoOp, titleOps,
    backLoop_backFields] at hop

theorem backAfterOps_not_qr (env : Env) (p : Player) (u : Bool) :
    ∀ op ∈ backAfterOps env p u, ∀ ok, qrAttempts [Event.call op ok] = [] := by
  intro op hop ok
  apply qrAttempts_single_of_not_qr
  intro t e heq
  subst heq
  simp [backAfterOps, bannerOps, footerGradientOps, footerOps, watermarkOps] at hop

theorem drawBackSide_unfold (env : Env) (p : Player) (u : Bool) (tr : Trace)
    (hq : env.Quiet Op.isDrawing) :
    ∃ evs1, qrStart env p tr = tr ++ evs1 ∧ qrAttempts evs1 = []
      ∧ drawBackSide env p u tr
        = Run.seq (drawQr env p) (seqAll (backAfter env p u)) (tr ++ evs1) := by
  obtain ⟨evs1, h1, h2⟩ := good_seqAll (fun e => qrAttempts [e] = []) (backBefore env p)
    (backBefore_good _ env p hq (backBeforeOps_not_qr env p) (fun _ _ => rfl)) tr
  refine ⟨evs1, by rw [qrStart, h1], qrAttempts_eq_nil evs1 h2, ?_⟩
  unfold drawBackSide backBlocks
  rw [seqAll_append, seq_of_ok _ _ tr _ h1]
  rfl

theorem backAfter_run (env : Env) (p : Player) (u : Bool) (hq : env.Quiet Op.isDrawing)
    (t : Trace) :
    ∃ evs3, seqAll (backAfter env p u) t = (.ok (), t ++ evs3) ∧ qrAttempts evs3 = [] := by
  obtain ⟨evs3, h1, h2⟩ := good_seqAll (fun e => qrAttempts [e] = []) (backAfter env p u)
    (backAfter_good _ env p u hq (backAfterOps_not_qr env p u) (fun _ _ => rfl)) t
  exact ⟨evs3, h1, qrAttempts_eq_nil evs3 h2⟩

/-- C4. In a run of `drawBackSide` whose drawing calls do not raise, with a QR
attempt (rasterise, then place) going through or failing as the environment
decides: if the full-payload attempt goes through, it is the only attempt and
the composer returns; if it fails, exactly one further attempt is made, with
the text `Player ID: ` followed by the player ID, and the composer returns if
and only if that attempt goes through; so the composer raises if and only if
both attempts fail, and never asks the encoder a third time. -/
theorem qr_fallback (env : Env) (p : Player) (u : Bool) (tr : Trace)
    (hq : env.Quiet Op.isDrawing) :
    (attemptOk env (qrText env.toLocale p) (some "M") (qrStart env p tr) = true →
      (drawBackSide env p u tr).1 = .ok ()
      ∧ qrAttempts (newEvents (drawBackSide env p u) tr) = [(qrText env.toLocale p, some "M")])
    ∧ (attemptOk env (qrText env.toLocale p) (some "M") (qrStart env p tr) = false →
      qrAttempts (newEvents (drawBackSide env p u) tr)
        = [(qrText env.toLocale p, some "M"), (lit "Player ID: " ++ p.playerId.toJSString, none)]
      ∧ ((drawBackSide env p u tr).1 = .ok () ↔
          attemptOk env (qrFallbackText p) none (fallbackStart env p (qrStart env p tr)) = true))
    ∧ ((∃ e, (drawBackSide env p u tr).1 = .error e) ↔
        attemptOk env (qrText env.toLocale p) (some "M") (qrStart env p tr) = false
        ∧ attemptOk env (qrFallbackText p) none (fallbackStart env p (qrStart env p tr)) = false)
    ∧ (∀ id, p.playerId = .str id → qrFallbackText p = lit "Player ID: " ++ id) := by
  obtain ⟨evs1, hstart, hat1, hrun⟩ := drawBackSide_unfold env p u tr hq
  rw [hstart]
  obtain ⟨hQ1, hQ2⟩ := drawQr_run env p (tr ++ evs1) hq
  obtain ⟨hF1, hF2⟩ := fallback_run env p (fallbackStart env p (tr ++ evs1))
  obtain ⟨fs, hfs, hfsat⟩ := fallbackStart_attempts env p (tr ++ evs1)
  have hlast : ∀ id, p.playerId = .str id → qrFallbackText p = lit "Player ID: " ++ id := by
    intro id hid
    simp [qrFallbackText, hid, Field.toJSString]
  cases hA : attemptOk env (qrText env.toLocale p) (some "M") (tr ++ evs1) with
  | true =>
    obtain ⟨evs3, h3, hat3⟩ := backAfter_run env p u hq
      (tr ++ evs1 ++ (qrFullOps env p).map fun op => Event.call op true)
    have hres : drawBackSide env p u tr = (.ok (),
        tr ++ (evs1 ++ ((qrFullOps env p).map fun op => Event.call op true) ++ evs3)) := by
      rw [hrun, seq_of_ok _ _ _ _ (hQ1 hA), h3]
      simp
    have hnew := newEvents_of_append _ tr _ (congrArg Prod.snd hres)
    have hatt : qrAttempts (newEvents (drawBackSide env p u) tr)
        = [(qrText env.toLocale p, some "M")] := by
      rw [hnew, qrAttempts_append, qrAttempts_append, hat1, hat3]
      rfl
    refine ⟨fun _ => ⟨by rw [hres], hatt⟩, fun h => by simp at h, ?_, hlast⟩
    rw [hres]
    simp
  | false =>
    have hq2 := hQ2 hA
    cases hB : attemptOk env (qrFallbackText p) none (fallbackStart env p (tr ++ evs1)) with
    | true =>
      obtain ⟨evs3, h3, hat3⟩ := backAfter_run env p u hq
        (fallbackStart env p (tr ++ evs1) ++ (qrFallbackOps p).map fun op => Event.call op true)
      have hres : drawBackSide env p u tr = (.ok (),
          tr ++ (evs1 ++ fs ++ ((qrFallbackOps p).map fun op => Event.call op true) ++ evs3)) := by
        rw [hrun, seq_of_ok _ _ _ _ (hq2.trans (hF1 hB)), h3, hfs]
        simp
      have hnew := newEvents_of_append _ tr _ (congrArg Prod.snd hres)
      have hatt : qrAttempts (newEvents (drawBackSide env p u) tr)
          = [(qrText env.toLocale p, some "M"),
             (lit "Player ID: " ++ p.playerId.toJSString, none)] := by
        rw [hnew, qrAttempts_append, qrAttempts_append, qrAttempts_append, hat1, hat3, hfsat]
        rfl
      refine ⟨fun h => by simp at h, fun _ => ⟨hatt, by rw [hres]; simp⟩, ?_, hlast⟩
      rw [hres]
      simp
    | false =>
      obtain ⟨e, evs, h4, hat4⟩ := hF2 hB
      have hres : drawBackSide env p u tr = (.error e, tr ++ (evs1 ++ fs ++ evs)) := by
        rw [hrun, seq_of_error _ _ _ _ e (hq2.trans h4), hfs]
        simp
      have hnew := newEvents_of_append _ tr _ (congrArg Prod.snd hres)
      have hatt : qrAttempts (newEvents (drawBackSide env p u) tr)
          = [(qrText env.toLocale p, some "M"),
             (lit "Player ID: " ++ p.playerId.toJSString, none)] := by
        rw [hnew, qrAttempts_append, qrAttempts_append, hat1, hat4, hfsat]
        rfl
      refine ⟨fun h => by simp at h, fun _ => ⟨hatt, by rw [hres]; simp⟩, ?_, hlast⟩
      rw [hres]
      simp

/-- Witness for C4: with an encoder that refuses the full payload, the
composer makes the two attempts and returns. -/
theorem qr_fallback_witness :
    flakyQrEnv.Quiet Op.isDrawing
    ∧ attemptOk flakyQrEnv (qrText flakyQrEnv.toLocale demoPlayer) (some "M")
        (qrStart flakyQrEnv demoPlayer []) = false
    ∧ (drawBackSide flakyQrEnv demoPlayer false []).1 = .ok ()
    ∧ qrAttempts (newEvents (drawBackSide flakyQrEnv demoPlayer false) [])
        = [(qrText flakyQrEnv.toLocale demoPlayer, some "M"),
           (lit "Player ID: " ++ demoPlayer.playerId.toJSString, none)] :=
  ⟨fun _ op h => by cases op <;> first | rfl | simp [Op.isDrawing] at h,
   by decide,
   ((qr_fallback flakyQrEnv demoPlayer false []
      (fun _ op h => by cases op <;> first | rfl | simp [Op.isDrawing] at h)).2.1
      (by decide)).2.mpr (by decide),
   ((qr_fallback flakyQrEnv demoPlayer false []
      (fun _ op h => by cases op <;> first | rfl | simp [Op.isDrawing] at h)).2.1
      (by decide)).1⟩

/-! ## Paths and file names -/

theorem splitOn_ne_nil (sep : UInt16) (s : JSString) : splitOn sep s ≠ [] := by
  cases s with
  | nil => simp [splitOn]
  | cons u rest =>
    simp only [splitOn]
    split
    · simp
    · split <;> simp

theorem splitOn_append_sep_all (sep : UInt16) (a b : JSString) :
    splitOn sep (a ++ sep :: b) = splitOn sep a ++ splitOn sep b := by
  induction a with
  | nil => simp [splitOn]
  | cons u rest ih =>
    rw [List.cons_append]
    simp only [splitOn]
    rw [ih]
    split
    · simp
    · rcases h : splitOn sep rest with _ | ⟨seg, segs⟩
      · exact absurd h (splitOn_ne_nil sep rest)
      · simp

theorem splitOn_no_sep (sep : UInt16) (s : JSString) : ∀ seg ∈ splitOn sep s, sep ∉ seg := by
  induction s with
  | nil => simp [splitOn]
  | cons u rest ih =>
    intro seg hseg
    simp only [splitOn] at hseg
    split at hseg
    · rcases List.mem_cons.mp hseg with h | h
      · simp [h]
      · exact ih seg h
    · rename_i hu
      rcases h : splitOn sep rest with _ | ⟨sg, sgs⟩
      · exact absurd h (splitOn_ne_nil sep rest)
      · rw [h] at hseg ih
        rcases List.mem_cons.mp hseg with h1 | h1
        · rw [h1]
          simp only [List.mem_cons, not_or]
          exact ⟨fun e => hu e.symm, ih sg (List.mem_cons_self _ _)⟩
        · exact ih seg (List.mem_cons_of_mem _ h1)

theorem lastSegment_append_sep (a b : JSString) :
    lastSegment (a ++ slash :: b) = lastSegment b := by
  unfold lastSegment
  rw [splitOn_append_sep_all, List.getLast?_append_of_ne_nil _ (splitOn_ne_nil slash b)]

theorem lastSegment_of_not_mem (a : JSString) (h : slash ∉ a) : lastSegment a = a := by
  unfold lastSegment
  rw [splitOn_of_not_mem slash a h]
  rfl

theorem splitOn_append_of_not_mem (sep : UInt16) (a b : JSString) (h : sep ∉ b) :
    splitOn sep (a ++ b)
      = (splitOn sep a).dropLast ++ [((splitOn sep a).getLast?.getD []) ++ b] := by
  induction a with
  | nil => simp [splitOn, splitOn_of_not_mem sep b h]
  | cons u rest ih =>
    rw [List.cons_append]
    simp only [splitOn]
    rw [ih]
    rcases hX : splitOn sep rest with _ | ⟨sg, sgs⟩
    · exact absurd hX (splitOn_ne_nil sep rest)
    · split
      · cases sgs <;> simp
      · cases sgs <;> simp

theorem lastSegment_append (a b : JSString) (h : slash ∉ b) :
    lastSegment (a ++ b) = lastSegment a ++ b := by
  unfold lastSegment
  rw [splitOn_append_of_not_mem slash a b h]
  simp

theorem lastSegment_of_trailing_slash (j : JSString) (h : j.getLast? = some slash) :
    lastSegment j = [] := by
  have hj : j.dropLast ++ [slash] = j := List.dropLast_append_getLast? slash h
  rw [← hj, lastSegment_append_sep]
  rfl

theorem join_concat (sep : UInt16) (xs : List JSString) (l : JSString) :
    join [sep] (xs ++ [l]) = if xs = [] then l else join [sep] xs ++ sep :: l := by
  induction xs with
  | nil => rfl
  | cons a rest ih =>
    cases rest with
    | nil => simp [join]
    | cons b rest2 =>
      have e : join [sep] (a :: b :: rest2 ++ [l])
          = a ++ [sep] ++ join [sep] ((b :: rest2) ++ [l]) := rfl
      rw [e, ih]
      simp [join]

theorem lastSegment_normalizeString (allow : Bool) (j : JSString)
    (h1 : lastSegment j ≠ []) (h2 : lastSegment j ≠ lit ".") (h3 : lastSegment j ≠ lit "..") :
    normalizeString allow j ≠ []
    ∧ lastSegment (normalizeString allow j) = lastSegment j := by
  have hne := splitOn_ne_nil slash j
  obtain ⟨l, hl⟩ : ∃ l, (splitOn slash j).getLast? = some l := by
    rcases h : (splitOn slash j).getLast? with _ | l
    · exact absurd (List.getLast?_eq_none_iff.mp h) hne
    · exact ⟨l, rfl⟩
  have hL : lastSegment j = l := by simp [lastSegment, hl]
  rw [hL] at h1 h2 h3 ⊢
  have hsplit : (splitOn slash j).dropLast ++ [l] = splitOn slash j :=
    List.dropLast_append_getLast? l hl
  have hmem : l ∈ splitOn slash j := by
    rw [← hsplit]
    simp
  have hns : slash ∉ l := splitOn_no_sep slash j l hmem
  unfold normalizeString
  rw [← hsplit, List.foldl_append]
  simp only [List.foldl_cons, List.foldl_nil]
  have hstep : ∀ st, normalizeStep allow st l = l :: st := by
    intro st
    simp [normalizeStep, h1, h2, h3]
  rw [hstep, List.reverse_cons, join_concat]
  split
  · exact ⟨h1, lastSegment_of_not_mem l hns⟩
  · refine ⟨by simp, ?_⟩
    rw [lastSegment_append_sep, lastSegment_of_not_mem l hns]

theorem lastSegment_normalize (j : JSString)
    (h1 : lastSegment j ≠ []) (h2 : lastSegment j ≠ lit ".") (h3 : lastSegment j ≠ lit "..") :
    lastSegment (normalize j) = lastSegment j := by
  have hj : j ≠ [] := by
    intro h
    rw [h] at h1
    exact h1 rfl
  have htr : ¬ j.getLast? = some slash := fun h => h1 (lastSegment_of_trailing_slash j h)
  obtain ⟨hne, hls⟩ := lastSegment_normalizeString (!isAbsolute j) j h1 h2 h3
  unfold normalize
  simp only [hj, if_false, hne, htr]
  split
  · have := lastSegment_append_sep [] (normalizeString (!isAbsolute j) j)
    simp only [List.nil_append] at this
    rw [this, hls]
  · exact hls

theorem lastSegment_pathJoin (dir f : JSString)
    (h1 : lastSegment f ≠ []) (h2 : lastSegment f ≠ lit ".") (h3 : lastSegment f ≠ lit "..") :
    lastSegment (pathJoin [dir, f]) = lastSegment f := by
  have hf : f ≠ [] := by
    intro h
    rw [h] at h1
    exact h1 rfl
  have hfe : f.isEmpty = false := by
    cases f with
    | nil => exact absurd rfl hf
    | cons a b => rfl
  unfold pathJoin
  cases dir with
  | nil =>
    have hj : join [slash] (List.filter (fun p => !p.isEmpty) [[], f]) = f := by
      simp [List.filter, hfe, join]
    simp only [hj, hf, if_false]
    exact lastSegment_normalize f h1 h2 h3
  | cons d ds =>
    have hj : join [slash] (List.filter (fun p => !p.isEmpty) [d :: ds, f])
        = (d :: ds) ++ slash :: f := by
      simp [List.filter, hfe, join]
    have hls : lastSegment ((d :: ds) ++ slash :: f) = lastSegment f :=
      lastSegment_append_sep _ _
    rw [hj]
    simp only [List.cons_append, reduceCtorEq, if_false]
    rw [← List.cons_append, lastSegment_normalize _ (by rw [hls]; exact h1)
      (by rw [hls]; exact h2) (by rw [hls]; exact h3), hls]

/-- Source `path.join` on sample inputs: `..` segments are resolved, also when they
come from the file name. -/
theorem pathJoin_samples :
    pathJoin [lit "/srv/app/backend/utils", lit "../idcards"] = lit "/srv/app/backend/idcards"
    ∧ pathJoin [lit "/srv/utils", lit "../", lit "uploads/a.png"] = lit "/srv/uploads/a.png"
    ∧ pathJoin [lit "/srv/idcards", lit "idcard_/../../x_1.pdf"] = lit "/srv/x_1.pdf"
    ∧ normalize (lit "a/../../b/") = lit "../b/"
    ∧ lastSegment (lit "/idcards/idcard_a/b_1.pdf") = lit "b_1.pdf" := by
  decide

/-! ### Decimal rendering -/

theorem digitsFrom_ofDigits (fuel n : Nat) (h : n < fuel) :
    Nat.ofDigits 10 (digitsFrom fuel n) = n := by
  induction fuel generalizing n with
  | zero => omega
  | succ k ih =>
    unfold digitsFrom
    split
    · simp [Nat.ofDigits]
    · rw [Nat.ofDigits_cons, ih (n / 10) (by omega)]
      omega

theorem digitsFrom_lt (fuel n : Nat) : ∀ d ∈ digitsFrom fuel n, d < 10 := by
  induction fuel generalizing n with
  | zero => simp [digitsFrom]
  | succ k ih =>
    intro d hd
    unfold digitsFrom at hd
    split at hd
    · simp only [List.mem_singleton] at hd
      omega
    · rcases List.mem_cons.mp hd with h | h
      · omega
      · exact ih _ d h

theorem digitUnit_toNat (d : Nat) (h : d < 10) : (digitUnit d).toNat - 48 = d := by
  interval_cases d <;> rfl

theorem digitUnit_ne_slash (d : Nat) (h : d < 10) : digitUnit d ≠ slash := by
  interval_cases d <;> decide

theorem decimal_injective (a b : Nat) (h : decimal a = decimal b) : a = b := by
  unfold decimal at h
  have hback : ∀ l : List Nat, (∀ d ∈ l, d < 10) →
      (l.map digitUnit).map (fun u => u.toNat - 48) = l := by
    intro l hl
    rw [List.map_map]
    conv_rhs => rw [← List.map_id l]
    exact List.map_congr_left fun d hd => digitUnit_toNat d (hl d hd)
  have h1 := congrArg (List.map fun u : UInt16 => u.toNat - 48) h
  rw [hback _ (fun d hd => digitsFrom_lt _ _ d (List.mem_reverse.mp hd)),
    hback _ (fun d hd => digitsFrom_lt _ _ d (List.mem_reverse.mp hd))] at h1
  have h2 := List.reverse_injective h1
  have h3 := congrArg (Nat.ofDigits 10) h2
  rwa [digitsFrom_ofDigits _ _ (Nat.lt_succ_self a),
    digitsFrom_ofDigits _ _ (Nat.lt_succ_self b)] at h3

theorem decimal_no_slash (n : Nat) : slash ∉ decimal n := by
  unfold decimal
  intro h
  obtain ⟨d, hd, he⟩ := List.mem_map.mp h
  exact digitUnit_ne_slash d (digitsFrom_lt _ _ d (List.mem_reverse.mp hd)) he

/-! ## The assembler -/

theorem frontOps_not_assembly (env : Env) (p : Player) (u : Bool) :
    ∀ op ∈ frontOps env p u, op.isAssembly = false := by
  have h : (frontOps env p u).all (fun op => !op.isAssembly) = true := by
    cases hph : p.profilePhoto <;>
      simp [frontOps, frontBeforeOps, photoBlockOps, frontAfterOps, hph, backgroundOps,
        leftLogoOp, rightLogoOp, titleOps, photoOp, placeholderOps, layoutOps_profileFields,
        cellOps, bannerOps, footerGradientOps, footerOps, watermarkOps, Op.isAssembly]
  intro op hop
  have := List.all_eq_true.mp h op hop
  simpa using this

theorem backOps_not_assembly (env : Env) (p : Player) (u : Bool) :
    ∀ op ∈ backOps env p u, op.isAssembly = false := by
  have h : (backOps env p u).all (fun op => !op.isAssembly) = true := by
    simp [backOps, backBeforeOps, backAfterOps, backgroundOps, leftLogoOp, rightLogoOp,
      titleOps, backLoop_backFields, qrFullOps, qrFallbackOps, qrImageOp, qrCaptionOps,
      bannerOps, footerGradientOps, footerOps, watermarkOps, Op.isAssembly]
  intro op hop
  have := List.all_eq_true.mp h op hop
  simpa using this

theorem registerUnicodeFont_confined (S : Event → Prop) (env : Env)
    (h : ∀ ok, S (Event.call (.registerFont "Unicode" (unicodeFontPath env)) ok))
    (hlog : ∀ b m, S (Event.log b m)) : Confined S (registerUnicodeFont env) := by
  unfold registerUnicodeFont
  refine confined_ite S _ _ _ (confined_tryCatch S _ _ ?_ fun _ => ?_) (confined_ret S _)
  · exact confined_bind S _ _ (confined_emit S env _ h) fun _ => confined_ret S _
  · exact confined_bind S _ _ (confined_logLine S _ _ (hlog _ _)) fun _ => confined_ret S _

theorem assemblySteps_confined (S : Event → Prop) (env : Env) (p : Player) (u : Bool)
    (hasm : ∀ op ∈ assemblerOps env p, ∀ ok, S (Event.call op ok))
    (hcomp : ∀ op, op.isAssembly = false → ∀ ok, S (Event.call op ok))
    (hlog : ∀ b m, S (Event.log b m)) : ∀ r ∈ assemblySteps env p u, Confined S r := by
  intro r hr
  simp only [assemblySteps, List.mem_cons, List.mem_singleton, List.not_mem_nil, or_false] at hr
  rcases hr with rfl | rfl | rfl | rfl | rfl | rfl | rfl | rfl
  · exact confined_emit S env _ (hasm _ (by simp [assemblerOps]))
  · exact confined_emit S env _ (hasm _ (by simp [assemblerOps]))
  · exact drawFrontSide_confined S env p u
      (fun op ho ok => hcomp op (frontOps_not_assembly env p u op ho) ok) hlog
  · exact confined_emit S env _ (hasm _ (by simp [assemblerOps]))
  · exact drawBackSide_confined S env p u
      (fun op ho ok => hcomp op (backOps_not_assembly env p u op ho) ok) hlog
  · exact confined_emit S env _ (hasm _ (by simp [assemblerOps]))
  · exact confined_emit S env _ (hasm _ (by simp [assemblerOps]))
  · exact confined_logLine S _ _ (hlog _ _)

theorem generateIdCardBody_confined (S : Event → Prop) (env : Env) (p : Player)
    (hasm : ∀ op ∈ assemblerOps env p, ∀ ok, S (Event.call op ok))
    (hcomp : ∀ op, op.isAssembly = false → ∀ ok, S (Event.call op ok))
    (hlog : ∀ b m, S (Event.log b m)) : Confined S (generateIdCardBody env p) := by
  unfold generateIdCardBody
  refine confined_seq S _ _ (confined_logLine S _ _ (hlog _ _))
    (confined_seq S _ _ (confined_emit S env _ (hasm _ (by simp [assemblerOps])))
      (confined_bind S _ _
        (registerUnicodeFont_confined S env (hasm _ (by simp [assemblerOps])) hlog)
        fun u => confined_seq S _ _
          (confined_seqAll S _ (assemblySteps_confined S env p u hasm hcomp hlog))
          (confined_ret S _)))

theorem generateIdCard_confined (S : Event → Prop) (env : Env) (p : Player)
    (hasm : ∀ op ∈ assemblerOps env p, ∀ ok, S (Event.call op ok))
    (hcomp : ∀ op, op.isAssembly = false → ∀ ok, S (Event.call op ok))
    (hlog : ∀ b m, S (Event.log b m)) : Confined S (generateIdCard env p) := by
  unfold generateIdCard
  exact confined_tryCatch S _ _ (generateIdCardBody_confined S env p hasm hcomp hlog)
    fun _ => confined_seq S _ _ (confined_logLine S _ _ (hlog _ _)) (confined_raise S _)

theorem seq_ok_value {β : Type} (r : Run Unit) (k : Run β) (P : β → Prop)
    (hk : ∀ tr b, (k tr).1 = .ok b → P b) : ∀ tr b, (Run.seq r k tr).1 = .ok b → P b := by
  intro tr b h
  rcases run_cases r tr with ⟨a, tr1, h1⟩ | ⟨e, tr1, h1⟩
  · rw [seq_of_ok r k tr tr1 h1] at h
    exact hk tr1 b h
  · rw [seq_of_error r k tr tr1 e h1] at h
    simp at h

theorem bind_ok_value {α β : Type} (r : Run α) (k : α → Run β) (P : β → Prop)
    (hk : ∀ a tr b, (k a tr).1 = .ok b → P b) : ∀ tr b, (Run.bind r k tr).1 = .ok b → P b := by
  intro tr b h
  rcases run_cases r tr with ⟨a, tr1, h1⟩ | ⟨e, tr1, h1⟩
  · rw [bind_of_ok r k tr tr1 a h1] at h
    exact hk a tr1 b h
  · rw [bind_of_error r k tr tr1 e h1] at h
    simp at h

theorem generateIdCardBody_value (env : Env) (p : Player) (tr : Trace) (path : JSString)
    (h : (generateIdCardBody env p tr).1 = .ok path) :
    path = lit "/idcards/" ++ idCardFilename p env.now := by
  unfold generateIdCardBody at h
  refine seq_ok_value _ _ (fun b => b = lit "/idcards/" ++ idCardFilename p env.now)
    (seq_ok_value _ _ _ (bind_ok_value _ _ _ fun u => seq_ok_value _ _ _ ?_)) tr path h
  intro tr1 b hb
  simp only [Run.ret, Except.ok.injEq] at hb
  exact hb.symm

theorem generateIdCard_of_body_ok (env : Env) (p : Player) (tr tr1 : Trace) (path : JSString)
    (h : generateIdCardBody env p tr = (.ok path, tr1)) :
    generateIdCard env p tr = (.ok path, tr1) := by
  unfold generateIdCard
  exact tryCatch_of_ok _ _ tr tr1 path h

theorem generateIdCard_of_body_error (env : Env) (p : Player) (tr tr1 : Trace) (e : JSError)
    (h : generateIdCardBody env p tr = (.error e, tr1)) :
    generateIdCard env p tr
      = (.error ⟨lit "Failed to generate ID card: " ++ e.message⟩,
         tr1 ++ [Event.log true (lit "Error generating ID card:")]) := by
  unfold generateIdCard
  rw [tryCatch_of_error _ _ tr tr1 e h]
  simp [Run.seq, Run.bind, logLine, Run.raise]

theorem generateIdCard_ok_iff (env : Env) (p : Player) (tr : Trace) (path : JSString) :
    (generateIdCard env p tr).1 = .ok path ↔ (generateIdCardBody env p tr).1 = .ok path := by
  rcases run_cases (generateIdCardBody env p) tr with ⟨a, tr1, h⟩ | ⟨e, tr1, h⟩
  · rw [generateIdCard_of_body_ok env p tr tr1 a h, h]
  · rw [generateIdCard_of_body_error env p tr tr1 e h, h]
    simp

theorem must_emit (env : Env) (op : Op) : Must (Event.call op true) (emit env op) := by
  intro tr a hok
  rcases ho : env.raises tr op with _ | e
  · rw [emit_quiet env op tr ho]
    exact ⟨[Event.call op true], rfl, by simp⟩
  · rw [emit_raises env op tr e ho] at hok
    simp at hok

theorem must_bind_right {α β : Type} (e0 : Event) (r : Run α) (k : α → Run β)
    (hr : Confined (fun _ => True) r) (hk : ∀ a, Must e0 (k a)) : Must e0 (Run.bind r k) := by
  intro tr b hok
  rcases run_cases r tr with ⟨a, tr1, h⟩ | ⟨e, tr1, h⟩
  · obtain ⟨evs, h1, _⟩ := hr tr
    rw [h] at h1
    simp only at h1
    rw [bind_of_ok r k tr tr1 a h] at hok ⊢
    obtain ⟨evs2, h3, h4⟩ := hk a tr1 b hok
    exact ⟨evs ++ evs2, by rw [h3, h1, List.append_assoc], List.mem_append_right _ h4⟩
  · rw [bind_of_error r k tr tr1 e h] at hok
    simp at hok

/-- Every assembler call of a run that returns a path has returned. -/
theorem generateIdCardBody_must (env : Env) (p : Player) (op : Op)
    (hop : op ∈ unguardedAssemblerOps env p) :
    Must (Event.call op true) (generateIdCardBody env p) := by
  have hT : ∀ u, ∀ r ∈ assemblySteps env p u, Confined (fun _ => True) r := fun u =>
    assemblySteps_confined _ env p u (fun _ _ _ => trivial) (fun _ _ _ => trivial)
      (fun _ _ => trivial)
  have hreg : Confined (fun _ => True) (registerUnicodeFont env) :=
    registerUnicodeFont_confined _ env (fun _ => trivial) (fun _ _ => trivial)
  have hrest : Confined (fun _ => True)
      (Run.bind (registerUnicodeFont env) fun u =>
        Run.seq (seqAll (assemblySteps env p u))
          (Run.ret (lit "/idcards/" ++ idCardFilename p env.now))) :=
    confined_bind _ _ _ hreg fun u =>
      confined_seq _ _ _ (confined_seqAll _ _ (hT u)) (confined_ret _ _)
  unfold generateIdCardBody
  refine must_seq_right _ _ _ (confined_logLine _ _ _ trivial) ?_
  simp only [unguardedAssemblerOps, List.mem_cons, List.mem_singleton, List.not_mem_nil,
    or_false] at hop
  rcases hop with rfl | hop
  · exact must_seq_left _ _ _ (must_emit env _) hrest
  · refine must_seq_right _ _ _ (confined_emit _ env _ fun _ => trivial)
      (must_bind_right _ _ _ hreg fun u =>
        must_seq_left _ _ _ (must_seqAll _ _ (emit env op) (hT u) ?_ (must_emit env op))
          (confined_ret _ _))
    rcases hop with rfl | rfl | rfl | rfl | rfl <;> simp [assemblySteps]

theorem idCardFilename_lastSegment (p : Player) (t : Nat) :
    lastSegment (idCardFilename p t)
      = lastSegment (lit "idcard_" ++ p.playerId.toJSString ++ lit "_") ++ decimal t
          ++ lit ".pdf" := by
  unfold idCardFilename
  rw [lastSegment_append _ _ (by decide), lastSegment_append _ _ (decimal_no_slash t)]

theorem idCardFilename_regular (p : Player) (t : Nat) :
    lastSegment (idCardFilename p t) ≠ []
    ∧ lastSegment (idCardFilename p t) ≠ lit "."
    ∧ lastSegment (idCardFilename p t) ≠ lit ".." := by
  rw [idCardFilename_lastSegment]
  have hlen : ∀ x : JSString, 4 ≤ (x ++ lit ".pdf").length := by
    intro x
    rw [List.length_append]
    have : (lit ".pdf").length = 4 := rfl
    omega
  refine ⟨fun h => ?_, fun h => ?_, fun h => ?_⟩
  all_goals
    have h4 := hlen (lastSegment (lit "idcard_" ++ p.playerId.toJSString ++ lit "_") ++ decimal t)
    rw [h] at h4
    revert h4
    decide

theorem idCardPath_lastSegment (env : Env) (p : Player) :
    lastSegment (idCardPath env p) = lastSegment (idCardFilename p env.now) := by
  obtain ⟨h1, h2, h3⟩ := idCardFilename_regular p env.now
  exact lastSegment_pathJoin _ _ h1 h2 h3

theorem normalizeStep_regular (allow : Bool) (st : List JSString) (seg : JSString)
    (h : RegularSegment seg) : normalizeStep allow st seg = seg :: st := by
  simp [normalizeStep, h.1, h.2.1, h.2.2.1]

theorem normalizeStep_stack (st : List JSString) (seg : JSString)
    (hst : ∀ x ∈ st, RegularSegment x) (hseg : slash ∉ seg) :
    ∀ x ∈ normalizeStep false st seg, RegularSegment x := by
  unfold normalizeStep
  split
  · exact hst
  · rename_i h1
    split
    · cases st with
      | nil => simp
      | cons top below =>
        simp only [Bool.false_eq_true, if_false, ite_self]
        split
        · exact hst
        · exact fun x hx => hst x (List.mem_cons_of_mem _ hx)
    · rename_i h2
      intro x hx
      rcases List.mem_cons.mp hx with h | h
      · rw [h]
        simp only [not_or] at h1
        exact ⟨h1.1, h1.2, h2, hseg⟩
      · exact hst x h

theorem foldl_normalizeStep_stack (segs : List JSString) :
    ∀ st : List JSString, (∀ x ∈ st, RegularSegment x) → (∀ x ∈ segs, slash ∉ x) →
      ∀ x ∈ segs.foldl (normalizeStep false) st, RegularSegment x := by
  induction segs with
  | nil => exact fun st hst _ => hst
  | cons seg rest ih =>
    intro st hst hsegs
    simp only [List.foldl_cons]
    exact ih _ (normalizeStep_stack st seg hst (hsegs seg (List.mem_cons_self _ _)))
      (fun x hx => hsegs x (List.mem_cons_of_mem _ hx))

theorem foldl_normalizeStep_regular (allow : Bool) (segs : List JSString) :
    ∀ st : List JSString, (∀ x ∈ segs, RegularSegment x) →
      segs.foldl (normalizeStep allow) st = segs.reverse ++ st := by
  induction segs with
  | nil => simp
  | cons seg rest ih =>
    intro st hsegs
    simp only [List.foldl_cons]
    rw [normalizeStep_regular allow st seg (hsegs seg (List.mem_cons_self _ _)),
      ih _ (fun x hx => hsegs x (List.mem_cons_of_mem _ hx))]
    simp

theorem join_ne_nil (sep : UInt16) (parts : List JSString) (hne : parts ≠ [])
    (h : ∀ x ∈ parts, x ≠ []) : join [sep] parts ≠ [] := by
  cases parts with
  | nil => exact absurd rfl hne
  | cons a rest =>
    have ha := h a (List.mem_cons_self _ _)
    cases rest with
    | nil => simpa [join] using ha
    | cons b rest2 => simp [join, ha]

/-- An absolute path whose last segment is regular normalises to a slash
followed by regular segments joined by slashes. -/
theorem normalize_absolute (X : JSString) (habs : isAbsolute X = true)
    (hreg : RegularSegment (lastSegment X)) :
    ∃ R : List JSString, R ≠ [] ∧ (∀ x ∈ R, RegularSegment x)
      ∧ normalize X = slash :: join [slash] R := by
  have hX : X ≠ [] := by
    intro h
    rw [h] at habs
    simp [isAbsolute] at habs
  have htr : ¬ X.getLast? = some slash := fun h => hreg.1 (lastSegment_of_trailing_slash X h)
  obtain ⟨l, hl⟩ : ∃ l, (splitOn slash X).getLast? = some l := by
    rcases h : (splitOn slash X).getLast? with _ | l
    · exact absurd (List.getLast?_eq_none_iff.mp h) (splitOn_ne_nil slash X)
    · exact ⟨l, rfl⟩
  have hL : lastSegment X = l := by simp [lastSegment, hl]
  rw [hL] at hreg
  have hsplit : (splitOn slash X).dropLast ++ [l] = splitOn slash X :=
    List.dropLast_append_getLast? l hl
  have hinit : ∀ x ∈ (splitOn slash X).dropLast, slash ∉ x := fun x hx =>
    splitOn_no_sep slash X x (by rw [← hsplit]; exact List.mem_append_left _ hx)
  have hfold : (splitOn slash X).foldl (normalizeStep false) []
      = l :: (splitOn slash X).dropLast.foldl (normalizeStep false) [] := by
    conv_lhs => rw [← hsplit]
    rw [List.foldl_append]
    simp only [List.foldl_cons, List.foldl_nil]
    exact normalizeStep_regular false _ l hreg
  have hstack := foldl_normalizeStep_stack (splitOn slash X).dropLast [] (by simp) hinit
  refine ⟨((splitOn slash X).foldl (normalizeStep false) []).reverse, ?_, ?_, ?_⟩
  · rw [hfold]
    simp
  · intro x hx
    rw [hfold] at hx
    rcases List.mem_cons.mp (List.mem_reverse.mp hx) with h | h
    · rw [h]
      exact hreg
    · exact hstack x h
  · have hres : normalizeString false X
        = join [slash] ((splitOn slash X).foldl (normalizeStep false) []).reverse := rfl
    have hne : normalizeString false X ≠ [] := by
      rw [hres]
      apply join_ne_nil
      · rw [hfold]
        simp
      · intro x hx
        rw [hfold] at hx
        rcases List.mem_cons.mp (List.mem_reverse.mp hx) with h | h
        · rw [h]
          exact hreg.1
        · exact (hstack x h).1
    unfold normalize
    simp only [hX, if_false, habs, Bool.not_true, hne, htr, if_true]
    rw [hres]

/-- Joining a regular file name onto a normalised absolute directory appends
it after one slash. -/
theorem pathJoin_file (R : List JSString) (f : JSString) (hR : R ≠ [])
    (hRreg : ∀ x ∈ R, RegularSegment x) (hf : RegularSegment f) :
    pathJoin [slash :: join [slash] R, f] = (slash :: join [slash] R) ++ slash :: f := by
  have hfe : f.isEmpty = false := by
    cases f with
    | nil => exact absurd rfl hf.1
    | cons a b => rfl
  have hjoined : join [slash] (List.filter (fun p => !p.isEmpty) [slash :: join [slash] R, f])
      = slash :: join [slash] (R ++ [f]) := by
    simp [List.filter, hfe, join, join_concat, hR]
  have hall : ∀ x ∈ R ++ [f], RegularSegment x := by
    intro x hx
    rcases List.mem_append.mp hx with h | h
    · exact hRreg x h
    · rw [List.mem_singleton.mp h]
      exact hf
  have hsplit : splitOn slash (slash :: join [slash] (R ++ [f])) = [] :: (R ++ [f]) := by
    simp only [splitOn, if_true]
    rw [splitOn_join slash (R ++ [f]) (by simp) (fun x hx => (hall x hx).2.2.2)]
  have hls : lastSegment (slash :: join [slash] (R ++ [f])) = f := by
    unfold lastSegment
    rw [hsplit, ← List.cons_append, List.getLast?_append_of_ne_nil _ (by simp)]
    rfl
  have hfold : (splitOn slash (slash :: join [slash] (R ++ [f]))).foldl (normalizeStep false) []
      = (R ++ [f]).reverse := by
    rw [hsplit, List.foldl_cons]
    have h0 : normalizeStep false [] [] = [] := by simp [normalizeStep]
    rw [h0, foldl_normalizeStep_regular false (R ++ [f]) [] hall]
    simp
  have hres : normalizeString false (slash :: join [slash] (R ++ [f]))
      = join [slash] (R ++ [f]) := by
    unfold normalizeString
    rw [hfold, List.reverse_reverse]
  have hne : join [slash] (R ++ [f]) ≠ [] :=
    join_ne_nil slash _ (by simp) (fun x hx => (hall x hx).1)
  have htr : ¬ (slash :: join [slash] (R ++ [f])).getLast? = some slash := fun h =>
    hf.1 (by rw [← hls]; exact lastSegment_of_trailing_slash _ h)
  unfold pathJoin
  rw [hjoined]
  simp only [reduceCtorEq, if_false]
  unfold normalize
  have habs : isAbsolute (slash :: join [slash] (R ++ [f])) = true := by simp [isAbsolute]
  simp only [reduceCtorEq, if_false, habs, Bool.not_true, hres, hne, htr, if_true]
  rw [join_concat]
  simp [hR]

theorem idCardsDir_normal (env : Env) (habs : isAbsolute env.dirname = true) :
    ∃ R : List JSString, R ≠ [] ∧ (∀ x ∈ R, RegularSegment x)
      ∧ idCardsDir env = slash :: join [slash] R := by
  obtain ⟨d, ds, hd⟩ : ∃ d ds, env.dirname = d :: ds := by
    cases h : env.dirname with
    | nil => rw [h] at habs; simp [isAbsolute] at habs
    | cons d ds => exact ⟨d, ds, rfl⟩
  have hj : join [slash] (List.filter (fun p => !p.isEmpty) [env.dirname, lit "../idcards"])
      = env.dirname ++ slash :: lit "../idcards" := by
    rw [hd]
    have : (lit "../idcards").isEmpty = false := rfl
    simp [List.filter, this, join]
  have hls : lastSegment (env.dirname ++ slash :: lit "../idcards") = lit "idcards" := by
    rw [lastSegment_append_sep]
    decide
  have habs2 : isAbsolute (env.dirname ++ slash :: lit "../idcards") = true := by
    rw [hd] at habs ⊢
    simpa [isAbsolute] using habs
  have hne : env.dirname ++ slash :: lit "../idcards" ≠ [] := by
    rw [hd]
    simp
  unfold idCardsDir pathJoin
  rw [hj]
  simp only [hne, if_false]
  exact normalize_absolute _ habs2 (by rw [hls]; unfold RegularSegment; decide)

/-- With an absolute module directory and a player ID without a slash, the
output file lies directly in the cards directory under the generated name. -/
theorem idCardPath_in_cardsDir (env : Env) (p : Player)
    (habs : isAbsolute env.dirname = true) (hid : slash ∉ p.playerId.toJSString) :
    idCardPath env p = idCardsDir env ++ slash :: idCardFilename p env.now := by
  obtain ⟨R, hR, hRreg, hD⟩ := idCardsDir_normal env habs
  have hns : slash ∉ idCardFilename p env.now := by
    unfold idCardFilename
    simp only [List.mem_append, not_or]
    exact ⟨⟨⟨⟨by decide, hid⟩, by decide⟩, decimal_no_slash _⟩, by decide⟩
  obtain ⟨h1, h2, h3⟩ := idCardFilename_regular p env.now
  rw [lastSegment_of_not_mem _ hns] at h1 h2 h3
  unfold idCardPath
  rw [hD]
  exact pathJoin_file R _ hR hRreg ⟨h1, h2, h3, hns⟩

set_option maxRecDepth 100000 in
/-- C5 fails as stated: for the player ID `x/../../../tmp/evil` the run
succeeds and returns `/idcards/idcard_x/../../../tmp/evil_<timestamp>.pdf`,
but the one file it opens for writing is `/srv/app/tmp/evil_<timestamp>.pdf`,
which is not in the cards directory `/srv/app/backend/idcards` and whose name
is not `idcard_<player ID>_<timestamp>.pdf`. -/
theorem storage_path_leaves_cards_dir :
    (generateIdCard (quietEnv [] 1700000000000) traversalPlayer []).1
      = .ok (lit "/idcards/idcard_x/../../../tmp/evil_1700000000000.pdf")
    ∧ idCardsDir (quietEnv [] 1700000000000) = lit "/srv/app/backend/idcards"
    ∧ idCardPath (quietEnv [] 1700000000000) traversalPlayer
      = lit "/srv/app/tmp/evil_1700000000000.pdf"
    ∧ Event.call (.createWriteStream (lit "/srv/app/tmp/evil_1700000000000.pdf")) true
      ∈ newEvents (generateIdCard (quietEnv [] 1700000000000) traversalPlayer) []
    ∧ ¬ (idCardsDir (quietEnv [] 1700000000000) ++ lit "/"
          <+: idCardPath (quietEnv [] 1700000000000) traversalPlayer)
    ∧ lastSegment (idCardPath (quietEnv [] 1700000000000) traversalPlayer)
      = lit "evil_1700000000000.pdf"
    ∧ lastSegment (idCardPath (quietEnv [] 1700000000000) traversalPlayer)
      ≠ idCardFilename traversalPlayer 1700000000000 := by
  have hp : idCardPath (quietEnv [] 1700000000000) traversalPlayer
      = lit "/srv/app/tmp/evil_1700000000000.pdf" := by decide
  have hd : idCardsDir (quietEnv [] 1700000000000) = lit "/srv/app/backend/idcards" := by decide
  refine ⟨by rfl, hd, hp, ?_, ?_, ?_, ?_⟩
  · have hev : newEvents (generateIdCard (quietEnv [] 1700000000000) traversalPlayer) []
        = (generateIdCard (quietEnv [] 1700000000000) traversalPlayer []).2 := rfl
    rw [hev, ← hp]
    decide
  · rw [hp, hd]
    decide
  · rw [hp]
    decide
  · rw [hp]
    decide

/-- C5, amended. A successful `generateIdCard` returns exactly
`/idcards/idcard_<player ID>_<decimal timestamp>.pdf`; the one file it opened
for writing is `path.join(idCardsDir, <that name>)`, whose last path segment
is the last path segment of the returned string; when the ID has no slash
that segment is the whole name `idcard_<player ID>_<timestamp>.pdf`, and with
an absolute module directory the file is `<idCardsDir>/<that name>`, directly
in the cards directory. -/
theorem storage_path (env : Env) (p : Player) (tr : Trace) (path : JSString)
    (h : (generateIdCard env p tr).1 = .ok path) :
    path = lit "/idcards/idcard_" ++ p.playerId.toJSString ++ lit "_" ++ decimal env.now
      ++ lit ".pdf"
    ∧ (∀ id, p.playerId = .str id →
        path = lit "/idcards/idcard_" ++ id ++ lit "_" ++ decimal env.now ++ lit ".pdf")
    ∧ Event.call (.createWriteStream (idCardPath env p)) true
        ∈ newEvents (generateIdCard env p) tr
    ∧ (∀ q ok, Event.call (.createWriteStream q) ok ∈ newEvents (generateIdCard env p) tr →
        q = idCardPath env p)
    ∧ lastSegment (idCardPath env p) = lastSegment path
    ∧ (slash ∉ p.playerId.toJSString →
        lastSegment (idCardPath env p)
          = lit "idcard_" ++ p.playerId.toJSString ++ lit "_" ++ decimal env.now ++ lit ".pdf")
    ∧ (isAbsolute env.dirname = true → slash ∉ p.playerId.toJSString →
        idCardPath env p = idCardsDir env ++ lit "/" ++ idCardFilename p env.now) := by
  have hbody := (generateIdCard_ok_iff env p tr path).mp h
  have hval := generateIdCardBody_value env p tr path hbody
  have hpath : path = lit "/idcards/idcard_" ++ p.playerId.toJSString ++ lit "_"
      ++ decimal env.now ++ lit ".pdf" := by
    rw [hval]
    simp only [idCardFilename, List.append_assoc]
    rfl
  have hls : lastSegment path = lastSegment (idCardFilename p env.now) := by
    rw [hval]
    exact lastSegment_append_sep (lit "/idcards") (idCardFilename p env.now)
  refine ⟨hpath, ?_, ?_, ?_, ?_, ?_, ?_⟩
  · intro id hid
    rw [hpath, hid]
    rfl
  · rcases run_cases (generateIdCardBody env p) tr with ⟨a, tr1, hb⟩ | ⟨e, tr1, hb⟩
    · have hm := must_newEvents _ _
        (generateIdCardBody_must env p (.createWriteStream (idCardPath env p))
          (by simp [unguardedAssemblerOps]))
        tr a (by rw [hb])
      have e1 : newEvents (generateIdCard env p) tr = newEvents (generateIdCardBody env p) tr := by
        simp only [newEvents, generateIdCard_of_body_ok env p tr tr1 a hb, hb]
      rw [e1]
      exact hm
    · rw [hb] at hbody
      simp at hbody
  · intro q ok hmem
    refine confined_newEvents
      (fun e => ∀ q ok, e = Event.call (.createWriteStream q) ok → q = idCardPath env p)
      _ (generateIdCard_confined _ env p ?_ ?_ ?_) tr _ hmem q ok rfl
    · intro op hop ok1 q1 ok2 heq
      simp only [Event.call.injEq] at heq
      obtain ⟨rfl, -⟩ := heq
      simpa [assemblerOps] using hop
    · intro op hop ok1 q1 ok2 heq
      simp only [Event.call.injEq] at heq
      obtain ⟨rfl, -⟩ := heq
      simp [Op.isAssembly] at hop
    · intro b m q1 ok2 heq
      simp at heq
  · rw [hls, idCardPath_lastSegment]
  · intro hns
    rw [idCardPath_lastSegment]
    have : slash ∉ idCardFilename p env.now := by
      unfold idCardFilename
      simp only [List.mem_append, not_or]
      exact ⟨⟨⟨⟨by decide, hns⟩, by decide⟩, decimal_no_slash _⟩, by decide⟩
    rw [lastSegment_of_not_mem _ this]
    rfl
  · intro habs hns
    rw [idCardPath_in_cardsDir env p habs hns, List.append_assoc]
    rfl

/-- Witness for the amended C5: the demo record at timestamp 1700000000000
with no asset file present. -/
theorem storage_path_witness :
    (generateIdCard (quietEnv [] 1700000000000) demoPlayer []).1
      = .ok (lit "/idcards/idcard_PS20250001_1700000000000.pdf")
    ∧ lastSegment (idCardPath (quietEnv [] 1700000000000) demoPlayer)
      = lastSegment (lit "/idcards/idcard_PS20250001_1700000000000.pdf") :=
  ⟨by rfl,
   (storage_path (quietEnv [] 1700000000000) demoPlayer []
      (lit "/idcards/idcard_PS20250001_1700000000000.pdf") (by rfl)).2.2.2.2.1⟩

set_option maxRecDepth 100000 in
/-- C6 fails as stated: a second call for the same record that reads the
same millisecond from the clock returns the same path as the first and opens
the same file for writing. -/
theorem same_millisecond_same_file :
    (generateIdCard (quietEnv [] 1700000000000) demoPlayer []).1
      = .ok (lit "/idcards/idcard_PS20250001_1700000000000.pdf")
    ∧ (generateIdCard (quietEnv [] 1700000000000) demoPlayer
        (generateIdCard (quietEnv [] 1700000000000) demoPlayer []).2).1
      = .ok (lit "/idcards/idcard_PS20250001_1700000000000.pdf")
    ∧ ((generateIdCard (quietEnv [] 1700000000000) demoPlayer
        (generateIdCard (quietEnv [] 1700000000000) demoPlayer []).2).2.count
        (Event.call (.createWriteStream
          (lit "/srv/app/backend/idcards/idcard_PS20250001_1700000000000.pdf")) true)) = 2 :=
  ⟨by rfl, by rfl, by rfl⟩

/-- C6, amended. Two calls for the same record whose clock readings differ
produce different file names and open different files; the name is unique
per millisecond, not per call. -/
theorem distinct_timestamps_distinct_files (env1 env2 : Env) (p : Player)
    (h : env1.now ≠ env2.now) :
    idCardFilename p env1.now ≠ idCardFilename p env2.now
    ∧ idCardPath env1 p ≠ idCardPath env2 p
    ∧ lit "/idcards/" ++ idCardFilename p env1.now ≠ lit "/idcards/" ++ idCardFilename p env2.now := by
  have hseg : lastSegment (idCardFilename p env1.now) ≠ lastSegment (idCardFilename p env2.now) := by
    rw [idCardFilename_lastSegment, idCardFilename_lastSegment]
    intro he
    simp only [List.append_assoc, List.append_cancel_left_eq, List.append_cancel_right_eq] at he
    exact h (decimal_injective _ _ he)
  refine ⟨fun he => hseg (by rw [he]), fun he => hseg ?_, fun he => hseg ?_⟩
  · rw [← idCardPath_lastSegment env1 p, ← idCardPath_lastSegment env2 p, he]
  · rw [List.append_cancel_left he]

/-- Witness for the amended C6: clock readings one millisecond apart. -/
theorem distinct_timestamps_distinct_files_witness :
    (quietEnv [] 1700000000000).now ≠ (quietEnv [] 1700000000001).now
    ∧ idCardFilename demoPlayer (quietEnv [] 1700000000000).now
      ≠ idCardFilename demoPlayer (quietEnv [] 1700000000001).now :=
  ⟨by decide,
   (distinct_timestamps_distinct_files (quietEnv [] 1700000000000) (quietEnv [] 1700000000001)
      demoPlayer (by decide)).1⟩

/-! ### Errors -/

theorem registerUnicodeFont_failsAtCall (env : Env) :
    FailsAtCall env (registerUnicodeFont env) := by
  unfold registerUnicodeFont
  split
  · exact failsAtCall_tryCatch env _ _ fun _ =>
      failsAtCall_bind env _ _ (failsAtCall_logLine env _ _) fun _ => failsAtCall_ret env _
  · exact failsAtCall_ret env _

theorem drawFrontSide_failsAtCall (env : Env) (p : Player) (u : Bool) :
    FailsAtCall env (drawFrontSide env p u) := by
  unfold drawFrontSide
  apply failsAtCall_seqAll
  intro r hr
  simp only [frontBlocks, frontBefore, frontAfter, List.cons_append, List.nil_append,
    List.mem_cons, List.mem_singleton, List.not_mem_nil, or_false] at hr
  rcases hr with rfl | rfl | rfl | rfl | rfl | rfl | rfl | rfl
  · exact failsAtCall_emitAll env _
  · exact failsAtCall_tryCatch env _ _ fun _ => failsAtCall_logLine env _ _
  · exact failsAtCall_emitAll env _
  · unfold drawPhoto
    apply failsAtCall_seqAll
    intro r hr
    simp only [List.mem_cons, List.mem_singleton, List.not_mem_nil, or_false] at hr
    rcases hr with rfl | rfl | rfl
    · exact failsAtCall_emitAll env _
    · exact failsAtCall_tryCatch env _ _ fun _ => failsAtCall_emitAll env _
    · exact failsAtCall_emit env _
  · exact failsAtCall_emitAll env _
  · exact failsAtCall_emitAll env _
  · exact failsAtCall_seq env _ _ (failsAtCall_emitAll env _)
      (failsAtCall_tryCatch env _ _ fun _ => failsAtCall_logLine env _ _)
  · exact failsAtCall_tryCatch env _ _ fun _ => failsAtCall_ret env _

theorem drawBackSide_failsAtCall (env : Env) (p : Player) (u : Bool) :
    FailsAtCall env (drawBackSide env p u) := by
  unfold drawBackSide
  apply failsAtCall_seqAll
  intro r hr
  simp only [backBlocks, backBefore, backAfter, List.cons_append, List.nil_append,
    List.mem_cons, List.mem_singleton, List.not_mem_nil, or_false] at hr
  rcases hr with rfl | rfl | rfl | rfl | rfl | rfl | rfl | rfl
  · exact failsAtCall_emitAll env _
  · exact failsAtCall_tryCatch env _ _ fun _ => failsAtCall_logLine env _ _
  · exact failsAtCall_emitAll env _
  · exact failsAtCall_emitAll env _
  · exact failsAtCall_tryCatch env _ _ fun _ =>
      failsAtCall_seq env _ _ (failsAtCall_logLine env _ _) (failsAtCall_emitAll env _)
  · exact failsAtCall_emitAll env _
  · exact failsAtCall_seq env _ _ (failsAtCall_emitAll env _)
      (failsAtCall_tryCatch env _ _ fun _ => failsAtCall_logLine env _ _)
  · exact failsAtCall_tryCatch env _ _ fun _ => failsAtCall_ret env _

theorem generateIdCardBody_failsAtCall (env : Env) (p : Player) :
    FailsAtCall env (generateIdCardBody env p) := by
  unfold generateIdCardBody
  refine failsAtCall_seq env _ _ (failsAtCall_logLine env _ _)
    (failsAtCall_seq env _ _ (failsAtCall_emit env _)
      (failsAtCall_bind env _ _ (registerUnicodeFont_failsAtCall env) fun u =>
        failsAtCall_seq env _ _ (failsAtCall_seqAll env _ ?_) (failsAtCall_ret env _)))
  intro r hr
  simp only [assemblySteps, List.mem_cons, List.mem_singleton, List.not_mem_nil, or_false] at hr
  rcases hr with rfl | rfl | rfl | rfl | rfl | rfl | rfl | rfl
  · exact failsAtCall_emit env _
  · exact failsAtCall_emit env _
  · exact drawFrontSide_failsAtCall env p u
  · exact failsAtCall_emit env _
  · exact drawBackSide_failsAtCall env p u
  · exact failsAtCall_emit env _
  · exact failsAtCall_emit env _
  · exact failsAtCall_logLine env _ _

theorem okConfined_of_confined {α : Type} (S : Event → Prop) (r : Run α)
    (h : Confined S r) : OkConfined S r :=
  fun tr _ _ => h tr

theorem okConfined_emit (S : Event → Prop) (env : Env) (op : Op)
    (h : S (Event.call op true)) : OkConfined S (emit env op) := by
  intro tr a hok
  rcases ho : env.raises tr op with _ | e
  · rw [emit_quiet env op tr ho]
    exact ⟨[Event.call op true], rfl, by simpa using h⟩
  · rw [emit_raises env op tr e ho] at hok
    simp at hok

theorem okConfined_bind {α β : Type} (S : Event → Prop) (r : Run α) (k : α → Run β)
    (hr : OkConfined S r) (hk : ∀ a, OkConfined S (k a)) : OkConfined S (Run.bind r k) := by
  intro tr b hok
  rcases run_cases r tr with ⟨a, tr1, h⟩ | ⟨e, tr1, h⟩
  · obtain ⟨evs, h1, h2⟩ := hr tr a (by rw [h])
    rw [h] at h1
    simp only at h1
    rw [bind_of_ok r k tr tr1 a h] at hok ⊢
    obtain ⟨evs2, h3, h4⟩ := hk a tr1 b hok
    refine ⟨evs ++ evs2, by rw [h3, h1, List.append_assoc], ?_⟩
    intro e he
    rcases List.mem_append.mp he with h | h
    · exact h2 e h
    · exact h4 e h
  · rw [bind_of_error r k tr tr1 e h] at hok
    simp at hok

theorem okConfined_seq {β : Type} (S : Event → Prop) (r : Run Unit) (k : Run β)
    (hr : OkConfined S r) (hk : OkConfined S k) : OkConfined S (Run.seq r k) :=
  okConfined_bind S r (fun _ => k) hr (fun _ => hk)

theorem okConfined_seqAll (S : Event → Prop) (rs : List (Run Unit))
    (h : ∀ r ∈ rs, OkConfined S r) : OkConfined S (seqAll rs) := by
  induction rs with
  | nil => exact okConfined_of_confined S _ (confined_ret S ())
  | cons r rest ih =>
    exact okConfined_seq S _ _ (h r (List.mem_cons_self _ _))
      (ih fun o ho => h o (List.mem_cons_of_mem _ ho))

/-- A run of the body that returns has seen none of its unguarded calls
raise. -/
theorem generateIdCardBody_okConfined (env : Env) (p : Player) :
    OkConfined (fun e => ∀ op ∈ unguardedAssemblerOps env p, e ≠ Event.call op false)
      (generateIdCardBody env p) := by
  have hcomp : ∀ o : Op, o.isAssembly = false → ∀ ok,
      ∀ op ∈ unguardedAssemblerOps env p, Event.call o ok ≠ Event.call op false := by
    intro o ho ok op hop heq
    simp only [Event.call.injEq] at heq
    obtain ⟨rfl, -⟩ := heq
    simp only [unguardedAssemblerOps, List.mem_cons, List.mem_singleton, List.not_mem_nil,
      or_false] at hop
    rcases hop with rfl | rfl | rfl | rfl | rfl | rfl <;> simp [Op.isAssembly] at ho
  have hlog : ∀ (b : Bool) (m : JSString),
      ∀ op ∈ unguardedAssemblerOps env p, Event.log b m ≠ Event.call op false := by
    intro b m op _ heq
    simp at heq
  have htrue : ∀ o : Op,
      ∀ op ∈ unguardedAssemblerOps env p, Event.call o true ≠ Event.call op false := by
    intro o op _ heq
    simp at heq
  have hreg : ∀ ok, ∀ op ∈ unguardedAssemblerOps env p,
      Event.call (.registerFont "Unicode" (unicodeFontPath env)) ok ≠ Event.call op false := by
    intro ok op hop heq
    simp only [Event.call.injEq] at heq
    obtain ⟨rfl, -⟩ := heq
    simp [unguardedAssemblerOps] at hop
  unfold generateIdCardBody
  refine okConfined_seq _ _ _ (okConfined_of_confined _ _ (confined_logLine _ _ _ (hlog _ _)))
    (okConfined_seq _ _ _ (okConfined_emit _ env _ (htrue _))
      (okConfined_bind _ _ _ (okConfined_of_confined _ _
          (registerUnicodeFont_confined _ env hreg hlog)) fun u =>
        okConfined_seq _ _ _ (okConfined_seqAll _ _ ?_)
          (okConfined_of_confined _ _ (confined_ret _ _))))
  · intro r hr
    simp only [assemblySteps, List.mem_cons, List.mem_singleton, List.not_mem_nil,
      or_false] at hr
    rcases hr with rfl | rfl | rfl | rfl | rfl | rfl | rfl | rfl
    · exact okConfined_emit _ env _ (htrue _)
    · exact okConfined_emit _ env _ (htrue _)
    · exact okConfined_of_confined _ _ (drawFrontSide_confined _ env p u
        (fun op ho ok => hcomp op (frontOps_not_assembly env p u op ho) ok) hlog)
    · exact okConfined_emit _ env _ (htrue _)
    · exact okConfined_of_confined _ _ (drawBackSide_confined _ env p u
        (fun op ho ok => hcomp op (backOps_not_assembly env p u op ho) ok) hlog)
    · exact okConfined_emit _ env _ (htrue _)
    · exact okConfined_emit _ env _ (htrue _)
    · exact okConfined_of_confined _ _ (confined_logLine _ _ _ (hlog _ _))

/-- The errors raised by the statements of `generateIdCard`. Every such
error is one error whose message is `Failed to generate ID card: ` followed
by the message of the error that escaped the body, which is the error the
environment raised at the last recorded call (document open, a composer
call, the failing fallback QR attempt, a stream call, the rejected wait for
the stream, ...); no path is returned then. Conversely a path is
returned only when the body returned it, and then each of the calls outside
any guard (document open, stream creation, pipe, page advance, finalisation,
waiting for the stream) was made and returned, none of them raised. -/
theorem error_wrapping (env : Env) (p : Player) (tr : Trace) :
    (∀ e, (generateIdCard env p tr).1 = .error e →
      ∃ e0 t op, env.raises t op = some e0
        ∧ generateIdCardBody env p tr = (.error e0, t ++ [Event.call op false])
        ∧ e = ⟨lit "Failed to generate ID card: " ++ e0.message⟩
        ∧ (generateIdCard env p tr).2
            = t ++ [Event.call op false, Event.log true (lit "Error generating ID card:")])
    ∧ (∀ e0, (generateIdCardBody env p tr).1 = .error e0 →
        (generateIdCard env p tr).1
          = .error ⟨lit "Failed to generate ID card: " ++ e0.message⟩)
    ∧ (∀ path, (generateIdCard env p tr).1 = .ok path →
        (generateIdCardBody env p tr).1 = .ok path
        ∧ ∀ op ∈ unguardedAssemblerOps env p,
            Event.call op true ∈ newEvents (generateIdCard env p) tr
            ∧ Event.call op false ∉ newEvents (generateIdCard env p) tr)
    ∧ (∀ e0, env.raises (tr ++ [Event.log false
          (lit "Starting ID card generation for player: " ++ p.playerId.toJSString)])
          (.newDocument 650 400) = some e0 →
        (generateIdCard env p tr).1
          = .error ⟨lit "Failed to generate ID card: " ++ e0.message⟩) := by
  have hwrap : ∀ e0, (generateIdCardBody env p tr).1 = .error e0 →
      (generateIdCard env p tr).1
        = .error ⟨lit "Failed to generate ID card: " ++ e0.message⟩ := by
    intro e0 h0
    rcases run_cases (generateIdCardBody env p) tr with ⟨a, tr1, hb⟩ | ⟨e1, tr1, hb⟩
    · rw [hb] at h0
      simp at h0
    · rw [hb] at h0
      simp only [Except.error.injEq] at h0
      subst h0
      rw [generateIdCard_of_body_error env p tr tr1 e1 hb]
  refine ⟨?_, hwrap, ?_, ?_⟩
  · intro e he
    rcases run_cases (generateIdCardBody env p) tr with ⟨a, tr1, hb⟩ | ⟨e1, tr1, hb⟩
    · rw [generateIdCard_of_body_ok env p tr tr1 a hb] at he
      simp at he
    · obtain ⟨t, op, h1, h2⟩ := generateIdCardBody_failsAtCall env p tr e1 (by rw [hb])
      rw [hb] at h1
      simp only at h1
      rw [generateIdCard_of_body_error env p tr tr1 e1 hb] at he ⊢
      simp only [Except.error.injEq] at he
      refine ⟨e1, t, op, h2, by rw [hb, h1], he.symm, ?_⟩
      rw [h1]
      simp
  · intro path hp
    have hbody := (generateIdCard_ok_iff env p tr path).mp hp
    refine ⟨hbody, fun op hop => ?_⟩
    rcases run_cases (generateIdCardBody env p) tr with ⟨a, tr1, hb⟩ | ⟨e1, tr1, hb⟩
    · have e1 : newEvents (generateIdCard env p) tr = newEvents (generateIdCardBody env p) tr := by
        simp only [newEvents, generateIdCard_of_body_ok env p tr tr1 a hb, hb]
      rw [e1]
      refine ⟨must_newEvents _ _ (generateIdCardBody_must env p op hop) tr a (by rw [hb]), ?_⟩
      obtain ⟨evs, h1, h2⟩ := generateIdCardBody_okConfined env p tr a (by rw [hb])
      rw [newEvents_of_append _ tr evs h1]
      intro hmem
      exact h2 _ hmem op hop rfl
    · rw [hb] at hbody
      simp at hbody
  · intro e0 h0
    apply hwrap
    unfold generateIdCardBody
    simp [Run.seq, Run.bind, logLine, emit, h0]

/-! ## Runs in which only asset loading may raise -/

theorem drawPhoto_good (S : Event → Prop) (env : Env) (p : Player)
    (hq : env.Quiet Op.isDrawing)
    (hops : ∀ op ∈ photoBlockOps env p, ∀ ok, S (Event.call op ok)) :
    Good S (drawPhoto env p) := by
  have hph : Good S (emitAll env placeholderOps) :=
    good_emitAllQuiet S env _ hq placeholderOps (by decide)
      (fun op ho => hops op (by simp [photoBlockOps, ho]) true)
  unfold drawPhoto
  apply good_seqAll
  intro r hr
  simp only [List.mem_cons, List.mem_singleton, List.not_mem_nil, or_false] at hr
  rcases hr with rfl | rfl | rfl
  · exact good_emitAllQuiet S env _ hq [.save, .roundedRect 40 135 130 130 16, .clip]
      (by decide) (fun op ho => hops op (by
        simp only [photoBlockOps, List.mem_append]; tauto) true)
  · refine good_tryCatch S _ _ ?_ (fun _ => hph)
    unfold photoBody
    split
    · rename_i s hs
      refine confined_ite S _ _ _ (good_confined S _ hph)
        (confined_ite S _ _ _ ?_ (good_confined S _ hph))
      exact confined_emit S env _ (hops _ (by simp [photoBlockOps, hs]))
    · exact good_confined S _ hph
  · exact good_emit S env _ (fun tr => hq tr _ rfl) (hops _ (by simp [photoBlockOps]) true)

theorem drawFrontSide_good (S : Event → Prop) (env : Env) (p : Player) (u : Bool)
    (hq : env.Quiet Op.isDrawing)
    (hops : ∀ op ∈ frontOps env p u, ∀ ok, S (Event.call op ok))
    (hlog : ∀ b m, S (Event.log b m)) : Good S (drawFrontSide env p u) := by
  unfold drawFrontSide frontBlocks
  apply good_seqAll
  intro r hr
  rcases List.mem_append.mp hr with h | h
  · exact frontBefore_good S env hq
      (fun op ho ok => hops op (by simp only [frontOps, List.mem_append]; tauto) ok) hlog r h
  · rcases List.mem_cons.mp h with h | h
    · subst h
      exact drawPhoto_good S env p hq
        (fun op ho ok => hops op (by simp only [frontOps, List.mem_append]; tauto) ok)
    · exact frontAfter_good S env p u hq
        (fun op ho ok => hops op (by simp only [frontOps, List.mem_append]; tauto) ok) hlog r h

theorem drawQr_good (S : Event → Prop) (env : Env) (p : Player)
    (hq : env.Quiet fun op => !op.isAssetLoad)
    (hops : ∀ op ∈ qrFullOps env p ++ qrFallbackOps p, ∀ ok, S (Event.call op ok))
    (hlog : ∀ b m, S (Event.log b m)) : Good S (drawQr env p) := by
  unfold drawQr
  refine good_tryCatch S _ _
    (confined_emitAll S env _ fun op ho ok => hops op (List.mem_append_left _ ho) ok)
    (fun _ => good_seq S _ _ (good_logLine S _ _ (hlog _ _))
      (good_emitAllQuiet S env _ hq (qrFallbackOps p) (by simp [qrFallbackOps, qrImageOp,
        Op.isAssetLoad]) (fun op ho => hops op (List.mem_append_right _ ho) true)))

theorem quiet_isDrawing_of_assets (env : Env) (hq : env.Quiet fun op => !op.isAssetLoad) :
    env.Quiet Op.isDrawing :=
  quiet_mono env _ _ hq fun op h => by cases op <;> first | rfl | simp [Op.isDrawing] at h

theorem drawBackSide_good (S : Event → Prop) (env : Env) (p : Player) (u : Bool)
    (hq : env.Quiet fun op => !op.isAssetLoad)
    (hops : ∀ op ∈ backOps env p u, ∀ ok, S (Event.call op ok))
    (hlog : ∀ b m, S (Event.log b m)) : Good S (drawBackSide env p u) := by
  have hd := quiet_isDrawing_of_assets env hq
  unfold drawBackSide backBlocks
  apply good_seqAll
  intro r hr
  rcases List.mem_append.mp hr with h | h
  · exact backBefore_good S env p hd
      (fun op ho ok => hops op (by simp only [backOps, List.mem_append]; tauto) ok) hlog r h
  · rcases List.mem_cons.mp h with h | h
    · subst h
      exact drawQr_good S env p hq
        (fun op ho ok => hops op (by
          simp only [backOps, List.mem_append] at ho ⊢; tauto) ok) hlog
    · exact backAfter_good S env p u hd
        (fun op ho ok => hops op (by simp only [backOps, List.mem_append]; tauto) ok) hlog r h

theorem registerUnicodeFont_run (env : Env) (tr : Trace) :
    ∃ u evs, registerUnicodeFont env tr = (.ok u, tr ++ evs)
      ∧ ∀ e ∈ evs, isPageEvent e = false := by
  unfold registerUnicodeFont
  split
  · rcases h : env.raises tr (.registerFont "Unicode" (unicodeFontPath env)) with _ | e
    · refine ⟨true, [Event.call (.registerFont "Unicode" (unicodeFontPath env)) true], ?_, ?_⟩
      · rw [tryCatch_of_ok _ _ tr _ true]
        rw [bind_of_ok _ _ tr _ () (emit_quiet env _ tr h)]
        rfl
      · simp [isPageEvent]
    · refine ⟨false, [Event.call (.registerFont "Unicode" (unicodeFontPath env)) false,
        Event.log true (lit "Error registering Unicode font:")], ?_, ?_⟩
      · rw [tryCatch_of_error _ _ tr _ e
          (by rw [bind_of_error _ _ tr _ e (emit_raises env _ tr e h)])]
        simp [Run.bind, logLine, Run.ret]
      · simp [isPageEvent]
  · exact ⟨false, [], by simp [Run.ret], by simp⟩

theorem isPageEvent_of_not_assembly (op : Op) (ok : Bool) (h : op.isAssembly = false) :
    isPageEvent (Event.call op ok) = false := by
  cases op <;> first | rfl | simp [Op.isAssembly] at h

theorem assemblySteps_split (env : Env) (p : Player) (u : Bool) :
    assemblySteps env p u
      = [emit env (.createWriteStream (idCardPath env p)), emit env .pipe,
          drawFrontSide env p u]
        ++ emit env .addPage
          :: [drawBackSide env p u, emit env .endDocument, emit env .awaitFinish,
              logLine false (lit "ID card generated successfully: "
                ++ idCardFilename p env.now)] :=
  rfl

theorem generateIdCardBody_run (env : Env) (p : Player) (tr : Trace)
    (hq : env.Quiet fun op => !op.isAssetLoad) :
    ∃ evs1 evs2,
      generateIdCardBody env p tr
        = (.ok (lit "/idcards/" ++ idCardFilename p env.now),
           tr ++ (Event.log false (lit "Starting ID card generation for player: "
                    ++ p.playerId.toJSString)
                  :: Event.call (.newDocument 650 400) true :: evs1
                  ++ Event.call .addPage true :: evs2))
      ∧ (∀ e ∈ evs1, isPageEvent e = false) ∧ (∀ e ∈ evs2, isPageEvent e = false) := by
  have hd := quiet_isDrawing_of_assets env hq
  have hemit : ∀ op : Op, op.isAssetLoad = false → op.isAssembly = true → op ≠ .addPage →
      (∀ w h, op ≠ .newDocument w h) →
      Good (fun e => isPageEvent e = false) (emit env op) := by
    intro op h1 _ h3 h4
    refine good_emit _ env op (fun t => hq t op (by simp [h1])) ?_
    cases op <;> first | rfl | exact absurd rfl h3 | exact absurd rfl (h4 _ _)
  have hfirst : ∀ u, Good (fun e => isPageEvent e = false)
      (seqAll [emit env (.createWriteStream (idCardPath env p)), emit env .pipe,
        drawFrontSide env p u]) := by
    intro u
    apply good_seqAll
    intro r hr
    simp only [List.mem_cons, List.mem_singleton, List.not_mem_nil, or_false] at hr
    rcases hr with rfl | rfl | rfl
    · exact hemit _ rfl rfl (by simp) (by simp)
    · exact hemit _ rfl rfl (by simp) (by simp)
    · exact drawFrontSide_good _ env p u hd
        (fun op ho ok => isPageEvent_of_not_assembly op ok (frontOps_not_assembly env p u op ho))
        (fun _ _ => rfl)
  have hsecond : ∀ u, Good (fun e => isPageEvent e = false)
      (seqAll [drawBackSide env p u, emit env .endDocument, emit env .awaitFinish,
        logLine false (lit "ID card generated successfully: " ++ idCardFilename p env.now)]) := by
    intro u
    apply good_seqAll
    intro r hr
    simp only [List.mem_cons, List.mem_singleton, List.not_mem_nil, or_false] at hr
    rcases hr with rfl | rfl | rfl | rfl
    · exact drawBackSide_good _ env p u hq
        (fun op ho ok => isPageEvent_of_not_assembly op ok (backOps_not_assembly env p u op ho))
        (fun _ _ => rfl)
    · exact hemit _ rfl rfl (by simp) (by simp)
    · exact hemit _ rfl rfl (by simp) (by simp)
    · exact good_logLine _ _ _ rfl
  have h0 : logLine false (lit "Starting ID card generation for player: "
      ++ p.playerId.toJSString) tr
      = (.ok (), tr ++ [Event.log false (lit "Starting ID card generation for player: "
          ++ p.playerId.toJSString)]) := rfl
  have h1 := emit_quiet env (.newDocument 650 400)
    (tr ++ [Event.log false (lit "Starting ID card generation for player: "
      ++ p.playerId.toJSString)]) (hq _ _ rfl)
  obtain ⟨u, evsR, h2, hR⟩ := registerUnicodeFont_run env
    (tr ++ [Event.log false (lit "Starting ID card generation for player: "
      ++ p.playerId.toJSString)] ++ [Event.call (.newDocument 650 400) true])
  obtain ⟨evsA, h3, hA⟩ := hfirst u
    (tr ++ [Event.log false (lit "Starting ID card generation for player: "
      ++ p.playerId.toJSString)] ++ [Event.call (.newDocument 650 400) true] ++ evsR)
  have h4 := emit_quiet env .addPage
    (tr ++ [Event.log false (lit "Starting ID card generation for player: "
      ++ p.playerId.toJSString)] ++ [Event.call (.newDocument 650 400) true] ++ evsR ++ evsA)
    (hq _ _ rfl)
  obtain ⟨evsB, h5, hB⟩ := hsecond u
    (tr ++ [Event.log false (lit "Starting ID card generation for player: "
      ++ p.playerId.toJSString)] ++ [Event.call (.newDocument 650 400) true] ++ evsR ++ evsA
      ++ [Event.call .addPage true])
  refine ⟨evsR ++ evsA, evsB, ?_, ?_, hB⟩
  · unfold generateIdCardBody
    rw [seq_of_ok _ _ tr _ h0, seq_of_ok _ _ _ _ h1, bind_of_ok _ _ _ _ u h2]
    have hsteps : seqAll (assemblySteps env p u)
        (tr ++ [Event.log false (lit "Starting ID card generation for player: "
          ++ p.playerId.toJSString)] ++ [Event.call (.newDocument 650 400) true] ++ evsR)
        = (.ok (), tr ++ [Event.log false (lit "Starting ID card generation for player: "
          ++ p.playerId.toJSString)] ++ [Event.call (.newDocument 650 400) true] ++ evsR
          ++ evsA ++ [Event.call .addPage true] ++ evsB) := by
      rw [assemblySteps_split, seqAll_append, seq_of_ok _ _ _ _ h3]
      show Run.seq (emit env .addPage) _ _ = _
      rw [seq_of_ok _ _ _ _ h4, h5]
    rw [seq_of_ok _ _ _ _ hsteps]
    simp [Run.ret]
  · intro e he
    rcases List.mem_append.mp he with h | h
    · exact hR e h
    · exact hA e h

theorem pageCount_eq_zero (evs : Trace) (h : ∀ e ∈ evs, isPageEvent e = false) :
    pageCount evs = 0 := by
  unfold pageCount
  rw [List.countP_eq_zero]
  intro e he
  simp [h e he]

/-- C8. Whatever the record holds - in particular when every optional field
is absent - and whichever asset files exist, if nothing but loading an asset
(placing an image file, registering the font) raises, then `generateIdCard`
returns its path and the document has exactly two pages: the automatic
first page and one page advance. -/
theorem renders_without_optional_data (env : Env) (p : Player) (tr : Trace)
    (hq : env.Quiet fun op => !op.isAssetLoad) :
    (generateIdCard env p tr).1 = .ok (lit "/idcards/" ++ idCardFilename p env.now)
    ∧ pageCount (newEvents (generateIdCard env p) tr) = 2
    ∧ (newEvents (generateIdCard env p) tr).count (Event.call .addPage true) = 1 := by
  obtain ⟨evs1, evs2, hrun, h1, h2⟩ := generateIdCardBody_run env p tr hq
  have hgen := generateIdCard_of_body_ok env p tr _ _ hrun
  have hnew := newEvents_of_append _ tr _ (congrArg Prod.snd hgen)
  have hc : ∀ evs : Trace, (∀ e ∈ evs, isPageEvent e = false) →
      evs.count (Event.call .addPage true) = 0 := by
    intro evs h
    rw [List.count_eq_zero]
    intro hmem
    have := h _ hmem
    simp [isPageEvent] at this
  refine ⟨by rw [hgen], ?_, ?_⟩
  · rw [hnew]
    have z1 := pageCount_eq_zero evs1 h1
    have z2 := pageCount_eq_zero evs2 h2
    unfold pageCount at z1 z2 ⊢
    simp only [List.countP_append, List.countP_cons, z1, z2]
    simp [isPageEvent]
  · rw [hnew]
    simp only [List.count_cons, List.count_append, hc evs1 h1, hc evs2 h2]
    simp

/-- Witness for C8: the record with every field absent, every asset file
present but unreadable. -/
theorem renders_without_optional_data_witness :
    (brokenAssetEnv.Quiet fun op => !op.isAssetLoad)
    ∧ (generateIdCard brokenAssetEnv {} []).1
        = .ok (lit "/idcards/" ++ idCardFilename {} brokenAssetEnv.now)
    ∧ pageCount (newEvents (generateIdCard brokenAssetEnv {}) []) = 2 :=
  ⟨fun _ op h => by simp only [Bool.not_eq_true'] at h; simp [brokenAssetEnv, h],
   (renders_without_optional_data brokenAssetEnv {} []
      (fun _ op h => by simp only [Bool.not_eq_true'] at h; simp [brokenAssetEnv, h])).1,
   (renders_without_optional_data brokenAssetEnv {} []
      (fun _ op h => by simp only [Bool.not_eq_true'] at h; simp [brokenAssetEnv, h])).2.1⟩

/-! ## Photo block -/

theorem drawPhoto_run (env : Env) (p : Player) (t : Trace) (hq : env.Quiet Op.isDrawing) :
    drawPhoto env p t
      = (.ok (), t ++ clipEvents ++ photoFillSpec env p (t ++ clipEvents)
          ++ [Event.call .restore true]) := by
  have hclip : emitAll env [.save, .roundedRect 40 135 130 130 16, .clip] t
      = (.ok (), t ++ clipEvents) :=
    emitAll_quiet env Op.isDrawing hq _ (by decide) t
  have hph : ∀ t1, emitAll env placeholderOps t1 = (.ok (), t1 ++ placeholderEvents) :=
    fun t1 => emitAll_quiet env Op.isDrawing hq _ (by decide) t1
  have hrest : ∀ t1, emit env .restore t1 = (.ok (), t1 ++ [Event.call .restore true]) :=
    fun t1 => emit_quiet env _ t1 (hq t1 _ rfl)
  have hfin : ∀ fill : Trace,
      Run.tryCatch (photoBody env p) (fun _ => emitAll env placeholderOps) (t ++ clipEvents)
        = (.ok (), t ++ clipEvents ++ fill) →
      drawPhoto env p t = (.ok (), t ++ clipEvents ++ fill ++ [Event.call .restore true]) := by
    intro fill h
    unfold drawPhoto
    simp only [seqAll]
    rw [seq_of_ok _ _ t _ hclip, seq_of_ok _ _ _ _ h, seq_of_ok _ _ _ _ (hrest _)]
    rfl
  unfold photoFillSpec
  cases hp : p.profilePhoto with
  | undefined =>
    apply hfin
    rw [tryCatch_of_ok _ _ _ _ ()]
    unfold photoBody
    rw [hp]
    exact hph _
  | null =>
    apply hfin
    rw [tryCatch_of_ok _ _ _ _ ()]
    unfold photoBody
    rw [hp]
    exact hph _
  | str s =>
    simp only
    by_cases hs : s = []
    · simp only [hs, if_true]
      apply hfin
      rw [tryCatch_of_ok _ _ _ _ ()]
      unfold photoBody
      rw [hp, hs]
      exact hph _
    · have hse : s.isEmpty = false := by
        cases s with
        | nil => exact absurd rfl hs
        | cons a b => rfl
      simp only [hs, if_false]
      cases hex : env.fileExists (absPhotoPath env s) with
      | false =>
        simp only [if_true]
        apply hfin
        rw [tryCatch_of_ok _ _ _ _ ()]
        unfold photoBody
        rw [hp]
        simp only [hse, hex, Bool.false_eq_true, if_false]
        exact hph _
      | true =>
        simp only [Bool.true_eq_false, if_false]
        rcases hr : env.raises (t ++ clipEvents) (photoOp (absPhotoPath env s)) with _ | e
        · apply hfin
          rw [tryCatch_of_ok _ _ _ _ ()]
          unfold photoBody
          rw [hp]
          simp only [hse, hex, Bool.false_eq_true, if_false, if_true]
          exact emit_quiet env _ _ hr
        · apply hfin
          rw [tryCatch_of_error _ _ _ (t ++ clipEvents
            ++ [Event.call (photoOp (absPhotoPath env s)) false]) e]
          · rw [hph]
            simp
          · unfold photoBody
            rw [hp]
            simp only [hse, hex, Bool.false_eq_true, if_false, if_true]
            exact emit_raises env _ _ e hr

theorem frontBeforeOps_not_photo (env : Env) :
    ∀ op ∈ frontBeforeOps env, op.isPhotoCall = false := by
  have h : (frontBeforeOps env).all (fun op => !op.isPhotoCall) = true := by
    simp [frontBeforeOps, backgroundOps, leftLogoOp, rightLogoOp, titleOps, Op.isPhotoCall]
  intro op hop
  have := List.all_eq_true.mp h op hop
  simpa using this

theorem frontAfterOps_not_photo (env : Env) (p : Player) (u : Bool) :
    ∀ op ∈ frontAfterOps env p u, op.isPhotoCall = false := by
  have h : (frontAfterOps env p u).all (fun op => !op.isPhotoCall) = true := by
    simp [frontAfterOps, layoutOps_profileFields, cellOps, bannerOps, footerGradientOps,
      footerOps, watermarkOps, Op.isPhotoCall]
  intro op hop
  have := List.all_eq_true.mp h op hop
  simpa using this

/-- C9. In a run of `drawFrontSide` whose drawing calls do not raise, the
composer returns, and its calls are: some calls that do not touch the photo
square, then save, the rounded 130 x 130 clip at (40, 135), the fill, restore,
then again calls that do not touch the photo square. The fill is the gray
`#cccccc` rectangle of the same position and size when the photo reference is
absent, null or empty, or the resolved file does not exist; it is the image
when placing it returns; and when placing it raises, the failed placement is
followed by the same gray rectangle. -/
theorem photo_placeholder (env : Env) (p : Player) (u : Bool) (tr : Trace)
    (hq : env.Quiet Op.isDrawing) :
    (∃ pre post,
      drawFrontSide env p u tr
        = (.ok (), tr ++ pre ++ (clipEvents ++ photoFillSpec env p (tr ++ pre ++ clipEvents)
            ++ [Event.call .restore true]) ++ post)
      ∧ (∀ e ∈ pre ++ post, ∀ op ok, e = Event.call op ok → op.isPhotoCall = false))
    ∧ (∀ t, p.profilePhoto.truthy = false →
        photoFillSpec env p t
          = [Event.call (.rect 40 135 130 130) true, Event.call (.fill (.color "#cccccc")) true])
    ∧ (∀ t s, p.profilePhoto = .str s → env.fileExists (absPhotoPath env s) = false →
        photoFillSpec env p t
          = [Event.call (.rect 40 135 130 130) true, Event.call (.fill (.color "#cccccc")) true])
    ∧ (∀ t s e, p.profilePhoto = .str s → s ≠ [] → env.fileExists (absPhotoPath env s) = true →
        env.raises t (.image (.file (absPhotoPath env s)) 40 135 130 (some 130)) = some e →
        photoFillSpec env p t
          = [Event.call (.image (.file (absPhotoPath env s)) 40 135 130 (some 130)) false,
             Event.call (.rect 40 135 130 130) true, Event.call (.fill (.color "#cccccc")) true])
    ∧ (∀ t s, p.profilePhoto = .str s → s ≠ [] → env.fileExists (absPhotoPath env s) = true →
        env.raises t (.image (.file (absPhotoPath env s)) 40 135 130 (some 130)) = none →
        photoFillSpec env p t
          = [Event.call (.image (.file (absPhotoPath env s)) 40 135 130 (some 130)) true]) := by
  refine ⟨?_, ?_, ?_, ?_, ?_⟩
  · obtain ⟨pre, h1, hpre⟩ := good_seqAll
      (fun e => ∀ op ok, e = Event.call op ok → op.isPhotoCall = false) (frontBefore env)
      (frontBefore_good _ env hq
        (fun op ho ok o k heq => by
          simp only [Event.call.injEq] at heq
          rw [← heq.1]
          exact frontBeforeOps_not_photo env op ho)
        (fun b m o k heq => by simp at heq)) tr
    obtain ⟨post, h2, hpost⟩ := good_seqAll
      (fun e => ∀ op ok, e = Event.call op ok → op.isPhotoCall = false) (frontAfter env p u)
      (frontAfter_good _ env p u hq
        (fun op ho ok o k heq => by
          simp only [Event.call.injEq] at heq
          rw [← heq.1]
          exact frontAfterOps_not_photo env p u op ho)
        (fun b m o k heq => by simp at heq))
      (tr ++ pre ++ clipEvents ++ photoFillSpec env p (tr ++ pre ++ clipEvents)
        ++ [Event.call .restore true])
    refine ⟨pre, post, ?_, ?_⟩
    · unfold drawFrontSide frontBlocks
      rw [seqAll_append, seq_of_ok _ _ tr _ h1]
      show Run.seq (drawPhoto env p) _ _ = _
      rw [seq_of_ok _ _ _ _ (drawPhoto_run env p (tr ++ pre) hq), h2]
      simp
    · intro e he
      rcases List.mem_append.mp he with h | h
      · exact hpre e h
      · exact hpost e h
  · intro t ht
    unfold photoFillSpec
    cases hp : p.profilePhoto with
    | undefined => rfl
    | null => rfl
    | str s =>
      cases s with
      | nil => rfl
      | cons a b => simp [hp, Field.truthy] at ht
  · intro t s hp hex
    unfold photoFillSpec
    rw [hp]
    simp only [hex, if_true]
    split <;> rfl
  · intro t s e hp hs hex hr
    unfold photoFillSpec
    rw [hp]
    simp only [hs, hex, if_false, Bool.true_eq_false]
    rw [show photoOp (absPhotoPath env s)
      = .image (.file (absPhotoPath env s)) 40 135 130 (some 130) from rfl, hr]
    rfl
  · intro t s hp hs hex hr
    unfold photoFillSpec
    rw [hp]
    simp only [hs, hex, if_false, Bool.true_eq_false]
    rw [show photoOp (absPhotoPath env s)
      = .image (.file (absPhotoPath env s)) 40 135 130 (some 130) from rfl, hr]

/-- Witness for C9: a record whose photo reference names a file that does
not exist. -/
theorem photo_placeholder_witness :
    (quietEnv [] 0).Quiet Op.isDrawing
    ∧ photoFillSpec (quietEnv [] 0) { profilePhoto := .str (lit "/uploads/missing.jpg") } []
        = [Event.call (.rect 40 135 130 130) true, Event.call (.fill (.color "#cccccc")) true] :=
  ⟨fun _ _ _ => rfl,
   (photo_placeholder (quietEnv [] 0) { profilePhoto := .str (lit "/uploads/missing.jpg") }
      false [] (fun _ _ _ => rfl)).2.2.1 [] (lit "/uploads/missing.jpg") rfl rfl⟩

/-! ## Layout loop -/

theorem cellOps_text (l v : JSString) (x0 y0 w0 : Nat) (s : JSString) (x y w : Nat) (a : Align)
    (h : Op.text s x y w a ∈ cellOps l v x0 y0 w0) : y = y0 := by
  simp only [cellOps, List.mem_cons, List.mem_singleton, List.not_mem_nil, or_false,
    Op.text.injEq, reduceCtorEq, false_or] at h
  rcases h with h | h
  · exact h.2.2.1
  · exact h.2.2.1

theorem layoutLoop_text_ge (n : Nat) :
    ∀ fs : List (JSString × JSString), fs.length ≤ n → ∀ i y0 s x y w a,
      Op.text s x y w a ∈ layoutLoop i fs y0 → y0 ≤ y := by
  induction n with
  | zero =>
    intro fs hfs i y0 s x y w a h
    cases fs with
    | nil => simp [layoutLoop] at h
    | cons f rest => simp at hfs
  | succ k ih =>
    intro fs hfs i y0 s x y w a h
    match fs, hfs, h with
    | [], _, h => simp [layoutLoop] at h
    | [f], _, h =>
      simp only [layoutLoop] at h
      split at h
      · exact le_of_eq (cellOps_text _ _ _ _ _ _ _ _ _ _ h).symm
      · split at h
        · exact le_of_eq (cellOps_text _ _ _ _ _ _ _ _ _ _ h).symm
        · simp at h
    | f :: g :: rest, hfs, h =>
      have hl1 : (g :: rest).length ≤ k := by simp at hfs ⊢; omega
      have hl2 : rest.length ≤ k := by simp at hfs ⊢; omega
      simp only [layoutLoop] at h
      split at h
      · rcases List.mem_append.mp h with h1 | h1
        · exact le_of_eq (cellOps_text _ _ _ _ _ _ _ _ _ _ h1).symm
        · have := ih _ hl1 _ _ _ _ _ _ _ h1
          omega
      · split at h
        · rcases List.mem_append.mp h with h1 | h1
          · exact le_of_eq (cellOps_text _ _ _ _ _ _ _ _ _ _ h1).symm
          · split at h1
            · rcases List.mem_append.mp h1 with h2 | h2
              · exact le_of_eq (cellOps_text _ _ _ _ _ _ _ _ _ _ h2).symm
              · have := ih _ hl2 _ _ _ _ _ _ _ h2
                omega
            · have := ih _ hl1 _ _ _ _ _ _ _ h1
              omega
        · exact ih _ hl1 _ _ _ _ _ _ _ h

theorem layoutLoop_address_head (i : Nat) (v : JSString) (post : List (JSString × JSString))
    (y0 : Nat) :
    layoutLoop i ((lit "Address", v) :: post) y0
      = cellOps (lit "Address") v col1X y0 300 ++ layoutLoop (i + 1) post (y0 + 38) := by
  cases post <;> simp [layoutLoop]

theorem layoutLoop_address (v : JSString) (post : List (JSString × JSString)) (n : Nat) :
    ∀ pre : List (JSString × JSString), pre.length ≤ n → ∀ i y0,
      ∃ y, y0 ≤ y
        ∧ layoutLoop i (pre ++ (lit "Address", v) :: post) y0
            = layoutLoop i pre y0 ++ cellOps (lit "Address") v col1X y 300
              ++ layoutLoop (i + pre.length + 1) post (y + 38)
        ∧ (∀ s x y1 w a, Op.text s x y1 w a ∈ layoutLoop i pre y0 → y1 < y) := by
  induction n with
  | zero =>
    intro pre hpre i y0
    cases pre with
    | nil =>
      exact ⟨y0, le_refl _, by simp [layoutLoop_address_head, layoutLoop],
        by simp [layoutLoop]⟩
    | cons f rest => simp at hpre
  | succ k ih =>
    intro pre hpre i y0
    match pre, hpre with
    | [], _ =>
      exact ⟨y0, le_refl _, by simp [layoutLoop_address_head, layoutLoop],
        by simp [layoutLoop]⟩
    | [f], _ =>
      by_cases hf : f.1 = lit "Address"
      · refine ⟨y0 + 38, by omega, ?_, ?_⟩
        · simp [layoutLoop, hf, layoutLoop_address_head]
        · intro s x y1 w a h
          simp only [layoutLoop, hf, if_true] at h
          have := cellOps_text _ _ _ _ _ _ _ _ _ _ h
          omega
      · by_cases hi : i % 2 = 0
        · refine ⟨y0 + 38, by omega, ?_, ?_⟩
          · simp [layoutLoop, hf, hi, layoutLoop_address_head]
          · intro s x y1 w a h
            simp only [layoutLoop, hf, hi, if_true, if_false] at h
            have := cellOps_text _ _ _ _ _ _ _ _ _ _ h
            omega
        · refine ⟨y0, le_refl _, ?_, ?_⟩
          · simp [layoutLoop, hf, hi, layoutLoop_address_head]
          · intro s x y1 w a h
            simp [layoutLoop, hf, hi] at h
    | f :: g :: rest, hpre =>
      have hl1 : (g :: rest).length ≤ k := by simp at hpre ⊢; omega
      have hl2 : rest.length ≤ k := by simp at hpre ⊢; omega
      have e1 : i + 1 + (g :: rest).length + 1 = i + (f :: g :: rest).length + 1 := by
        simp only [List.length_cons]; omega
      have e2 : i + 2 + rest.length + 1 = i + (f :: g :: rest).length + 1 := by
        simp only [List.length_cons]; omega
      by_cases hf : f.1 = lit "Address"
      · obtain ⟨y, hy, heq, hlt⟩ := ih (g :: rest) hl1 (i + 1) (y0 + 38)
        refine ⟨y, by omega, ?_, ?_⟩
        · simp only [List.cons_append, layoutLoop, List.append_eq, hf, if_true]
          rw [← List.cons_append, heq, e1]
          simp
        · intro s x y1 w a h
          simp only [layoutLoop, hf, if_true] at h
          rcases List.mem_append.mp h with h1 | h1
          · have := cellOps_text _ _ _ _ _ _ _ _ _ _ h1
            omega
          · exact hlt _ _ _ _ _ h1
      · by_cases hi : i % 2 = 0
        · by_cases hg : g.1 = lit "Address"
          · obtain ⟨y, hy, heq, hlt⟩ := ih (g :: rest) hl1 (i + 1) (y0 + 38)
            refine ⟨y, by omega, ?_, ?_⟩
            · simp only [List.cons_append, layoutLoop, List.append_eq, hf, hi, hg, if_true, if_false,
                ne_eq, not_true_eq_false]
              rw [← List.cons_append, heq, e1]
              simp
            · intro s x y1 w a h
              simp only [layoutLoop, hf, hi, hg, if_true, if_false, ne_eq,
                not_true_eq_false] at h
              rcases List.mem_append.mp h with h1 | h1
              · have := cellOps_text _ _ _ _ _ _ _ _ _ _ h1
                omega
              · exact hlt _ _ _ _ _ h1
          · obtain ⟨y, hy, heq, hlt⟩ := ih rest hl2 (i + 2) (y0 + 38)
            refine ⟨y, by omega, ?_, ?_⟩
            · simp only [List.cons_append, layoutLoop, List.append_eq, hf, hi, hg, if_true, if_false,
                ne_eq, not_false_eq_true]
              rw [heq, e2]
              simp
            · intro s x y1 w a h
              simp only [layoutLoop, hf, hi, hg, if_true, if_false, ne_eq,
                not_false_eq_true] at h
              rcases List.mem_append.mp h with h1 | h1
              · have := cellOps_text _ _ _ _ _ _ _ _ _ _ h1
                omega
              · rcases List.mem_append.mp h1 with h2 | h2
                · have := cellOps_text _ _ _ _ _ _ _ _ _ _ h2
                  omega
                · exact hlt _ _ _ _ _ h2
        · obtain ⟨y, hy, heq, hlt⟩ := ih (g :: rest) hl1 (i + 1) y0
          refine ⟨y, hy, ?_, ?_⟩
          · simp only [List.cons_append, layoutLoop, List.append_eq, hf, hi, if_false]
            rw [← List.cons_append, heq, e1]
          · intro s x y1 w a h
            simp only [layoutLoop, hf, hi, if_false] at h
            exact hlt _ _ _ _ _ h

theorem filter_isTextAtRow_eq_nil (y : Nat) (ops : List Op)
    (h : ∀ s x y1 w a, Op.text s x y1 w a ∈ ops → y1 ≠ y) :
    ops.filter (Op.isTextAtRow y) = [] := by
  rw [List.filter_eq_nil_iff]
  intro op hop
  cases op <;> simp only [Op.isTextAtRow, Bool.false_eq_true, not_false_eq_true]
  rename_i s x y1 w a
  simpa using h s x y1 w a hop

/-- C10. Wherever the Address entry stands in the field list fed to the
layout loop, the calls of the loop are those for the fields before it, then
the Address row, then those for the fields after it; the Address row has its
label at the column-1 x coordinate 200 and its value drawn with width 300; all
text of the fields before lies on rows above it, all text of the fields after
on rows below it, so the only text on the Address row is its own label and
value. -/
theorem address_full_width_row (pre post : List (JSString × JSString)) (v : JSString) :
    ∃ y, 135 ≤ y
      ∧ layoutOps (pre ++ (lit "Address", v) :: post)
          = layoutLoop 0 pre 135 ++ cellOps (lit "Address") v col1X y 300
            ++ layoutLoop (pre.length + 1) post (y + 38)
      ∧ (∀ s x y1 w a, Op.text s x y1 w a ∈ layoutLoop 0 pre 135 → y1 < y)
      ∧ (∀ s x y1 w a, Op.text s x y1 w a ∈ layoutLoop (pre.length + 1) post (y + 38) → y < y1)
      ∧ (layoutOps (pre ++ (lit "Address", v) :: post)).filter (Op.isTextAtRow y)
          = [.text (lit "Address" ++ lit ":") 200 y 110 .left, .text v 315 y 300 .left] := by
  obtain ⟨y, hy, heq, hlt⟩ := layoutLoop_address v post pre.length pre (le_refl _) 0 135
  rw [Nat.zero_add] at heq
  have hgt : ∀ s x y1 w a,
      Op.text s x y1 w a ∈ layoutLoop (pre.length + 1) post (y + 38) → y < y1 := by
    intro s x y1 w a h
    have := layoutLoop_text_ge post.length post (le_refl _) _ _ _ _ _ _ _ h
    omega
  refine ⟨y, hy, heq, hlt, hgt, ?_⟩
  unfold layoutOps
  rw [heq, List.filter_append, List.filter_append,
    filter_isTextAtRow_eq_nil y (layoutLoop 0 pre 135)
      (fun s x y1 w a h => by have := hlt s x y1 w a h; omega),
    filter_isTextAtRow_eq_nil y (layoutLoop (pre.length + 1) post (y + 38))
      (fun s x y1 w a h => by have := hgt s x y1 w a h; omega)]
  simp [cellOps, Op.isTextAtRow, col1X, List.filter]

/-! ## Sample runs -/

set_option maxRecDepth 100000 in
/-- With an encoder that refuses both payloads the generator fails with the
wrapped message, after exactly two encoder calls and without finalising the
document. -/
theorem generateIdCard_dead_encoder :
    (generateIdCard deadQrEnv demoPlayer []).1
      = .error ⟨lit "Failed to generate ID card: The amount of data is too big"⟩
    ∧ qrAttempts (generateIdCard deadQrEnv demoPlayer []).2
      = [(qrText deadQrEnv.toLocale demoPlayer, some "M"), (lit "Player ID: PS20250001", none)]
    ∧ Event.call .endDocument true ∉ (generateIdCard deadQrEnv demoPlayer []).2 :=
  ⟨by rfl, by rfl, by decide⟩

/-- The layout of the six profile fields of the demo record: four rows, the
Address row last and on its own. -/
theorem layoutOps_demo_rows :
    (layoutOps (profileFields (quietEnv [] 0) demoPlayer)).filterMap
        (fun op => match op with
          | .text _ x y w _ => some (x, y, w)
          | _ => none)
      = [(200, 135, 110), (315, 135, 90), (420, 135, 110), (535, 135, 90),
         (200, 173, 110), (315, 173, 90), (420, 173, 110), (535, 173, 90),
         (200, 211, 110), (315, 211, 90), (200, 249, 110), (315, 249, 300)] := by
  decide

/-! ## Optional values, names and the player ID -/

theorem Field.shown_eq_nil_iff (f : Field) :
    f.shown = [] ↔ f = .undefined ∨ f = .null ∨ f = .str [] := by
  cases f with
  | undefined => simp [Field.shown]
  | null => simp [Field.shown]
  | str s => simp [Field.shown]

/-- C11. The front-side values DOB, Gender, Passport Number and Primary
Sport and the back-side values Coach Name, Coach Contact, Emergency Name and
Emergency Phone are total functions of the record: each is the empty string
when its source field (or the emergency sub-record) is absent, null or empty
and otherwise exactly the source value, the DOB value being the `formatDate`
result; and these are the values the two field loops draw. For a record with
an emergency contact the two emergency values are the name and the phone of
that contact, as on the demo record, whose emergency phone is drawn. -/
theorem optional_values (env : Env) (p : Player) :
    frontValue env p (lit "DOB")
        = some (if p.dateOfBirth.truthy then formatDate env.toLocale p.dateOfBirth else [])
    ∧ frontValue env p (lit "Gender") = some p.gender.shown
    ∧ frontValue env p (lit "Passport Number") = some p.passportNumber.shown
    ∧ frontValue env p (lit "Primary Sport") = some p.primarySport.shown
    ∧ backValue p (lit "Coach Name") = some p.coachName.shown
    ∧ backValue p (lit "Coach Contact") = some p.coachContact.shown
    ∧ backValue p (lit "Emergency Name") = some (p.emergency (·.name)).shown
    ∧ backValue p (lit "Emergency Phone") = some (p.emergency (·.phone)).shown
    ∧ (p.emergencyContact = none →
        backValue p (lit "Emergency Name") = some [] ∧ backValue p (lit "Emergency Phone") = some [])
    ∧ (∀ f : Field, (f.shown = [] ↔ f = .undefined ∨ f = .null ∨ f = .str [])
        ∧ ∀ s, f = .str s → f.shown = s)
    ∧ (p.dateOfBirth.truthy = true →
        formatDate env.toLocale p.dateOfBirth = env.toLocale p.dateOfBirth)
    ∧ layoutOps (profileFields env p) ⊇
        [.text (if p.dateOfBirth.truthy then formatDate env.toLocale p.dateOfBirth else [])
            535 135 90 .left,
         .text p.gender.shown 315 173 90 .left,
         .text p.passportNumber.shown 535 173 90 .left,
         .text p.primarySport.shown 315 211 90 .left]
    ∧ backLoop (backFields p) 160 ⊇
        [.text p.coachName.shown 160 160 300 .left,
         .text p.coachContact.shown 160 198 300 .left,
         .text (p.emergency (·.name)).shown 160 236 300 .left,
         .text (p.emergency (·.phone)).shown 160 274 300 .left]
    ∧ (∀ e, p.emergencyContact = some e →
        backValue p (lit "Emergency Name") = some e.name.shown
        ∧ backValue p (lit "Emergency Phone") = some e.phone.shown
        ∧ backLoop (backFields p) 160 ⊇
            [.text e.name.shown 160 236 300 .left, .text e.phone.shown 160 274 300 .left])
    ∧ backValue demoPlayer (lit "Emergency Phone") = some (lit "9982200192")
    ∧ backValue demoPlayer (lit "Emergency Name") = some []
    ∧ backValue { emergencyContact := some { name := .str (lit "RAMESH"), phone := .null } }
        (lit "Emergency Name") = some (lit "RAMESH") := by
  have hf : ∀ l, frontValue env p l
      = ((profileFields env p).find? fun f => f.1 == l).map (·.2) := fun _ => rfl
  have hb : ∀ l, backValue p l = ((backFields p).find? fun f => f.1 == l).map (·.2) :=
    fun _ => rfl
  refine ⟨rfl, ?_, ?_, ?_, ?_, ?_, ?_, ?_, ?_, ?_, ?_, ?_, ?_, ?_, by decide, by decide, by decide⟩
  · rw [← Field.orElse_nil]; rfl
  · rw [← Field.orElse_nil]; rfl
  · rw [← Field.orElse_nil]; rfl
  · rw [← Field.orElse_nil]; rfl
  · rw [← Field.orElse_nil]; rfl
  · rw [← Field.orElse_nil]; rfl
  · rw [← Field.orElse_nil]; rfl
  · intro h
    have e1 : backValue p (lit "Emergency Name") = some ((p.emergency (·.name)).orElse []) := rfl
    have e2 : backValue p (lit "Emergency Phone") = some ((p.emergency (·.phone)).orElse []) := rfl
    rw [e1, e2]
    simp [Player.emergency, h, Field.orElse]
  · intro f
    refine ⟨Field.shown_eq_nil_iff f, fun s hs => by rw [hs]; rfl⟩
  · intro h
    simp [formatDate, h]
  · rw [layoutOps_profileFields]
    intro op hop
    simp only [← Field.orElse_nil] at hop
    simp only [List.mem_cons, List.mem_singleton, List.not_mem_nil, or_false] at hop
    rcases hop with rfl | rfl | rfl | rfl <;> simp [cellOps, dobText]
  · rw [backLoop_backFields]
    intro op hop
    simp only [← Field.orElse_nil] at hop
    simp only [List.mem_cons, List.mem_singleton, List.not_mem_nil, or_false] at hop
    rcases hop with rfl | rfl | rfl | rfl <;> simp
  · intro e he
    have e1 : backValue p (lit "Emergency Name") = some ((p.emergency (·.name)).orElse []) := rfl
    have e2 : backValue p (lit "Emergency Phone") = some ((p.emergency (·.phone)).orElse []) := rfl
    have e3 : (p.emergency (·.name)) = e.name := by simp [Player.emergency, he]
    have e4 : (p.emergency (·.phone)) = e.phone := by simp [Player.emergency, he]
    rw [e1, e2, e3, e4, Field.orElse_nil, Field.orElse_nil]
    refine ⟨rfl, rfl, ?_⟩
    rw [backLoop_backFields, e3, e4]
    intro op hop
    simp only [← Field.orElse_nil] at hop
    simp only [List.mem_cons, List.mem_singleton, List.not_mem_nil, or_false] at hop
    rcases hop with rfl | rfl <;> simp

/-- C12, the code at the failing inputs. With both names absent the front
Name value is `undefined undefined`, not a single space, and with a null
first name it is `null CHAUDHARY`, while the Name line of the QR payload
shows the empty string for the missing part; with both names present the
front value is first name, space, last name. -/
theorem front_name_unguarded :
    frontValue (quietEnv [] 0) {} (lit "Name") = some (lit "undefined undefined")
    ∧ qrNameLine (fun _ => []) {} = some (lit "Name:  ")
    ∧ frontValue (quietEnv [] 0) { firstName := .null, lastName := .str (lit "CHAUDHARY") }
        (lit "Name") = some (lit "null CHAUDHARY")
    ∧ qrNameLine (fun _ => []) { firstName := .null, lastName := .str (lit "CHAUDHARY") }
        = some (lit "Name:  CHAUDHARY")
    ∧ frontValue (quietEnv [] 0) demoPlayer (lit "Name") = some (lit "BHAVANABEN CHAUDHARY") := by
  decide

/-- C13 fails as stated: for a record without a player ID the banner spells
`PS000000`, but the `Player ID:` line of the full payload carries the empty
string, the fallback payload carries `undefined`, and so does the file name. -/
theorem player_id_uses_disagree :
    playerIdText {} = lit "PS000000"
    ∧ qrIdLine (fun _ => []) {} ≠ some (lit "Player ID: " ++ playerIdText {})
    ∧ qrFallbackText {} ≠ lit "Player ID: " ++ playerIdText {}
    ∧ idCardFilename {} 1700000000000
        ≠ lit "idcard_" ++ playerIdText {} ++ lit "_" ++ decimal 1700000000000 ++ lit ".pdf"
    ∧ qrIdLine (fun _ => []) {} = some (lit "Player ID: ")
    ∧ qrFallbackText {} = lit "Player ID: undefined"
    ∧ idCardFilename {} 1700000000000 = lit "idcard_undefined_1700000000000.pdf" := by
  decide

/-- C13, amended. For a record whose player ID is a non-empty string, the
`Player ID:` line of the full payload, the fallback payload and the file name
each carry exactly that ID, and the banner is made of its code units; for a
record whose ID is absent, null or empty the banner spells the placeholder
`PS000000` and the `Player ID:` line of the full payload carries the empty
string. -/
theorem player_id_uses_agree (toLocale : DateField → JSString) (p : Player) (t : Nat)
    (id : JSString) (hid : p.playerId = .str id) (hne : id ≠ []) :
    playerIdText p = id
    ∧ spacedPlayerId p = id.intersperse 32
    ∧ qrIdLine toLocale p = some (lit "Player ID: " ++ id)
    ∧ qrFallbackText p = lit "Player ID: " ++ id
    ∧ idCardFilename p t = lit "idcard_" ++ id ++ lit "_" ++ decimal t ++ lit ".pdf"
    ∧ (∀ q : Player, q.playerId.truthy = false →
        playerIdText q = lit "PS000000" ∧ qrIdLine toLocale q = some (lit "Player ID: ")) := by
  have hemp : id.isEmpty = false := by
    cases id with
    | nil => exact absurd rfl hne
    | cons a b => rfl
  refine ⟨?_, ?_, ?_, ?_, ?_, ?_⟩
  · simp [playerIdText, hid, Field.orElse, hemp]
  · rw [spacedPlayerId_eq_bannerSpec]
    simp [bannerSpec, hid, hne]
  · simp [qrIdLine, qrSegments, hid, Field.orElse, hemp]
  · simp [qrFallbackText, hid, Field.toJSString]
  · simp [idCardFilename, hid, Field.toJSString]
  · intro q hq
    have hq2 : q.playerId.orElse (lit "PS000000") = lit "PS000000"
        ∧ q.playerId.orElse [] = [] := by
      cases h : q.playerId with
      | undefined => exact ⟨rfl, rfl⟩
      | null => exact ⟨rfl, rfl⟩
      | str s =>
        cases s with
        | nil => exact ⟨rfl, rfl⟩
        | cons a b => simp [h, Field.truthy] at hq
    refine ⟨hq2.1, ?_⟩
    simp [qrIdLine, qrSegments, hq2.2]

/-- Witness for the amended C13: the demo record. -/
theorem player_id_uses_agree_witness :
    demoPlayer.playerId = .str (lit "PS20250001") ∧ lit "PS20250001" ≠ ([] : JSString)
    ∧ idCardFilename demoPlayer 1700000000000
        = lit "idcard_" ++ lit "PS20250001" ++ lit "_" ++ decimal 1700000000000 ++ lit ".pdf" :=
  ⟨rfl, by decide,
   (player_id_uses_agree (fun _ => []) demoPlayer 1700000000000 (lit "PS20250001") rfl
      (by decide)).2.2.2.2.1⟩

/-! ## The order of the assembly -/

theorem bind_ok_inv {α β : Type} (r : Run α) (k : α → Run β) (tr tr2 : Trace) (b : β)
    (h : Run.bind r k tr = (.ok b, tr2)) :
    ∃ a tr1, r tr = (.ok a, tr1) ∧ k a tr1 = (.ok b, tr2) := by
  rcases run_cases r tr with ⟨a, tr1, h1⟩ | ⟨e, tr1, h1⟩
  · rw [bind_of_ok r k tr tr1 a h1] at h
    exact ⟨a, tr1, h1, h⟩
  · rw [bind_of_error r k tr tr1 e h1] at h
    simp at h

theorem seq_ok_inv {β : Type} (r : Run Unit) (k : Run β) (tr tr2 : Trace) (b : β)
    (h : Run.seq r k tr = (.ok b, tr2)) :
    ∃ tr1, r tr = (.ok (), tr1) ∧ k tr1 = (.ok b, tr2) := by
  obtain ⟨_, tr1, h1, h2⟩ := bind_ok_inv r (fun _ => k) tr tr2 b h
  exact ⟨tr1, h1, h2⟩

theorem emit_ok_inv (env : Env) (op : Op) (tr tr1 : Trace)
    (h : emit env op tr = (.ok (), tr1)) :
    tr1 = tr ++ [Event.call op true] ∧ env.raises tr op = none := by
  rcases ho : env.raises tr op with _ | e
  · rw [emit_quiet env op tr ho] at h
    simp only [Prod.mk.injEq, true_and] at h
    exact ⟨h.symm, rfl⟩
  · rw [emit_raises env op tr e ho] at h
    simp at h

theorem run_ok_confined {α : Type} (S : Event → Prop) (r : Run α) (hc : Confined S r)
    (tr tr1 : Trace) (a : α) (h : r tr = (.ok a, tr1)) :
    ∃ evs, tr1 = tr ++ evs ∧ ∀ e ∈ evs, S e := by
  obtain ⟨evs, h1, h2⟩ := hc tr
  rw [h] at h1
  exact ⟨evs, h1, h2⟩

/-- C14. Every successful run of `generateIdCard` has appended, in this
order: the start line and the opening of the document, the events of font
registration, the opening of the output stream and the pipe, exactly the
events of one returning run of the front composer, one page advance, exactly
the events of one returning run of the back composer (same font state),
finalization, the wait for the stream, and the success line; the composers
and font registration make none of the calls for the stream, the page
advance, finalization or the wait, and the value returned is the storage
path. -/
theorem assembly_order (env : Env) (p : Player) (tr : Trace) (path : JSString)
    (h : (generateIdCard env p tr).1 = .ok path) :
    ∃ (u : Bool) (reg front back : Trace),
      (generateIdCard env p tr).2
        = tr ++ [Event.log false
                  (lit "Starting ID card generation for player: " ++ p.playerId.toJSString),
                 Event.call (.newDocument 650 400) true]
            ++ reg
            ++ [Event.call (.createWriteStream (idCardPath env p)) true, Event.call .pipe true]
            ++ front
            ++ [Event.call .addPage true]
            ++ back
            ++ [Event.call .endDocument true, Event.call .awaitFinish true,
                Event.log false
                  (lit "ID card generated successfully: " ++ idCardFilename p env.now)]
      ∧ registerUnicodeFont env
          (tr ++ [Event.log false
                  (lit "Starting ID card generation for player: " ++ p.playerId.toJSString),
                 Event.call (.newDocument 650 400) true])
        = (.ok u, tr ++ [Event.log false
                  (lit "Starting ID card generation for player: " ++ p.playerId.toJSString),
                 Event.call (.newDocument 650 400) true] ++ reg)
      ∧ drawFrontSide env p u
          (tr ++ [Event.log false
                  (lit "Starting ID card generation for player: " ++ p.playerId.toJSString),
                 Event.call (.newDocument 650 400) true]
            ++ reg
            ++ [Event.call (.createWriteStream (idCardPath env p)) true, Event.call .pipe true])
        = (.ok (), tr ++ [Event.log false
                  (lit "Starting ID card generation for player: " ++ p.playerId.toJSString),
                 Event.call (.newDocument 650 400) true]
            ++ reg
            ++ [Event.call (.createWriteStream (idCardPath env p)) true, Event.call .pipe true]
            ++ front)
      ∧ drawBackSide env p u
          (tr ++ [Event.log false
                  (lit "Starting ID card generation for player: " ++ p.playerId.toJSString),
                 Event.call (.newDocument 650 400) true]
            ++ reg
            ++ [Event.call (.createWriteStream (idCardPath env p)) true, Event.call .pipe true]
            ++ front
            ++ [Event.call .addPage true])
        = (.ok (), tr ++ [Event.log false
                  (lit "Starting ID card generation for player: " ++ p.playerId.toJSString),
                 Event.call (.newDocument 650 400) true]
            ++ reg
            ++ [Event.call (.createWriteStream (idCardPath env p)) true, Event.call .pipe true]
            ++ front
            ++ [Event.call .addPage true]
            ++ back)
      ∧ (∀ op ok, Event.call op ok ∈ reg → op = .registerFont "Unicode" (unicodeFontPath env))
      ∧ (∀ op ok, Event.call op ok ∈ front → op ∈ frontOps env p u ∧ op.isAssembly = false)
      ∧ (∀ op ok, Event.call op ok ∈ back → op ∈ backOps env p u ∧ op.isAssembly = false)
      ∧ path = lit "/idcards/" ++ idCardFilename p env.now := by
  have hb := (generateIdCard_ok_iff env p tr path).mp h
  obtain ⟨tr2, hrun⟩ : ∃ tr2, generateIdCardBody env p tr = (.ok path, tr2) :=
    ⟨(generateIdCardBody env p tr).2, by rw [← hb]⟩
  rw [generateIdCard_of_body_ok env p tr tr2 path hrun]
  unfold generateIdCardBody at hrun
  obtain ⟨t0, h0, hrun⟩ := seq_ok_inv _ _ _ _ _ hrun
  have ht0 : t0 = tr ++ [Event.log false
      (lit "Starting ID card generation for player: " ++ p.playerId.toJSString)] := by
    simp only [logLine, Prod.mk.injEq, true_and] at h0
    exact h0.symm
  subst ht0
  obtain ⟨t1, h1, hrun⟩ := seq_ok_inv _ _ _ _ _ hrun
  obtain ⟨ht1, -⟩ := emit_ok_inv _ _ _ _ h1
  subst ht1
  obtain ⟨u, t2, hreg, hrun⟩ := bind_ok_inv _ _ _ _ _ hrun
  obtain ⟨reg, ht2, hregS⟩ := run_ok_confined
    (fun e => ∀ op ok, e = Event.call op ok → op = .registerFont "Unicode" (unicodeFontPath env))
    _ (registerUnicodeFont_confined _ env
        (fun ok op ok2 he => by simp only [Event.call.injEq] at he; exact he.1.symm)
        (fun b m op ok he => by simp at he)) _ _ _ hreg
  subst ht2
  obtain ⟨t3, hsteps, hret⟩ := seq_ok_inv _ _ _ _ _ hrun
  simp only [Run.ret, Prod.mk.injEq, Except.ok.injEq] at hret
  obtain ⟨hpath, ht3⟩ := hret
  subst ht3
  simp only [assemblySteps, seqAll] at hsteps
  obtain ⟨t4, h4, hsteps⟩ := seq_ok_inv _ _ _ _ _ hsteps
  obtain ⟨ht4, -⟩ := emit_ok_inv _ _ _ _ h4
  subst ht4
  obtain ⟨t5, h5, hsteps⟩ := seq_ok_inv _ _ _ _ _ hsteps
  obtain ⟨ht5, -⟩ := emit_ok_inv _ _ _ _ h5
  subst ht5
  obtain ⟨t6, hfront, hsteps⟩ := seq_ok_inv _ _ _ _ _ hsteps
  obtain ⟨front, ht6, hfrontS⟩ := run_ok_confined
    (fun e => ∀ op ok, e = Event.call op ok → op ∈ frontOps env p u ∧ op.isAssembly = false)
    _ (drawFrontSide_confined _ env p u
        (fun op hop ok op2 ok2 he => by
          simp only [Event.call.injEq] at he
          rw [← he.1]
          exact ⟨hop, frontOps_not_assembly env p u op hop⟩)
        (fun b m op ok he => by simp at he)) _ _ _ hfront
  subst ht6
  obtain ⟨t7, h7, hsteps⟩ := seq_ok_inv _ _ _ _ _ hsteps
  obtain ⟨ht7, -⟩ := emit_ok_inv _ _ _ _ h7
  subst ht7
  obtain ⟨t8, hback, hsteps⟩ := seq_ok_inv _ _ _ _ _ hsteps
  obtain ⟨back, ht8, hbackS⟩ := run_ok_confined
    (fun e => ∀ op ok, e = Event.call op ok → op ∈ backOps env p u ∧ op.isAssembly = false)
    _ (drawBackSide_confined _ env p u
        (fun op hop ok op2 ok2 he => by
          simp only [Event.call.injEq] at he
          rw [← he.1]
          exact ⟨hop, backOps_not_assembly env p u op hop⟩)
        (fun b m op ok he => by simp at he)) _ _ _ hback
  subst ht8
  obtain ⟨t9, h9, hsteps⟩ := seq_ok_inv _ _ _ _ _ hsteps
  obtain ⟨ht9, -⟩ := emit_ok_inv _ _ _ _ h9
  subst ht9
  obtain ⟨t10, h10, hsteps⟩ := seq_ok_inv _ _ _ _ _ hsteps
  obtain ⟨ht10, -⟩ := emit_ok_inv _ _ _ _ h10
  subst ht10
  obtain ⟨t11, h11, hsteps⟩ := seq_ok_inv _ _ _ _ _ hsteps
  simp only [logLine, Prod.mk.injEq, true_and] at h11
  subst h11
  simp only [Run.ret, Prod.mk.injEq, true_and] at hsteps
  subst hsteps
  refine ⟨u, reg, front, back, ?_, ?_, ?_, ?_, ?_, ?_, ?_, hpath.symm⟩
  · simp only [List.append_assoc, List.cons_append, List.nil_append]
  · simp only [List.append_assoc, List.cons_append, List.nil_append] at hreg ⊢
    exact hreg
  · simp only [List.append_assoc, List.cons_append, List.nil_append] at hfront ⊢
    exact hfront
  · simp only [List.append_assoc, List.cons_append, List.nil_append] at hback ⊢
    exact hback
  · exact fun op ok he => hregS _ he op ok rfl
  · exact fun op ok he => hfrontS _ he op ok rfl
  · exact fun op ok he => hbackS _ he op ok rfl

set_option maxRecDepth 100000 in
/-- Witness for C14: the demo record with no asset file present and no call
raising. -/
theorem assembly_order_witness :
    (generateIdCard (quietEnv [] 1700000000000) demoPlayer []).1
      = .ok (lit "/idcards/idcard_PS20250001_1700000000000.pdf")
    ∧ ∃ (reg front back : Trace),
      (generateIdCard (quietEnv [] 1700000000000) demoPlayer []).2
        = [] ++ [Event.log false
                  (lit "Starting ID card generation for player: "
                    ++ demoPlayer.playerId.toJSString),
                 Event.call (.newDocument 650 400) true]
            ++ reg
            ++ [Event.call (.createWriteStream
                  (idCardPath (quietEnv [] 1700000000000) demoPlayer)) true,
                Event.call .pipe true]
            ++ front
            ++ [Event.call .addPage true]
            ++ back
            ++ [Event.call .endDocument true, Event.call .awaitFinish true,
                Event.log false
                  (lit "ID card generated successfully: "
                    ++ idCardFilename demoPlayer (quietEnv [] 1700000000000).now)] :=
  ⟨by rfl,
   match assembly_order (quietEnv [] 1700000000000) demoPlayer []
      (lit "/idcards/idcard_PS20250001_1700000000000.pdf") (by rfl) with
   | ⟨_, reg, front, back, h1, _⟩ => ⟨reg, front, back, h1⟩⟩

/-! ## Stretches of history -/

theorem appends_ret {α : Type} (Q : Trace → Prop) (h0 : Q []) (a : α) :
    Appends Q (Run.ret a) :=
  fun tr => ⟨[], by simp [Run.ret], h0⟩

theorem appends_of_confined {α : Type} (Q : Trace → Prop) (S : Event → Prop) (r : Run α)
    (h0 : Q []) (happ : ∀ a b, Q a → Q b → Q (a ++ b)) (hS : ∀ e, S e → Q [e])
    (h : Confined S r) : Appends Q r := by
  intro tr
  obtain ⟨evs, h1, h2⟩ := h tr
  refine ⟨evs, h1, ?_⟩
  clear h1
  induction evs with
  | nil => exact h0
  | cons e rest ih =>
    have := happ [e] rest (hS e (h2 e (List.mem_cons_self _ _)))
      (ih fun x hx => h2 x (List.mem_cons_of_mem _ hx))
    simpa using this

theorem appends_bind {α β : Type} (Q : Trace → Prop) (happ : ∀ a b, Q a → Q b → Q (a ++ b))
    (r : Run α) (k : α → Run β)
    (hr : Appends Q r) (hk : ∀ a, Appends Q (k a)) : Appends Q (Run.bind r k) := by
  intro tr
  obtain ⟨evs, h1, h2⟩ := hr tr
  rcases run_cases r tr with ⟨a, tr1, h⟩ | ⟨e, tr1, h⟩
  · rw [bind_of_ok r k tr tr1 a h]
    rw [h] at h1
    simp only at h1
    obtain ⟨evs2, h3, h4⟩ := hk a tr1
    exact ⟨evs ++ evs2, by rw [h3, h1, List.append_assoc], happ _ _ h2 h4⟩
  · rw [bind_of_error r k tr tr1 e h]
    rw [h] at h1
    exact ⟨evs, h1, h2⟩

theorem appends_seq {β : Type} (Q : Trace → Prop) (happ : ∀ a b, Q a → Q b → Q (a ++ b))
    (r : Run Unit) (k : Run β)
    (hr : Appends Q r) (hk : Appends Q k) : Appends Q (Run.seq r k) :=
  appends_bind Q happ r (fun _ => k) hr (fun _ => hk)

theorem appends_tryCatch {α : Type} (Q : Trace → Prop)
    (happ : ∀ a b, Q a → Q b → Q (a ++ b)) (b : Run α) (hd : JSError → Run α)
    (hb : Appends Q b) (hh : ∀ e, Appends Q (hd e)) : Appends Q (Run.tryCatch b hd) := by
  intro tr
  obtain ⟨evs, h1, h2⟩ := hb tr
  rcases run_cases b tr with ⟨a, tr1, h⟩ | ⟨e, tr1, h⟩
  · rw [tryCatch_of_ok b hd tr tr1 a h]
    rw [h] at h1
    exact ⟨evs, h1, h2⟩
  · rw [tryCatch_of_error b hd tr tr1 e h]
    rw [h] at h1
    simp only at h1
    obtain ⟨evs2, h3, h4⟩ := hh e tr1
    exact ⟨evs ++ evs2, by rw [h3, h1, List.append_assoc], happ _ _ h2 h4⟩

theorem appends_seqAll (Q : Trace → Prop) (h0 : Q [])
    (happ : ∀ a b, Q a → Q b → Q (a ++ b)) (rs : List (Run Unit))
    (h : ∀ r ∈ rs, Appends Q r) : Appends Q (seqAll rs) := by
  induction rs with
  | nil => exact appends_ret Q h0 ()
  | cons r rest ih =>
    exact appends_seq Q happ _ _ (h r (List.mem_cons_self _ _))
      (ih fun o ho => h o (List.mem_cons_of_mem _ ho))

theorem appends_newEvents {α : Type} (Q : Trace → Prop) (r : Run α) (h : Appends Q r)
    (tr : Trace) : Q (newEvents r tr) := by
  obtain ⟨evs, h1, h2⟩ := h tr
  rw [newEvents_of_append r tr evs h1]
  exact h2

/-! ## The footer font -/

theorem footerFonts_append (a b : Trace) :
    ∀ cur, footerFonts cur (a ++ b) = footerFonts cur a ++ footerFonts (fontAfter cur a) b := by
  induction a with
  | nil => intro cur; rfl
  | cons e rest ih =>
    intro cur
    show (if e.isFooterDraw then [cur] else []) ++ footerFonts (fontStep cur e) (rest ++ b)
      = ((if e.isFooterDraw then [cur] else []) ++ footerFonts (fontStep cur e) rest)
        ++ footerFonts (fontAfter (fontStep cur e) rest) b
    rw [ih, List.append_assoc]

theorem footerFontIs_nil (F : String) : FooterFontIs F [] := by
  intro cur f hf
  simp [footerFonts] at hf

theorem footerFontIs_append (F : String) (a b : Trace) (ha : FooterFontIs F a)
    (hb : FooterFontIs F b) : FooterFontIs F (a ++ b) := by
  intro cur f hf
  rw [footerFonts_append] at hf
  rcases List.mem_append.mp hf with h | h
  · exact ha cur f h
  · exact hb _ f h

theorem footerFontIs_single (F : String) (e : Event) (h : e.isFooterDraw = false) :
    FooterFontIs F [e] := by
  intro cur f hf
  simp [footerFonts, h] at hf

/-- The footer calls inside their `try` draw the footer string, if at all,
right after selecting the font of the font state. -/
theorem footerOps_fontIs (env : Env) (u : Bool) :
    Appends (FooterFontIs (footerFontName u)) (emitAll env (footerOps u)) := by
  intro tr
  unfold footerOps
  rcases h1 : env.raises tr (.font (if u then "Unicode" else "Helvetica")) with _ | e
  · rw [emitAll_cons_quiet env _ _ tr h1]
    rcases h2 : env.raises (tr ++ [Event.call (.font (if u then "Unicode" else "Helvetica")) true])
        (.fontSize 32) with _ | e
    · rw [emitAll_cons_quiet env _ _ _ h2]
      rcases h3 : env.raises (tr ++ [Event.call (.font (if u then "Unicode" else "Helvetica")) true]
          ++ [Event.call (.fontSize 32) true]) (.fill footerGradient) with _ | e
      · rw [emitAll_cons_quiet env _ _ _ h3]
        rcases h5 : env.raises (tr ++ [Event.call (.font (if u then "Unicode" else "Helvetica")) true]
          ++ [Event.call (.fontSize 32) true] ++ [Event.call (.fill footerGradient) true])
          (.text footerText 0 350 650 .center) with _ | e
        · rw [emitAll_cons_quiet env _ _ _ h5]
          refine ⟨[Event.call (.font (if u then "Unicode" else "Helvetica")) true,
            Event.call (.fontSize 32) true, Event.call (.fill footerGradient) true,
            Event.call (.text footerText 0 350 650 .center) true], by simp [emitAll, Run.ret], ?_⟩
          intro cur f hf
          simp [footerFonts, Event.isFooterDraw, footerTextOp, fontStep] at hf
          simpa [footerFontName] using hf
        · rw [emitAll_cons_raises env _ _ _ e h5]
          refine ⟨[Event.call (.font (if u then "Unicode" else "Helvetica")) true,
            Event.call (.fontSize 32) true, Event.call (.fill footerGradient) true,
            Event.call (.text footerText 0 350 650 .center) false], by simp, ?_⟩
          intro cur f hf
          simp [footerFonts, Event.isFooterDraw, footerTextOp, fontStep] at hf
          simpa [footerFontName] using hf
      · rw [emitAll_cons_raises env _ _ _ e h3]
        refine ⟨[Event.call (.font (if u then "Unicode" else "Helvetica")) true,
            Event.call (.fontSize 32) true, Event.call (.fill footerGradient) false], by simp, ?_⟩
        intro cur f hf
        simp [footerFonts, Event.isFooterDraw, footerTextOp] at hf
    · rw [emitAll_cons_raises env _ _ _ e h2]
      refine ⟨[Event.call (.font (if u then "Unicode" else "Helvetica")) true,
            Event.call (.fontSize 32) false], by simp, ?_⟩
      intro cur f hf
      simp [footerFonts, Event.isFooterDraw, footerTextOp] at hf
  · rw [emitAll_cons_raises env _ _ tr e h1]
    refine ⟨[Event.call (.font (if u then "Unicode" else "Helvetica")) false], by simp, ?_⟩
    intro cur f hf
    simp [footerFonts, Event.isFooterDraw, footerTextOp] at hf


theorem drawLogos_confined (S : Event → Prop) (env : Env)
    (h1 : ∀ ok, S (Event.call (leftLogoOp env) ok))
    (h2 : ∀ ok, S (Event.call (rightLogoOp env) ok))
    (hlog : ∀ b m, S (Event.log b m)) : Confined S (drawLogos env) := by
  unfold drawLogos
  refine confined_tryCatch S _ _ (confined_seq S _ _ (confined_ite S _ _ _ ?_ ?_)
    (confined_ite S _ _ _ ?_ ?_)) (fun _ => confined_logLine S _ _ (hlog _ _))
  · exact confined_emit S env _ h1
  · exact confined_logLine S _ _ (hlog _ _)
  · exact confined_emit S env _ h2
  · exact confined_logLine S _ _ (hlog _ _)

theorem drawPhoto_confined (S : Event → Prop) (env : Env) (p : Player)
    (hops : ∀ op ∈ photoBlockOps env p, ∀ ok, S (Event.call op ok)) :
    Confined S (drawPhoto env p) := by
  have hall : ∀ ops : List Op, (∀ op ∈ ops, op ∈ photoBlockOps env p) →
      Confined S (emitAll env ops) :=
    fun ops h => confined_emitAll S env ops fun op ho ok => hops op (h op ho) ok
  have hph : Confined S (emitAll env placeholderOps) :=
    hall _ (by intro op ho; simp [photoBlockOps, ho])
  unfold drawPhoto
  apply confined_seqAll
  intro r hr
  simp only [List.mem_cons, List.mem_singleton, List.not_mem_nil, or_false] at hr
  rcases hr with rfl | rfl | rfl
  · exact hall _ (by intro op ho; simp only [photoBlockOps, List.mem_append]; tauto)
  · refine confined_tryCatch S _ _ ?_ (fun _ => hph)
    unfold photoBody
    split
    · rename_i s hs
      refine confined_ite S _ _ _ hph (confined_ite S _ _ _ ?_ hph)
      exact confined_emit S env _ (hops _ (by simp [photoBlockOps, hs]))
    · exact hph
  · exact confined_emit S env _ (hops _ (by simp [photoBlockOps]))

theorem drawWatermark_confined (S : Event → Prop) (env : Env)
    (hops : ∀ op ∈ watermarkOps env, ∀ ok, S (Event.call op ok)) :
    Confined S (drawWatermark env) := by
  unfold drawWatermark
  exact confined_tryCatch S _ _
    (confined_ite S _ _ _ (confined_emitAll S env _ hops) (confined_ret S ()))
    (fun _ => confined_ret S ())

theorem drawQr_confined (S : Event → Prop) (env : Env) (p : Player)
    (hops : ∀ op ∈ qrFullOps env p ++ qrFallbackOps p, ∀ ok, S (Event.call op ok))
    (hlog : ∀ b m, S (Event.log b m)) : Confined S (drawQr env p) := by
  unfold drawQr
  exact confined_tryCatch S _ _
    (confined_emitAll S env _ fun op ho ok => hops op (List.mem_append_left _ ho) ok)
    (fun _ => confined_seq S _ _ (confined_logLine S _ _ (hlog _ _))
      (confined_emitAll S env _ fun op ho ok => hops op (List.mem_append_right _ ho) ok))

/-- The calls of the front composer outside the footer `try`. -/
theorem frontBlocks_appends (Q : Trace → Prop) (h0 : Q [])
    (happ : ∀ a b, Q a → Q b → Q (a ++ b)) (env : Env) (p : Player) (u : Bool)
    (hops : ∀ op ∈ frontBeforeOps env ++ photoBlockOps env p ++ layoutOps (profileFields env p)
        ++ bannerOps p ++ footerGradientOps ++ watermarkOps env, ∀ ok, Q [Event.call op ok])
    (hlog : ∀ b m, Q [Event.log b m])
    (hfooter : Appends Q (emitAll env (footerOps u))) :
    ∀ r ∈ frontBlocks env p u, Appends Q r := by
  have hc : ∀ r : Run Unit, Confined (fun e => Q [e]) r → Appends Q r :=
    fun r h => appends_of_confined Q _ r h0 happ (fun _ h => h) h
  have hall : ∀ ops : List Op, (∀ op ∈ ops, op ∈ frontBeforeOps env ++ photoBlockOps env p
        ++ layoutOps (profileFields env p) ++ bannerOps p ++ footerGradientOps
        ++ watermarkOps env) → Confined (fun e => Q [e]) (emitAll env ops) :=
    fun ops h => confined_emitAll _ env ops fun op ho ok => hops op (h op ho) ok
  intro r hr
  simp only [frontBlocks, frontBefore, frontAfter, List.cons_append, List.nil_append,
    List.mem_cons, List.mem_singleton, List.not_mem_nil, or_false] at hr
  rcases hr with rfl | rfl | rfl | rfl | rfl | rfl | rfl | rfl
  · exact hc _ (hall _ (by intro op ho; simp [frontBeforeOps, ho]))
  · exact hc _ (drawLogos_confined _ env (hops _ (by simp [frontBeforeOps]))
      (hops _ (by simp [frontBeforeOps])) hlog)
  · exact hc _ (hall _ (by intro op ho; simp [frontBeforeOps, ho]))
  · exact hc _ (drawPhoto_confined _ env p fun op ho => hops op (by simp [ho]))
  · exact hc _ (hall _ (by intro op ho; simp [ho]))
  · exact hc _ (hall _ (by intro op ho; simp [ho]))
  · unfold drawFooter
    exact appends_seq Q happ _ _ (hc _ (hall _ (by intro op ho; simp [ho])))
      (appends_tryCatch Q happ _ _ hfooter
        (fun _ => hc _ (confined_logLine _ _ _ (hlog _ _))))
  · exact hc _ (drawWatermark_confined _ env fun op ho => hops op (by simp [ho]))

/-- The calls of the back composer outside the footer `try`. -/
theorem backBlocks_appends (Q : Trace → Prop) (h0 : Q [])
    (happ : ∀ a b, Q a → Q b → Q (a ++ b)) (env : Env) (p : Player) (u : Bool)
    (hops : ∀ op ∈ backBeforeOps env p ++ qrFullOps env p ++ qrFallbackOps p
        ++ bannerOps p ++ footerGradientOps ++ watermarkOps env, ∀ ok, Q [Event.call op ok])
    (hlog : ∀ b m, Q [Event.log b m])
    (hfooter : Appends Q (emitAll env (footerOps u))) :
    ∀ r ∈ backBlocks env p u, Appends Q r := by
  have hc : ∀ r : Run Unit, Confined (fun e => Q [e]) r → Appends Q r :=
    fun r h => appends_of_confined Q _ r h0 happ (fun _ h => h) h
  have hall : ∀ ops : List Op, (∀ op ∈ ops, op ∈ backBeforeOps env p ++ qrFullOps env p
        ++ qrFallbackOps p ++ bannerOps p ++ footerGradientOps ++ watermarkOps env) →
      Confined (fun e => Q [e]) (emitAll env ops) :=
    fun ops h => confined_emitAll _ env ops fun op ho ok => hops op (h op ho) ok
  intro r hr
  simp only [backBlocks, backBefore, backAfter, List.cons_append, List.nil_append,
    List.mem_cons, List.mem_singleton, List.not_mem_nil, or_false] at hr
  rcases hr with rfl | rfl | rfl | rfl | rfl | rfl | rfl | rfl
  · exact hc _ (hall _ (by intro op ho; simp [backBeforeOps, ho]))
  · exact hc _ (drawLogos_confined _ env (hops _ (by simp [backBeforeOps]))
      (hops _ (by simp [backBeforeOps])) hlog)
  · exact hc _ (hall _ (by intro op ho; simp [backBeforeOps, ho]))
  · exact hc _ (hall _ (by intro op ho; simp [backBeforeOps, ho]))
  · exact hc _ (drawQr_confined _ env p
      (fun op ho => hops op (by
        rcases List.mem_append.mp ho with h | h
        · simp [h]
        · simp [h])) hlog)
  · exact hc _ (hall _ (by intro op ho; simp [ho]))
  · unfold drawFooter
    exact appends_seq Q happ _ _ (hc _ (hall _ (by intro op ho; simp [ho])))
      (appends_tryCatch Q happ _ _ hfooter
        (fun _ => hc _ (confined_logLine _ _ _ (hlog _ _))))
  · exact hc _ (drawWatermark_confined _ env fun op ho => hops op (by simp [ho]))

theorem frontOps_not_footer (env : Env) (p : Player) :
    ∀ op ∈ frontBeforeOps env ++ photoBlockOps env p ++ layoutOps (profileFields env p)
        ++ bannerOps p ++ footerGradientOps ++ watermarkOps env, op ≠ footerTextOp := by
  intro op ho heq
  subst heq
  rw [layoutOps_profileFields] at ho
  cases h : p.profilePhoto <;>
    simp [footerTextOp, frontBeforeOps, backgroundOps, titleOps, leftLogoOp, rightLogoOp,
      photoBlockOps, placeholderOps, photoOp, cellOps, bannerOps, footerGradientOps,
      watermarkOps, h] at ho

theorem backOps_not_footer (env : Env) (p : Player) :
    ∀ op ∈ backBeforeOps env p ++ qrFullOps env p ++ qrFallbackOps p
        ++ bannerOps p ++ footerGradientOps ++ watermarkOps env, op ≠ footerTextOp := by
  intro op ho heq
  subst heq
  rw [backBeforeOps, backLoop_backFields] at ho
  simp [footerTextOp, backgroundOps, titleOps, leftLogoOp, rightLogoOp,
    qrFullOps, qrFallbackOps, qrImageOp, qrCaptionOps, bannerOps, footerGradientOps,
    watermarkOps] at ho

theorem footerFontIs_call (F : String) (op : Op) (ok : Bool) (h : op ≠ footerTextOp) :
    FooterFontIs F [Event.call op ok] :=
  footerFontIs_single F _ (by simp [Event.isFooterDraw, h])

theorem footerFontIs_log (F : String) (b : Bool) (m : JSString) :
    FooterFontIs F [Event.log b m] :=
  footerFontIs_single F _ rfl

theorem drawFrontSide_fontIs (env : Env) (p : Player) (u : Bool) :
    Appends (FooterFontIs (footerFontName u)) (drawFrontSide env p u) :=
  appends_seqAll _ (footerFontIs_nil _) (footerFontIs_append _) _
    (frontBlocks_appends _ (footerFontIs_nil _) (footerFontIs_append _) env p u
      (fun op ho ok => footerFontIs_call _ op ok (frontOps_not_footer env p op ho))
      (footerFontIs_log _) (footerOps_fontIs env u))

theorem drawBackSide_fontIs (env : Env) (p : Player) (u : Bool) :
    Appends (FooterFontIs (footerFontName u)) (drawBackSide env p u) :=
  appends_seqAll _ (footerFontIs_nil _) (footerFontIs_append _) _
    (backBlocks_appends _ (footerFontIs_nil _) (footerFontIs_append _) env p u
      (fun op ho ok => footerFontIs_call _ op ok (backOps_not_footer env p op ho))
      (footerFontIs_log _) (footerOps_fontIs env u))

/-- Font registration always returns, with the font decision as its
result, and draws nothing. -/
theorem registerUnicodeFont_decision (env : Env) (F : String) (t : Trace) :
    ∃ evs, registerUnicodeFont env t = (.ok (fontDecision env t), t ++ evs)
      ∧ FooterFontIs F evs := by
  unfold registerUnicodeFont fontDecision
  split
  · rename_i hex
    rcases h : env.raises t (.registerFont "Unicode" (unicodeFontPath env)) with _ | e
    · refine ⟨[Event.call (.registerFont "Unicode" (unicodeFontPath env)) true], ?_, ?_⟩
      · have hb : Run.bind (emit env (.registerFont "Unicode" (unicodeFontPath env)))
            (fun _ => Run.ret true) t
            = (.ok true, t ++ [Event.call (.registerFont "Unicode" (unicodeFontPath env)) true]) := by
          rw [bind_of_ok _ _ t _ () (emit_quiet env _ t h)]
          rfl
        rw [tryCatch_of_ok _ _ t _ true hb]
        simp [hex]
      · exact footerFontIs_call F _ _ (by simp [footerTextOp])
    · refine ⟨[Event.call (.registerFont "Unicode" (unicodeFontPath env)) false,
        Event.log true (lit "Error registering Unicode font:")], ?_, ?_⟩
      · rw [tryCatch_of_error _ _ t _ e
          (by rw [bind_of_error _ _ t _ e (emit_raises env _ t e h)])]
        simp [Run.bind, logLine, Run.ret, hex]
      · exact footerFontIs_append F [_] [_]
          (footerFontIs_call F _ _ (by simp [footerTextOp])) (footerFontIs_log F _ _)
  · rename_i hex
    exact ⟨[], by simp [Run.ret, hex], footerFontIs_nil F⟩

theorem assemblySteps_fontIs (env : Env) (p : Player) (u : Bool) :
    Appends (FooterFontIs (footerFontName u)) (seqAll (assemblySteps env p u)) := by
  have hemit : ∀ op : Op, op ≠ footerTextOp →
      Appends (FooterFontIs (footerFontName u)) (emit env op) :=
    fun op h => appends_of_confined _ (fun e => FooterFontIs (footerFontName u) [e]) _
      (footerFontIs_nil _) (footerFontIs_append _) (fun _ h => h)
      (confined_emit _ env op fun ok => footerFontIs_call _ op ok h)
  apply appends_seqAll _ (footerFontIs_nil _) (footerFontIs_append _)
  intro r hr
  simp only [assemblySteps, List.mem_cons, List.mem_singleton, List.not_mem_nil, or_false] at hr
  rcases hr with rfl | rfl | rfl | rfl | rfl | rfl | rfl | rfl
  · exact hemit _ (by simp [footerTextOp])
  · exact hemit _ (by simp [footerTextOp])
  · exact drawFrontSide_fontIs env p u
  · exact hemit _ (by simp [footerTextOp])
  · exact drawBackSide_fontIs env p u
  · exact hemit _ (by simp [footerTextOp])
  · exact hemit _ (by simp [footerTextOp])
  · exact appends_of_confined _ (fun e => FooterFontIs (footerFontName u) [e]) _
      (footerFontIs_nil _) (footerFontIs_append _) (fun _ h => h)
      (confined_logLine _ _ _ (footerFontIs_log _ _ _))

/-- Every footer draw of a run of the body is made with the font of the
font decision taken when the document has been opened. -/
theorem generateIdCardBody_fontIs (env : Env) (p : Player) (tr : Trace) :
    ∃ evs, (generateIdCardBody env p tr).2 = tr ++ evs
      ∧ FooterFontIs (footerFontName (fontDecision env
          (tr ++ [Event.log false
                    (lit "Starting ID card generation for player: " ++ p.playerId.toJSString),
                  Event.call (.newDocument 650 400) true]))) evs := by
  have h0 : logLine false (lit "Starting ID card generation for player: "
      ++ p.playerId.toJSString) tr
      = (.ok (), tr ++ [Event.log false (lit "Starting ID card generation for player: "
          ++ p.playerId.toJSString)]) := rfl
  unfold generateIdCardBody
  rw [seq_of_ok _ _ tr _ h0]
  rcases hn : env.raises (tr ++ [Event.log false (lit "Starting ID card generation for player: "
      ++ p.playerId.toJSString)]) (.newDocument 650 400) with _ | e
  · rw [seq_of_ok _ _ _ _ (emit_quiet env _ _ hn)]
    obtain ⟨reg, hreg, hregQ⟩ := registerUnicodeFont_decision env
      (footerFontName (fontDecision env
        (tr ++ [Event.log false
                  (lit "Starting ID card generation for player: " ++ p.playerId.toJSString),
                Event.call (.newDocument 650 400) true])))
      (tr ++ [Event.log false (lit "Starting ID card generation for player: "
        ++ p.playerId.toJSString)] ++ [Event.call (.newDocument 650 400) true])
    rw [bind_of_ok _ _ _ _ _ hreg]
    have hd : tr ++ [Event.log false (lit "Starting ID card generation for player: "
        ++ p.playerId.toJSString)] ++ [Event.call (.newDocument 650 400) true]
        = tr ++ [Event.log false
                  (lit "Starting ID card generation for player: " ++ p.playerId.toJSString),
                Event.call (.newDocument 650 400) true] := by simp
    rw [hd] at hreg ⊢
    obtain ⟨evs, h1, h2⟩ := appends_seq _ (footerFontIs_append _) _
      (Run.ret (lit "/idcards/" ++ idCardFilename p env.now))
      (assemblySteps_fontIs env p (fontDecision env
        (tr ++ [Event.log false
                  (lit "Starting ID card generation for player: " ++ p.playerId.toJSString),
                Event.call (.newDocument 650 400) true])))
      (appends_ret _ (footerFontIs_nil _) _)
      (tr ++ [Event.log false
                  (lit "Starting ID card generation for player: " ++ p.playerId.toJSString),
                Event.call (.newDocument 650 400) true] ++ reg)
    refine ⟨[Event.log false
                  (lit "Starting ID card generation for player: " ++ p.playerId.toJSString),
                Event.call (.newDocument 650 400) true] ++ reg ++ evs, ?_, ?_⟩
    · rw [h1]; simp
    · exact footerFontIs_append _ _ _
        (footerFontIs_append _ _ _
          (footerFontIs_append _ [_] [_] (footerFontIs_log _ _ _)
            (footerFontIs_call _ _ _ (by simp [footerTextOp]))) hregQ) h2
  · rw [seq_of_error _ _ _ _ e (emit_raises env _ _ e hn)]
    refine ⟨[Event.log false
                  (lit "Starting ID card generation for player: " ++ p.playerId.toJSString),
                Event.call (.newDocument 650 400) false], by simp, ?_⟩
    exact footerFontIs_append _ [_] [_] (footerFontIs_log _ _ _)
      (footerFontIs_call _ _ _ (by simp [footerTextOp]))

theorem generateIdCard_fontIs (env : Env) (p : Player) (tr : Trace) :
    FooterFontIs (footerFontName (fontDecision env
        (tr ++ [Event.log false
                  (lit "Starting ID card generation for player: " ++ p.playerId.toJSString),
                Event.call (.newDocument 650 400) true])))
      (newEvents (generateIdCard env p) tr) := by
  obtain ⟨evs, h1, h2⟩ := generateIdCardBody_fontIs env p tr
  rcases run_cases (generateIdCardBody env p) tr with ⟨a, tr1, h⟩ | ⟨e, tr1, h⟩
  · rw [newEvents_of_append _ tr evs
      (by rw [generateIdCard_of_body_ok env p tr tr1 a h]; rw [h] at h1; exact h1)]
    exact h2
  · rw [newEvents_of_append _ tr (evs ++ [Event.log true (lit "Error generating ID card:")])
      (by rw [generateIdCard_of_body_error env p tr tr1 e h]; rw [h] at h1
          simp only at h1 ⊢; rw [h1, List.append_assoc])]
    exact footerFontIs_append _ _ _ h2 (footerFontIs_log _ _ _)

theorem drawFooter_must (env : Env) (u : Bool) (hq : env.Quiet Op.isDrawing) :
    Must (Event.call footerTextOp true) (drawFooter env u) := by
  intro tr a _
  have h1 := emitAll_quiet env Op.isDrawing hq footerGradientOps (by decide) tr
  have h2 := emitAll_quiet env Op.isDrawing hq (footerOps u)
    (by intro op ho
        simp only [footerOps, List.mem_cons, List.mem_singleton, List.not_mem_nil,
          or_false] at ho
        rcases ho with rfl | rfl | rfl | rfl <;> rfl)
    (tr ++ footerGradientOps.map fun op => Event.call op true)
  refine ⟨(footerGradientOps.map fun op => Event.call op true)
      ++ ((footerOps u).map fun op => Event.call op true), ?_, ?_⟩
  · unfold drawFooter
    rw [seq_of_ok _ _ _ _ h1, tryCatch_of_ok _ _ _ _ () h2, List.append_assoc]
  · simp [footerOps, footerTextOp]

/-! ## Runs that do not depend on the history -/

theorem uniform_ret {α : Type} (a : α) : Uniform (Run.ret a) := by
  intro tr; simp [Run.ret]

theorem uniform_logLine (b : Bool) (m : JSString) : Uniform (logLine b m) := by
  intro tr; simp [logLine]

theorem uniform_emit (env : Env) (hs : env.Stable) (op : Op) : Uniform (emit env op) := by
  intro tr
  unfold emit
  rw [hs tr [] op]
  cases env.raises [] op <;> simp

theorem uniform_bind {α β : Type} (r : Run α) (k : α → Run β)
    (hr : Uniform r) (hk : ∀ a, Uniform (k a)) : Uniform (Run.bind r k) := by
  intro tr
  rcases run_cases r [] with ⟨a, e1, h⟩ | ⟨e, e1, h⟩
  · have h1 : r tr = (.ok a, tr ++ e1) := by rw [hr tr, h]
    rw [bind_of_ok r k tr _ a h1, bind_of_ok r k [] _ a h, hk a (tr ++ e1), hk a e1,
      List.append_assoc]
  · have h1 : r tr = (.error e, tr ++ e1) := by rw [hr tr, h]
    rw [bind_of_error r k tr _ e h1, bind_of_error r k [] _ e h]

theorem uniform_seq {β : Type} (r : Run Unit) (k : Run β)
    (hr : Uniform r) (hk : Uniform k) : Uniform (Run.seq r k) :=
  uniform_bind r (fun _ => k) hr (fun _ => hk)

theorem uniform_tryCatch {α : Type} (b : Run α) (hd : JSError → Run α)
    (hb : Uniform b) (hh : ∀ e, Uniform (hd e)) : Uniform (Run.tryCatch b hd) := by
  intro tr
  rcases run_cases b [] with ⟨a, e1, h⟩ | ⟨e, e1, h⟩
  · have h1 : b tr = (.ok a, tr ++ e1) := by rw [hb tr, h]
    rw [tryCatch_of_ok b hd tr _ a h1, tryCatch_of_ok b hd [] _ a h]
  · have h1 : b tr = (.error e, tr ++ e1) := by rw [hb tr, h]
    rw [tryCatch_of_error b hd tr _ e h1, tryCatch_of_error b hd [] _ e h, hh e (tr ++ e1),
      hh e e1, List.append_assoc]

theorem uniform_ite {α : Type} (c : Prop) [Decidable c] (r k : Run α)
    (hr : Uniform r) (hk : Uniform k) : Uniform (if c then r else k) := by
  split
  · exact hr
  · exact hk

theorem uniform_emitAll (env : Env) (hs : env.Stable) (ops : List Op) :
    Uniform (emitAll env ops) := by
  induction ops with
  | nil => exact uniform_ret ()
  | cons op rest ih => exact uniform_seq _ _ (uniform_emit env hs op) ih

theorem uniform_seqAll (rs : List (Run Unit)) (h : ∀ r ∈ rs, Uniform r) :
    Uniform (seqAll rs) := by
  induction rs with
  | nil => exact uniform_ret ()
  | cons r rest ih =>
    exact uniform_seq _ _ (h r (List.mem_cons_self _ _))
      (ih fun o ho => h o (List.mem_cons_of_mem _ ho))

theorem drawLogos_uniform (env : Env) (hs : env.Stable) : Uniform (drawLogos env) := by
  unfold drawLogos
  exact uniform_tryCatch _ _
    (uniform_seq _ _
      (uniform_ite _ _ _ (uniform_emit env hs _) (uniform_logLine _ _))
      (uniform_ite _ _ _ (uniform_emit env hs _) (uniform_logLine _ _)))
    (fun _ => uniform_logLine _ _)

theorem drawFooter_uniform (env : Env) (hs : env.Stable) (u : Bool) :
    Uniform (drawFooter env u) := by
  unfold drawFooter
  exact uniform_seq _ _ (uniform_emitAll env hs _)
    (uniform_tryCatch _ _ (uniform_emitAll env hs _) (fun _ => uniform_logLine _ _))

theorem drawWatermark_uniform (env : Env) (hs : env.Stable) : Uniform (drawWatermark env) := by
  unfold drawWatermark
  exact uniform_tryCatch _ _
    (uniform_ite _ _ _ (uniform_emitAll env hs _) (uniform_ret ()))
    (fun _ => uniform_ret ())

theorem drawPhoto_uniform (env : Env) (hs : env.Stable) (p : Player) :
    Uniform (drawPhoto env p) := by
  unfold drawPhoto
  apply uniform_seqAll
  intro r hr
  simp only [List.mem_cons, List.mem_singleton, List.not_mem_nil, or_false] at hr
  rcases hr with rfl | rfl | rfl
  · exact uniform_emitAll env hs _
  · refine uniform_tryCatch _ _ ?_ (fun _ => uniform_emitAll env hs _)
    unfold photoBody
    split
    · exact uniform_ite _ _ _ (uniform_emitAll env hs _)
        (uniform_ite _ _ _ (uniform_emit env hs _) (uniform_emitAll env hs _))
    · exact uniform_emitAll env hs _
  · exact uniform_emit env hs _

theorem drawQr_uniform (env : Env) (hs : env.Stable) (p : Player) :
    Uniform (drawQr env p) := by
  unfold drawQr
  exact uniform_tryCatch _ _ (uniform_emitAll env hs _)
    (fun _ => uniform_seq _ _ (uniform_logLine _ _) (uniform_emitAll env hs _))

theorem frontBefore_uniform (env : Env) (hs : env.Stable) :
    Uniform (seqAll (frontBefore env)) := by
  apply uniform_seqAll
  intro r hr
  simp only [frontBefore, List.mem_cons, List.mem_singleton, List.not_mem_nil, or_false] at hr
  rcases hr with rfl | rfl | rfl
  · exact uniform_emitAll env hs _
  · exact drawLogos_uniform env hs
  · exact uniform_emitAll env hs _

theorem backAfter_uniform (env : Env) (hs : env.Stable) (p : Player) (u : Bool) :
    Uniform (seqAll (backAfter env p u)) := by
  apply uniform_seqAll
  intro r hr
  simp only [backAfter, List.mem_cons, List.mem_singleton, List.not_mem_nil, or_false] at hr
  rcases hr with rfl | rfl | rfl
  · exact uniform_emitAll env hs _
  · exact drawFooter_uniform env hs u
  · exact drawWatermark_uniform env hs

theorem frontOnly_uniform (env : Env) (hs : env.Stable) (p : Player) :
    Uniform (seqAll (frontOnly env p)) := by
  apply uniform_seqAll
  intro r hr
  simp only [frontOnly, List.mem_cons, List.mem_singleton, List.not_mem_nil, or_false] at hr
  rcases hr with rfl | rfl
  · exact drawPhoto_uniform env hs p
  · exact uniform_emitAll env hs _

theorem backOnly_uniform (env : Env) (hs : env.Stable) (p : Player) :
    Uniform (seqAll (backOnly env p)) := by
  apply uniform_seqAll
  intro r hr
  simp only [backOnly, List.mem_cons, List.mem_singleton, List.not_mem_nil, or_false] at hr
  rcases hr with rfl | rfl
  · exact uniform_emitAll env hs _
  · exact drawQr_uniform env hs p

/-- A uniform list of statements that always returns appends its events of
the empty history. -/
theorem uniform_good_run (rs : List (Run Unit)) (hu : Uniform (seqAll rs))
    (hg : Good (fun _ => True) (seqAll rs)) (t : Trace) :
    seqAll rs t = (.ok (), t ++ eventsOf rs) := by
  obtain ⟨evs, h, -⟩ := hg []
  rw [hu t]
  unfold eventsOf
  rw [h]

theorem frontBefore_run (env : Env) (hs : env.Stable) (hq : env.Quiet Op.isDrawing)
    (t : Trace) : seqAll (frontBefore env) t = (.ok (), t ++ eventsOf (frontBefore env)) :=
  uniform_good_run _ (frontBefore_uniform env hs)
    (good_seqAll _ _ (frontBefore_good _ env hq (fun _ _ _ => trivial) (fun _ _ => trivial))) t

theorem backAfter_shared_run (env : Env) (hs : env.Stable) (hq : env.Quiet Op.isDrawing)
    (p : Player) (u : Bool) (t : Trace) :
    seqAll (backAfter env p u) t = (.ok (), t ++ eventsOf (backAfter env p u)) :=
  uniform_good_run _ (backAfter_uniform env hs p u)
    (good_seqAll _ _ (backAfter_good _ env p u hq (fun _ _ _ => trivial)
      (fun _ _ => trivial))) t

theorem frontOnly_run (env : Env) (hs : env.Stable) (hq : env.Quiet Op.isDrawing)
    (p : Player) (t : Trace) :
    seqAll (frontOnly env p) t = (.ok (), t ++ eventsOf (frontOnly env p)) := by
  refine uniform_good_run _ (frontOnly_uniform env hs p) (good_seqAll _ _ ?_) t
  intro r hr
  simp only [frontOnly, List.mem_cons, List.mem_singleton, List.not_mem_nil, or_false] at hr
  rcases hr with rfl | rfl
  · exact drawPhoto_good _ env p hq (fun _ _ _ => trivial)
  · exact good_emitAllQuiet _ env _ hq _ (layoutOps_isDrawing env p) (fun _ _ => trivial)

theorem drawFrontSide_shared (env : Env) (hs : env.Stable) (hq : env.Quiet Op.isDrawing)
    (p : Player) (u : Bool) (t : Trace) :
    drawFrontSide env p u t
      = (.ok (), t ++ eventsOf (frontBefore env) ++ eventsOf (frontOnly env p)
          ++ eventsOf (backAfter env p u)) := by
  have hb : frontBlocks env p u = frontBefore env ++ (frontOnly env p ++ backAfter env p u) :=
    rfl
  unfold drawFrontSide
  rw [hb, seqAll_append, seq_of_ok _ _ _ _ (frontBefore_run env hs hq t), seqAll_append,
    seq_of_ok _ _ _ _ (frontOnly_run env hs hq p _), backAfter_shared_run env hs hq p u]

theorem drawBackSide_shared (env : Env) (hs : env.Stable) (hq : env.Quiet Op.isDrawing)
    (p : Player) (u : Bool) (t : Trace) :
    ((drawBackSide env p u t).1 = .ok () →
      (drawBackSide env p u t).2 = t ++ eventsOf (frontBefore env) ++ eventsOf (backOnly env p)
          ++ eventsOf (backAfter env p u))
    ∧ (∀ e, (drawBackSide env p u t).1 = .error e →
      (drawBackSide env p u t).2 = t ++ eventsOf (frontBefore env)
          ++ eventsOf (backOnly env p)) := by
  have hb : backBlocks env p u = frontBefore env ++ (backOnly env p ++ backAfter env p u) :=
    rfl
  have hm := backOnly_uniform env hs p (t ++ eventsOf (frontBefore env))
  unfold drawBackSide
  rw [hb, seqAll_append, seq_of_ok _ _ _ _ (frontBefore_run env hs hq t), seqAll_append]
  rcases run_cases (seqAll (backOnly env p)) [] with ⟨a, e1, h⟩ | ⟨e, e1, h⟩
  · have he : eventsOf (backOnly env p) = e1 := by unfold eventsOf; rw [h]
    rw [h, ← he] at hm
    rw [seq_of_ok _ _ _ _ hm, backAfter_shared_run env hs hq p u]
    exact ⟨fun _ => rfl, fun e h => by simp at h⟩
  · have he : eventsOf (backOnly env p) = e1 := by unfold eventsOf; rw [h]
    rw [h, ← he] at hm
    rw [seq_of_error _ _ _ _ e hm]
    exact ⟨fun h => by simp at h, fun _ _ => rfl⟩

/-- The events of the statements both composers start with: the background
wash, the two marks in their `try`, the title. -/
theorem eventsOf_frontBefore (env : Env) (hs : env.Stable) (hq : env.Quiet Op.isDrawing) :
    eventsOf (frontBefore env)
      = (backgroundOps.map fun op => Event.call op true) ++ (drawLogos env []).2
        ++ (titleOps.map fun op => Event.call op true) := by
  have h1 := emitAll_quiet env Op.isDrawing hq backgroundOps (by decide) []
  obtain ⟨evs, h2, -⟩ := drawLogos_good (fun _ => True) env (fun _ => trivial)
    (fun _ => trivial) (fun _ _ => trivial) []
  have h3 : drawLogos env ([] ++ backgroundOps.map fun op => Event.call op true)
      = (.ok (), ([] ++ backgroundOps.map fun op => Event.call op true)
          ++ (drawLogos env []).2) := by
    rw [drawLogos_uniform env hs _, h2]
  have h4 := emitAll_quiet env Op.isDrawing hq titleOps (by decide)
    (([] ++ backgroundOps.map fun op => Event.call op true) ++ (drawLogos env []).2)
  unfold eventsOf frontBefore
  simp only [seqAll]
  rw [seq_of_ok _ _ _ _ h1, seq_of_ok _ _ _ _ h3, seq_of_ok _ _ _ _ h4]
  simp [Run.ret]

/-- The events of the statements both composers end with: the banner, the
footer, the watermark in its `try`. -/
theorem eventsOf_backAfter (env : Env) (hs : env.Stable) (hq : env.Quiet Op.isDrawing)
    (p : Player) (u : Bool) :
    eventsOf (backAfter env p u)
      = ((bannerOps p ++ footerGradientOps ++ footerOps u).map fun op => Event.call op true)
        ++ (drawWatermark env []).2 := by
  have h1 := emitAll_quiet env Op.isDrawing hq (bannerOps p)
    (by intro op ho
        simp only [bannerOps, List.mem_cons, List.mem_singleton, List.not_mem_nil,
          or_false] at ho
        rcases ho with rfl | rfl | rfl | rfl <;> rfl) []
  have h2 := emitAll_quiet env Op.isDrawing hq footerGradientOps (by decide)
    ([] ++ (bannerOps p).map fun op => Event.call op true)
  have h3 := emitAll_quiet env Op.isDrawing hq (footerOps u)
    (by intro op ho
        simp only [footerOps, List.mem_cons, List.mem_singleton, List.not_mem_nil,
          or_false] at ho
        rcases ho with rfl | rfl | rfl | rfl <;> rfl)
    (([] ++ (bannerOps p).map fun op => Event.call op true)
      ++ footerGradientOps.map fun op => Event.call op true)
  obtain ⟨evs, h4, -⟩ := drawWatermark_good (fun _ => True) env (fun _ _ _ => trivial) []
  have h5 : drawWatermark env ((([] ++ (bannerOps p).map fun op => Event.call op true)
      ++ footerGradientOps.map fun op => Event.call op true)
      ++ (footerOps u).map fun op => Event.call op true)
      = (.ok (), ((([] ++ (bannerOps p).map fun op => Event.call op true)
      ++ footerGradientOps.map fun op => Event.call op true)
      ++ (footerOps u).map fun op => Event.call op true) ++ (drawWatermark env []).2) := by
    rw [drawWatermark_uniform env hs _, h4]
  unfold eventsOf backAfter
  simp only [seqAll, drawFooter]
  rw [seq_of_ok _ _ _ _ h1, seq_of_ok _ _ _ _
    (show Run.seq (emitAll env footerGradientOps) _ _ = _ from by
      rw [seq_of_ok _ _ _ _ h2, tryCatch_of_ok _ _ _ _ () h3]),
    seq_of_ok _ _ _ _ h5]
  simp [Run.ret]

/-- C16. When whether a call raises does not depend on the history and
drawing calls do not raise, then for every record and font state both
composers are the same opening statements (background wash, two marks,
title), their own statements, and the same closing statements (banner,
footer, watermark); every run of the front composer and every returning run
of the back composer appends the same events for the opening statements and
the same events for the closing statements, with those of its own statements
in between, and a back composer that raises has appended the same opening
events. The shared events are the listed calls, all returning, around the
outcome of the two guarded image blocks. -/
theorem shared_steps_identical (env : Env) (p : Player) (u : Bool)
    (hs : env.Stable) (hq : env.Quiet Op.isDrawing) :
    frontBlocks env p u = frontBefore env ++ frontOnly env p ++ backAfter env p u
    ∧ backBlocks env p u = frontBefore env ++ backOnly env p ++ backAfter env p u
    ∧ (∀ t, drawFrontSide env p u t
        = (.ok (), t ++ eventsOf (frontBefore env) ++ eventsOf (frontOnly env p)
            ++ eventsOf (backAfter env p u)))
    ∧ (∀ t, (drawBackSide env p u t).1 = .ok () →
        (drawBackSide env p u t).2 = t ++ eventsOf (frontBefore env)
          ++ eventsOf (backOnly env p) ++ eventsOf (backAfter env p u))
    ∧ (∀ t e, (drawBackSide env p u t).1 = .error e →
        (drawBackSide env p u t).2 = t ++ eventsOf (frontBefore env)
          ++ eventsOf (backOnly env p))
    ∧ (∀ t, seqAll (frontBefore env) t = (.ok (), t ++ eventsOf (frontBefore env)))
    ∧ (∀ t, seqAll (backAfter env p u) t = (.ok (), t ++ eventsOf (backAfter env p u)))
    ∧ (∀ t, seqAll (frontOnly env p) t = (.ok (), t ++ eventsOf (frontOnly env p)))
    ∧ (∀ t, (seqAll (backOnly env p) t).2 = t ++ eventsOf (backOnly env p))
    ∧ eventsOf (frontBefore env)
        = (backgroundOps.map fun op => Event.call op true) ++ (drawLogos env []).2
          ++ (titleOps.map fun op => Event.call op true)
    ∧ eventsOf (backAfter env p u)
        = ((bannerOps p ++ footerGradientOps ++ footerOps u).map fun op => Event.call op true)
          ++ (drawWatermark env []).2 := by
  refine ⟨by simp [frontBlocks, frontOnly, frontAfter, backAfter],
    by simp [backBlocks, backOnly, backBefore, frontBefore],
    drawFrontSide_shared env hs hq p u,
    fun t => (drawBackSide_shared env hs hq p u t).1,
    fun t => (drawBackSide_shared env hs hq p u t).2,
    frontBefore_run env hs hq, backAfter_shared_run env hs hq p u, frontOnly_run env hs hq p, ?_,
    eventsOf_frontBefore env hs hq, eventsOf_backAfter env hs hq p u⟩
  intro t
  rw [backOnly_uniform env hs p t]
  rfl

theorem badLogoEnv_stable (files : List JSString) : (badLogoEnv files).Stable :=
  fun _ _ _ => rfl

theorem badLogoEnv_quiet (files : List JSString) : (badLogoEnv files).Quiet Op.isDrawing := by
  intro tr op h
  have hne : op ≠ .image (.file (lit "/srv/app/backend/utils/logo1.png")) 24 18 60 (some 60) := by
    intro heq
    rw [heq] at h
    simp [Op.isDrawing] at h
  simp [badLogoEnv, hne]

/-- Witness for C16: the left mark file exists and placing it always
raises. -/
theorem shared_steps_identical_witness :
    (badLogoEnv [lit "/srv/app/backend/utils/logo1.png"]).Stable
    ∧ (badLogoEnv [lit "/srv/app/backend/utils/logo1.png"]).Quiet Op.isDrawing
    ∧ drawFrontSide (badLogoEnv [lit "/srv/app/backend/utils/logo1.png"]) demoPlayer true []
        = (.ok (), [] ++ eventsOf (frontBefore (badLogoEnv [lit "/srv/app/backend/utils/logo1.png"]))
            ++ eventsOf (frontOnly (badLogoEnv [lit "/srv/app/backend/utils/logo1.png"]) demoPlayer)
            ++ eventsOf (backAfter (badLogoEnv [lit "/srv/app/backend/utils/logo1.png"])
                demoPlayer true))
    ∧ (drawLogos (badLogoEnv [lit "/srv/app/backend/utils/logo1.png"]) []).2
        = [Event.call (.image (.file (lit "/srv/app/backend/utils/logo1.png")) 24 18 60 (some 60))
             false,
           Event.log true (lit "Logo rendering error:")] :=
  ⟨badLogoEnv_stable _, badLogoEnv_quiet _,
   (shared_steps_identical (badLogoEnv [lit "/srv/app/backend/utils/logo1.png"]) demoPlayer true
      (badLogoEnv_stable _) (badLogoEnv_quiet _)).2.2.1 [],
   by decide⟩

/-! ## Mail delivery never raises -/

theorem orElse_isEmpty (f : Field) (d : JSString) (h : d.isEmpty = false) :
    (f.orElse d).isEmpty = false := by
  cases f with
  | undefined => simpa [Field.orElse] using h
  | null => simpa [Field.orElse] using h
  | str s =>
    cases s with
    | nil => simpa [Field.orElse] using h
    | cons a b => simp [Field.orElse]

theorem createTransporter_run (env : MailEnv) (tr : MailTrace) :
    createTransporter env tr
      = match env.raises (tr ++ debugLines) (transportOp env) with
        | none => (.ok (some ()), checkStart env tr)
        | some e => (.error e, tr ++ debugLines ++ [.call (transportOp env) false]) := by
  have h1 := orElse_isEmpty env.config.senderEmail (lit "dhruvsumra13@gmail.com") (by decide)
  have h2 := orElse_isEmpty env.config.emailPassword fallbackPassword (by decide)
  simp only [createTransporter, MailRun.bind, mailLog, h1, h2, Bool.or_self, Bool.false_eq_true,
    if_false, mailCall, List.append_assoc, List.cons_append, List.nil_append, debugLines,
    transportOp, checkStart]
  cases env.raises _ _ <;> simp [MailRun.ret]

theorem deleteCardFile_run (env : MailEnv) (q : JSString) (t : MailTrace) :
    deleteCardFile env q t = (.ok (), t ++ deleteEvents env q t) := by
  unfold deleteCardFile deleteEvents
  cases hx : env.fileExists t q
  · simp [MailRun.tryCatch, MailRun.bind, existsSync, hx, MailRun.ret]
  · rcases hr : env.raises (t ++ [.call (.existsSync q) true]) (.unlinkSync q) with _ | e
    · simp [MailRun.tryCatch, MailRun.bind, existsSync, hx, mailCall, hr, mailLog]
    · simp [MailRun.tryCatch, MailRun.bind, existsSync, hx, mailCall, hr, mailLog]

/-- The whole run of `sendIdCardEmail`, case by case. -/
theorem sendIdCardEmail_run (env : MailEnv) (player : MailPlayer) (idCardPath : JSString)
    (tr : MailTrace) :
    sendIdCardEmail env player idCardPath tr
      = (.ok (sendOutcomeSpec env player idCardPath tr),
         match env.raises (tr ++ debugLines) (transportOp env) with
         | some _ =>
           tr ++ debugLines
             ++ [.call (transportOp env) false, .log true (lit "Error sending email:")]
         | none =>
           if env.fileExists (checkStart env tr) (fullIdCardPath env idCardPath) = false then
             sendStart env idCardPath tr ++ [.log true (lit "Error sending email:")]
           else
             match env.raises (sendStart env idCardPath tr)
                 (cardMailOp env player idCardPath) with
             | some _ =>
               sendStart env idCardPath tr
                 ++ [.call (cardMailOp env player idCardPath) false,
                     .log true (lit "Error sending email:")]
             | none =>
               deleteStart env player idCardPath tr
                 ++ deleteEvents env (fullIdCardPath env idCardPath)
                     (deleteStart env player idCardPath tr)) := by
  have hct := createTransporter_run env tr
  unfold sendIdCardEmail sendIdCardEmailBody sendOutcomeSpec
  rcases h1 : env.raises (tr ++ debugLines) (transportOp env) with _ | e
  · rw [h1] at hct
    simp only at hct
    cases h2 : env.fileExists (checkStart env tr) (fullIdCardPath env idCardPath)
    · simp [MailRun.tryCatch, MailRun.bind, hct, existsSync, h2, MailRun.raise, mailLog,
        MailRun.ret, sendStart]
    · rcases h3 : env.raises (sendStart env idCardPath tr)
          (cardMailOp env player idCardPath) with _ | e
      · have h3b : env.raises (checkStart env tr
            ++ [.call (.existsSync (fullIdCardPath env idCardPath)) true])
            (cardMailOp env player idCardPath) = none := h3
        have hd := deleteCardFile_run env (fullIdCardPath env idCardPath)
          (deleteStart env player idCardPath tr)
        simp only [deleteStart, sendStart, List.append_assoc, List.cons_append,
          List.nil_append] at hd h3b ⊢
        simp [MailRun.tryCatch, MailRun.bind, hct, existsSync, h2, sendMail, mailCall, h3b,
          mailLog, hd, MailRun.ret]
      · have h3b : env.raises (checkStart env tr
            ++ [.call (.existsSync (fullIdCardPath env idCardPath)) true])
            (cardMailOp env player idCardPath) = some e := h3
        simp [MailRun.tryCatch, MailRun.bind, hct, existsSync, h2, sendMail, mailCall, h3b,
          mailLog, MailRun.ret, sendStart]
  · rw [h1] at hct
    simp only at hct
    simp [MailRun.tryCatch, MailRun.bind, hct, mailLog, MailRun.ret]

theorem mailEvents_of_append {α : Type} (r : MailRun α) (tr evs : MailTrace)
    (h : (r tr).2 = tr ++ evs) : mailEvents r tr = evs := by
  simp [mailEvents, h]

/-- The events of a run of `sendIdCardEmail`, case by case. -/
theorem sendIdCardEmail_events (env : MailEnv) (player : MailPlayer) (idCardPath : JSString)
    (tr : MailTrace) :
    mailEvents (sendIdCardEmail env player idCardPath) tr
      = match env.raises (tr ++ debugLines) (transportOp env) with
         | some _ =>
           debugLines ++ [.call (transportOp env) false, .log true (lit "Error sending email:")]
         | none =>
           if env.fileExists (checkStart env tr) (fullIdCardPath env idCardPath) = false then
             debugLines ++ [.call (transportOp env) true,
               .call (.existsSync (fullIdCardPath env idCardPath)) true,
               .log true (lit "Error sending email:")]
           else
             match env.raises (sendStart env idCardPath tr)
                 (cardMailOp env player idCardPath) with
             | some _ =>
               debugLines ++ [.call (transportOp env) true,
                 .call (.existsSync (fullIdCardPath env idCardPath)) true,
                 .call (cardMailOp env player idCardPath) false,
                 .log true (lit "Error sending email:")]
             | none =>
               debugLines ++ [.call (transportOp env) true,
                 .call (.existsSync (fullIdCardPath env idCardPath)) true,
                 .call (cardMailOp env player idCardPath) true,
                 .log false (lit "Email sent successfully:")]
                 ++ deleteEvents env (fullIdCardPath env idCardPath)
                     (deleteStart env player idCardPath tr) := by
  apply mailEvents_of_append
  rw [sendIdCardEmail_run]
  simp only
  rcases env.raises (tr ++ debugLines) (transportOp env) with _ | e
  · cases env.fileExists (checkStart env tr) (fullIdCardPath env idCardPath)
    · simp [sendStart, checkStart]
    · rcases env.raises (sendStart env idCardPath tr) (cardMailOp env player idCardPath)
        with _ | e
      · simp [deleteStart, sendStart, checkStart]
      · simp [sendStart, checkStart]
  · simp

/-- C17. Whatever transporter creation, the existence check, `sendMail` and
the deletion do, `sendIdCardEmail` returns a value: the failure object
`{error: 'Failed to send email', details}` with the message of whatever
raised inside its `try` - transporter creation, the missing card file
(`ID card file not found`), or `sendMail` - and otherwise the object that
`sendMail` resolved with, also when the deletion raises. -/
theorem email_never_raises (env : MailEnv) (player : MailPlayer) (idCardPath : JSString)
    (tr : MailTrace) :
    (sendIdCardEmail env player idCardPath tr).1
        = .ok (sendOutcomeSpec env player idCardPath tr)
    ∧ (∀ e, (sendIdCardEmailBody env player idCardPath tr).1 = .error e →
        (sendIdCardEmail env player idCardPath tr).1
          = .ok (.failure (lit "Failed to send email") e.message))
    ∧ (∀ e, env.raises (tr ++ debugLines) (transportOp env) = some e →
        (sendIdCardEmail env player idCardPath tr).1
          = .ok (.failure (lit "Failed to send email") e.message))
    ∧ (env.raises (tr ++ debugLines) (transportOp env) = none →
        env.fileExists (checkStart env tr) (fullIdCardPath env idCardPath) = false →
        (sendIdCardEmail env player idCardPath tr).1
          = .ok (.failure (lit "Failed to send email") (lit "ID card file not found")))
    ∧ (∀ e, env.raises (tr ++ debugLines) (transportOp env) = none →
        env.fileExists (checkStart env tr) (fullIdCardPath env idCardPath) = true →
        env.raises (sendStart env idCardPath tr) (cardMailOp env player idCardPath) = some e →
        (sendIdCardEmail env player idCardPath tr).1
          = .ok (.failure (lit "Failed to send email") e.message))
    ∧ (env.raises (tr ++ debugLines) (transportOp env) = none →
        env.fileExists (checkStart env tr) (fullIdCardPath env idCardPath) = true →
        env.raises (sendStart env idCardPath tr) (cardMailOp env player idCardPath) = none →
        (sendIdCardEmail env player idCardPath tr).1
          = .ok (.info (env.messageId (sendStart env idCardPath tr
              ++ [.call (cardMailOp env player idCardPath) true]))))
    ∧ (sendIdCardEmail env player idCardPath tr).1 ≠ .ok .notConfigured
    ∧ (sendIdCardEmail refusedMailEnv { email := .str (lit "a@b.in") }
          (lit "/idcards/idcard_PS20250001_1700000000000.pdf") []).1
        = .ok (.failure (lit "Failed to send email") (lit "Invalid login")) := by
  have hrun := congrArg Prod.fst (sendIdCardEmail_run env player idCardPath tr)
  simp only at hrun
  refine ⟨hrun, ?_, ?_, ?_, ?_, ?_, ?_, by rfl⟩
  · intro e he
    rcases hb : sendIdCardEmailBody env player idCardPath tr with ⟨res, tr1⟩
    rw [hb] at he
    simp only at he
    subst he
    simp [sendIdCardEmail, MailRun.tryCatch, hb, MailRun.bind, mailLog, MailRun.ret]
  · intro e h1
    rw [hrun]; simp [sendOutcomeSpec, h1]
  · intro h1 h2
    rw [hrun]; simp [sendOutcomeSpec, h1, h2]
  · intro e h1 h2 h3
    rw [hrun]; simp [sendOutcomeSpec, h1, h2, h3]
  · intro h1 h2 h3
    rw [hrun]; simp [sendOutcomeSpec, h1, h2, h3]
  · rw [hrun]
    unfold sendOutcomeSpec
    rcases env.raises (tr ++ debugLines) (transportOp env) with _ | e
    · cases env.fileExists (checkStart env tr) (fullIdCardPath env idCardPath)
      · simp
      · rcases env.raises (sendStart env idCardPath tr) (cardMailOp env player idCardPath)
          with _ | e <;> simp
    · simp

theorem deleteEvents_unlink (env : MailEnv) (q : JSString) (t : MailTrace) :
    ∀ ev ∈ deleteEvents env q t, ev.isUnlink = true → ∃ ok, ev = .call (.unlinkSync q) ok := by
  intro ev hev hu
  unfold deleteEvents at hev
  cases hx : env.fileExists t q
  · simp [hx] at hev
    subst hev
    simp [MailEvent.isUnlink] at hu
  · rcases hr : env.raises (t ++ [.call (.existsSync q) true]) (.unlinkSync q) with _ | e
    · simp [hx, hr] at hev
      rcases hev with rfl | rfl | rfl
      · simp [MailEvent.isUnlink] at hu
      · exact ⟨true, rfl⟩
      · simp [MailEvent.isUnlink] at hu
    · simp [hx, hr] at hev
      rcases hev with rfl | rfl | rfl
      · simp [MailEvent.isUnlink] at hu
      · exact ⟨false, rfl⟩
      · simp [MailEvent.isUnlink] at hu

set_option maxRecDepth 100000 in
/-- C18. Every deletion `sendIdCardEmail` performs is of the card file and
is made in a run in which `sendMail` returned, after it: a run that does not
resolve with the object of `sendMail` (transporter unavailable, file
missing, `sendMail` raising) makes no deletion call at all, and a run that
does has appended the calls up to the returned `sendMail`, the success line,
and then the guarded deletion; when that deletion raises, the run still
resolves with the object of `sendMail`. -/
theorem delete_only_after_send (env : MailEnv) (player : MailPlayer) (idCardPath : JSString)
    (tr : MailTrace) :
    (∀ ev ∈ mailEvents (sendIdCardEmail env player idCardPath) tr, ev.isUnlink = true →
        (∃ ok, ev = .call (.unlinkSync (fullIdCardPath env idCardPath)) ok)
        ∧ env.raises (sendStart env idCardPath tr) (cardMailOp env player idCardPath) = none
        ∧ ∃ m, (sendIdCardEmail env player idCardPath tr).1 = .ok (.info m))
    ∧ ((∀ m, (sendIdCardEmail env player idCardPath tr).1 ≠ .ok (.info m)) →
        ∀ ev ∈ mailEvents (sendIdCardEmail env player idCardPath) tr, ev.isUnlink = false)
    ∧ (∀ m, (sendIdCardEmail env player idCardPath tr).1 = .ok (.info m) →
        mailEvents (sendIdCardEmail env player idCardPath) tr
          = debugLines ++ [.call (transportOp env) true,
              .call (.existsSync (fullIdCardPath env idCardPath)) true,
              .call (cardMailOp env player idCardPath) true,
              .log false (lit "Email sent successfully:")]
            ++ deleteEvents env (fullIdCardPath env idCardPath)
                (deleteStart env player idCardPath tr))
    ∧ (∀ ok, MailEvent.call (.unlinkSync (fullIdCardPath env idCardPath)) ok
          ∈ mailEvents (sendIdCardEmail env player idCardPath) tr →
        (sendIdCardEmail env player idCardPath tr).1
          = .ok (.info (env.messageId (sendStart env idCardPath tr
              ++ [.call (cardMailOp env player idCardPath) true]))))
    ∧ (sendIdCardEmail lockedFileEnv { email := .str (lit "a@b.in") }
          (lit "/idcards/idcard_PS20250001_1700000000000.pdf") []).1
        = .ok (.info (lit "<1@mail>"))
    ∧ MailEvent.call (.unlinkSync
          (lit "/srv/app/backend/idcards/idcard_PS20250001_1700000000000.pdf")) false
        ∈ mailEvents (sendIdCardEmail lockedFileEnv { email := .str (lit "a@b.in") }
            (lit "/idcards/idcard_PS20250001_1700000000000.pdf")) [] := by
  have hrun := congrArg Prod.fst (sendIdCardEmail_run env player idCardPath tr)
  have hev := sendIdCardEmail_events env player idCardPath tr
  simp only at hrun
  have key : ∀ ev ∈ mailEvents (sendIdCardEmail env player idCardPath) tr, ev.isUnlink = true →
      (∃ ok, ev = .call (.unlinkSync (fullIdCardPath env idCardPath)) ok)
      ∧ env.raises (sendStart env idCardPath tr) (cardMailOp env player idCardPath) = none
      ∧ (sendIdCardEmail env player idCardPath tr).1
          = .ok (.info (env.messageId (sendStart env idCardPath tr
              ++ [.call (cardMailOp env player idCardPath) true]))) := by
    intro ev hmem hu
    have hpre : ∀ l : MailTrace, (∀ x ∈ l, x.isUnlink = false) → ev ∈ l → False :=
      fun l hl hm => by rw [hl ev hm] at hu; simp at hu
    rw [hev] at hmem
    rw [hrun]
    unfold sendOutcomeSpec
    rcases h1 : env.raises (tr ++ debugLines) (transportOp env) with _ | e
    · rw [h1] at hmem
      cases h2 : env.fileExists (checkStart env tr) (fullIdCardPath env idCardPath)
      · rw [h2] at hmem
        exact (hpre _ (by simp [debugLines, transportOp, MailEvent.isUnlink]) hmem).elim
      · rw [h2] at hmem
        rcases h3 : env.raises (sendStart env idCardPath tr)
            (cardMailOp env player idCardPath) with _ | e
        · rw [h3] at hmem
          simp only [Bool.true_eq_false, if_false, List.mem_append] at hmem
          rcases hmem with hm | hm
          · exact (hpre _ (by simp [debugLines, transportOp, cardMailOp, MailEvent.isUnlink])
              (List.mem_append.mpr hm)).elim
          · exact ⟨deleteEvents_unlink env _ _ ev hm hu, rfl, by simp⟩
        · rw [h3] at hmem
          exact (hpre _ (by simp [debugLines, transportOp, cardMailOp, MailEvent.isUnlink])
            hmem).elim
    · rw [h1] at hmem
      exact (hpre _ (by simp [debugLines, transportOp, MailEvent.isUnlink]) hmem).elim
  refine ⟨fun ev hmem hu => ⟨(key ev hmem hu).1, (key ev hmem hu).2.1, _, (key ev hmem hu).2.2⟩,
    ?_, ?_, fun ok hmem => (key _ hmem rfl).2.2, by rfl, by decide⟩
  · intro hno ev hmem
    cases hu : ev.isUnlink
    · rfl
    · exact absurd (key ev hmem hu).2.2 (hno _)
  · intro m hm
    rw [hev]
    rw [hrun] at hm
    unfold sendOutcomeSpec at hm
    rcases h1 : env.raises (tr ++ debugLines) (transportOp env) with _ | e
    · rw [h1] at hm
      cases h2 : env.fileExists (checkStart env tr) (fullIdCardPath env idCardPath)
      · rw [h2] at hm; simp at hm
      · rw [h2] at hm
        rcases h3 : env.raises (sendStart env idCardPath tr)
            (cardMailOp env player idCardPath) with _ | e
        · simp
        · rw [h3] at hm; simp at hm
    · rw [h1] at hm; simp at hm

/-! ## The OTP store after a search -/

/-- C19 fails as stated: the entry for `a@b.in` expired at 1000, and a
request at 2000 that carries player ID, that email and a code other than the
stored one is answered 401 and leaves the entry in the store. -/
theorem expired_entry_kept_on_wrong_code :
    ¬ (∀ (env : SearchEnv) (store : OtpStore) (req : SearchRequest), req.Complete →
        (∃ entry, store req.email.toJSString = some entry ∧ env.now > entry.expiresAt) →
        (searchHandler env store req).1 req.email.toJSString = none) := by
  intro h
  have := h (emptyDbEnv 2000) oneEntryStore wrongCodeRequest ⟨rfl, rfl, rfl⟩
    ⟨{ otp := lit "123456", expiresAt := 1000 }, by decide, by decide⟩
  revert this
  decide

/-- C19, amended. For every store and every request carrying player ID,
email and code: the request never changes the entry of another email; it
removes the entry of its email exactly when the store has one whose code
equals the code supplied - whether verification then passes or the entry
turns out to have expired - and otherwise leaves the store as it was. -/
theorem otp_store_after_search (env : SearchEnv) (store : OtpStore) (req : SearchRequest)
    (hreq : req.Complete) :
    (∀ k, k ≠ req.email.toJSString → (searchHandler env store req).1 k = store k)
    ∧ (∀ entry, store req.email.toJSString = some entry → entry.otp = req.otp.toJSString →
        (searchHandler env store req).1 req.email.toJSString = none
        ∧ (env.now > entry.expiresAt →
            (searchHandler env store req).2 = .error 401 (lit "OTP expired"))
        ∧ (env.now ≤ entry.expiresAt → ∀ m, (searchHandler env store req).2 ≠ .error 401 m))
    ∧ (∀ entry, store req.email.toJSString = some entry → entry.otp ≠ req.otp.toJSString →
        (searchHandler env store req).1 = store
        ∧ (searchHandler env store req).2 = .error 401 (lit "Invalid or expired OTP"))
    ∧ (store req.email.toJSString = none →
        (searchHandler env store req).1 = store
        ∧ (searchHandler env store req).2 = .error 401 (lit "Invalid or expired OTP")) := by
  obtain ⟨h1, h2, h3⟩ := hreq
  have hguard : (!req.playerId.truthy || !req.email.truthy || !req.otp.truthy) = false := by
    simp [h1, h2, h3]
  refine ⟨?_, ?_, ?_, ?_⟩
  · intro k hk
    unfold searchHandler
    rw [hguard]
    simp only [Bool.false_eq_true, if_false]
    split
    · rfl
    · split
      · rfl
      · split
        · simp [OtpStore.erase, hk]
        · split <;> simp [OtpStore.erase, hk]
  · intro entry he ho
    unfold searchHandler
    rw [hguard]
    simp only [Bool.false_eq_true, if_false, he, ho, ne_eq, not_true_eq_false]
    refine ⟨?_, ?_, ?_⟩
    · split
      · simp [OtpStore.erase]
      · split <;> simp [OtpStore.erase]
    · intro hexp
      simp [hexp]
    · intro hle m
      have : ¬ env.now > entry.expiresAt := Nat.not_lt.mpr hle
      simp only [this, if_false]
      split <;> simp
  · intro entry he ho
    unfold searchHandler
    rw [hguard]
    simp [he, ho]
  · intro he
    unfold searchHandler
    rw [hguard]
    simp [he]

/-- Witness for the amended C19: the expired entry and a request with the
stored code. -/
theorem otp_store_after_search_witness :
    rightCodeRequest.Complete
    ∧ (searchHandler (emptyDbEnv 2000) oneEntryStore rightCodeRequest).1 (lit "a@b.in") = none :=
  ⟨⟨rfl, rfl, rfl⟩,
   ((otp_store_after_search (emptyDbEnv 2000) oneEntryStore rightCodeRequest
      ⟨rfl, rfl, rfl⟩).2.1 { otp := lit "123456", expiresAt := 1000 }
      (by decide) (by decide)).1⟩

/-! ## Number arithmetic -/

theorem roundHalfEven_bounds (x : ℚ) :
    ⌊x⌋₊ ≤ roundHalfEven x ∧ roundHalfEven x ≤ ⌊x⌋₊ + 1 := by
  unfold roundHalfEven
  split_ifs <;> omega

theorem roundHalfEven_natCast (n : ℕ) : roundHalfEven (n : ℚ) = n := by
  unfold roundHalfEven
  rw [Nat.floor_natCast]
  norm_num

theorem roundHalfEven_mono {x y : ℚ} (h : x ≤ y) : roundHalfEven x ≤ roundHalfEven y := by
  have hfl : ⌊x⌋₊ ≤ ⌊y⌋₊ := Nat.floor_mono h
  rcases Nat.lt_or_ge ⌊x⌋₊ ⌊y⌋₊ with hlt | hge
  · have h1 := (roundHalfEven_bounds x).2
    have h2 := (roundHalfEven_bounds y).1
    omega
  · have heq : ⌊x⌋₊ = ⌊y⌋₊ := le_antisymm hfl hge
    unfold roundHalfEven
    rw [heq]
    split_ifs <;> first | omega | (exfalso; linarith)

/-- A rational within half a unit of a natural number rounds to it. -/
theorem roundHalfEven_near (x : ℚ) (n : ℕ) (h1 : (n : ℚ) - 1 / 2 < x) (h2 : x < n + 1 / 2) :
    roundHalfEven x = n := by
  rcases le_or_lt (n : ℚ) x with hge | hlt
  · have hf : ⌊x⌋₊ = n := by
      rw [Nat.floor_eq_iff (le_trans (Nat.cast_nonneg n) hge)]
      exact ⟨hge, by linarith⟩
    unfold roundHalfEven
    rw [hf, if_pos (by linarith)]
  · rcases Nat.eq_zero_or_pos n with h0 | hpos
    · subst h0
      have hf : ⌊x⌋₊ = 0 := Nat.floor_eq_zero.mpr (by push_cast at hlt; linarith)
      unfold roundHalfEven
      rw [hf, if_pos (by push_cast at hlt ⊢; linarith)]
    · obtain ⟨m, rfl⟩ : ∃ m, n = m + 1 := ⟨n - 1, by omega⟩
      push_cast at h1 h2 hlt
      have hx0 : 0 ≤ x := by have := Nat.cast_nonneg (α := ℚ) m; linarith
      have hf : ⌊x⌋₊ = m := by
        rw [Nat.floor_eq_iff hx0]
        exact ⟨by linarith, hlt⟩
      unfold roundHalfEven
      rw [hf, if_neg (by linarith), if_pos (by linarith)]

theorem ulp_pos (x : ℚ) : 0 < ulp x := zpow_pos (by norm_num) _

theorem two_zpow_succ_binade (x : ℚ) :
    (2 : ℚ) ^ (binade x + 1) = ((2 ^ 53 : ℕ) : ℚ) * ulp x := by
  unfold ulp
  have e : binade x + 1 = (53 : ℤ) + (binade x - 52) := by ring
  rw [e, zpow_add₀ (by norm_num : (2 : ℚ) ≠ 0)]
  norm_num

theorem two_zpow_binade (x : ℚ) : (2 : ℚ) ^ binade x = ((2 ^ 52 : ℕ) : ℚ) * ulp x := by
  unfold ulp
  have e : binade x = (52 : ℤ) + (binade x - 52) := by ring
  conv_lhs => rw [e]
  rw [zpow_add₀ (by norm_num : (2 : ℚ) ≠ 0)]
  norm_num

theorem lt_two_zpow_succ_binade (x : ℚ) : x < 2 ^ (binade x + 1) := by
  have h := Int.lt_zpow_succ_log_self (b := 2) (by norm_num) x
  push_cast at h
  refine lt_of_lt_of_le h (zpow_le_zpow_right₀ (by norm_num) ?_)
  unfold binade
  have := le_max_left (Int.log 2 x) (-1022)
  omega

theorem two_zpow_binade_le (x : ℚ) (hx : 0 < x) (h : -1022 < binade x) :
    (2 : ℚ) ^ binade x ≤ x := by
  have hb : binade x = Int.log 2 x := by
    unfold binade at h ⊢
    rcases max_cases (Int.log 2 x) (-1022) with ⟨h1, _⟩ | ⟨h1, _⟩
    · exact h1
    · rw [h1] at h
      exact absurd h (lt_irrefl _)
  rw [hb]
  have := Int.zpow_log_le_self (b := 2) (by norm_num) hx
  push_cast at this
  exact this

theorem binade_mono {x y : ℚ} (hx : 0 < x) (h : x ≤ y) : binade x ≤ binade y := by
  unfold binade
  exact max_le_max (Int.log_mono_right hx h) (le_refl _)

/-- The binade of a rational between two consecutive powers of two. -/
theorem binade_eq (x : ℚ) (e : ℤ) (he : -1022 ≤ e) (h1 : (2 : ℚ) ^ e ≤ x)
    (h2 : x < 2 ^ (e + 1)) : binade x = e := by
  have hx : 0 < x := lt_of_lt_of_le (zpow_pos (by norm_num) e) h1
  have a1 : e ≤ Int.log 2 x := by
    rw [← Int.zpow_le_iff_le_log (by norm_num) hx]
    push_cast
    exact h1
  have a2 : Int.log 2 x < e + 1 := by
    rw [← Int.lt_zpow_iff_log_lt (by norm_num) hx]
    push_cast
    exact h2
  unfold binade
  rw [max_eq_left (by omega)]
  omega

theorem roundDouble_nonneg (x : ℚ) : 0 ≤ roundDouble x :=
  mul_nonneg (Nat.cast_nonneg _) (le_of_lt (ulp_pos x))

theorem roundDouble_zero : roundDouble 0 = 0 := by
  unfold roundDouble
  rw [zero_div]
  have : roundHalfEven 0 = 0 := by simpa using roundHalfEven_natCast 0
  rw [this]
  simp

/-- Rounding never moves a value across a multiple of its spacing. -/
theorem roundDouble_le_of_le (x : ℚ) (n : ℕ) (h : x ≤ n * ulp x) :
    roundDouble x ≤ n * ulp x := by
  unfold roundDouble
  refine mul_le_mul_of_nonneg_right ?_ (le_of_lt (ulp_pos x))
  have h1 : x / ulp x ≤ (n : ℚ) := by
    rw [div_le_iff₀ (ulp_pos x)]
    exact h
  have := roundHalfEven_mono h1
  rw [roundHalfEven_natCast] at this
  exact_mod_cast this

theorem le_roundDouble_of_le (x : ℚ) (n : ℕ) (h : n * ulp x ≤ x) :
    n * ulp x ≤ roundDouble x := by
  unfold roundDouble
  refine mul_le_mul_of_nonneg_right ?_ (le_of_lt (ulp_pos x))
  have h1 : (n : ℚ) ≤ x / ulp x := by
    rw [le_div_iff₀ (ulp_pos x)]
    exact h
  have := roundHalfEven_mono h1
  rw [roundHalfEven_natCast] at this
  exact_mod_cast this

/-- Rounding to the nearest Number is monotone. -/
theorem roundDouble_mono {x y : ℚ} (hx : 0 ≤ x) (h : x ≤ y) : roundDouble x ≤ roundDouble y := by
  rcases eq_or_lt_of_le hx with h0 | hpos
  · rw [← h0, roundDouble_zero]
    exact roundDouble_nonneg y
  · have hb := binade_mono hpos h
    rcases eq_or_lt_of_le hb with heq | hlt
    · have hu : ulp x = ulp y := by unfold ulp; rw [heq]
      unfold roundDouble
      rw [hu]
      refine mul_le_mul_of_nonneg_right ?_ (le_of_lt (ulp_pos y))
      exact_mod_cast roundHalfEven_mono (div_le_div_of_nonneg_right h (le_of_lt (ulp_pos y)))
    · have h1 : roundDouble x ≤ 2 ^ (binade x + 1) := by
        rw [two_zpow_succ_binade]
        apply roundDouble_le_of_le
        rw [← two_zpow_succ_binade]
        exact le_of_lt (lt_two_zpow_succ_binade x)
      have h2 : (2 : ℚ) ^ (binade x + 1) ≤ 2 ^ binade y :=
        zpow_le_zpow_right₀ (by norm_num) (by omega)
      have hlow : -1022 < binade y := by
        have : -1022 ≤ binade x := by unfold binade; exact le_max_right _ _
        omega
      have h3 : (2 : ℚ) ^ binade y ≤ roundDouble y := by
        rw [two_zpow_binade]
        apply le_roundDouble_of_le
        rw [← two_zpow_binade]
        exact two_zpow_binade_le y (lt_of_lt_of_le hpos h) hlow
      exact le_trans h1 (le_trans h2 h3)

/-- The Number nearest to a rational of a known binade that lies within
half a spacing of the `n`-th multiple of the spacing. -/
theorem roundDouble_eq (x : ℚ) (e : ℤ) (n : ℕ) (he : -1022 ≤ e) (h1 : (2 : ℚ) ^ e ≤ x)
    (h2 : x < 2 ^ (e + 1)) (h3 : ((n : ℚ) - 1 / 2) * 2 ^ (e - 52) < x)
    (h4 : x < (n + 1 / 2) * 2 ^ (e - 52)) : roundDouble x = n * 2 ^ (e - 52) := by
  have hq : (0 : ℚ) < 2 ^ (e - 52) := zpow_pos (by norm_num) _
  unfold roundDouble ulp
  rw [binade_eq x e he h1 h2, roundHalfEven_near _ n]
  · rw [lt_div_iff₀ hq]
    exact h3
  · rw [div_lt_iff₀ hq]
    exact h4

/-- A Number below 1 is at most the largest one, `1 - 2 ^ -53`. -/
theorem double_lt_one (r : ℚ) (hd : IsDouble r) (h1 : r < 1) : r ≤ 1 - 1 / 2 ^ 53 := by
  by_contra hc
  push_neg at hc
  have hb : binade r = -1 := binade_eq r (-1) (by norm_num) (by norm_num at hc ⊢; linarith)
    (by norm_num; exact h1)
  have hu : ulp r = 1 / 2 ^ 53 := by
    unfold ulp
    rw [hb]
    norm_num
  unfold IsDouble roundDouble at hd
  rw [hu] at hd
  have hN : (roundHalfEven (r / (1 / 2 ^ 53)) : ℚ) = r * 2 ^ 53 := by
    have := congrArg (· * (2 : ℚ) ^ 53) hd
    simp only at this
    rw [← this]
    field_simp
  have h2 : ((roundHalfEven (r / (1 / 2 ^ 53)) : ℕ) : ℚ) < ((2 ^ 53 : ℕ) : ℚ) := by
    rw [hN]
    push_cast
    nlinarith
  have h3 : ((2 ^ 53 : ℕ) : ℚ) < ((roundHalfEven (r / (1 / 2 ^ 53)) + 1 : ℕ) : ℚ) := by
    push_cast
    rw [hN]
    norm_num at hc ⊢
    nlinarith
  have h2n := Nat.cast_lt.mp h2
  have h3n := Nat.cast_lt.mp h3
  omega

theorem roundDouble_100000 : roundDouble 100000 = 100000 := by
  rw [roundDouble_eq 100000 16 (100000 * 2 ^ 36) (by norm_num) (by norm_num) (by norm_num)
    (by norm_num) (by norm_num)]
  norm_num

theorem roundDouble_mul_max_900000 :
    roundDouble ((1 - 1 / 2 ^ 53) * 900000) = 900000 - 1 / 2 ^ 33 := by
  rw [roundDouble_eq _ 19 (900000 * 2 ^ 33 - 1) (by norm_num) (by norm_num) (by norm_num)
    (by norm_num) (by norm_num)]
  norm_num

theorem roundDouble_add_max :
    roundDouble (100000 + (900000 - 1 / 2 ^ 33)) = 1000000 - 1 / 2 ^ 33 := by
  rw [roundDouble_eq _ 19 (1000000 * 2 ^ 33 - 1) (by norm_num) (by norm_num) (by norm_num)
    (by norm_num) (by norm_num)]
  norm_num

theorem roundDouble_mul_max_10000 :
    roundDouble ((1 - 1 / 2 ^ 53) * 10000) = 10000 - 1 / 2 ^ 39 := by
  rw [roundDouble_eq _ 13 (10000 * 2 ^ 39 - 1) (by norm_num) (by norm_num) (by norm_num)
    (by norm_num) (by norm_num)]
  norm_num

theorem isDouble_zero : IsDouble 0 := roundDouble_zero

theorem isDouble_sevenTenths : IsDouble sevenTenths := by
  unfold IsDouble sevenTenths
  rw [roundDouble_eq _ (-1) 6305039478318694 (by norm_num) (by norm_num) (by norm_num)
    (by norm_num) (by norm_num)]
  norm_num

theorem mulDouble_sevenTenths_900000 : mulDouble sevenTenths 900000 = 630000 := by
  unfold mulDouble sevenTenths
  rw [roundDouble_eq _ 19 (630000 * 2 ^ 33) (by norm_num) (by norm_num) (by norm_num)
    (by norm_num) (by norm_num)]
  norm_num

theorem addDouble_100000_630000 : addDouble 100000 630000 = 730000 := by
  unfold addDouble
  rw [roundDouble_eq _ 19 (730000 * 2 ^ 33) (by norm_num) (by norm_num) (by norm_num)
    (by norm_num) (by norm_num)]
  norm_num

theorem mulDouble_sevenTenths_10000 : mulDouble sevenTenths 10000 = 7000 := by
  unfold mulDouble sevenTenths
  rw [roundDouble_eq _ 12 (7000 * 2 ^ 40) (by norm_num) (by norm_num) (by norm_num)
    (by norm_num) (by norm_num)]
  norm_num

theorem mulDouble_zero (c : ℚ) : mulDouble 0 c = 0 := by
  unfold mulDouble
  rw [zero_mul, roundDouble_zero]

theorem addDouble_100000_zero : addDouble 100000 0 = 100000 := by
  unfold addDouble
  rw [add_zero, roundDouble_100000]

/-! ## Player IDs assigned by the pre-save hook -/

theorem randomNum_zero : randomNum 0 = lit "0000" := by
  simp only [randomNum, mulDouble_zero, Nat.floor_zero]
  decide

/-- C20, the code at the failing inputs. Two different records saved
without a player ID in the same year with the same random draw get the same
ID, here `PS20250000`; so do two different records that both meet the
special name condition, whatever the draws; and an ordinary record can draw
the special ID. -/
theorem presave_ids_collide :
    (preSave (hookEnv 0) { firstName := .str (lit "ASHA"), lastName := .str (lit "PATEL") }).playerId
        = .str (lit "PS20250000")
    ∧ (preSave (hookEnv 0) { firstName := .str (lit "RAVI"), lastName := .str (lit "SHAH") }).playerId
        = .str (lit "PS20250000")
    ∧ (∀ r1 r2 : ℚ,
        (preSave (hookEnv r1)
            { firstName := .str (lit "Bhavana"), lastName := .str (lit "Chaudhary") }).playerId
          = .str (lit "PS20250001")
        ∧ (preSave (hookEnv r2)
            { firstName := .str (lit "BHAVANABEN"), lastName := .str (lit "CHAUDHARY") }).playerId
          = .str (lit "PS20250001"))
    ∧ ¬ (∀ (env1 env2 : HookEnv) (d1 d2 : PlayerDoc), d1 ≠ d2 →
          d1.playerId.truthy = false → d2.playerId.truthy = false →
          (preSave env1 d1).playerId ≠ (preSave env2 d2).playerId) := by
  have h1 : (preSave (hookEnv 0)
      { firstName := .str (lit "ASHA"), lastName := .str (lit "PATEL") }).playerId
      = .str (lit "PS20250000") := by
    have hs : isSpecialName (Field.toLowerCase? asciiLower (.str (lit "ASHA")))
        (Field.toLowerCase? asciiLower (.str (lit "PATEL"))) = false := by decide
    simp only [preSave, hookEnv, Field.truthy, Bool.not_false, if_true, hs, Bool.false_eq_true,
      if_false, randomNum_zero]
    decide
  have h2 : (preSave (hookEnv 0)
      { firstName := .str (lit "RAVI"), lastName := .str (lit "SHAH") }).playerId
      = .str (lit "PS20250000") := by
    have hs : isSpecialName (Field.toLowerCase? asciiLower (.str (lit "RAVI")))
        (Field.toLowerCase? asciiLower (.str (lit "SHAH"))) = false := by decide
    simp only [preSave, hookEnv, Field.truthy, Bool.not_false, if_true, hs, Bool.false_eq_true,
      if_false, randomNum_zero]
    decide
  refine ⟨h1, h2, ?_, ?_⟩
  · intro r1 r2
    have hs1 : isSpecialName (Field.toLowerCase? asciiLower (.str (lit "Bhavana")))
        (Field.toLowerCase? asciiLower (.str (lit "Chaudhary"))) = true := by decide
    have hs2 : isSpecialName (Field.toLowerCase? asciiLower (.str (lit "BHAVANABEN")))
        (Field.toLowerCase? asciiLower (.str (lit "CHAUDHARY"))) = true := by decide
    constructor
    · simp only [preSave, hookEnv, Field.truthy, Bool.not_false, if_true, hs1]
    · simp only [preSave, hookEnv, Field.truthy, Bool.not_false, if_true, hs2]
  · intro h
    exact h (hookEnv 0) (hookEnv 0)
      { firstName := .str (lit "ASHA"), lastName := .str (lit "PATEL") }
      { firstName := .str (lit "RAVI"), lastName := .str (lit "SHAH") }
      (by decide) rfl rfl (h1.trans h2.symm)

/-! ## Every field once -/

/-- The loop on orders of the list that `drawFrontSide` never builds. With
the Address entry of the six profile fields at position 1, 3 or 5 every
label is drawn once, but with it at position 0, 2 or 4 the loop would reach
the entry after it at an odd index and draw neither its label nor its
value. The list of the code has the Address entry at position 5. -/
theorem layout_skips_after_even_address (env : Env) (p : Player) :
    addressAt 5 (profileFields env p) = profileFields env p
    ∧ (∀ f ∈ profileFields env p,
        labelDraws f.1 (layoutOps (addressAt 1 (profileFields env p))) = 1
        ∧ labelDraws f.1 (layoutOps (addressAt 3 (profileFields env p))) = 1
        ∧ labelDraws f.1 (layoutOps (addressAt 5 (profileFields env p))) = 1)
    ∧ (addressAt 0 (profileFields env p)).map (·.1)
        = [lit "Address", lit "Name", lit "DOB", lit "Gender", lit "Passport Number",
           lit "Primary Sport"]
    ∧ labelDraws (lit "Name") (layoutOps (addressAt 0 (profileFields env p))) = 0
    ∧ layoutOps (addressAt 0 (profileFields env p))
        = cellOps (lit "Address") ((p.addr (·.street)).orElse [] ++ lit ", "
            ++ (p.addr (·.city)).orElse [] ++ lit ", " ++ (p.addr (·.state)).orElse []
            ++ lit ", " ++ (p.addr (·.postalCode)).orElse []) 200 135 300
          ++ cellOps (lit "DOB") (dobText env.toLocale p) 200 173 90
          ++ cellOps (lit "Gender") (p.gender.orElse []) 420 173 90
          ++ cellOps (lit "Passport Number") (p.passportNumber.orElse []) 200 211 90
          ++ cellOps (lit "Primary Sport") (p.primarySport.orElse []) 420 211 90
    ∧ labelDraws (lit "Gender") (layoutOps (addressAt 2 (profileFields env p))) = 0
    ∧ labelDraws (lit "Primary Sport") (layoutOps (addressAt 4 (profileFields env p))) = 0
    ∧ (textBoxes (layoutOps (addressAt 0 (profileFields env p)))).length = 10
    ∧ (textBoxes (layoutOps (addressAt 2 (profileFields env p)))).length = 10
    ∧ (textBoxes (layoutOps (addressAt 4 (profileFields env p)))).length = 10 := by
  refine ⟨rfl, ?_, rfl, rfl, rfl, rfl, rfl, rfl, rfl, rfl⟩
  intro f hf
  simp only [profileFields, List.mem_cons, List.mem_singleton, List.not_mem_nil, or_false] at hf
  rcases hf with rfl | rfl | rfl | rfl | rfl | rfl <;> exact ⟨rfl, rfl, rfl⟩

/-- C21. The list the front-side loop receives is the six-entry list of the
code, in which the Address entry stands at position 5 and nowhere else; on
it the calls of the loop are, entry by entry in the order of the list, the
cell of that entry: one call for its label and one for its value. Every
label is drawn once, the twelve text calls stand at twelve different
places, so no field is skipped and none is drawn twice. -/
theorem every_field_once (env : Env) (p : Player) :
    (profileFields env p).length = 6
    ∧ (∀ k, ((profileFields env p).map (·.1))[k]? = some (lit "Address") ↔ k = 5)
    ∧ layoutOps (profileFields env p)
        = ((profileFields env p).zip profileCells).flatMap
            (fun c => cellOps c.1.1 c.1.2 c.2.1 c.2.2.1 c.2.2.2)
    ∧ (∀ label value x y w, textBoxes (cellOps label value x y w) = [(x, y, 110), (x + 115, y, w)])
    ∧ (∀ label value x y w, (cellOps label value x y w).filter (fun op => op.textExtent.isSome)
        = [.text (label ++ lit ":") x y 110 .left, .text value (x + 115) y w .left])
    ∧ (∀ f ∈ profileFields env p, labelDraws f.1 (layoutOps (profileFields env p)) = 1)
    ∧ textBoxes (layoutOps (profileFields env p))
        = profileCells.flatMap (fun c => [(c.1, c.2.1, 110), (c.1 + 115, c.2.1, c.2.2)])
    ∧ (textBoxes (layoutOps (profileFields env p))).Nodup
    ∧ (textBoxes (layoutOps (profileFields env p))).length = 2 * (profileFields env p).length := by
  have hl : (profileFields env p).map (·.1)
      = [lit "Name", lit "DOB", lit "Gender", lit "Passport Number", lit "Primary Sport",
         lit "Address"] := rfl
  have hb : textBoxes (layoutOps (profileFields env p))
      = profileCells.flatMap (fun c => [(c.1, c.2.1, 110), (c.1 + 115, c.2.1, c.2.2)]) := rfl
  refine ⟨rfl, ?_, rfl, fun _ _ _ _ _ => rfl, fun _ _ _ _ _ => rfl, ?_, hb, ?_, rfl⟩
  · intro k
    rw [hl]
    constructor
    · intro h
      rcases k with _ | _ | _ | _ | _ | _ | k
      · exact absurd (Option.some.inj h) (by decide)
      · exact absurd (Option.some.inj h) (by decide)
      · exact absurd (Option.some.inj h) (by decide)
      · exact absurd (Option.some.inj h) (by decide)
      · exact absurd (Option.some.inj h) (by decide)
      · rfl
      · simp at h
    · rintro rfl
      rfl
  · intro f hf
    simp only [profileFields, List.mem_cons, List.mem_singleton, List.not_mem_nil, or_false] at hf
    rcases hf with rfl | rfl | rfl | rfl | rfl | rfl <;> rfl
  · rw [hb]
    decide

/-- C22. With the six profile fields in the order of the code the loop's
calls are the cells Name and DOB on row 135, Gender and Passport Number on
row 173, Primary Sport alone on row 211 and the full-width Address on row
249: four rows 38 apart starting at the top of the photo, every label drawn
once, left labels at x = 200 and right labels at x = 420, and the last row
at least 38 above the banner row 320. -/
theorem profile_rows (env : Env) (p : Player) :
    layoutOps (profileFields env p)
      = cellOps (lit "Name") (p.firstName.toJSString ++ lit " " ++ p.lastName.toJSString)
          200 135 90
        ++ cellOps (lit "DOB") (dobText env.toLocale p) 420 135 90
        ++ cellOps (lit "Gender") (p.gender.orElse []) 200 173 90
        ++ cellOps (lit "Passport Number") (p.passportNumber.orElse []) 420 173 90
        ++ cellOps (lit "Primary Sport") (p.primarySport.orElse []) 200 211 90
        ++ cellOps (lit "Address") ((p.addr (·.street)).orElse [] ++ lit ", "
            ++ (p.addr (·.city)).orElse [] ++ lit ", " ++ (p.addr (·.state)).orElse []
            ++ lit ", " ++ (p.addr (·.postalCode)).orElse []) 200 249 300
    ∧ textBoxes (layoutOps (profileFields env p))
      = [(200, 135, 110), (315, 135, 90), (420, 135, 110), (535, 135, 90),
         (200, 173, 110), (315, 173, 90), (420, 173, 110), (535, 173, 90),
         (200, 211, 110), (315, 211, 90), (200, 249, 110), (315, 249, 300)]
    ∧ textRows (layoutOps (profileFields env p)) = [135, 173, 211, 249]
    ∧ [135, 173, 211, 249] = (List.range 4).map (fun k => 135 + 38 * k)
    ∧ photoOp [] = .image (.file []) 40 135 130 (some 130)
    ∧ (∀ f ∈ profileFields env p, labelDraws f.1 (layoutOps (profileFields env p)) = 1)
    ∧ (profileFields env p).map (·.1)
        = [lit "Name", lit "DOB", lit "Gender", lit "Passport Number", lit "Primary Sport",
           lit "Address"]
    ∧ labelsAt 200 (layoutOps (profileFields env p)) = 4
    ∧ labelsAt 420 (layoutOps (profileFields env p)) = 2
    ∧ (textBoxes (bannerOps p)) = [(0, 320, 650)]
    ∧ 249 + 38 ≤ 320 := by
  have hb : textBoxes (layoutOps (profileFields env p))
      = [(200, 135, 110), (315, 135, 90), (420, 135, 110), (535, 135, 90),
         (200, 173, 110), (315, 173, 90), (420, 173, 110), (535, 173, 90),
         (200, 211, 110), (315, 211, 90), (200, 249, 110), (315, 249, 300)] := rfl
  refine ⟨rfl, hb, by unfold textRows; rw [hb]; decide, by decide, rfl, ?_, rfl, rfl, rfl, rfl,
    by decide⟩
  intro f hf
  simp only [profileFields, List.mem_cons, List.mem_singleton, List.not_mem_nil, or_false] at hf
  rcases hf with rfl | rfl | rfl | rfl | rfl | rfl <;> rfl

/-! ## Where the title stands -/

/-- The title is not centred between the marks: the box of the title call
is `[89, 571]`, the gap between the marks is `[84, 566]`; the midpoints
differ and the box reaches into the extent of the right mark. -/
theorem title_box_off_centre :
    ¬ (∀ (env : Env) (op : Op), op ∈ titleOps → ∀ box left right, op.textExtent = some box →
        (leftLogoOp env).imageExtent = some left → (rightLogoOp env).imageExtent = some right →
        box.1 + box.2 = left.2 + right.1 ∧ left.2 ≤ box.1 ∧ box.2 ≤ right.1) := by
  intro h
  have := h (quietEnv [] 0) (.text (lit "PARA SPORTS ASSOCIATION OF GUJARAT") 89 25 482 .center)
    (by decide) (89, 571) (24, 84) (566, 626) rfl rfl rfl
  revert this
  decide

/-- C23, the code at every record. On both sides every text call on the
title row 25 has the box `[89, 571]`, whose width 482 is the width of the gap
`[84, 566]` between the marks `[24, 84]` and `[566, 626]` and which stands 5
to the right of that gap: its midpoint is 330 while the midpoint of the gap
is the midpoint 325 of the card, it stays clear of the left mark and reaches
5 into the extent of the right mark; a composer that returns has drawn the
title. The source comment above the computation asks for the title centred
between the marks. -/
theorem title_box (env : Env) (p : Player) (u : Bool) (tr : Trace) :
    (∀ s x w a ok, Event.call (.text s x 25 w a) ok ∈ newEvents (drawFrontSide env p u) tr →
        s = lit "PARA SPORTS ASSOCIATION OF GUJARAT" ∧ x = 89 ∧ w = 482 ∧ a = .center)
    ∧ (∀ s x w a ok, Event.call (.text s x 25 w a) ok ∈ newEvents (drawBackSide env p u) tr →
        s = lit "PARA SPORTS ASSOCIATION OF GUJARAT" ∧ x = 89 ∧ w = 482 ∧ a = .center)
    ∧ ((drawFrontSide env p u tr).1 = .ok () →
        Event.call (.text (lit "PARA SPORTS ASSOCIATION OF GUJARAT") 89 25 482 .center) true
          ∈ newEvents (drawFrontSide env p u) tr)
    ∧ ((drawBackSide env p u tr).1 = .ok () →
        Event.call (.text (lit "PARA SPORTS ASSOCIATION OF GUJARAT") 89 25 482 .center) true
          ∈ newEvents (drawBackSide env p u) tr)
    ∧ (∀ op ∈ titleOps, ∀ box, op.textExtent = some box → box = (89, 571))
    ∧ (leftLogoOp env).imageExtent = some (24, 84)
    ∧ (rightLogoOp env).imageExtent = some (566, 626)
    ∧ 571 - 89 = 566 - 84
    ∧ 89 + 571 = 2 * 330 ∧ 84 + 566 = 2 * 325 ∧ 2 * 325 = 650
    ∧ 84 ≤ 89 ∧ 571 = 566 + 5 := by
  refine ⟨?_, ?_, ?_, ?_, ?_, rfl, rfl, by decide, by decide, by decide, by decide, by decide,
    by decide⟩
  · intro s x w a ok hmem
    refine confined_newEvents
      (fun e => ∀ s x w a ok, e = Event.call (.text s x 25 w a) ok →
        s = lit "PARA SPORTS ASSOCIATION OF GUJARAT" ∧ x = 89 ∧ w = 482 ∧ a = .center)
      _ (drawFrontSide_confined _ env p u ?_ ?_) tr _ hmem s x w a ok rfl
    · intro op hop ok1 s x w a ok2 heq
      simp only [Event.call.injEq] at heq
      obtain ⟨rfl, -⟩ := heq
      cases hph : p.profilePhoto <;>
        simpa [frontOps, frontBeforeOps, photoBlockOps, frontAfterOps, hph, backgroundOps,
          leftLogoOp, rightLogoOp, titleOps, photoOp, placeholderOps, layoutOps_profileFields,
          cellOps, bannerOps, footerGradientOps, footerOps, watermarkOps] using hop
    · intro b m s x w a ok heq
      simp at heq
  · intro s x w a ok hmem
    refine confined_newEvents
      (fun e => ∀ s x w a ok, e = Event.call (.text s x 25 w a) ok →
        s = lit "PARA SPORTS ASSOCIATION OF GUJARAT" ∧ x = 89 ∧ w = 482 ∧ a = .center)
      _ (drawBackSide_confined _ env p u ?_ ?_) tr _ hmem s x w a ok rfl
    · intro op hop ok1 s x w a ok2 heq
      simp only [Event.call.injEq] at heq
      obtain ⟨rfl, -⟩ := heq
      simpa [backOps, backBeforeOps, backAfterOps, backgroundOps, leftLogoOp, rightLogoOp,
          titleOps, backLoop_backFields, qrFullOps, qrFallbackOps, qrImageOp, qrCaptionOps,
          bannerOps, footerGradientOps, footerOps, watermarkOps] using hop
    · intro b m s x w a ok heq
      simp at heq
  · intro hok
    exact must_newEvents _ _
      (must_seqAll _ _ (emitAll env titleOps)
        (frontBlocks_confined _ env p u (fun _ _ _ => trivial) (fun _ _ => trivial))
        (by simp [frontBlocks, frontBefore])
        (must_emitAll env _ _ (by simp [titleOps]))) tr () hok
  · intro hok
    exact must_newEvents _ _
      (must_seqAll _ _ (emitAll env titleOps)
        (backBlocks_confined _ env p u (fun _ _ _ => trivial) (fun _ _ => trivial))
        (by simp [backBlocks, backBefore])
        (must_emitAll env _ _ (by simp [titleOps]))) tr () hok
  · intro op hop box hbox
    simp only [titleOps, List.mem_cons, List.mem_singleton, List.not_mem_nil, or_false] at hop
    rcases hop with rfl | rfl | rfl | rfl <;> simp [Op.textExtent] at hbox
    exact hbox.symm

/-! ## Save, restore and opacity -/

theorem gstateAfter_append (s : GState) (a b : Trace) :
    gstateAfter s (a ++ b) = gstateAfter (gstateAfter s a) b := by
  simp [gstateAfter, List.foldl_append]

theorem balanced_nil (env : Env) : Balanced env [] :=
  ⟨fun _ => rfl, by simp⟩

theorem balanced_append (env : Env) (a b : Trace) (ha : Balanced env a) (hb : Balanced env b) :
    Balanced env (a ++ b) := by
  refine ⟨fun s => ?_, ?_⟩
  · rw [gstateAfter_append, ha.1, hb.1]
  · intro h
    rcases List.mem_append.mp h with h | h
    · exact ha.2 h
    · exact hb.2 h

theorem balanced_single (env : Env) (e : Event) (h : e.NeutralFor env) : Balanced env [e] :=
  ⟨fun s => h.1 s, by simpa using fun heq => h.2 heq.symm⟩

theorem balanced_of_neutral (env : Env) (evs : Trace) (h : ∀ e ∈ evs, e.NeutralFor env) :
    Balanced env evs := by
  induction evs with
  | nil => exact balanced_nil env
  | cons e rest ih =>
    have := balanced_append env [e] rest (balanced_single env e (h e (List.mem_cons_self _ _)))
      (ih fun x hx => h x (List.mem_cons_of_mem _ hx))
    simpa using this

/-- A call that is none of `save`, `restore`, `opacity` and not the
placement of the watermark is neutral, returned or not. -/
theorem neutral_call (env : Env) (op : Op) (ok : Bool) (h1 : op ≠ .save) (h2 : op ≠ .restore)
    (h3 : ∀ n, op ≠ .opacity n) (h4 : op ≠ watermarkOp env) :
    (Event.call op ok).NeutralFor env := by
  refine ⟨fun s => ?_, fun heq => ?_⟩
  · cases op <;> first | rfl | exact absurd rfl h1 | exact absurd rfl h2 | exact absurd rfl (h3 _)
  · simp only [Event.call.injEq] at heq
    exact h4 heq.1

theorem neutral_log (env : Env) (b : Bool) (m : JSString) : (Event.log b m).NeutralFor env :=
  ⟨fun _ => rfl, by simp⟩

theorem appends_balanced_of_confined {α : Type} (env : Env) (r : Run α)
    (h : Confined (Event.NeutralFor env) r) : Appends (Balanced env) r := by
  intro tr
  obtain ⟨evs, h1, h2⟩ := h tr
  exact ⟨evs, h1, balanced_of_neutral env evs h2⟩

/-- A list of calls without `save`, `restore`, `opacity` and the watermark
placement appends a balanced stretch, however far it gets. -/
theorem emitAll_balanced (env : Env) (ops : List Op)
    (h : ∀ op ∈ ops, op ≠ .save ∧ op ≠ .restore ∧ (∀ n, op ≠ .opacity n) ∧ op ≠ watermarkOp env) :
    Appends (Balanced env) (emitAll env ops) :=
  appends_balanced_of_confined env _ (confined_emitAll _ env ops fun op ho ok =>
    neutral_call env op ok (h op ho).1 (h op ho).2.1 (h op ho).2.2.1 (h op ho).2.2.2)

theorem backgroundOps_balanced (env : Env) (hq : env.Quiet Op.isDrawing) :
    Appends (Balanced env) (emitAll env backgroundOps) := by
  intro tr
  refine ⟨backgroundOps.map fun op => Event.call op true,
    by rw [emitAll_quiet env Op.isDrawing hq backgroundOps (by decide) tr], ?_, ?_⟩
  · intro s
    rfl
  · simp [backgroundOps, watermarkOp]

theorem drawLogos_balanced (env : Env) : Appends (Balanced env) (drawLogos env) :=
  appends_balanced_of_confined env _ (drawLogos_confined _ env
    (fun ok => neutral_call env _ ok (by simp [leftLogoOp]) (by simp [leftLogoOp])
      (by simp [leftLogoOp]) (by simp [leftLogoOp, watermarkOp]))
    (fun ok => neutral_call env _ ok (by simp [rightLogoOp]) (by simp [rightLogoOp])
      (by simp [rightLogoOp]) (by simp [rightLogoOp, watermarkOp]))
    (neutral_log env))

theorem drawFooter_balanced (env : Env) (u : Bool) :
    Appends (Balanced env) (drawFooter env u) := by
  have hn : ∀ op ∈ footerGradientOps ++ footerOps u, ∀ ok,
      (Event.call op ok).NeutralFor env := by
    intro op ho ok
    simp only [footerGradientOps, footerOps, List.cons_append, List.nil_append, List.mem_cons,
      List.mem_singleton, List.not_mem_nil, or_false] at ho
    rcases ho with rfl | rfl | rfl | rfl | rfl | rfl | rfl <;>
      exact neutral_call env _ ok (by simp) (by simp) (by simp) (by simp [watermarkOp])
  unfold drawFooter
  exact appends_balanced_of_confined env _
    (confined_seq _ _ _
      (confined_emitAll _ env _ fun op ho ok => hn op (List.mem_append_left _ ho) ok)
      (confined_tryCatch _ _ _
        (confined_emitAll _ env _ fun op ho ok => hn op (List.mem_append_right _ ho) ok)
        (fun _ => confined_logLine _ _ _ (neutral_log env _ _))))

theorem drawQr_balanced (env : Env) (p : Player) : Appends (Balanced env) (drawQr env p) := by
  refine appends_balanced_of_confined env _ (drawQr_confined _ env p ?_ (neutral_log env))
  intro op ho ok
  simp only [qrFullOps, qrFallbackOps, qrCaptionOps, qrImageOp, List.cons_append,
    List.nil_append, List.mem_cons, List.mem_singleton, List.not_mem_nil, or_false] at ho
  rcases ho with rfl | rfl | rfl | rfl | rfl | rfl | rfl | rfl <;>
    exact neutral_call env _ ok (by simp) (by simp) (by simp) (by simp [watermarkOp])

/-- The guarded fill of the photo square always returns when drawing calls
do not raise. -/
theorem photoFill_good (S : Event → Prop) (env : Env) (p : Player)
    (hq : env.Quiet Op.isDrawing)
    (hph : ∀ op ∈ placeholderOps, S (Event.call op true))
    (himg : ∀ s ok, S (Event.call (photoOp (absPhotoPath env s)) ok)) :
    Good S (Run.tryCatch (photoBody env p) (fun _ => emitAll env placeholderOps)) := by
  have hg : Good S (emitAll env placeholderOps) :=
    good_emitAllQuiet S env _ hq placeholderOps (by decide) hph
  refine good_tryCatch S _ _ ?_ (fun _ => hg)
  unfold photoBody
  split
  · exact confined_ite S _ _ _ (good_confined S _ hg)
      (confined_ite S _ _ _ (confined_emit S env _ (himg _)) (good_confined S _ hg))
  · exact good_confined S _ hg

theorem drawPhoto_balanced (env : Env) (p : Player) (hq : env.Quiet Op.isDrawing) :
    Appends (Balanced env) (drawPhoto env p) := by
  intro tr
  have h1 := emitAll_quiet env Op.isDrawing hq [.save, .roundedRect 40 135 130 130 16, .clip]
    (by decide) tr
  obtain ⟨mid, h2, hmid⟩ := photoFill_good (Event.NeutralFor env) env p hq
    (fun op ho => by
      simp only [placeholderOps, List.mem_cons, List.mem_singleton, List.not_mem_nil,
        or_false] at ho
      rcases ho with rfl | rfl <;>
        exact neutral_call env _ true (by simp) (by simp) (by simp) (by simp [watermarkOp]))
    (fun s ok => neutral_call env _ ok (by simp [photoOp]) (by simp [photoOp])
      (by simp [photoOp]) (by simp [photoOp, watermarkOp]))
    (tr ++ [Op.save, .roundedRect 40 135 130 130 16, .clip].map fun op => Event.call op true)
  have h3 := emit_quiet env .restore
    (tr ++ ([Op.save, .roundedRect 40 135 130 130 16, .clip].map fun op => Event.call op true)
      ++ mid) (hq _ _ rfl)
  have hb := balanced_of_neutral env mid hmid
  refine ⟨([Op.save, .roundedRect 40 135 130 130 16, .clip].map fun op => Event.call op true)
      ++ mid ++ [Event.call .restore true], ?_, ?_, ?_⟩
  · unfold drawPhoto
    simp only [seqAll]
    rw [seq_of_ok _ _ _ _ h1, seq_of_ok _ _ _ _ h2, seq_of_ok _ _ _ _ h3]
    simp [Run.ret]
  · intro s
    rw [gstateAfter_append, gstateAfter_append, hb.1]
    rfl
  · intro h
    rcases List.mem_append.mp h with h | h
    · rcases List.mem_append.mp h with h | h
      · simp at h
      · exact hb.2 h
    · simp at h

/-- The watermark block when drawing calls do not raise: it returns, and
either its stretch is balanced, or placing the mark raised and the stretch
is the `save`, the opacity 0.10 and the failed placement, which leaves the
opacity at 0.10 with the earlier opacity still put aside. -/
theorem drawWatermark_gstate (env : Env) (hq : env.Quiet Op.isDrawing) (t : Trace) :
    ∃ ew, drawWatermark env t = (.ok (), t ++ ew)
      ∧ ((Balanced env ew)
        ∨ (ew = [Event.call .save true, Event.call (.opacity 10) true,
                 Event.call (watermarkOp env) false]
            ∧ env.fileExists (logoPath env) = true)) := by
  unfold drawWatermark
  cases hx : env.fileExists (logoPath env)
  · exact ⟨[], by simp [Run.tryCatch, Run.ret], Or.inl (balanced_nil env)⟩
  · simp only [if_true, watermarkOps]
    have h1 := emit_quiet env .save t (hq _ _ rfl)
    have h2 := emit_quiet env (.opacity 10) (t ++ [Event.call .save true]) (hq _ _ rfl)
    rcases h3 : env.raises (t ++ [Event.call .save true] ++ [Event.call (.opacity 10) true])
        (.image (.file (logoPath env)) 150 80 350 none) with _ | e
    · have h4 := emit_quiet env (.opacity 100)
        (t ++ [Event.call .save true] ++ [Event.call (.opacity 10) true]
          ++ [Event.call (.image (.file (logoPath env)) 150 80 350 none) true]) (hq _ _ rfl)
      have h5 := emit_quiet env .restore
        (t ++ [Event.call .save true] ++ [Event.call (.opacity 10) true]
          ++ [Event.call (.image (.file (logoPath env)) 150 80 350 none) true]
          ++ [Event.call (.opacity 100) true]) (hq _ _ rfl)
      refine ⟨[Event.call .save true, Event.call (.opacity 10) true,
        Event.call (.image (.file (logoPath env)) 150 80 350 none) true,
        Event.call (.opacity 100) true, Event.call .restore true], ?_, Or.inl ⟨?_, ?_⟩⟩
      · rw [tryCatch_of_ok _ _ t _ ()]
        simp only [emitAll]
        rw [seq_of_ok _ _ _ _ h1, seq_of_ok _ _ _ _ h2,
          seq_of_ok _ _ _ _ (emit_quiet env _ _ h3), seq_of_ok _ _ _ _ h4,
          seq_of_ok _ _ _ _ h5]
        simp [Run.ret]
      · intro s
        rfl
      · simp [watermarkOp]
    · refine ⟨[Event.call .save true, Event.call (.opacity 10) true,
        Event.call (watermarkOp env) false], ?_, Or.inr ⟨rfl, trivial⟩⟩
      have hb : emitAll env [.save, .opacity 10, .image (.file (logoPath env)) 150 80 350 none,
          .opacity 100, .restore] t
          = (.error e, t ++ [Event.call .save true] ++ [Event.call (.opacity 10) true]
              ++ [Event.call (.image (.file (logoPath env)) 150 80 350 none) false]) := by
        simp only [emitAll]
        rw [seq_of_ok _ _ _ _ h1, seq_of_ok _ _ _ _ h2,
          seq_of_error _ _ _ _ e (emit_raises env _ _ e h3)]
      rw [tryCatch_of_error _ _ t _ e hb]
      simp [Run.ret, watermarkOp]

/-- Statements that append balanced stretches, followed by the watermark
block: a run that returns has appended a balanced stretch and then the
stretch of the watermark block. -/
theorem seqAll_watermark_gstate (env : Env) (hq : env.Quiet Op.isDrawing)
    (pre : List (Run Unit)) (hpre : ∀ r ∈ pre, Appends (Balanced env) r) (tr : Trace)
    (hok : (seqAll (pre ++ [drawWatermark env]) tr).1 = .ok ()) :
    ∃ e1 ew, seqAll (pre ++ [drawWatermark env]) tr = (.ok (), tr ++ e1 ++ ew)
      ∧ Balanced env e1
      ∧ ((Balanced env ew)
        ∨ (ew = [Event.call .save true, Event.call (.opacity 10) true,
                 Event.call (watermarkOp env) false]
            ∧ env.fileExists (logoPath env) = true)) := by
  obtain ⟨e1, h1, hb⟩ := appends_seqAll _ (balanced_nil env) (balanced_append env) pre hpre tr
  rw [seqAll_append] at hok ⊢
  rcases run_cases (seqAll pre) tr with ⟨a, t1, h⟩ | ⟨e, t1, h⟩
  · rw [h] at h1
    simp only at h1
    subst h1
    obtain ⟨ew, hw, hcase⟩ := drawWatermark_gstate env hq (tr ++ e1)
    refine ⟨e1, ew, ?_, hb, hcase⟩
    rw [seq_of_ok _ _ _ _ h]
    simp only [seqAll]
    rw [seq_of_ok _ _ _ _ hw]
    rfl
  · rw [seq_of_error _ _ _ _ e h] at hok
    simp at hok

/-- The graphics state after a stretch that is balanced up to the watermark
block. -/
theorem gstate_of_watermark_cases (env : Env) (e1 ew : Trace) (hb : Balanced env e1)
    (hcase : (Balanced env ew)
        ∨ (ew = [Event.call .save true, Event.call (.opacity 10) true,
                 Event.call (watermarkOp env) false]
            ∧ env.fileExists (logoPath env) = true)) :
    (Event.call (watermarkOp env) false ∉ e1 ++ ew → ∀ s, gstateAfter s (e1 ++ ew) = s)
    ∧ (Event.call (watermarkOp env) false ∈ e1 ++ ew →
        env.fileExists (logoPath env) = true
        ∧ ∀ s, gstateAfter s (e1 ++ ew) = { opacity := 10, saved := s.opacity :: s.saved }) := by
  rcases hcase with hw | ⟨rfl, hx⟩
  · have := balanced_append env e1 ew hb hw
    exact ⟨fun _ => this.1, fun h => absurd h this.2⟩
  · refine ⟨fun h => absurd (List.mem_append_right _ (by simp)) h, fun _ => ⟨hx, fun s => ?_⟩⟩
    rw [gstateAfter_append, hb.1]
    rfl

theorem frontBlocks_split (env : Env) (p : Player) (u : Bool) :
    frontBlocks env p u
      = (frontBefore env ++ [drawPhoto env p, emitAll env (layoutOps (profileFields env p)),
          emitAll env (bannerOps p), drawFooter env u]) ++ [drawWatermark env] := by
  simp [frontBlocks, frontAfter]

theorem backBlocks_split (env : Env) (p : Player) (u : Bool) :
    backBlocks env p u
      = (backBefore env p ++ [drawQr env p, emitAll env (bannerOps p), drawFooter env u])
        ++ [drawWatermark env] := by
  simp [backBlocks, backAfter]

theorem titleOps_balanced (env : Env) : Appends (Balanced env) (emitAll env titleOps) := by
  refine emitAll_balanced env _ fun op ho => ?_
  simp only [titleOps, List.mem_cons, List.mem_singleton, List.not_mem_nil, or_false] at ho
  rcases ho with rfl | rfl | rfl | rfl <;> simp [watermarkOp]

theorem bannerOps_balanced (env : Env) (p : Player) :
    Appends (Balanced env) (emitAll env (bannerOps p)) := by
  refine emitAll_balanced env _ fun op ho => ?_
  simp only [bannerOps, List.mem_cons, List.mem_singleton, List.not_mem_nil, or_false] at ho
  rcases ho with rfl | rfl | rfl | rfl <;> simp [watermarkOp]

theorem layoutOps_balanced (env : Env) (p : Player) :
    Appends (Balanced env) (emitAll env (layoutOps (profileFields env p))) := by
  refine emitAll_balanced env _ fun op ho => ?_
  rw [layoutOps_profileFields] at ho
  simp only [cellOps, List.cons_append, List.nil_append, List.mem_cons, List.mem_singleton,
    List.not_mem_nil, or_false] at ho
  rcases ho with rfl | rfl | rfl | rfl | rfl | rfl | rfl | rfl | rfl | rfl | rfl | rfl | rfl
    | rfl | rfl | rfl | rfl | rfl | rfl | rfl | rfl | rfl | rfl | rfl | rfl | rfl | rfl | rfl
    | rfl | rfl | rfl | rfl | rfl | rfl | rfl | rfl | rfl | rfl | rfl | rfl | rfl | rfl | rfl
    | rfl | rfl | rfl | rfl | rfl <;> simp [watermarkOp]

theorem backLoop_balanced (env : Env) (p : Player) :
    Appends (Balanced env) (emitAll env (backLoop (backFields p) 160)) := by
  refine emitAll_balanced env _ fun op ho => ?_
  rw [backLoop_backFields] at ho
  simp only [List.mem_cons, List.mem_singleton, List.not_mem_nil, or_false] at ho
  rcases ho with rfl | rfl | rfl | rfl | rfl | rfl | rfl | rfl | rfl | rfl | rfl | rfl | rfl
    | rfl | rfl | rfl | rfl | rfl | rfl | rfl | rfl | rfl | rfl | rfl | rfl | rfl | rfl | rfl
    | rfl | rfl | rfl | rfl <;> simp [watermarkOp]

theorem frontPre_balanced (env : Env) (p : Player) (u : Bool) (hq : env.Quiet Op.isDrawing) :
    ∀ r ∈ frontBefore env ++ [drawPhoto env p, emitAll env (layoutOps (profileFields env p)),
          emitAll env (bannerOps p), drawFooter env u], Appends (Balanced env) r := by
  intro r hr
  simp only [frontBefore, List.cons_append, List.nil_append, List.mem_cons, List.mem_singleton,
    List.not_mem_nil, or_false] at hr
  rcases hr with rfl | rfl | rfl | rfl | rfl | rfl | rfl
  · exact backgroundOps_balanced env hq
  · exact drawLogos_balanced env
  · exact titleOps_balanced env
  · exact drawPhoto_balanced env p hq
  · exact layoutOps_balanced env p
  · exact bannerOps_balanced env p
  · exact drawFooter_balanced env u

theorem backPre_balanced (env : Env) (p : Player) (u : Bool) (hq : env.Quiet Op.isDrawing) :
    ∀ r ∈ backBefore env p ++ [drawQr env p, emitAll env (bannerOps p), drawFooter env u],
      Appends (Balanced env) r := by
  intro r hr
  simp only [backBefore, List.cons_append, List.nil_append, List.mem_cons, List.mem_singleton,
    List.not_mem_nil, or_false] at hr
  rcases hr with rfl | rfl | rfl | rfl | rfl | rfl | rfl
  · exact backgroundOps_balanced env hq
  · exact drawLogos_balanced env
  · exact titleOps_balanced env
  · exact backLoop_balanced env p
  · exact drawQr_balanced env p
  · exact bannerOps_balanced env p
  · exact drawFooter_balanced env u

set_option maxRecDepth 100000 in
/-- C24, the code at the failing input. When drawing calls do not raise, a
composer that returns leaves the graphics state as it found it unless the
mark file exists and placing it as the watermark raised: then the `save`
and the opacity 0.10 of the watermark block are not undone, the composer
returns with opacity 0.10 and one graphics state still saved. With every
asset file present but unreadable both composers return in that state from
a fresh page; with every asset file missing, or present and readable, the
state is balanced. -/
theorem watermark_leaves_state (env : Env) (p : Player) (u : Bool) (tr : Trace) :
    (env.Quiet Op.isDrawing →
      (drawFrontSide env p u tr).1 = .ok ()
      ∧ (Event.call (watermarkOp env) false ∉ newEvents (drawFrontSide env p u) tr →
          ∀ s, gstateAfter s (newEvents (drawFrontSide env p u) tr) = s)
      ∧ (Event.call (watermarkOp env) false ∈ newEvents (drawFrontSide env p u) tr →
          env.fileExists (logoPath env) = true
          ∧ ∀ s, gstateAfter s (newEvents (drawFrontSide env p u) tr)
              = { opacity := 10, saved := s.opacity :: s.saved })
      ∧ ((drawBackSide env p u tr).1 = .ok () →
          (Event.call (watermarkOp env) false ∉ newEvents (drawBackSide env p u) tr →
            ∀ s, gstateAfter s (newEvents (drawBackSide env p u) tr) = s)
          ∧ (Event.call (watermarkOp env) false ∈ newEvents (drawBackSide env p u) tr →
            env.fileExists (logoPath env) = true
            ∧ ∀ s, gstateAfter s (newEvents (drawBackSide env p u) tr)
                = { opacity := 10, saved := s.opacity :: s.saved })))
    ∧ (drawFrontSide brokenAssetEnv {} false []).1 = .ok ()
    ∧ gstateAfter GState.fresh (newEvents (drawFrontSide brokenAssetEnv {} false) [])
        = { opacity := 10, saved := [100] }
    ∧ (drawBackSide brokenAssetEnv {} false []).1 = .ok ()
    ∧ gstateAfter GState.fresh (newEvents (drawBackSide brokenAssetEnv {} false) [])
        = { opacity := 10, saved := [100] }
    ∧ gstateAfter GState.fresh (newEvents (drawFrontSide (quietEnv [] 0) {} false) [])
        = GState.fresh
    ∧ gstateAfter GState.fresh (newEvents (drawFrontSide (quietEnv assetFiles 0) {} true) [])
        = GState.fresh
    ∧ gstateAfter GState.fresh (newEvents (drawBackSide (quietEnv assetFiles 0) {} true) [])
        = GState.fresh := by
  refine ⟨?_, by rfl, by rfl, by rfl, by rfl, by rfl, by rfl, by rfl⟩
  intro hq
  obtain ⟨evs, hgood, -⟩ := drawFrontSide_good (fun _ => True) env p u hq
    (fun _ _ _ => trivial) (fun _ _ => trivial) tr
  have hfok : (drawFrontSide env p u tr).1 = .ok () := by rw [hgood]
  have hfront : (seqAll ((frontBefore env ++ [drawPhoto env p,
      emitAll env (layoutOps (profileFields env p)), emitAll env (bannerOps p),
      drawFooter env u]) ++ [drawWatermark env]) tr).1 = .ok () := by
    rw [← frontBlocks_split]; exact hfok
  obtain ⟨e1, ew, hrun, hb, hcase⟩ := seqAll_watermark_gstate env hq _
    (frontPre_balanced env p u hq) tr hfront
  have hnew : newEvents (drawFrontSide env p u) tr = e1 ++ ew := by
    apply newEvents_of_append
    unfold drawFrontSide
    rw [frontBlocks_split, hrun, List.append_assoc]
  refine ⟨hfok, ?_, ?_, ?_⟩
  · rw [hnew]; exact (gstate_of_watermark_cases env e1 ew hb hcase).1
  · rw [hnew]; exact (gstate_of_watermark_cases env e1 ew hb hcase).2
  · intro hbok
    have hback : (seqAll ((backBefore env p ++ [drawQr env p, emitAll env (bannerOps p),
        drawFooter env u]) ++ [drawWatermark env]) tr).1 = .ok () := by
      rw [← backBlocks_split]; exact hbok
    obtain ⟨e1, ew, hrun, hb, hcase⟩ := seqAll_watermark_gstate env hq _
      (backPre_balanced env p u hq) tr hback
    have hnew : newEvents (drawBackSide env p u) tr = e1 ++ ew := by
      apply newEvents_of_append
      unfold drawBackSide
      rw [backBlocks_split, hrun, List.append_assoc]
    rw [hnew]
    exact gstate_of_watermark_cases env e1 ew hb hcase

/-! ## Decimal digits -/

theorem digitsFrom_length (k : Nat) :
    ∀ fuel n, n < fuel → 10 ^ k ≤ n → n < 10 ^ (k + 1) → (digitsFrom fuel n).length = k + 1 := by
  induction k with
  | zero =>
    intro fuel n hf _ hhi
    cases fuel with
    | zero => omega
    | succ f =>
      unfold digitsFrom
      simp only [Nat.zero_add, Nat.pow_one] at hhi
      simp [hhi]
  | succ k ih =>
    intro fuel n hf hlo hhi
    cases fuel with
    | zero => omega
    | succ f =>
      have h10 : 10 ≤ n := le_trans (by
        calc 10 = 10 ^ 1 := by norm_num
          _ ≤ 10 ^ (k + 1) := Nat.pow_le_pow_right (by norm_num) (by omega)) hlo
      unfold digitsFrom
      rw [if_neg (by omega)]
      have hlo2 : 10 ^ k ≤ n / 10 := by
        rw [Nat.le_div_iff_mul_le (by norm_num)]
        calc 10 ^ k * 10 = 10 ^ (k + 1) := by ring
          _ ≤ n := hlo
      have hhi2 : n / 10 < 10 ^ (k + 1) := by
        rw [Nat.div_lt_iff_lt_mul (by norm_num)]
        calc n < 10 ^ (k + 1 + 1) := hhi
          _ = 10 ^ (k + 1) * 10 := by ring
      simp [ih f (n / 10) (by omega) hlo2 hhi2]

theorem decimal_length (k n : Nat) (hlo : 10 ^ k ≤ n) (hhi : n < 10 ^ (k + 1)) :
    (decimal n).length = k + 1 := by
  simp [decimal, digitsFrom_length k (n + 1) n (Nat.lt_succ_self n) hlo hhi]

theorem decimal_zero : decimal 0 = lit "0" := by decide

theorem decimal_length_le (k n : Nat) (hhi : n < 10 ^ (k + 1)) :
    1 ≤ (decimal n).length ∧ (decimal n).length ≤ k + 1 := by
  induction k with
  | zero =>
    rcases Nat.eq_zero_or_pos n with rfl | hpos
    · rw [decimal_zero]; decide
    · rw [decimal_length 0 n (by simpa using hpos) hhi]; omega
  | succ k ih =>
    by_cases h : n < 10 ^ (k + 1)
    · have := ih h
      omega
    · rw [decimal_length (k + 1) n (by omega) hhi]; omega

theorem digitUnit_range (d : Nat) (h : d < 10) : 48 ≤ digitUnit d ∧ digitUnit d ≤ 57 := by
  interval_cases d <;> decide

theorem decimal_digits (n : Nat) : ∀ u ∈ decimal n, 48 ≤ u ∧ u ≤ 57 := by
  intro u hu
  simp only [decimal, List.mem_map, List.mem_reverse] at hu
  obtain ⟨d, hd, rfl⟩ := hu
  exact digitUnit_range d (digitsFrom_lt _ _ d hd)

theorem digitsFrom_getLast (fuel n : Nat) (hf : n < fuel) (hn : 0 < n) :
    ∀ d, (digitsFrom fuel n).getLast? = some d → d ≠ 0 := by
  induction fuel generalizing n with
  | zero => omega
  | succ f ih =>
    intro d hd
    unfold digitsFrom at hd
    split at hd
    · simp at hd
      omega
    · rename_i h10
      have hne : digitsFrom f (n / 10) ≠ [] := by
        cases f with
        | zero => omega
        | succ g =>
          unfold digitsFrom
          split <;> simp
      obtain ⟨x, xs, hxs⟩ := List.exists_cons_of_ne_nil hne
      rw [hxs, List.getLast?_cons_cons, ← hxs] at hd
      exact ih (n / 10) (by omega) (by omega) d hd


theorem decimal_head (n : Nat) (hn : 0 < n) : (decimal n).head? ≠ some 48 := by
  intro h
  simp only [decimal, List.head?_map, List.head?_reverse] at h
  rcases hl : (digitsFrom (n + 1) n).getLast? with _ | d
  · rw [hl] at h; simp at h
  · rw [hl] at h
    simp only [Option.map_some', Option.some.injEq] at h
    have hd0 := digitsFrom_getLast (n + 1) n (Nat.lt_succ_self n) hn d hl
    have hlt := digitsFrom_lt (n + 1) n d (List.mem_of_getLast?_eq_some hl)
    have := digitUnit_toNat d hlt
    rw [h] at this
    exact hd0 (by simpa using this.symm)

/-! ## The OTP code -/

/-- The Number product of a draw and 900000 stays below 900000, and the
Number sum with 100000 stays below 1000000. -/
theorem otp_floor_range (r : ℚ) (hd : IsDouble r) (h0 : 0 ≤ r) (h1 : r < 1) :
    100000 ≤ ⌊addDouble 100000 (mulDouble r 900000)⌋₊
    ∧ ⌊addDouble 100000 (mulDouble r 900000)⌋₊ ≤ 999999 := by
  have hr := double_lt_one r hd h1
  have hm0 : 0 ≤ mulDouble r 900000 := roundDouble_nonneg _
  have hm1 : mulDouble r 900000 ≤ 900000 - 1 / 2 ^ 33 := by
    rw [← roundDouble_mul_max_900000]
    exact roundDouble_mono (by nlinarith) (by nlinarith)
  have hs0 : (100000 : ℚ) ≤ addDouble 100000 (mulDouble r 900000) := by
    have := roundDouble_mono (x := 100000) (y := 100000 + mulDouble r 900000) (by norm_num)
      (by linarith)
    rw [roundDouble_100000] at this
    exact this
  have hs1 : addDouble 100000 (mulDouble r 900000) ≤ 1000000 - 1 / 2 ^ 33 := by
    rw [← roundDouble_add_max]
    exact roundDouble_mono (by linarith) (by linarith)
  constructor
  · apply Nat.le_floor
    push_cast
    exact hs0
  · have h : ⌊addDouble 100000 (mulDouble r 900000)⌋₊ < 1000000 := by
      rw [Nat.floor_lt (by linarith)]
      push_cast
      have : (0 : ℚ) < 1 / 2 ^ 33 := by norm_num
      linarith
    omega

theorem otpCode_sevenTenths : otpCode sevenTenths = lit "730000" := by
  unfold otpCode
  rw [mulDouble_sevenTenths_900000, addDouble_100000_630000]
  have : ⌊(730000 : ℚ)⌋₊ = 730000 := by
    rw [Nat.floor_eq_iff (by norm_num)]
    norm_num
  rw [this]
  decide

theorem otpCode_zero : otpCode 0 = lit "100000" := by
  unfold otpCode
  rw [mulDouble_zero, addDouble_100000_zero]
  have : ⌊(100000 : ℚ)⌋₊ = 100000 := by
    rw [Nat.floor_eq_iff (by norm_num)]
    norm_num
  rw [this]
  decide

theorem otpCode_max : otpCode (1 - 1 / 2 ^ 53) = lit "999999" := by
  unfold otpCode mulDouble addDouble
  rw [roundDouble_mul_max_900000, roundDouble_add_max]
  have : ⌊(1000000 - 1 / 2 ^ 33 : ℚ)⌋₊ = 999999 := by
    rw [Nat.floor_eq_iff (by norm_num)]
    norm_num
  rw [this]
  decide

/-- C26. For every draw `r`, a Number with `0 ≤ r < 1`, the number
`floor(100000 + r * 900000)` of the handler, its product and its sum rounded
as Numbers, lies between 100000 and 999999, and the code, its decimal
rendering, has exactly six code units, all of them digits, the first not
`0`; it matches the pattern of the client form. The least draw 0 gives
`100000` and the greatest draw `1 - 2 ^ -53` gives `999999`; at the Number
`0.7` the rounded product is 630000 and the code is `730000`, where the
product taken exactly would give 729999. -/
theorem otp_six_digits (r : ℚ) (hd : IsDouble r) (h0 : 0 ≤ r) (h1 : r < 1) :
    100000 ≤ ⌊addDouble 100000 (mulDouble r 900000)⌋₊
    ∧ ⌊addDouble 100000 (mulDouble r 900000)⌋₊ ≤ 999999
    ∧ otpCode r = decimal ⌊addDouble 100000 (mulDouble r 900000)⌋₊
    ∧ (otpCode r).length = 6
    ∧ (∀ u ∈ otpCode r, 48 ≤ u ∧ u ≤ 57)
    ∧ (otpCode r).head? ≠ some 48
    ∧ matchesOtpPattern (otpCode r) = true
    ∧ otpCode 0 = lit "100000"
    ∧ otpCode (1 - 1 / 2 ^ 53) = lit "999999"
    ∧ otpCode sevenTenths = lit "730000"
    ∧ ⌊(100000 + sevenTenths * 900000 : ℚ)⌋₊ = 729999 := by
  obtain ⟨hlo, hhi⟩ := otp_floor_range r hd h0 h1
  have hlen : (otpCode r).length = 6 :=
    decimal_length 5 _ (by norm_num; exact hlo) (by norm_num; omega)
  have hdig : ∀ u ∈ otpCode r, 48 ≤ u ∧ u ≤ 57 := decimal_digits _
  refine ⟨hlo, hhi, rfl, hlen, hdig, decimal_head _ (by omega), ?_, otpCode_zero, otpCode_max,
    otpCode_sevenTenths, ?_⟩
  · simp only [matchesOtpPattern, hlen, beq_self_eq_true, Bool.true_and, List.all_eq_true,
      Bool.and_eq_true, decide_eq_true_eq]
    exact hdig
  · rw [Nat.floor_eq_iff (by unfold sevenTenths; norm_num)]
    unfold sevenTenths
    norm_num

/-- Witness for C26: the Number `0.7` gives a code of six digits. -/
theorem otp_six_digits_witness :
    IsDouble sevenTenths ∧ 0 ≤ sevenTenths ∧ sevenTenths < 1
    ∧ (otpCode sevenTenths).length = 6 ∧ matchesOtpPattern (otpCode sevenTenths) = true :=
  ⟨isDouble_sevenTenths, by unfold sevenTenths; norm_num, by unfold sevenTenths; norm_num,
   (otp_six_digits sevenTenths isDouble_sevenTenths (by unfold sevenTenths; norm_num)
      (by unfold sevenTenths; norm_num)).2.2.2.1,
   (otp_six_digits sevenTenths isDouble_sevenTenths (by unfold sevenTenths; norm_num)
      (by unfold sevenTenths; norm_num)).2.2.2.2.2.2.1⟩

/-! ## The OTP routes -/

/-- The `sendEmail` of the mail module never raises. -/
theorem sendEmail_ok (env : MailEnv) (recipient : Field) (subject text : JSString)
    (tr : MailTrace) : ∃ v, (sendEmail env recipient subject text tr).1 = .ok v := by
  unfold sendEmail MailRun.tryCatch
  rcases hb : sendEmailBody env recipient subject text tr with ⟨res, tr1⟩
  cases res with
  | ok v => exact ⟨v, rfl⟩
  | error e =>
    exact ⟨.failure (lit "Failed to send email") e.message,
      by simp [MailRun.bind, mailLog, MailRun.ret]⟩

/-- The whole run of `sendEmail`, case by case. -/
theorem sendEmail_run (env : MailEnv) (recipient : Field) (subject text : JSString)
    (tr : MailTrace) :
    sendEmail env recipient subject text tr
      = match env.raises (tr ++ debugLines) (transportOp env) with
        | some e =>
          (.ok (.failure (lit "Failed to send email") e.message),
           tr ++ debugLines
             ++ [.call (transportOp env) false, .log true (lit "Error sending email:")])
        | none =>
          match env.raises (checkStart env tr) (textMailOp env recipient subject text) with
          | some e =>
            (.ok (.failure (lit "Failed to send email") e.message),
             checkStart env tr
               ++ [.call (textMailOp env recipient subject text) false,
                   .log true (lit "Error sending email:")])
          | none =>
            (.ok (.info (env.messageId (checkStart env tr
                ++ [.call (textMailOp env recipient subject text) true]))),
             checkStart env tr
               ++ [.call (textMailOp env recipient subject text) true,
                   .log false (lit "Email sent successfully:")]) := by
  have hct := createTransporter_run env tr
  unfold sendEmail sendEmailBody
  rcases h1 : env.raises (tr ++ debugLines) (transportOp env) with _ | e
  · rw [h1] at hct
    simp only at hct
    rcases h3 : env.raises (checkStart env tr) (textMailOp env recipient subject text)
        with _ | e
    · simp [MailRun.tryCatch, MailRun.bind, hct, sendMail, mailCall, h3, mailLog, MailRun.ret]
    · simp [MailRun.tryCatch, MailRun.bind, hct, sendMail, mailCall, h3, mailLog, MailRun.ret]
  · rw [h1] at hct
    simp only at hct
    simp [MailRun.tryCatch, MailRun.bind, hct, mailLog, MailRun.ret]

/-- The handler of `/send-otp` for an email that belongs to a player: the
code is stored and the answer is the success message, whatever `sendEmail`
resolves with. -/
theorem sendOtpHandler_found (env : OtpEnv) (store : OtpStore) (email : Field)
    (tr : MailTrace) (pl : Player) (hem : email.truthy = true)
    (hfound : env.findByEmail email = .ok (some pl)) :
    (sendOtpHandler env store email tr).1 = .ok (.message (lit "OTP sent to email"))
    ∧ (sendOtpHandler env store email tr).2.1
        = store.set email.toJSString
            { otp := otpCode env.random, expiresAt := env.now + 300000 }
    ∧ (sendOtpHandler env store email tr).2.2
        = (sendEmail env.mail email (lit "Your OTP for Para Sports ID Card Details")
            (otpMailText (otpCode env.random)) tr).2 := by
  obtain ⟨v, hv⟩ := sendEmail_ok env.mail email (lit "Your OTP for Para Sports ID Card Details")
    (otpMailText (otpCode env.random)) tr
  rcases hs : sendEmail env.mail email (lit "Your OTP for Para Sports ID Card Details")
    (otpMailText (otpCode env.random)) tr with ⟨res, tr1⟩
  rw [hs] at hv
  simp only at hv
  subst hv
  simp [sendOtpHandler, hem, hfound, hs]

/-- The search handler on a request carrying all three fields, by the
verdict of the OTP verification. -/
theorem searchHandler_verdict (env : SearchEnv) (store : OtpStore) (req : SearchRequest)
    (hreq : req.Complete) :
    (otpVerdict store req.email.toJSString req.otp.toJSString env.now = .invalid →
      searchHandler env store req = (store, .error 401 (lit "Invalid or expired OTP")))
    ∧ (otpVerdict store req.email.toJSString req.otp.toJSString env.now = .expired →
      searchHandler env store req
        = (store.erase req.email.toJSString, .error 401 (lit "OTP expired")))
    ∧ (otpVerdict store req.email.toJSString req.otp.toJSString env.now = .verified →
      (searchHandler env store req).1 = store.erase req.email.toJSString
      ∧ (searchHandler env store req).2
          = match env.findOne req.playerId req.email with
            | .error _ => .error 500 (lit "Database error")
            | .ok none => .error 404 (lit "Player not found or email does not match")
            | .ok (some player) => .player player) := by
  obtain ⟨h1, h2, h3⟩ := hreq
  have hguard : (!req.playerId.truthy || !req.email.truthy || !req.otp.truthy) = false := by
    simp [h1, h2, h3]
  unfold searchHandler otpVerdict
  rw [hguard]
  simp only [Bool.false_eq_true, if_false]
  rcases hs : store req.email.toJSString with _ | entry
  · simp
  · by_cases ho : entry.otp = req.otp.toJSString
    · by_cases hx : env.now > entry.expiresAt
      · simp [ho, hx]
      · simp only [ho, ne_eq, not_true_eq_false, if_false, hx]
        refine ⟨by simp, by simp, fun _ => ?_⟩
        rcases env.findOne req.playerId req.email with e | (_ | pl) <;> simp
    · simp [ho]

theorem decimal_ne_nil (n : Nat) : decimal n ≠ [] := by
  have h := (decimal_length_le n n
    (lt_trans (Nat.lt_pow_self (by norm_num) n) (Nat.pow_lt_pow_right (by norm_num)
      (Nat.lt_succ_self n)))).1
  intro h0
  rw [h0] at h
  simp at h

theorem store_set_self (store : OtpStore) (k : JSString) (entry : OtpEntry) :
    store.set k entry k = some entry := by
  simp [OtpStore.set]

theorem store_set_other (store : OtpStore) (k k2 : JSString) (entry : OtpEntry) (h : k2 ≠ k) :
    store.set k entry k2 = store k2 := by
  simp [OtpStore.set, h]

/-- C25. A `/send-otp` request at time `T` for an email that belongs to a
player stores the code with expiry `T + 300000` under that email and touches
no other entry. As long as the entry of that email is the stored one, the
OTP verification of a `/search` request with that email and code decides
`verified` at every time `t ≤ T + 300000` and `expired` at every later
time; the handler then, for a request that also carries a player ID, answers
neither 400 nor 401 and removes the entry in the first case, and answers 401
`OTP expired` in the second. -/
theorem otp_valid_five_minutes (env : OtpEnv) (store : OtpStore) (email : Field)
    (tr : MailTrace) (pl : Player) (hem : email.truthy = true)
    (hfound : env.findByEmail email = .ok (some pl)) :
    (sendOtpHandler env store email tr).2.1 email.toJSString
        = some { otp := otpCode env.random, expiresAt := env.now + 300000 }
    ∧ (∀ k, k ≠ email.toJSString → (sendOtpHandler env store email tr).2.1 k = store k)
    ∧ ∀ (store2 : OtpStore) (senv : SearchEnv) (req : SearchRequest),
        store2 email.toJSString = (sendOtpHandler env store email tr).2.1 email.toJSString →
        req.email = email → req.otp = .str (otpCode env.random) →
        (senv.now ≤ env.now + 300000 →
          otpVerdict store2 email.toJSString (otpCode env.random) senv.now = .verified)
        ∧ (senv.now > env.now + 300000 →
          otpVerdict store2 email.toJSString (otpCode env.random) senv.now = .expired)
        ∧ (req.playerId.truthy = true →
          (senv.now ≤ env.now + 300000 →
            (∀ m, (searchHandler senv store2 req).2 ≠ .error 401 m)
            ∧ (∀ m, (searchHandler senv store2 req).2 ≠ .error 400 m)
            ∧ (searchHandler senv store2 req).1 = store2.erase email.toJSString)
          ∧ (senv.now > env.now + 300000 →
            (searchHandler senv store2 req).2 = .error 401 (lit "OTP expired"))) := by
  have hstore := (sendOtpHandler_found env store email tr pl hem hfound).2.1
  have hself : (sendOtpHandler env store email tr).2.1 email.toJSString
      = some { otp := otpCode env.random, expiresAt := env.now + 300000 } := by
    rw [hstore, store_set_self]
  refine ⟨hself, fun k hk => by rw [hstore, store_set_other _ _ _ _ hk], ?_⟩
  intro store2 senv req hs2 hre hro
  rw [hself] at hs2
  have hv1 : senv.now ≤ env.now + 300000 →
      otpVerdict store2 email.toJSString (otpCode env.random) senv.now = .verified := by
    intro ht
    have : ¬ senv.now > env.now + 300000 := Nat.not_lt.mpr ht
    simp [otpVerdict, hs2, this]
  have hv2 : senv.now > env.now + 300000 →
      otpVerdict store2 email.toJSString (otpCode env.random) senv.now = .expired := by
    intro ht
    simp [otpVerdict, hs2, ht]
  refine ⟨hv1, hv2, ?_⟩
  intro hpid
  have hotp : req.otp.truthy = true := by
    rw [hro]
    cases hc : otpCode env.random with
    | nil => exact absurd hc (decimal_ne_nil _)
    | cons a b => rfl
  have hcomplete : req.Complete := ⟨hpid, by rw [hre]; exact hem, hotp⟩
  have hkey : req.otp.toJSString = otpCode env.random := by rw [hro]; rfl
  obtain ⟨-, hexp, hver⟩ := searchHandler_verdict senv store2 req hcomplete
  rw [hre, hkey] at hexp hver
  constructor
  · intro ht
    obtain ⟨h1, h2⟩ := hver (hv1 ht)
    refine ⟨?_, ?_, h1⟩
    · intro m
      rw [h2]
      rcases senv.findOne req.playerId email with e | (_ | p2) <;> simp
    · intro m
      rw [h2]
      rcases senv.findOne req.playerId email with e | (_ | p2) <;> simp
  · intro ht
    rw [hexp (hv2 ht)]

/-- Witness for C25: a code requested at time 1000 for `a@b.in`. -/
theorem otp_valid_five_minutes_witness :
    (Field.str (lit "a@b.in")).truthy = true
    ∧ (otpEnv 1000 0 lockedFileEnv).findByEmail (.str (lit "a@b.in")) = .ok (some demoPlayer)
    ∧ (sendOtpHandler (otpEnv 1000 0 lockedFileEnv) OtpStore.empty (.str (lit "a@b.in"))
          []).2.1 (Field.str (lit "a@b.in")).toJSString
        = some { otp := otpCode (otpEnv 1000 0 lockedFileEnv).random,
                 expiresAt := (otpEnv 1000 0 lockedFileEnv).now + 300000 } :=
  ⟨rfl, rfl,
   (otp_valid_five_minutes (otpEnv 1000 0 lockedFileEnv) OtpStore.empty (.str (lit "a@b.in")) []
      demoPlayer rfl rfl).1⟩

set_option maxRecDepth 100000 in
/-- C27, the code at the failing inputs. The handler of `/send-otp` never
answers 500: `sendEmail` catches whatever is raised while it creates the
transporter or sends and resolves with an error object, which the handler
does not look at, so for an email that belongs to a player the answer is
`OTP sent to email` also when transporter creation or `sendMail` raised. -/
theorem otp_mail_failure_unreported :
    (∀ (env : OtpEnv) (store : OtpStore) (email : Field) (tr : MailTrace) (m : JSString),
        (sendOtpHandler env store email tr).1 ≠ .ok (.error 500 m))
    ∧ (∀ (env : OtpEnv) (store : OtpStore) (email : Field) (tr : MailTrace) (pl : Player),
        email.truthy = true → env.findByEmail email = .ok (some pl) →
        (sendOtpHandler env store email tr).1 = .ok (.message (lit "OTP sent to email")))
    ∧ (sendEmail refusedTextEnv (.str (lit "a@b.in"))
          (lit "Your OTP for Para Sports ID Card Details") (otpMailText (otpCode 0)) []).1
        = .ok (.failure (lit "Failed to send email") (lit "Invalid login"))
    ∧ (sendOtpHandler (otpEnv 1000 0 refusedTextEnv) OtpStore.empty (.str (lit "a@b.in")) []).1
        = .ok (.message (lit "OTP sent to email"))
    ∧ MailEvent.call (textMailOp refusedTextEnv (.str (lit "a@b.in"))
          (lit "Your OTP for Para Sports ID Card Details") (otpMailText (otpCode 0))) false
        ∈ (sendOtpHandler (otpEnv 1000 0 refusedTextEnv) OtpStore.empty
            (.str (lit "a@b.in")) []).2.2
    ∧ (sendEmail noTransportEnv (.str (lit "a@b.in"))
          (lit "Your OTP for Para Sports ID Card Details") (otpMailText (otpCode 0)) []).1
        = .ok (.failure (lit "Failed to send email") (lit "Missing credentials"))
    ∧ (sendOtpHandler (otpEnv 1000 0 noTransportEnv) OtpStore.empty (.str (lit "a@b.in")) []).1
        = .ok (.message (lit "OTP sent to email")) := by
  have hfound : ∀ (env : OtpEnv) (store : OtpStore) (email : Field) (tr : MailTrace)
      (pl : Player), email.truthy = true → env.findByEmail email = .ok (some pl) →
      (sendOtpHandler env store email tr).1 = .ok (.message (lit "OTP sent to email")) :=
    fun env store email tr pl h1 h2 => (sendOtpHandler_found env store email tr pl h1 h2).1
  have hrun1 := sendEmail_run refusedTextEnv (.str (lit "a@b.in"))
    (lit "Your OTP for Para Sports ID Card Details") (otpMailText (otpCode 0)) []
  have hrun2 := sendEmail_run noTransportEnv (.str (lit "a@b.in"))
    (lit "Your OTP for Para Sports ID Card Details") (otpMailText (otpCode 0)) []
  refine ⟨?_, hfound, ?_, hfound _ _ _ _ demoPlayer rfl rfl, ?_, ?_,
    hfound _ _ _ _ demoPlayer rfl rfl⟩
  · intro env store email tr m
    cases hem : email.truthy
    · simp [sendOtpHandler, hem]
    · rcases hf : env.findByEmail email with e | (_ | pl)
      · simp [sendOtpHandler, hem, hf]
      · simp [sendOtpHandler, hem, hf]
      · rw [hfound env store email tr pl hem hf]
        simp
  · rw [hrun1]; rfl
  · rw [(sendOtpHandler_found (otpEnv 1000 0 refusedTextEnv) OtpStore.empty
      (.str (lit "a@b.in")) [] demoPlayer rfl rfl).2.2]
    have : (otpEnv 1000 0 refusedTextEnv).random = 0 := rfl
    rw [this]
    have hm : (otpEnv 1000 0 refusedTextEnv).mail = refusedTextEnv := rfl
    rw [hm, hrun1]
    simp [refusedTextEnv, checkStart, debugLines, transportOp, textMailOp]
  · rw [hrun2]; rfl

/-- A search request never adds an entry. -/
theorem searchHandler_keeps_none (env : SearchEnv) (store : OtpStore) (req : SearchRequest)
    (k : JSString) (h : store k = none) : (searchHandler env store req).1 k = none := by
  unfold searchHandler
  split
  · exact h
  · split
    · exact h
    · split
      · exact h
      · split
        · simp [OtpStore.erase, h]
        · split <;> simp [OtpStore.erase, h]

/-- A `/send-otp` request changes at most the entry of its own email. -/
theorem sendOtpHandler_other (env : OtpEnv) (store : OtpStore) (email : Field)
    (tr : MailTrace) (k : JSString) (h : email ≠ .str k) :
    (sendOtpHandler env store email tr).2.1 k = store k := by
  cases hem : email.truthy
  · simp [sendOtpHandler, hem]
  · rcases hf : env.findByEmail email with e | (_ | pl)
    · simp [sendOtpHandler, hem, hf]
    · simp [sendOtpHandler, hem, hf]
    · rw [(sendOtpHandler_found env store email tr pl hem hf).2.1]
      apply store_set_other
      intro hk
      apply h
      cases email with
      | undefined => simp [Field.truthy] at hem
      | null => simp [Field.truthy] at hem
      | str s =>
        have : s = k := by simpa [Field.toJSString] using hk.symm
        rw [this]

theorem storeAfterAll_keeps_none (k : JSString) (later : List OtpRequest)
    (hlater : ∀ r ∈ later, r.isSendOtpFor k = false) :
    ∀ store : OtpStore, store k = none → storeAfterAll store later k = none := by
  induction later with
  | nil => intro store h; exact h
  | cons r rest ih =>
    intro store h
    have hstep : storeAfter store r k = none := by
      cases r with
      | search env req => exact searchHandler_keeps_none env store req k h
      | sendOtp env email tr =>
        have hne : email ≠ .str k := by
          have := hlater _ (List.mem_cons_self _ _)
          simpa [OtpRequest.isSendOtpFor] using this
        show (sendOtpHandler env store email tr).2.1 k = none
        rw [sendOtpHandler_other env store email tr k hne]
        exact h
    exact ih (fun x hx => hlater x (List.mem_cons_of_mem _ hx)) _ hstep

/-- C28 fails as stated: after a verified request for `a@b.in` a later
request for that email that carries no code is answered 400, not 401. -/
theorem later_request_without_code :
    otpVerdict oneEntryStore rightCodeRequest.email.toJSString
        rightCodeRequest.otp.toJSString (emptyDbEnv 500).now = .verified
    ∧ noCodeRequest.email = rightCodeRequest.email
    ∧ (searchHandler (emptyDbEnv 600)
          (searchHandler (emptyDbEnv 500) oneEntryStore rightCodeRequest).1 noCodeRequest).2
        = .error 400 (lit "Player ID, email, and OTP required")
    ∧ ¬ (∀ (env env2 : SearchEnv) (store : OtpStore) (req req2 : SearchRequest),
          req.Complete →
          otpVerdict store req.email.toJSString req.otp.toJSString env.now = .verified →
          req2.email = req.email →
          ∃ m, (searchHandler env2 (searchHandler env store req).1 req2).2 = .error 401 m) := by
  refine ⟨by decide, rfl, by decide, ?_⟩
  intro h
  obtain ⟨m, hm⟩ := h (emptyDbEnv 500) (emptyDbEnv 600) oneEntryStore rightCodeRequest
    noCodeRequest ⟨rfl, rfl, rfl⟩ (by decide) rfl
  have h400 : (searchHandler (emptyDbEnv 600)
      (searchHandler (emptyDbEnv 500) oneEntryStore rightCodeRequest).1 noCodeRequest).2
      = .error 400 (lit "Player ID, email, and OTP required") := by decide
  rw [h400] at hm
  simp at hm

/-- C28, amended. Once a `/search` request carrying player ID, email and
code has passed OTP verification, the entry of its email is gone, whatever
the player lookup then gives (the player, 404 or 500); and after any later
requests none of which is a `/send-otp` request for that email, a `/search`
request for that email is answered 401 `Invalid or expired OTP` if it
carries player ID and code and 400 otherwise, and leaves the store as it
was. -/
theorem otp_single_use (env env2 : SearchEnv) (store : OtpStore) (req req2 : SearchRequest)
    (later : List OtpRequest) (hreq : req.Complete)
    (hver : otpVerdict store req.email.toJSString req.otp.toJSString env.now = .verified)
    (hlater : ∀ r ∈ later, r.isSendOtpFor req.email.toJSString = false)
    (hemail : req2.email = req.email) :
    (searchHandler env store req).1 req.email.toJSString = none
    ∧ (searchHandler env store req).2
        = (match env.findOne req.playerId req.email with
          | .error _ => .error 500 (lit "Database error")
          | .ok none => .error 404 (lit "Player not found or email does not match")
          | .ok (some player) => .player player)
    ∧ storeAfterAll (searchHandler env store req).1 later req.email.toJSString = none
    ∧ (req2.Complete →
        searchHandler env2 (storeAfterAll (searchHandler env store req).1 later) req2
          = (storeAfterAll (searchHandler env store req).1 later,
             .error 401 (lit "Invalid or expired OTP")))
    ∧ (¬ req2.Complete →
        searchHandler env2 (storeAfterAll (searchHandler env store req).1 later) req2
          = (storeAfterAll (searchHandler env store req).1 later,
             .error 400 (lit "Player ID, email, and OTP required"))) := by
  obtain ⟨h1, h2⟩ := (searchHandler_verdict env store req hreq).2.2 hver
  have hgone : (searchHandler env store req).1 req.email.toJSString = none := by
    rw [h1]; simp [OtpStore.erase]
  have hstill := storeAfterAll_keeps_none req.email.toJSString later hlater _ hgone
  refine ⟨hgone, h2, hstill, ?_, ?_⟩
  · intro hc
    apply (searchHandler_verdict env2 _ req2 hc).1
    rw [hemail]
    simp [otpVerdict, hstill]
  · intro hc
    have hguard : (!req2.playerId.truthy || !req2.email.truthy || !req2.otp.truthy) = true := by
      by_contra hg
      apply hc
      simp only [Bool.not_eq_true, Bool.or_eq_false_iff, Bool.not_eq_false'] at hg
      exact ⟨hg.1.1, hg.1.2, hg.2⟩
    simp [searchHandler, hguard]

/-- Witness for the amended C28: the code of `a@b.in` used at time 500 and
tried again at time 600. -/
theorem otp_single_use_witness :
    rightCodeRequest.Complete
    ∧ otpVerdict oneEntryStore rightCodeRequest.email.toJSString
        rightCodeRequest.otp.toJSString (emptyDbEnv 500).now = .verified
    ∧ (searchHandler (emptyDbEnv 600)
          (storeAfterAll (searchHandler (emptyDbEnv 500) oneEntryStore rightCodeRequest).1 [])
          rightCodeRequest).2
        = .error 401 (lit "Invalid or expired OTP") :=
  ⟨⟨rfl, rfl, rfl⟩, by decide,
   congrArg Prod.snd
    ((otp_single_use (emptyDbEnv 500) (emptyDbEnv 600) oneEntryStore rightCodeRequest
      rightCodeRequest [] ⟨rfl, rfl, rfl⟩ (by decide) (fun _ h => by simp at h) rfl).2.2.2.1
      ⟨rfl, rfl, rfl⟩)⟩

/-! ## Age -/

/-- C29. The `age` virtual is the difference of the years, less one
exactly when month and day of today come before month and day of the birth
date. For a birth date not after today it is never negative; it never
decreases as today advances; and in each year it is one less than the
difference of the years before the birthday and equal to it from the
birthday on, the birthday included. -/
theorem age_formula (birthDate today : CalendarDate) (h : birthDate.NotAfter today) :
    (today.BeforeBirthday birthDate → age today birthDate = today.year - birthDate.year - 1)
    ∧ (¬ today.BeforeBirthday birthDate → age today birthDate = today.year - birthDate.year)
    ∧ 0 ≤ age today birthDate
    ∧ (∀ later : CalendarDate, today.NotAfter later → age today birthDate ≤ age later birthDate)
    ∧ (∀ y : Int, age { year := y, month := birthDate.month, day := birthDate.day } birthDate
        = y - birthDate.year)
    ∧ (∀ d : CalendarDate, d.BeforeBirthday birthDate →
        age d birthDate + 1
          = age { year := d.year, month := birthDate.month, day := birthDate.day } birthDate) := by
  have hage : ∀ t : CalendarDate, age t birthDate
      = if t.month - birthDate.month < 0 ∨ (t.month - birthDate.month = 0 ∧ t.day < birthDate.day)
        then t.year - birthDate.year - 1 else t.year - birthDate.year := fun _ => rfl
  have hiff : ∀ t : CalendarDate,
      (t.month - birthDate.month < 0 ∨ (t.month - birthDate.month = 0 ∧ t.day < birthDate.day))
        ↔ t.BeforeBirthday birthDate := by
    intro t
    unfold CalendarDate.BeforeBirthday
    constructor
    · rintro (h1 | ⟨h1, h2⟩)
      · exact Or.inl (by omega)
      · exact Or.inr ⟨by omega, h2⟩
    · rintro (h1 | ⟨h1, h2⟩)
      · exact Or.inl (by omega)
      · exact Or.inr ⟨by omega, h2⟩
  have hyes : ∀ t : CalendarDate, t.BeforeBirthday birthDate →
      age t birthDate = t.year - birthDate.year - 1 := by
    intro t ht
    rw [hage, if_pos ((hiff t).mpr ht)]
  have hno : ∀ t : CalendarDate, ¬ t.BeforeBirthday birthDate →
      age t birthDate = t.year - birthDate.year := by
    intro t ht
    rw [hage, if_neg (fun hc => ht ((hiff t).mp hc))]
  refine ⟨hyes today, hno today, ?_, ?_, ?_, ?_⟩
  · by_cases hb : today.BeforeBirthday birthDate
    · rw [hyes today hb]
      unfold CalendarDate.NotAfter at h
      unfold CalendarDate.BeforeBirthday at hb
      omega
    · rw [hno today hb]
      unfold CalendarDate.NotAfter at h
      omega
  · intro later hl
    unfold CalendarDate.NotAfter at hl
    by_cases hb : today.BeforeBirthday birthDate
    · rw [hyes today hb]
      by_cases hb2 : later.BeforeBirthday birthDate
      · rw [hyes later hb2]; omega
      · rw [hno later hb2]; omega
    · rw [hno today hb]
      by_cases hb2 : later.BeforeBirthday birthDate
      · rw [hyes later hb2]
        unfold CalendarDate.BeforeBirthday at hb hb2
        omega
      · rw [hno later hb2]; omega
  · intro y
    rw [hno]
    unfold CalendarDate.BeforeBirthday
    simp
  · intro d hd
    rw [hyes d hd, hno]
    · simp
    · unfold CalendarDate.BeforeBirthday
      simp

/-- Witness for C29: born on 1 June 1998, the day before the birthday in
2025. -/
theorem age_formula_witness :
    CalendarDate.NotAfter { year := 1998, month := 5, day := 1 }
        { year := 2025, month := 4, day := 30 }
    ∧ 0 ≤ age { year := 2025, month := 4, day := 30 } { year := 1998, month := 5, day := 1 }
    ∧ age { year := 2025, month := 4, day := 30 } { year := 1998, month := 5, day := 1 } = 26
    ∧ age { year := 2025, month := 5, day := 1 } { year := 1998, month := 5, day := 1 } = 27 :=
  ⟨Or.inl (by decide),
   (age_formula { year := 1998, month := 5, day := 1 } { year := 2025, month := 4, day := 30 }
      (Or.inl (by decide))).2.2.1,
   by decide, by decide⟩

/-! ## The pre-save hook against its reference definition -/

theorem digitsFrom_fuel (f1 : Nat) :
    ∀ f2 n, n < f1 → n < f2 → digitsFrom f1 n = digitsFrom f2 n := by
  induction f1 with
  | zero => intro f2 n h; omega
  | succ k ih =>
    intro f2 n h1 h2
    cases f2 with
    | zero => omega
    | succ m =>
      unfold digitsFrom
      split
      · rfl
      · rw [ih m (n / 10) (by omega) (by omega)]

theorem decimal_lt_ten (n : Nat) (h : n < 10) : decimal n = [digitUnit n] := by
  simp [decimal, digitsFrom, h]

theorem decimal_step (n : Nat) (h : 10 ≤ n) :
    decimal n = decimal (n / 10) ++ [digitUnit (n % 10)] := by
  have e : digitsFrom (n + 1) n = (n % 10) :: digitsFrom n (n / 10) := by
    have e0 : digitsFrom (n + 1) n
        = if n < 10 then [n] else (n % 10) :: digitsFrom n (n / 10) := rfl
    rw [e0, if_neg (by omega)]
  unfold decimal
  rw [e, digitsFrom_fuel n (n / 10 + 1) (n / 10) (by omega) (by omega)]
  simp

theorem digitUnit_zero : digitUnit 0 = 48 := by decide

/-- Below 10000 the padded decimal rendering is the four digits. -/
theorem padStart_decimal (n : Nat) (h : n < 10000) : padStart 4 (decimal n) = fourDigits n := by
  unfold fourDigits
  by_cases h1 : n < 10
  · rw [decimal_lt_ten n h1]
    have e1 : n / 1000 % 10 = 0 := by omega
    have e2 : n / 100 % 10 = 0 := by omega
    have e3 : n / 10 % 10 = 0 := by omega
    have e4 : n % 10 = n := by omega
    rw [e1, e2, e3, e4, digitUnit_zero]
    rfl
  · rw [decimal_step n (by omega)]
    by_cases h2 : n < 100
    · rw [decimal_lt_ten (n / 10) (by omega)]
      have e1 : n / 1000 % 10 = 0 := by omega
      have e2 : n / 100 % 10 = 0 := by omega
      have e3 : n / 10 % 10 = n / 10 := by omega
      rw [e1, e2, e3, digitUnit_zero]
      rfl
    · rw [decimal_step (n / 10) (by omega)]
      by_cases h3 : n < 1000
      · rw [decimal_lt_ten (n / 10 / 10) (by omega)]
        have e1 : n / 1000 % 10 = 0 := by omega
        have e2 : n / 100 % 10 = n / 10 / 10 := by omega
        rw [e1, e2, digitUnit_zero]
        rfl
      · rw [decimal_step (n / 10 / 10) (by omega), decimal_lt_ten (n / 10 / 10 / 10) (by omega)]
        have e1 : n / 1000 % 10 = n / 10 / 10 / 10 := by omega
        have e2 : n / 100 % 10 = n / 10 / 10 % 10 := by omega
        rw [e1, e2]
        rfl

/-- From 1000 to 9999 the decimal rendering is the four digits. -/
theorem decimal_fourDigits (n : Nat) (h1 : 1000 ≤ n) (h2 : n ≤ 9999) :
    decimal n = fourDigits n := by
  rw [← padStart_decimal n (by omega)]
  have hlen : (decimal n).length = 4 := decimal_length 3 n (by norm_num; omega) (by norm_num; omega)
  simp [padStart, hlen]

theorem random_floor_lt (r : ℚ) (hd : IsDouble r) (h0 : 0 ≤ r) (h1 : r < 1) :
    ⌊mulDouble r 10000⌋₊ < 10000 := by
  have hr := double_lt_one r hd h1
  have hm1 : mulDouble r 10000 ≤ 10000 - 1 / 2 ^ 39 := by
    rw [← roundDouble_mul_max_10000]
    exact roundDouble_mono (by nlinarith) (by nlinarith)
  have hm0 : 0 ≤ mulDouble r 10000 := roundDouble_nonneg _
  rw [Nat.floor_lt hm0]
  push_cast
  have : (0 : ℚ) < 1 / 2 ^ 39 := by norm_num
  linarith

theorem asciiLower_ok : LowerCaseOk asciiLower := by
  constructor
  · intro s u hu
    simp only [asciiLower, List.mem_map] at hu
    obtain ⟨v, -, rfl⟩ := hu
    split
    · rename_i hv
      obtain ⟨h1, h2⟩ := hv
      have h1n : 65 ≤ v.toNat := h1
      have h2n : v.toNat ≤ 90 := h2
      intro ⟨_, h4⟩
      have h4n : (v + 32).toNat ≤ 90 := h4
      rw [UInt16.toNat_add] at h4n
      have e3 : (32 : UInt16).toNat = 32 := rfl
      have e4 : UInt16.size = 65536 := rfl
      rw [e3, e4] at h4n
      omega
    · rename_i hv
      exact hv
  · intro s hs
    unfold asciiLower
    conv_rhs => rw [← List.map_id s]
    apply List.map_congr_left
    intro v hv
    have := hs v hv
    have h1n : 97 ≤ v.toNat := this.1
    rw [if_neg]
    · rfl
    · intro ⟨_, h4⟩
      have h4n : v.toNat ≤ 90 := h4
      omega

/-- With a sound `toLowerCase` the name test of the hook is the comparison
without regard to case with the three names. -/
theorem isSpecialName_eq (lower : JSString → JSString) (hl : LowerCaseOk lower)
    (firstName lastName : Field) :
    isSpecialName (firstName.toLowerCase? lower) (lastName.toLowerCase? lower)
      = ((equalsIgnoreCase lower firstName (lit "bhavana")
            || equalsIgnoreCase lower firstName (lit "bhavanaben"))
          && equalsIgnoreCase lower lastName (lit "chaudhary")) := by
  have l1 : lower (lit "bhavana") = lit "bhavana" := hl.2 _ (by decide)
  have l2 : lower (lit "bhavanaben") = lit "bhavanaben" := hl.2 _ (by decide)
  have l3 : lower (lit "chaudhary") = lit "chaudhary" := hl.2 _ (by decide)
  have u1 : ∀ v, lower v ≠ lit "BHAVANBEN" := by
    intro v h
    exact hl.1 v 66 (by rw [h]; decide) (by decide)
  have u2 : ∀ v, lower v ≠ lit "CHAUDHARY" := by
    intro v h
    exact hl.1 v 67 (by rw [h]; decide) (by decide)
  cases firstName <;> cases lastName <;>
    simp [isSpecialName, Field.toLowerCase?, equalsIgnoreCase, l1, l2, l3, u1, u2]

theorem randomNum_sevenTenths : randomNum sevenTenths = lit "7000" := by
  unfold randomNum
  rw [mulDouble_sevenTenths_10000]
  have : ⌊(7000 : ℚ)⌋₊ = 7000 := by
    rw [Nat.floor_eq_iff (by norm_num)]
    norm_num
  rw [this]
  decide

theorem randomNum_max : randomNum (1 - 1 / 2 ^ 53) = lit "9999" := by
  unfold randomNum mulDouble
  rw [roundDouble_mul_max_10000]
  have : ⌊(10000 - 1 / 2 ^ 39 : ℚ)⌋₊ = 9999 := by
    rw [Nat.floor_eq_iff (by norm_num)]
    norm_num
  rw [this]
  decide

/-- C30. For a year from 1000 to 9999, a draw that is a Number in `[0, 1)`
and a sound `toLowerCase`, the hook's result is the reference definition: a
non-empty player ID stays as it is; otherwise the ID is `PS20250001` when
the first name is `bhavana` or `bhavanaben` and the last name `chaudhary`,
compared without regard to case, and else `PS`, the four digits of the year
and the four digits of `floor(random * 10000)`, the product being the Number
product, ten code units in all. In every case the record then has a
non-empty player ID, its names are untouched and `lastUpdated` is the
current time. In 2025 the greatest draw `1 - 2 ^ -53` gives `PS20259999`,
and the Number `0.7` gives `PS20257000`: its Number product with 10000 is
7000, where the product taken exactly would have the floor 6999. -/
theorem presave_reference (env : HookEnv) (doc : PlayerDoc)
    (hy1 : 1000 ≤ env.year) (hy2 : env.year ≤ 9999) (hd : IsDouble env.random)
    (hr0 : 0 ≤ env.random) (hr1 : env.random < 1) (hl : LowerCaseOk env.toLowerCase) :
    preSave env doc = preSaveSpec env doc
    ∧ (preSave env doc).playerId.truthy = true
    ∧ (preSave env doc).lastUpdated = some env.now
    ∧ (doc.playerId.truthy = true → (preSave env doc).playerId = doc.playerId)
    ∧ (doc.playerId.truthy = false →
        ∃ id, (preSave env doc).playerId = .str id ∧ id.length = 10)
    ∧ (preSave env doc).firstName = doc.firstName
    ∧ (preSave env doc).lastName = doc.lastName
    ∧ ⌊mulDouble env.random 10000⌋₊ < 10000
    ∧ (preSave (hookEnv (1 - 1 / 2 ^ 53)) newDoc).playerId = .str (lit "PS20259999")
    ∧ (preSave (hookEnv sevenTenths) newDoc).playerId = .str (lit "PS20257000")
    ∧ ⌊(sevenTenths * 10000 : ℚ)⌋₊ = 6999 := by
  have hlt := random_floor_lt env.random hd hr0 hr1
  have hnum : randomNum env.random = fourDigits ⌊mulDouble env.random 10000⌋₊ :=
    padStart_decimal _ hlt
  have hyear : decimal env.year = fourDigits env.year := decimal_fourDigits _ hy1 hy2
  have hspec := isSpecialName_eq env.toLowerCase hl doc.firstName doc.lastName
  have heq : preSave env doc = preSaveSpec env doc := by
    unfold preSave preSaveSpec
    cases ht : doc.playerId.truthy
    · simp only [Bool.not_false, if_true, Bool.false_eq_true, if_false, ← hspec]
      cases hs : isSpecialName (doc.firstName.toLowerCase? env.toLowerCase)
          (doc.lastName.toLowerCase? env.toLowerCase)
      · simp [hnum, hyear]
      · simp
    · simp
  have hid : (preSaveSpec env doc).playerId.truthy = true
      ∧ (doc.playerId.truthy = false →
          ∃ id, (preSaveSpec env doc).playerId = .str id ∧ id.length = 10) := by
    unfold preSaveSpec
    cases ht : doc.playerId.truthy
    · simp only [Bool.false_eq_true, if_false]
      split
      · exact ⟨by decide, fun _ => ⟨_, rfl, by decide⟩⟩
      · have hps : lit "PS" = [80, 83] := by decide
        exact ⟨by rw [hps]; rfl, fun _ => ⟨_, rfl, by rw [hps]; simp [fourDigits]⟩⟩
    · simp [ht]
  have hs : isSpecialName (Field.toLowerCase? asciiLower (.str (lit "ASHA")))
      (Field.toLowerCase? asciiLower (.str (lit "PATEL"))) = false := by decide
  rw [heq]
  refine ⟨rfl, hid.1, rfl, ?_, hid.2, rfl, rfl, hlt, ?_, ?_, ?_⟩
  · intro ht
    simp [preSaveSpec, ht]
  · simp only [preSave, hookEnv, newDoc, Field.truthy, Bool.not_false, if_true, hs,
      Bool.false_eq_true, if_false, randomNum_max]
    decide
  · simp only [preSave, hookEnv, newDoc, Field.truthy, Bool.not_false, if_true, hs,
      Bool.false_eq_true, if_false, randomNum_sevenTenths]
    decide
  · rw [Nat.floor_eq_iff (by unfold sevenTenths; norm_num)]
    unfold sevenTenths
    norm_num

/-- Witness for C30: a record without an ID saved in 2025 with the Number
`0.7` as the draw. -/
theorem presave_reference_witness :
    1000 ≤ (hookEnv sevenTenths).year ∧ (hookEnv sevenTenths).year ≤ 9999
    ∧ IsDouble (hookEnv sevenTenths).random
    ∧ 0 ≤ (hookEnv sevenTenths).random ∧ (hookEnv sevenTenths).random < 1
    ∧ LowerCaseOk (hookEnv sevenTenths).toLowerCase
    ∧ preSave (hookEnv sevenTenths) newDoc = preSaveSpec (hookEnv sevenTenths) newDoc :=
  ⟨by decide, by decide, isDouble_sevenTenths,
   by show (0 : ℚ) ≤ sevenTenths; unfold sevenTenths; norm_num,
   by show sevenTenths < 1; unfold sevenTenths; norm_num, asciiLower_ok,
   (presave_reference (hookEnv sevenTenths) newDoc (by decide) (by decide) isDouble_sevenTenths
      (by show (0 : ℚ) ≤ sevenTenths; unfold sevenTenths; norm_num)
      (by show sevenTenths < 1; unfold sevenTenths; norm_num) asciiLower_ok).1⟩

/-! ## Runs in which the registered font cannot be selected -/

theorem drawFooter_plain (S : Event → Prop) (env : Env) (u : Bool)
    (hq : env.Quiet Op.isPlainDrawing)
    (hops : ∀ op ∈ footerGradientOps ++ footerOps u, ∀ ok, S (Event.call op ok))
    (hlog : ∀ b m, S (Event.log b m)) : Good S (drawFooter env u) := by
  unfold drawFooter
  refine good_seq S _ _ (good_emitAllQuiet S env _ hq footerGradientOps (by decide)
      (fun op ho => hops op (List.mem_append_left _ ho) true))
    (good_tryCatch S _ _ (confined_emitAll S env _
      (fun op ho ok => hops op (List.mem_append_right _ ho) ok))
      (fun _ => good_logLine S _ _ (hlog _ _)))

theorem layoutOps_isPlainDrawing (env : Env) (p : Player) :
    ∀ op ∈ layoutOps (profileFields env p), op.isPlainDrawing = true := by
  rw [layoutOps_profileFields]
  simp [cellOps, Op.isPlainDrawing, Op.isDrawing]

theorem backLoop_isPlainDrawing (p : Player) :
    ∀ op ∈ backLoop (backFields p) 160, op.isPlainDrawing = true := by
  rw [backLoop_backFields]
  simp [Op.isPlainDrawing, Op.isDrawing]

theorem frontBefore_plain (S : Event → Prop) (env : Env)
    (hq : env.Quiet Op.isPlainDrawing)
    (hops : ∀ op ∈ frontBeforeOps env, ∀ ok, S (Event.call op ok))
    (hlog : ∀ b m, S (Event.log b m)) : ∀ r ∈ frontBefore env, Good S r := by
  intro r hr
  simp only [frontBefore, List.mem_cons, List.mem_singleton, List.not_mem_nil, or_false] at hr
  rcases hr with rfl | rfl | rfl
  · exact good_emitAllQuiet S env _ hq backgroundOps (by decide)
      (fun op ho => hops op (by simp [frontBeforeOps, ho]) true)
  · exact drawLogos_good S env (hops _ (by simp [frontBeforeOps])) (hops _ (by simp [frontBeforeOps])) hlog
  · exact good_emitAllQuiet S env _ hq titleOps (by decide)
      (fun op ho => hops op (by simp [frontBeforeOps, ho]) true)

theorem frontAfter_plain (S : Event → Prop) (env : Env) (p : Player) (u : Bool)
    (hq : env.Quiet Op.isPlainDrawing)
    (hops : ∀ op ∈ frontAfterOps env p u, ∀ ok, S (Event.call op ok))
    (hlog : ∀ b m, S (Event.log b m)) : ∀ r ∈ frontAfter env p u, Good S r := by
  intro r hr
  simp only [frontAfter, List.mem_cons, List.mem_singleton, List.not_mem_nil, or_false] at hr
  rcases hr with rfl | rfl | rfl | rfl
  · exact good_emitAllQuiet S env _ hq _ (layoutOps_isPlainDrawing env p)
      (fun op ho => hops op (by simp [frontAfterOps, ho]) true)
  · exact good_emitAllQuiet S env _ hq (bannerOps p) (by simp [bannerOps, Op.isPlainDrawing, Op.isDrawing])
      (fun op ho => hops op (by simp [frontAfterOps, ho]) true)
  · exact drawFooter_plain S env u hq
      (fun op ho ok => hops op (by
        simp only [frontAfterOps, List.mem_append] at ho ⊢; tauto) ok) hlog
  · exact drawWatermark_good S env (fun op ho ok => hops op (by simp [frontAfterOps, ho]) ok)

theorem backBefore_plain (S : Event → Prop) (env : Env) (p : Player)
    (hq : env.Quiet Op.isPlainDrawing)
    (hops : ∀ op ∈ backBeforeOps env p, ∀ ok, S (Event.call op ok))
    (hlog : ∀ b m, S (Event.log b m)) : ∀ r ∈ backBefore env p, Good S r := by
  intro r hr
  simp only [backBefore, List.mem_cons, List.mem_singleton, List.not_mem_nil, or_false] at hr
  rcases hr with rfl | rfl | rfl | rfl
  · exact good_emitAllQuiet S env _ hq backgroundOps (by decide)
      (fun op ho => hops op (by simp [backBeforeOps, ho]) true)
  · exact drawLogos_good S env (hops _ (by simp [backBeforeOps])) (hops _ (by simp [backBeforeOps])) hlog
  · exact good_emitAllQuiet S env _ hq titleOps (by decide)
      (fun op ho => hops op (by simp [backBeforeOps, ho]) true)
  · exact good_emitAllQuiet S env _ hq _ (backLoop_isPlainDrawing p)
      (fun op ho => hops op (by simp [backBeforeOps, ho]) true)

theorem backAfter_plain (S : Event → Prop) (env : Env) (p : Player) (u : Bool)
    (hq : env.Quiet Op.isPlainDrawing)
    (hops : ∀ op ∈ backAfterOps env p u, ∀ ok, S (Event.call op ok))
    (hlog : ∀ b m, S (Event.log b m)) : ∀ r ∈ backAfter env p u, Good S r := by
  intro r hr
  simp only [backAfter, List.mem_cons, List.mem_singleton, List.not_mem_nil, or_false] at hr
  rcases hr with rfl | rfl | rfl
  · exact good_emitAllQuiet S env _ hq (bannerOps p) (by simp [bannerOps, Op.isPlainDrawing, Op.isDrawing])
      (fun op ho => hops op (by simp [backAfterOps, ho]) true)
  · exact drawFooter_plain S env u hq
      (fun op ho ok => hops op (by
        simp only [backAfterOps, List.mem_append] at ho ⊢; tauto) ok) hlog
  · exact drawWatermark_good S env (fun op ho ok => hops op (by simp [backAfterOps, ho]) ok)

theorem drawPhoto_plain (S : Event → Prop) (env : Env) (p : Player)
    (hq : env.Quiet Op.isPlainDrawing)
    (hops : ∀ op ∈ photoBlockOps env p, ∀ ok, S (Event.call op ok)) :
    Good S (drawPhoto env p) := by
  have hph : Good S (emitAll env placeholderOps) :=
    good_emitAllQuiet S env _ hq placeholderOps (by decide)
      (fun op ho => hops op (by simp [photoBlockOps, ho]) true)
  unfold drawPhoto
  apply good_seqAll
  intro r hr
  simp only [List.mem_cons, List.mem_singleton, List.not_mem_nil, or_false] at hr
  rcases hr with rfl | rfl | rfl
  · exact good_emitAllQuiet S env _ hq [.save, .roundedRect 40 135 130 130 16, .clip]
      (by decide) (fun op ho => hops op (by
        simp only [photoBlockOps, List.mem_append]; tauto) true)
  · refine good_tryCatch S _ _ ?_ (fun _ => hph)
    unfold photoBody
    split
    · rename_i s hs
      refine confined_ite S _ _ _ (good_confined S _ hph)
        (confined_ite S _ _ _ ?_ (good_confined S _ hph))
      exact confined_emit S env _ (hops _ (by simp [photoBlockOps, hs]))
    · exact good_confined S _ hph
  · exact good_emit S env _ (fun tr => hq tr _ rfl) (hops _ (by simp [photoBlockOps]) true)

theorem drawFrontSide_plain (S : Event → Prop) (env : Env) (p : Player) (u : Bool)
    (hq : env.Quiet Op.isPlainDrawing)
    (hops : ∀ op ∈ frontOps env p u, ∀ ok, S (Event.call op ok))
    (hlog : ∀ b m, S (Event.log b m)) : Good S (drawFrontSide env p u) := by
  unfold drawFrontSide frontBlocks
  apply good_seqAll
  intro r hr
  rcases List.mem_append.mp hr with h | h
  · exact frontBefore_plain S env hq
      (fun op ho ok => hops op (by simp only [frontOps, List.mem_append]; tauto) ok) hlog r h
  · rcases List.mem_cons.mp h with h | h
    · subst h
      exact drawPhoto_plain S env p hq
        (fun op ho ok => hops op (by simp only [frontOps, List.mem_append]; tauto) ok)
    · exact frontAfter_plain S env p u hq
        (fun op ho ok => hops op (by simp only [frontOps, List.mem_append]; tauto) ok) hlog r h

theorem drawQr_plain (S : Event → Prop) (env : Env) (p : Player)
    (hq : env.Quiet Op.isFontFree)
    (hops : ∀ op ∈ qrFullOps env p ++ qrFallbackOps p, ∀ ok, S (Event.call op ok))
    (hlog : ∀ b m, S (Event.log b m)) : Good S (drawQr env p) := by
  unfold drawQr
  refine good_tryCatch S _ _
    (confined_emitAll S env _ fun op ho ok => hops op (List.mem_append_left _ ho) ok)
    (fun _ => good_seq S _ _ (good_logLine S _ _ (hlog _ _))
      (good_emitAllQuiet S env _ hq (qrFallbackOps p) (by simp [qrFallbackOps, qrImageOp,
        Op.isAssetLoad, Op.isFontFree]) (fun op ho => hops op (List.mem_append_right _ ho) true)))

theorem quiet_isPlainDrawing_of_fontFree (env : Env) (hq : env.Quiet Op.isFontFree) :
    env.Quiet Op.isPlainDrawing :=
  quiet_mono env _ _ hq fun op h => by
    cases op <;> simp [Op.isPlainDrawing, Op.isDrawing, Op.isFontFree, Op.isAssetLoad] at h ⊢
    exact h

theorem drawBackSide_plain (S : Event → Prop) (env : Env) (p : Player) (u : Bool)
    (hq : env.Quiet Op.isFontFree)
    (hops : ∀ op ∈ backOps env p u, ∀ ok, S (Event.call op ok))
    (hlog : ∀ b m, S (Event.log b m)) : Good S (drawBackSide env p u) := by
  have hd := quiet_isPlainDrawing_of_fontFree env hq
  unfold drawBackSide backBlocks
  apply good_seqAll
  intro r hr
  rcases List.mem_append.mp hr with h | h
  · exact backBefore_plain S env p hd
      (fun op ho ok => hops op (by simp only [backOps, List.mem_append]; tauto) ok) hlog r h
  · rcases List.mem_cons.mp h with h | h
    · subst h
      exact drawQr_plain S env p hq
        (fun op ho ok => hops op (by
          simp only [backOps, List.mem_append] at ho ⊢; tauto) ok) hlog
    · exact backAfter_plain S env p u hd
        (fun op ho ok => hops op (by simp only [backOps, List.mem_append]; tauto) ok) hlog r h

theorem generateIdCardBody_run_plain (env : Env) (p : Player) (tr : Trace)
    (hq : env.Quiet Op.isFontFree) :
    ∃ evs1 evs2,
      generateIdCardBody env p tr
        = (.ok (lit "/idcards/" ++ idCardFilename p env.now),
           tr ++ (Event.log false (lit "Starting ID card generation for player: "
                    ++ p.playerId.toJSString)
                  :: Event.call (.newDocument 650 400) true :: evs1
                  ++ Event.call .addPage true :: evs2))
      ∧ (∀ e ∈ evs1, isPageEvent e = false) ∧ (∀ e ∈ evs2, isPageEvent e = false) := by
  have hd := quiet_isPlainDrawing_of_fontFree env hq
  have hemit : ∀ op : Op, op.isAssetLoad = false → op.isAssembly = true → op ≠ .addPage →
      (∀ w h, op ≠ .newDocument w h) →
      Good (fun e => isPageEvent e = false) (emit env op) := by
    intro op h1 h2 h3 h4
    refine good_emit _ env op (fun t => hq t op (by
      simp only [Op.isFontFree, h1, Bool.not_false, Bool.true_and, decide_eq_true_eq]
      rintro rfl
      simp [Op.isAssembly] at h2)) ?_
    cases op <;> first | rfl | exact absurd rfl h3 | exact absurd rfl (h4 _ _)
  have hfirst : ∀ u, Good (fun e => isPageEvent e = false)
      (seqAll [emit env (.createWriteStream (idCardPath env p)), emit env .pipe,
        drawFrontSide env p u]) := by
    intro u
    apply good_seqAll
    intro r hr
    simp only [List.mem_cons, List.mem_singleton, List.not_mem_nil, or_false] at hr
    rcases hr with rfl | rfl | rfl
    · exact hemit _ rfl rfl (by simp) (by simp)
    · exact hemit _ rfl rfl (by simp) (by simp)
    · exact drawFrontSide_plain _ env p u hd
        (fun op ho ok => isPageEvent_of_not_assembly op ok (frontOps_not_assembly env p u op ho))
        (fun _ _ => rfl)
  have hsecond : ∀ u, Good (fun e => isPageEvent e = false)
      (seqAll [drawBackSide env p u, emit env .endDocument, emit env .awaitFinish,
        logLine false (lit "ID card generated successfully: " ++ idCardFilename p env.now)]) := by
    intro u
    apply good_seqAll
    intro r hr
    simp only [List.mem_cons, List.mem_singleton, List.not_mem_nil, or_false] at hr
    rcases hr with rfl | rfl | rfl | rfl
    · exact drawBackSide_plain _ env p u hq
        (fun op ho ok => isPageEvent_of_not_assembly op ok (backOps_not_assembly env p u op ho))
        (fun _ _ => rfl)
    · exact hemit _ rfl rfl (by simp) (by simp)
    · exact hemit _ rfl rfl (by simp) (by simp)
    · exact good_logLine _ _ _ rfl
  have h0 : logLine false (lit "Starting ID card generation for player: "
      ++ p.playerId.toJSString) tr
      = (.ok (), tr ++ [Event.log false (lit "Starting ID card generation for player: "
          ++ p.playerId.toJSString)]) := rfl
  have h1 := emit_quiet env (.newDocument 650 400)
    (tr ++ [Event.log false (lit "Starting ID card generation for player: "
      ++ p.playerId.toJSString)]) (hq _ _ rfl)
  obtain ⟨u, evsR, h2, hR⟩ := registerUnicodeFont_run env
    (tr ++ [Event.log false (lit "Starting ID card generation for player: "
      ++ p.playerId.toJSString)] ++ [Event.call (.newDocument 650 400) true])
  obtain ⟨evsA, h3, hA⟩ := hfirst u
    (tr ++ [Event.log false (lit "Starting ID card generation for player: "
      ++ p.playerId.toJSString)] ++ [Event.call (.newDocument 650 400) true] ++ evsR)
  have h4 := emit_quiet env .addPage
    (tr ++ [Event.log false (lit "Starting ID card generation for player: "
      ++ p.playerId.toJSString)] ++ [Event.call (.newDocument 650 400) true] ++ evsR ++ evsA)
    (hq _ _ rfl)
  obtain ⟨evsB, h5, hB⟩ := hsecond u
    (tr ++ [Event.log false (lit "Starting ID card generation for player: "
      ++ p.playerId.toJSString)] ++ [Event.call (.newDocument 650 400) true] ++ evsR ++ evsA
      ++ [Event.call .addPage true])
  refine ⟨evsR ++ evsA, evsB, ?_, ?_, hB⟩
  · unfold generateIdCardBody
    rw [seq_of_ok _ _ tr _ h0, seq_of_ok _ _ _ _ h1, bind_of_ok _ _ _ _ u h2]
    have hsteps : seqAll (assemblySteps env p u)
        (tr ++ [Event.log false (lit "Starting ID card generation for player: "
          ++ p.playerId.toJSString)] ++ [Event.call (.newDocument 650 400) true] ++ evsR)
        = (.ok (), tr ++ [Event.log false (lit "Starting ID card generation for player: "
          ++ p.playerId.toJSString)] ++ [Event.call (.newDocument 650 400) true] ++ evsR
          ++ evsA ++ [Event.call .addPage true] ++ evsB) := by
      rw [assemblySteps_split, seqAll_append, seq_of_ok _ _ _ _ h3]
      show Run.seq (emit env .addPage) _ _ = _
      rw [seq_of_ok _ _ _ _ h4, h5]
    rw [seq_of_ok _ _ _ _ hsteps]
    simp [Run.ret]
  · intro e he
    rcases List.mem_append.mp he with h | h
    · exact hR e h
    · exact hA e h

theorem drawFooter_font_raises (env : Env) (hq : env.Quiet Op.isPlainDrawing) (t : Trace)
    (e : JSError)
    (h : env.raises (t ++ footerGradientOps.map fun op => Event.call op true)
      (.font "Unicode") = some e) :
    drawFooter env true t
      = (.ok (), t ++ (footerGradientOps.map fun op => Event.call op true)
          ++ [Event.call (.font "Unicode") false,
              Event.log true (lit "Unicode font rendering error:")]) := by
  have h1 := emitAll_quiet env Op.isPlainDrawing hq footerGradientOps (by decide) t
  have h2 : emitAll env (footerOps true) (t ++ footerGradientOps.map fun op => Event.call op true)
      = (.error e, t ++ (footerGradientOps.map fun op => Event.call op true)
          ++ [Event.call (.font "Unicode") false]) :=
    emitAll_cons_raises env _ _ _ e h
  unfold drawFooter
  rw [seq_of_ok _ _ _ _ h1, tryCatch_of_error _ _ _ _ e h2]
  simp [logLine]

theorem drawFooter_must_plain (env : Env) (hq : env.Quiet Op.isPlainDrawing) :
    Must (Event.call footerTextOp true) (drawFooter env false) := by
  intro tr a _
  have h1 := emitAll_quiet env Op.isPlainDrawing hq footerGradientOps (by decide) tr
  have h2 := emitAll_quiet env Op.isPlainDrawing hq (footerOps false) (by decide)
    (tr ++ footerGradientOps.map fun op => Event.call op true)
  refine ⟨(footerGradientOps.map fun op => Event.call op true)
      ++ ((footerOps false).map fun op => Event.call op true), ?_, ?_⟩
  · unfold drawFooter
    rw [seq_of_ok _ _ _ _ h1, tryCatch_of_ok _ _ _ _ () h2, List.append_assoc]
  · simp [footerOps, footerTextOp]

set_option maxRecDepth 100000 in
/-- C15 fails as stated: with a font file that exists and registers without
raising, but which the library cannot load when the font is selected, the
font state is true and yet the footer is drawn with no font at all: both
footer blocks stop at the selection of `Unicode`, log the error and leave
the footer out, and the run returns its path. -/
theorem footer_skipped_with_registered_font :
    badFontEnv.fileExists (unicodeFontPath badFontEnv) = true
    ∧ Event.call (.registerFont "Unicode" (unicodeFontPath badFontEnv)) true
        ∈ newEvents (generateIdCard badFontEnv demoPlayer) []
    ∧ fontDecision badFontEnv
        [Event.log false (lit "Starting ID card generation for player: PS20250001"),
         Event.call (.newDocument 650 400) true] = true
    ∧ (generateIdCard badFontEnv demoPlayer []).1
        = .ok (lit "/idcards/idcard_PS20250001_1700000000000.pdf")
    ∧ footerFonts none (newEvents (generateIdCard badFontEnv demoPlayer) []) = []
    ∧ (∀ ok, Event.call footerTextOp ok ∉ newEvents (generateIdCard badFontEnv demoPlayer) [])
    ∧ (newEvents (generateIdCard badFontEnv demoPlayer) []).count
        (Event.call (.font "Unicode") false) = 2
    ∧ (newEvents (generateIdCard badFontEnv demoPlayer) []).count
        (Event.log true (lit "Unicode font rendering error:")) = 2 := by
  have hev : newEvents (generateIdCard badFontEnv demoPlayer) []
      = (generateIdCard badFontEnv demoPlayer []).2 := rfl
  refine ⟨by decide, ?_, by decide, by rfl, by rfl, ?_, ?_, ?_⟩
  · rw [hev]
    decide
  · intro ok
    rw [hev]
    cases ok <;> decide
  · rw [hev]
    decide
  · rw [hev]
    decide

set_option maxRecDepth 100000 in
/-- C15, amended. Font registration always returns, its result being whether
the font file exists and registering it did not raise; every footer draw of
a composer run is made with the font of the font state it was given, and
every footer draw of a whole `generateIdCard` run, front or back, is made
with the font of the one decision taken when the document was opened:
`Unicode` if that decision is true and `Helvetica` otherwise. When drawing
calls do not raise, the footer is drawn by the front composer and by a
returning back composer; with the font state false this needs nothing of the
selection of `Unicode`. When the selection of `Unicode` raises, the footer
block logs the error, leaves the footer out and returns. A run in which only
asset loading (font registration included) and the selection of `Unicode`
raise returns its path. -/
theorem footer_font_fixed (env : Env) (p : Player) (tr : Trace) :
    (∀ t, ∃ evs, registerUnicodeFont env t = (.ok (fontDecision env t), t ++ evs))
    ∧ (∀ t, fontDecision env t = true ↔
        env.fileExists (unicodeFontPath env) = true
        ∧ env.raises t (.registerFont "Unicode" (unicodeFontPath env)) = none)
    ∧ (∀ u t, FooterFontIs (footerFontName u) (newEvents (drawFrontSide env p u) t)
        ∧ FooterFontIs (footerFontName u) (newEvents (drawBackSide env p u) t))
    ∧ FooterFontIs (footerFontName (fontDecision env
          (tr ++ [Event.log false
                    (lit "Starting ID card generation for player: " ++ p.playerId.toJSString),
                  Event.call (.newDocument 650 400) true])))
        (newEvents (generateIdCard env p) tr)
    ∧ footerFontName true = "Unicode" ∧ footerFontName false = "Helvetica"
    ∧ (env.Quiet Op.isDrawing → ∀ u t,
        Event.call footerTextOp true ∈ newEvents (drawFrontSide env p u) t
        ∧ ((drawBackSide env p u t).1 = .ok () →
            Event.call footerTextOp true ∈ newEvents (drawBackSide env p u) t))
    ∧ (env.Quiet Op.isPlainDrawing → ∀ t,
        Event.call footerTextOp true ∈ newEvents (drawFrontSide env p false) t
        ∧ ((drawBackSide env p false t).1 = .ok () →
            Event.call footerTextOp true ∈ newEvents (drawBackSide env p false) t))
    ∧ (env.Quiet Op.isPlainDrawing → ∀ t e,
        env.raises (t ++ footerGradientOps.map fun op => Event.call op true)
          (.font "Unicode") = some e →
        drawFooter env true t
          = (.ok (), t ++ (footerGradientOps.map fun op => Event.call op true)
              ++ [Event.call (.font "Unicode") false,
                  Event.log true (lit "Unicode font rendering error:")]))
    ∧ (env.Quiet Op.isFontFree →
        (generateIdCard env p tr).1 = .ok (lit "/idcards/" ++ idCardFilename p env.now))
    ∧ footerFonts none (newEvents (generateIdCard (quietEnv [] 0) demoPlayer) [])
        = [some "Helvetica", some "Helvetica"]
    ∧ footerFonts none (newEvents (generateIdCard (quietEnv fontFiles 0) demoPlayer) [])
        = [some "Unicode", some "Unicode"]
    ∧ footerFonts none (newEvents (generateIdCard brokenAssetEnv demoPlayer) [])
        = [some "Helvetica", some "Helvetica"]
    ∧ footerFonts none (newEvents (generateIdCard badFontEnv demoPlayer) []) = [] := by
  refine ⟨?_, ?_, ?_, generateIdCard_fontIs env p tr, rfl, rfl, ?_, ?_, ?_, ?_, by rfl, by rfl,
    by rfl, by rfl⟩
  · intro t
    obtain ⟨evs, h, -⟩ := registerUnicodeFont_decision env "" t
    exact ⟨evs, h⟩
  · intro t
    simp [fontDecision, Option.isNone_iff_eq_none]
  · intro u t
    exact ⟨appends_newEvents _ _ (drawFrontSide_fontIs env p u) t,
      appends_newEvents _ _ (drawBackSide_fontIs env p u) t⟩
  · intro hq u t
    constructor
    · obtain ⟨evs, h, -⟩ := drawFrontSide_good (fun _ => True) env p u hq
        (fun _ _ _ => trivial) (fun _ _ => trivial) t
      exact must_newEvents _ _
        (must_seqAll _ (frontBlocks env p u) (drawFooter env u)
          (frontBlocks_confined _ env p u (fun _ _ _ => trivial) (fun _ _ => trivial))
          (by simp [frontBlocks, frontAfter]) (drawFooter_must env u hq)) t ()
        (by show (drawFrontSide env p u t).1 = .ok (); rw [h])
    · intro hok
      exact must_newEvents _ _
        (must_seqAll _ (backBlocks env p u) (drawFooter env u)
          (backBlocks_confined _ env p u (fun _ _ _ => trivial) (fun _ _ => trivial))
          (by simp [backBlocks, backAfter]) (drawFooter_must env u hq)) t () hok
  · intro hq t
    constructor
    · obtain ⟨evs, h, -⟩ := drawFrontSide_plain (fun _ => True) env p false hq
        (fun _ _ _ => trivial) (fun _ _ => trivial) t
      exact must_newEvents _ _
        (must_seqAll _ (frontBlocks env p false) (drawFooter env false)
          (frontBlocks_confined _ env p false (fun _ _ _ => trivial) (fun _ _ => trivial))
          (by simp [frontBlocks, frontAfter]) (drawFooter_must_plain env hq)) t ()
        (by show (drawFrontSide env p false t).1 = .ok (); rw [h])
    · intro hok
      exact must_newEvents _ _
        (must_seqAll _ (backBlocks env p false) (drawFooter env false)
          (backBlocks_confined _ env p false (fun _ _ _ => trivial) (fun _ _ => trivial))
          (by simp [backBlocks, backAfter]) (drawFooter_must_plain env hq)) t () hok
  · intro hq t e h
    exact drawFooter_font_raises env hq t e h
  · intro hq
    obtain ⟨evs1, evs2, hrun, -⟩ := generateIdCardBody_run_plain env p tr hq
    rw [generateIdCard_of_body_ok env p tr _ _ hrun]
/-! ## An error of the output stream before its listeners are attached -/

theorem earlyStreamError_none (env : Env) (tr evs : Trace) (h : ∀ t, env.streamError t = none) :
    earlyStreamError env tr evs = none := by
  unfold earlyStreamError
  rw [List.findSome?_eq_none_iff]
  intro s _
  simp [h]

theorem earlyStreamError_some (env : Env) (tr evs : Trace) (e : JSError) (t : Trace)
    (h : earlyStreamError env tr evs = some (e, t)) :
    ∃ s, s ∈ waitsOf [] evs ∧ streamUnlistened s = true ∧ t = tr ++ s
      ∧ env.streamError t = some e := by
  unfold earlyStreamError at h
  obtain ⟨s, hs, hf⟩ := List.exists_of_findSome?_eq_some h
  refine ⟨s, hs, ?_⟩
  split at hf
  · rename_i hu
    rcases hse : env.streamError (tr ++ s) with _ | e1
    · rw [hse] at hf
      simp at hf
    · rw [hse] at hf
      simp only [Option.map_some', Option.some.injEq, Prod.mk.injEq] at hf
      obtain ⟨rfl, rfl⟩ := hf
      exact ⟨hu, rfl, hse⟩
  · simp at hf

theorem waitsOf_prefix (done evs : Trace) :
    ∀ s ∈ waitsOf done evs, ∃ pre e post, evs = pre ++ e :: post ∧ e.isQrWait = true
      ∧ s = done ++ pre ++ [e] := by
  induction evs generalizing done with
  | nil => intro s hs; simp [waitsOf] at hs
  | cons e rest ih =>
    intro s hs
    simp only [waitsOf, List.mem_append] at hs
    rcases hs with hs | hs
    · split at hs
      · rename_i hq
        simp only [List.mem_singleton] at hs
        exact ⟨[], e, rest, rfl, hq, by simp [hs]⟩
      · simp at hs
    · obtain ⟨pre, e1, post, h1, h2, h3⟩ := ih (done ++ [e]) s hs
      exact ⟨e :: pre, e1, post, by simp [h1], h2, by simp [h3]⟩

set_option maxRecDepth 100000 in
/-- C7, the code at the failing input. When the output stream emits `error`
while the generator waits for the QR encoder - the stream exists since line
46, its `error` listener is attached only at line 63 - the call is
unhandled: the caller receives neither the error `Failed to generate ID
card: ...` nor a path. Such an event is emitted at a history that ends in a
call of the encoder, after the stream was created and before the wait of
lines 61-64. When the stream emits no `error` before its listeners are
attached, the call settles as its statements do: every error is the wrapped
error of the `catch`, and a path is returned only if the body returned it.
With a cards directory that is gone the demo record ends unhandled at the
first call of the encoder; with an `error` that arrives during the wait of
lines 61-64 it fails with the wrapped message. -/
theorem stream_error_unhandled (env : Env) (p : Player) (tr : Trace) :
    (∀ e t, earlyStreamError env tr (newEvents (generateIdCard env p) tr) = some (e, t) →
        generateIdCardCall env p tr = (.unhandled e, t)
        ∧ (generateIdCardCall env p tr).1
            ≠ .failed ⟨lit "Failed to generate ID card: " ++ e.message⟩
        ∧ (∀ path, (generateIdCardCall env p tr).1 ≠ .returned path)
        ∧ env.streamError t = some e
        ∧ ∃ pre q post, newEvents (generateIdCard env p) tr = pre ++ q :: post
            ∧ q.isQrWait = true ∧ t = tr ++ pre ++ [q]
            ∧ streamUnlistened (pre ++ [q]) = true)
    ∧ (earlyStreamError env tr (newEvents (generateIdCard env p) tr) = none →
        (∀ path, (generateIdCard env p tr).1 = .ok path →
          generateIdCardCall env p tr = (.returned path, (generateIdCard env p tr).2))
        ∧ (∀ e, (generateIdCard env p tr).1 = .error e →
          generateIdCardCall env p tr = (.failed e, (generateIdCard env p tr).2)
          ∧ ∃ e0, (generateIdCardBody env p tr).1 = .error e0
              ∧ e = ⟨lit "Failed to generate ID card: " ++ e0.message⟩))
    ∧ ((∀ t, env.streamError t = none) →
        earlyStreamError env tr (newEvents (generateIdCard env p) tr) = none)
    ∧ (generateIdCardCall closedDirEnv demoPlayer []).1
        = .unhandled ⟨lit "ENOENT: no such file or directory, open"⟩
    ∧ (generateIdCardCall closedDirEnv demoPlayer []).2.getLast?
        = some (Event.call (.qrToDataURL (qrText closedDirEnv.toLocale demoPlayer) (some "M")) true)
    ∧ Event.call (.createWriteStream (idCardPath closedDirEnv demoPlayer)) true
        ∈ (generateIdCardCall closedDirEnv demoPlayer []).2
    ∧ (∀ ok, Event.call .awaitFinish ok ∉ (generateIdCardCall closedDirEnv demoPlayer []).2)
    ∧ (generateIdCard closedDirEnv demoPlayer []).1
        = .ok (lit "/idcards/idcard_PS20250001_1700000000000.pdf")
    ∧ (generateIdCardCall lateStreamErrorEnv demoPlayer []).1
        = .failed ⟨lit "Failed to generate ID card: ENOSPC: no space left on device, write"⟩ := by
  refine ⟨?_, ?_, fun h => earlyStreamError_none env tr _ h, by rfl, by rfl, ?_, ?_, by rfl,
    by rfl⟩
  · intro e t h
    have hcall : generateIdCardCall env p tr = (.unhandled e, t) := by
      unfold generateIdCardCall
      rw [h]
    obtain ⟨s, hs, hu, ht, hse⟩ := earlyStreamError_some env tr _ e t h
    obtain ⟨pre, q, post, h1, h2, h3⟩ := waitsOf_prefix [] _ s hs
    refine ⟨hcall, by rw [hcall]; simp, fun path => by rw [hcall]; simp, hse, pre, q, post, h1,
      h2, ?_, ?_⟩
    · rw [ht, h3]
      simp
    · rw [← hu, h3]
      simp
  · intro h
    constructor
    · intro path hp
      unfold generateIdCardCall
      rw [h]
      rcases hr : generateIdCard env p tr with ⟨r, t⟩
      rw [hr] at hp
      simp only at hp
      subst hp
      rfl
    · intro e he
      constructor
      · unfold generateIdCardCall
        rw [h]
        rcases hr : generateIdCard env p tr with ⟨r, t⟩
        rw [hr] at he
        simp only at he
        subst he
        rfl
      · obtain ⟨e0, t, op, -, hb, hw, -⟩ := (error_wrapping env p tr).1 e he
        exact ⟨e0, by rw [hb], hw⟩
  · decide
  · intro ok
    cases ok <;> decide

end IdCard
